import Mathlib

/-!
# FAT16/FAT32 driver of avr-sdlib: shallow embedding and verified properties

The C sources `sd.c`, `fat_fs.c`, `fat_misc.c` and `fat_func.c` are embedded as
Lean functions over an explicit state.  Conventions:

* `uint32_t` values are natural numbers; arithmetic that can wrap is reduced
  with `u32`, `u16`, `u8`;
* memory (the sector buffer, caller buffers, card blocks) is a function from a
  byte index to a byte value;
* a C function `T f(sdcard_t *sdcard, ...)` becomes `f sd ... : T × sdcard_t`,
  the second component being the state it leaves behind;
* loops without a syntactic bound take a `fuel` argument and answer `none`
  when the fuel runs out; `for` loops with a known trip count are structural
  recursions on that count.
-/

namespace AvrSdlib

/-! ## Machine words and memory -/

/-- Truncation to `uint32_t`. -/
def u32 (n : Nat) : Nat := n % 4294967296

/-- Truncation to `uint16_t`. -/
def u16 (n : Nat) : Nat := n % 65536

/-- Truncation to `uint8_t`. -/
def u8 (n : Nat) : Nat := n % 256

/-- Little-endian 16-bit load `*(uint16_t *)&buf[off]`. -/
def read16 (buf : Nat → Nat) (off : Nat) : Nat :=
  buf off % 256 + 256 * (buf (off + 1) % 256)

/-- Little-endian 32-bit load `*(uint32_t *)&buf[off]`. -/
def read32 (buf : Nat → Nat) (off : Nat) : Nat :=
  read16 buf off + 65536 * read16 buf (off + 2)

/-- Little-endian 16-bit store `*(uint16_t *)&buf[off] = v`. -/
def write16 (buf : Nat → Nat) (off v : Nat) : Nat → Nat :=
  fun i => if i = off then v % 256 else if i = off + 1 then v / 256 % 256 else buf i

/-- Little-endian 32-bit store `*(uint32_t *)&buf[off] = v`. -/
def write32 (buf : Nat → Nat) (off v : Nat) : Nat → Nat :=
  fun i =>
    if i = off then v % 256
    else if i = off + 1 then v / 256 % 256
    else if i = off + 2 then v / 65536 % 256
    else if i = off + 3 then v / 16777216 % 256
    else buf i

/-- The call `memcpy(dst + d, src + s, n)`. -/
def memcpy (dst : Nat → Nat) (d : Nat) (src : Nat → Nat) (s n : Nat) : Nat → Nat :=
  fun i => if d ≤ i ∧ i < d + n then src (s + (i - d)) else dst i

/-- The call `memset(dst, v, n)`. -/
def memset (dst : Nat → Nat) (v n : Nat) : Nat → Nat :=
  fun i => if i < n then v else dst i

/-! ## Constants of `fat_fs.h` -/

abbrev FAT16 : Nat := 16

abbrev FAT32 : Nat := 32

abbrev ENTRY_BLANK : Nat := 0x00

abbrev ENTRY_DELETED : Nat := 0xE5

abbrev ATTR_READ_ONLY : Nat := 0x01

abbrev ATTR_HIDDEN : Nat := 0x02

abbrev ATTR_SYSTEM : Nat := 0x04

abbrev ATTR_VOLUME_ID : Nat := 0x08

abbrev ATTR_DIRECTORY : Nat := 0x10

abbrev ATTR_ARCHIVE : Nat := 0x20

abbrev ATTR_LONG_NAME : Nat := 0x0F

abbrev ATTR_LONG_NAME_MASK : Nat := 0x3F

/-- The value `0xFFFFFFFF`: canonical end-of-chain mark, and the bit pattern of
`loaded_sector = -1`. -/
abbrev EOC : Nat := 0xFFFFFFFF

/-! ## The card structure -/

/-- The structure `sdcard_t` of `sd.h` (fields used by the filesystem code), together
with the card it is attached to.  `loaded_sector` is an `int32_t` in C that is only
ever compared with and assigned from `uint32_t` values; it is kept as its 32-bit
pattern, so `-1` is `0xFFFFFFFF`.

The last five fields are not C fields.  `card lba i` is byte `i` of block `lba` on
the medium, `card_read_ok lba` and `card_write_ok lba` tell whether the SPI
transfer of that block succeeds (the command and data-token exchange of
`sd_send_cmd_raw`, `sd_receive_datablock` and `sd_send_datablock`, including the
multiplication of the address by the block size on byte-addressed cards, is the
transport and is not modelled further), `malloc_ok` tells whether `malloc`
returns memory, and `uninit` is what an uninitialised local array happens to hold.
Indices of `buffer` from `blocksize` on stand for the memory that follows the
array; the model never stores there. -/
structure sdcard_t where
  inited : Nat
  write_protected : Nat
  byteaddressing : Nat
  fattype : Nat
  blocksize : Nat
  fsinfo_sector : Nat
  partition_start : Nat
  partition_sectors : Nat
  fat_begin_sector : Nat
  fat_sectors : Nat
  rootdir_begin_sector : Nat
  rootdir_begin_cluster : Nat
  rootdir_sectors : Nat
  data_begin_sector : Nat
  data_sectors : Nat
  data_clusters : Nat
  sectors_per_cluster : Nat
  loaded_sector : Nat
  buffer : Nat → Nat
  card : Nat → Nat → Nat
  card_read_ok : Nat → Bool
  card_write_ok : Nat → Bool
  malloc_ok : Bool
  uninit : Nat → Nat

/-! ## `sd.c`: block transfer with the one-sector cache -/

/-- The function `sd_read_block` reads block `blockaddr` into `sdcard->buffer`, unless
`loaded_sector` already names it.  A failed transfer leaves `loaded_sector = -1`. -/
def sd_read_block (sd : sdcard_t) (blockaddr : Nat) : Nat × sdcard_t :=
  if sd.loaded_sector = blockaddr then (1, sd)
  else if sd.card_read_ok blockaddr = true then
    (1, { sd with
            loaded_sector := blockaddr
            buffer := fun i => if i < sd.blocksize then sd.card blockaddr i else sd.buffer i })
  else (0, { sd with loaded_sector := EOC })

/-- The function `sd_write_block` sends `sdcard->buffer` to block `blockaddr`.  It fails
on a write-protected card or when the transfer fails, and never touches
`loaded_sector`. -/
def sd_write_block (sd : sdcard_t) (blockaddr : Nat) : Nat × sdcard_t :=
  if sd.write_protected ≠ 0 then (0, sd)
  else if sd.card_write_ok blockaddr = true then
    (1, { sd with
            card := fun l i =>
              if l = blockaddr ∧ i < sd.blocksize then sd.buffer i else sd.card l i })
  else (0, sd)

/-! ## `fat_fs.c`: the FAT table -/

/-- Sector of the FAT that holds the entry of `cluster`
(`(cluster * 2) / blocksize`, resp. `(cluster * 4) / blocksize`). -/
def fat_entry_sector (sd : sdcard_t) (cluster : Nat) : Nat :=
  if sd.fattype = FAT16 then u32 (cluster * 2) / sd.blocksize
  else u32 (cluster * 4) / sd.blocksize

/-- Byte offset of the entry of `cluster` inside its FAT sector. -/
def fat_entry_offset (sd : sdcard_t) (cluster : Nat) : Nat :=
  if sd.fattype = FAT16 then u32 (cluster * 2) % sd.blocksize
  else u32 (cluster * 4) % sd.blocksize

/-- The function `fat_get_cluster_sector`: first sector of a cluster. -/
def fat_get_cluster_sector (sd : sdcard_t) (cluster_number : Nat) : Nat :=
  let cluster_number := if cluster_number < 2 then 2 else cluster_number
  u32 (sd.data_begin_sector + u32 ((cluster_number - 2) * sd.sectors_per_cluster))

/-- The function `fat_get_next_cluster`: successor of `cluster` in the FAT, `0xFFFFFFFF`
for end of chain, `0` on error. -/
def fat_get_next_cluster (sd : sdcard_t) (cluster : Nat) : Nat × sdcard_t :=
  if sd.fattype = FAT16 ∧ cluster > 0xFFF8 then (EOC, sd)
  else
    let cluster := if sd.fattype = FAT16 then cluster else cluster &&& 0x0FFFFFFF
    if sd.fattype ≠ FAT16 ∧ cluster ≥ 0x0FFFFFF8 then (EOC, sd)
    else
      let sector := fat_entry_sector sd cluster
      let offset := fat_entry_offset sd cluster
      if cluster > u32 (sd.data_clusters + 1) then (0, sd)
      else if sector > sd.fat_sectors then (0, sd)
      else
        let r := sd_read_block sd (u32 (sd.fat_begin_sector + sector))
        if r.1 = 0 then (0, r.2)
        else if sd.fattype = FAT16 then
          let value := read16 r.2.buffer offset &&& 0xFFFF
          (if value ≥ 0xFFF8 then EOC else value, r.2)
        else
          let value := read32 r.2.buffer offset &&& 0x0FFFFFFF
          (if value ≥ 0x0FFFFFF8 then EOC else value, r.2)

/-- The function `fat_set_next_cluster`: store `nextcluster` in the FAT entry of `cluster`
and write the FAT sector back. -/
def fat_set_next_cluster (sd : sdcard_t) (cluster nextcluster : Nat) : Nat × sdcard_t :=
  if sd.fattype = FAT16 ∧ cluster > 0xFFF8 then (0, sd)
  else
    let cluster := if sd.fattype = FAT16 then cluster else cluster &&& 0x0FFFFFFF
    if sd.fattype ≠ FAT16 ∧ cluster ≥ 0x0FFFFFF8 then (0, sd)
    else
      let sector := fat_entry_sector sd cluster
      let offset := fat_entry_offset sd cluster
      if cluster > u32 (sd.data_clusters + 1) then (0, sd)
      else if sector > sd.fat_sectors then (0, sd)
      else
        let r := sd_read_block sd (u32 (sd.fat_begin_sector + sector))
        if r.1 = 0 then (0, r.2)
        else
          let sd1 : sdcard_t :=
            if sd.fattype = FAT16 then
              { r.2 with buffer := write16 r.2.buffer offset (u16 nextcluster) }
            else
              { r.2 with buffer := write32 r.2.buffer offset (u32 nextcluster) }
          let w := sd_write_block sd1 (u32 (sd.fat_begin_sector + sector))
          if w.1 = 0 then (0, w.2) else (1, w.2)

/-- The function `fat_get_next_free_cluster`, loop `while(1)`: scan the FAT upwards from
`cluster` for an entry whose stored word is zero. -/
def fat_get_next_free_cluster_loop : Nat → sdcard_t → Nat → Option (Nat × sdcard_t)
  | 0, _, _ => none
  | fuel + 1, sd, cluster =>
    let sector := fat_entry_sector sd cluster
    let offset := fat_entry_offset sd cluster
    if cluster > u32 (sd.data_clusters + 1) then some (0, sd)
    else if sector > sd.fat_sectors then some (0, sd)
    else
      let r := sd_read_block sd (u32 (sd.fat_begin_sector + sector))
      if r.1 = 0 then some (0, r.2)
      else
        let value :=
          if sd.fattype = FAT16 then read16 r.2.buffer offset else read32 r.2.buffer offset
        if value = 0 then some (cluster, r.2)
        else fat_get_next_free_cluster_loop fuel r.2 (u32 (cluster + 1))

/-- The function `fat_get_next_free_cluster`: first free cluster at or after `cluster`,
`0` when there is none or on error. -/
def fat_get_next_free_cluster (fuel : Nat) (sd : sdcard_t) (cluster : Nat) :
    Option (Nat × sdcard_t) :=
  if sd.fattype = FAT16 ∧ cluster > 0xFFF8 then some (0, sd)
  else
    let cluster := if sd.fattype = FAT16 then cluster else cluster &&& 0x0FFFFFFF
    if sd.fattype ≠ FAT16 ∧ cluster ≥ 0x0FFFFFF8 then some (0, sd)
    else fat_get_next_free_cluster_loop fuel sd cluster

/-- The function `fat_allocate_cluster`: find a free cluster, link it after `cluster`
and mark it end of chain. -/
def fat_allocate_cluster (fuel : Nat) (sd : sdcard_t) (cluster : Nat) :
    Option (Nat × sdcard_t) :=
  match fat_get_next_free_cluster fuel sd cluster with
  | none => none
  | some (nextcluster, sd1) =>
    if nextcluster = 0 then some (0, sd1)
    else
      let a := fat_set_next_cluster sd1 cluster nextcluster
      if a.1 = 0 then some (0, a.2)
      else
        let b := fat_set_next_cluster a.2 nextcluster 0xFFFFFFFF
        if b.1 = 0 then some (0, b.2) else some (nextcluster, b.2)

/-! ## `fat_fs.c`: sectors of a cluster chain -/

/-- The loop `for(i=0; i<cluster_offset; i++) cluster = fat_get_next_cluster(sdcard, cluster);`
of `fat_read_sector`. -/
def fat_read_sector_hops : Nat → sdcard_t → Nat → Nat × sdcard_t
  | 0, sd, cluster => (cluster, sd)
  | n + 1, sd, cluster =>
    let r := fat_get_next_cluster sd cluster
    fat_read_sector_hops n r.2 r.1

/-- The function `fat_read_sector`: load sector number `sector` of the chain that starts
at `cluster` (or of the FAT16 root directory when `cluster` is 0).  A zero
`sectors_per_cluster` makes the C division undefined; here the quotient is 0. -/
def fat_read_sector (sd : sdcard_t) (cluster sector : Nat) : Nat × sdcard_t :=
  if sd.fattype = FAT16 ∧ cluster ≥ 0xFFF8 then (0, sd)
  else
    let cluster := if sd.fattype = FAT16 then cluster else cluster &&& 0x0FFFFFFF
    if sd.fattype ≠ FAT16 ∧ cluster ≥ 0x0FFFFFF8 then (0, sd)
    else if sd.fattype = FAT16 ∧ cluster = 0 then
      if sector ≥ sd.rootdir_sectors then (0, sd)
      else
        let r := sd_read_block sd (u32 (sd.rootdir_begin_sector + sector))
        if r.1 = 0 then (0, r.2) else (1, r.2)
    else
      let cluster_offset := sector / sd.sectors_per_cluster
      let h := fat_read_sector_hops cluster_offset sd cluster
      if h.1 = 0xFFFFFFFF then (0, h.2)
      else
        let target_sector :=
          u32 (fat_get_cluster_sector h.2 h.1
                + (sector - cluster_offset * sd.sectors_per_cluster))
        let r := sd_read_block h.2 target_sector
        if r.1 = 0 then (0, r.2) else (1, r.2)

/-- The hop loop of `fat_write_sector`, which may extend the chain.  The inner `none`
is the `return 0` taken inside the loop. -/
def fat_write_sector_hops (fuel : Nat) (allocate : Nat) :
    Nat → sdcard_t → Nat → Option (Option Nat × sdcard_t)
  | 0, sd, cluster => some (some cluster, sd)
  | n + 1, sd, cluster =>
    let lastcluster := cluster
    let r := fat_get_next_cluster sd lastcluster
    if r.1 = 0xFFFFFFFF then
      if allocate ≠ 0 then
        match fat_allocate_cluster fuel r.2 lastcluster with
        | none => none
        | some (nextcluster, sd1) =>
          if nextcluster = 0 then some (none, sd1)
          else fat_write_sector_hops fuel allocate n sd1 nextcluster
      else some (none, r.2)
    else fat_write_sector_hops fuel allocate n r.2 r.1

/-- The function `fat_write_sector`: write `sdcard->buffer` to sector number `sector` of
the chain that starts at `cluster`.  The buffer is saved before the FAT look-ups
and restored before the write; `loaded_sector` is reset to `-1`. -/
def fat_write_sector (fuel : Nat) (sd : sdcard_t) (cluster sector allocate : Nat) :
    Option (Nat × sdcard_t) :=
  if sd.fattype = FAT16 ∧ cluster ≥ 0xFFF8 then some (0, sd)
  else
    let cluster := if sd.fattype = FAT16 then cluster else cluster &&& 0x0FFFFFFF
    if sd.fattype ≠ FAT16 ∧ cluster ≥ 0x0FFFFFF8 then some (0, sd)
    else if sd.malloc_ok = false then some (0, sd)
    else
      let tmpbuffer := sd.buffer
      let finish (s : sdcard_t) (target_sector : Nat) : Nat × sdcard_t :=
        let s1 : sdcard_t :=
          { s with loaded_sector := 0xFFFFFFFF
                   buffer := memcpy s.buffer 0 tmpbuffer 0 sd.blocksize }
        let w := sd_write_block s1 target_sector
        if w.1 = 0 then (0, w.2) else (1, w.2)
      if sd.fattype = FAT16 ∧ cluster = 0 then
        if sector ≥ sd.rootdir_sectors then some (0, sd)
        else some (finish sd (u32 (sd.rootdir_begin_sector + sector)))
      else
        let cluster_offset := sector / sd.sectors_per_cluster
        match fat_write_sector_hops fuel allocate cluster_offset sd cluster with
        | none => none
        | some (none, s) => some (0, s)
        | some (some c, s) =>
          some (finish s
            (u32 (fat_get_cluster_sector s c
                    + (sector - cluster_offset * sd.sectors_per_cluster))))

/-- The loop `for(sector = 0; sector < sectors_per_cluster; sector++)` of
`fat_free_cluster_chain`, counting `n` remaining sectors from `sector`; the result
of each write is ignored as in the source. -/
def fat_free_cluster_chain_clear (fuel : Nat) (cluster : Nat) :
    Nat → Nat → sdcard_t → Option sdcard_t
  | 0, _, sd => some sd
  | n + 1, sector, sd =>
    match fat_write_sector fuel sd cluster sector 0 with
    | none => none
    | some (_, sd1) => fat_free_cluster_chain_clear fuel cluster n (sector + 1) sd1

/-- The function `fat_free_cluster_chain`, loop
`while(nextcluster != 0xFFFFFFFF && nextcluster != 0)`. -/
def fat_free_cluster_chain_loop (cleardata : Nat) :
    Nat → sdcard_t → Nat → Option (Nat × sdcard_t)
  | 0, _, _ => none
  | fuel + 1, sd, nextcluster =>
    if nextcluster ≠ 0xFFFFFFFF ∧ nextcluster ≠ 0 then
      let cluster := nextcluster
      let g := fat_get_next_cluster sd cluster
      let s := fat_set_next_cluster g.2 cluster 0
      if cleardata ≠ 0 then
        let s1 : sdcard_t :=
          { s.2 with loaded_sector := 0xFFFFFFFF
                     buffer := memset s.2.buffer 0x00 s.2.blocksize }
        match fat_free_cluster_chain_clear fuel cluster sd.sectors_per_cluster 0 s1 with
        | none => none
        | some s2 => fat_free_cluster_chain_loop cleardata fuel s2 g.1
      else fat_free_cluster_chain_loop cleardata fuel s.2 g.1
    else some (1, sd)

/-- The function `fat_free_cluster_chain`: release every cluster of the chain that starts
at `startcluster`, optionally zeroing its data sectors. -/
def fat_free_cluster_chain (fuel : Nat) (sd : sdcard_t) (startcluster cleardata : Nat) :
    Option (Nat × sdcard_t) :=
  fat_free_cluster_chain_loop cleardata fuel sd startcluster

/-! ## `fat_misc.c`: directory records and the long-name cache -/

/-- The function `fat_is_last_entry` on the record at `sdcard->buffer + off`. -/
def fat_is_last_entry (buf : Nat → Nat) (off : Nat) : Bool :=
  buf off = ENTRY_BLANK

/-- The function `fat_is_free_entry`. -/
def fat_is_free_entry (buf : Nat → Nat) (off : Nat) : Bool :=
  buf off = ENTRY_BLANK ∨ buf off = ENTRY_DELETED

/-- The function `fat_is_lfn_entry`. -/
def fat_is_lfn_entry (buf : Nat → Nat) (off : Nat) : Bool :=
  buf (off + 11) &&& ATTR_LONG_NAME_MASK = ATTR_LONG_NAME

/-- The function `fat_is_sfn_entry`. -/
def fat_is_sfn_entry (buf : Nat → Nat) (off : Nat) : Bool :=
  buf off ≠ ENTRY_BLANK ∧ buf off ≠ ENTRY_DELETED ∧ buf (off + 11) ≠ ATTR_VOLUME_ID ∧
    (buf (off + 11) &&& ATTR_DIRECTORY ≠ 0 ∨ buf (off + 11) &&& ATTR_ARCHIVE ≠ 0)

/-- The structure `lfn_cache`; `filename[k][j]` is `filename (k * 13 + j)`. -/
structure lfn_cache where
  filename : Nat → Nat
  strings : Nat
  checksum : Nat

/-- The function `lfn_cache_reset`. -/
def lfn_cache_reset : lfn_cache :=
  { filename := fun _ => 0, strings := 0, checksum := 0 }

/-- Position inside a long-name record of the low byte of its `j`-th character
(`LDIR_Name1[0,2,4,6,8]`, `LDIR_Name2[0,...,10]`, `LDIR_Name3[0,2]`). -/
def ldir_char_offset (j : Nat) : Nat :=
  if j < 5 then 1 + 2 * j else if j < 11 then 14 + 2 * (j - 5) else 28 + 2 * (j - 11)

/-- The function `lfn_cache_add` on the record at `buf + off`.  The fragment index is
`(LDIR_Ord & 0x0F) - 1` stored in a `uint8_t`.  A store outside the 20 fragments is
undefined in C; here it lands at the same flat index and touches nothing else. -/
def lfn_cache_add (cache : lfn_cache) (buf : Nat → Nat) (off : Nat) : lfn_cache :=
  let num := u8 ((buf off &&& 0x0F) + 255)
  let checksum := buf (off + 13)
  let cache1 : lfn_cache :=
    if cache.checksum = 0 then { cache with checksum := checksum } else cache
  if cache1.checksum ≠ checksum then cache1
  else
    { cache1 with
        filename := fun i =>
          if num * 13 ≤ i ∧ i < num * 13 + 13 then buf (off + ldir_char_offset (i - num * 13))
          else cache1.filename i
        strings := u8 (cache1.strings + 1) }

/-- The function `lfn_cache_get`: the first `strings * 13` characters of the cache copied
over `output`; the result is `none` (return 0) when the cache is empty. -/
def lfn_cache_get (cache : lfn_cache) (output : Nat → Nat) : Option (Nat → Nat) :=
  if cache.strings = 0 then none
  else some (memcpy output 0 cache.filename 0 (cache.strings * 13))

/-- The loop `for(i=0; i<len; i++) if(lfn[i] != filename[i]) return 0;` of
`lfn_cache_compare`, as a test on all positions below `len`. -/
def lfn_chars_equal (lfn : Nat → Nat) (filename : List Nat) : Nat → Bool
  | 0 => true
  | n + 1 => lfn_chars_equal lfn filename n && (lfn n = filename.getD n 0)

/-- The function `lfn_cache_compare`.  The local array `lfn` is not initialised in the
source, so positions past `strings * 13` hold `junk`.  The array has 255 characters in
the source; a copy of 20 fragments (260 characters) runs past it, which is undefined in
C and lands here at the same flat positions. -/
def lfn_cache_compare (junk : Nat → Nat) (cache : lfn_cache) (filename : List Nat) : Bool :=
  if cache.strings = 0 then false
  else
    match lfn_cache_get cache junk with
    | none => false
    | some lfn => lfn_chars_equal lfn filename (u8 filename.length)

/-! ## `fat_fs.c`: lookup by long name -/

/-- Outcome of scanning the 16 records of one directory sector in `fat_find_lfn`:
the function returns (`ret`), or the sector is used up (`next`). -/
inductive lfn_scan where
  | ret (dir : Option Nat)
  | next (lfn : lfn_cache)

/-- The loop `for(entry = 0; entry < 16; entry++)` of `fat_find_lfn`, with `n` records
left starting at record `entry`.  A found record is given by its offset in
`sdcard->buffer`. -/
def fat_find_lfn_entries (junk buf : Nat → Nat) (filename : List Nat) :
    Nat → Nat → lfn_cache → lfn_scan
  | 0, _, lfn => lfn_scan.next lfn
  | n + 1, entry, lfn =>
    let dir := entry * 32
    if fat_is_last_entry buf dir then lfn_scan.ret none
    else if fat_is_free_entry buf dir then
      fat_find_lfn_entries junk buf filename n (entry + 1) lfn_cache_reset
    else if fat_is_lfn_entry buf dir then
      fat_find_lfn_entries junk buf filename n (entry + 1) (lfn_cache_add lfn buf dir)
    else if fat_is_sfn_entry buf dir then
      if lfn.strings > 0 ∧ lfn_cache_compare junk lfn filename = true then
        lfn_scan.ret (some dir)
      else fat_find_lfn_entries junk buf filename n (entry + 1) lfn_cache_reset
    else fat_find_lfn_entries junk buf filename n (entry + 1) lfn

/-- The loop `while(1)` of `fat_find_lfn` over the sectors of the directory. -/
def fat_find_lfn_loop (startcluster : Nat) (filename : List Nat) :
    Nat → sdcard_t → Nat → lfn_cache → Option (Option Nat × sdcard_t)
  | 0, _, _, _ => none
  | fuel + 1, sd, sector, lfn =>
    let r := fat_read_sector sd startcluster sector
    if r.1 = 0 then some (none, r.2)
    else
      match fat_find_lfn_entries sd.uninit r.2.buffer filename 16 0 lfn with
      | lfn_scan.ret dir => some (dir, r.2)
      | lfn_scan.next lfn1 => fat_find_lfn_loop startcluster filename fuel r.2 (u32 (sector + 1)) lfn1

/-- The function `fat_find_lfn`: the short-name record of the file whose long name is
`filename`, as an offset into `sdcard->buffer`, or `none` for `NULL`. -/
def fat_find_lfn (fuel : Nat) (sd : sdcard_t) (startcluster : Nat) (filename : List Nat) :
    Option (Option Nat × sdcard_t) :=
  fat_find_lfn_loop startcluster filename fuel sd 0 lfn_cache_reset

/-- First data cluster of the record at `buf + dir`:
`((uint32_t)DIR_FstClusHI << 16) | DIR_FstClusLO`. -/
def dir_first_cluster (buf : Nat → Nat) (dir : Nat) : Nat :=
  read16 buf (dir + 20) * 65536 + read16 buf (dir + 26)

/-- The field `DIR_FileSize` of the record at `buf + dir`. -/
def dir_file_size (buf : Nat → Nat) (dir : Nat) : Nat :=
  read32 buf (dir + 28)

/-- Subtraction of `uint32_t` values. -/
def sub32 (a b : Nat) : Nat := u32 (u32 a + 4294967296 - u32 b)

/-! ## `fat_fs.c`: truncate, read, write -/

/-- The function `fat_truncate_file`. -/
def fat_truncate_file (fuel : Nat) (sd : sdcard_t) (startcluster : Nat) (filename : List Nat) :
    Option (Nat × sdcard_t) :=
  if filename.length = 0 then some (0, sd)
  else
    match fat_find_lfn fuel sd startcluster filename with
    | none => none
    | some (none, sd1) => some (0, sd1)
    | some (some dir, sd1) =>
      let cluster := dir_first_cluster sd1.buffer dir
      let filesize := dir_file_size sd1.buffer dir
      if filesize = 0 then some (1, sd1)
      else
        let sd2 : sdcard_t := { sd1 with buffer := write32 sd1.buffer (dir + 28) 0 }
        let w := sd_write_block sd2 sd2.loaded_sector
        if w.1 = 0 then some (0, w.2)
        else
          match fat_free_cluster_chain fuel w.2 cluster 1 with
          | none => none
          | some (_, sd3) =>
            let e := fat_set_next_cluster sd3 cluster 0xFFFFFFFF
            if e.1 = 0 then some (0, e.2) else some (1, e.2)

/-- The loop `while(bytesread < bytes)` of `fat_read_file`.  The answer is the byte
count, the caller's buffer and the card state. -/
def fat_read_file_loop (cluster start filesize bytes : Nat) :
    Nat → sdcard_t → (Nat → Nat) → Nat → Nat → Nat → Option (Nat × (Nat → Nat) × sdcard_t)
  | 0, _, _, _, _, _ => none
  | fuel + 1, sd, buffer, sector, offset, bytesread =>
    if bytesread < bytes then
      let r := fat_read_sector sd cluster sector
      if r.1 = 0 then some (bytesread, buffer, r.2)
      else
        let bytestoread := sub32 bytes bytesread
        let bytestoread :=
          if bytestoread > sub32 sd.blocksize offset then sub32 sd.blocksize offset
          else bytestoread
        let bytestoread :=
          if u32 (u32 (start + bytesread) + bytestoread) > filesize then
            sub32 filesize (sub32 start bytesread)
          else bytestoread
        let buffer :=
          if bytestoread > 0 then memcpy buffer bytesread r.2.buffer offset bytestoread
          else buffer
        let bytesread := u32 (bytesread + bytestoread)
        if bytestoread = 0 then some (bytesread, buffer, r.2)
        else
          fat_read_file_loop cluster start filesize bytes fuel r.2 buffer (u32 (sector + 1)) 0
            bytesread
    else some (bytesread, buffer, sd)

/-- The function `fat_read_file`: read `bytes` bytes from byte `start` of the named file
into `buffer`. -/
def fat_read_file (fuel : Nat) (sd : sdcard_t) (startcluster : Nat) (filename : List Nat)
    (buffer : Nat → Nat) (start bytes : Nat) : Option (Nat × (Nat → Nat) × sdcard_t) :=
  if filename.length = 0 then some (0, buffer, sd)
  else if bytes = 0 then some (0, buffer, sd)
  else
    match fat_find_lfn fuel sd startcluster filename with
    | none => none
    | some (none, sd1) => some (0, buffer, sd1)
    | some (some dir, sd1) =>
      let filesize := dir_file_size sd1.buffer dir
      if filesize = 0 ∨ start ≥ filesize then some (0, buffer, sd1)
      else
        let cluster := dir_first_cluster sd1.buffer dir
        let sector := start / sd1.blocksize
        let offset := sub32 start (u32 (sector * sd1.blocksize))
        fat_read_file_loop cluster start filesize bytes fuel sd1 buffer sector offset 0

/-- Outcome of the loop of `fat_write_file`: `ret n` is the `return byteswritten;`
inside the loop, `done n` is leaving the loop with `byteswritten = n`. -/
inductive write_loop where
  | ret (byteswritten : Nat)
  | done (byteswritten : Nat)

/-- The loop `while(byteswritten < bytes)` of `fat_write_file`. -/
def fat_write_file_loop (cluster bytes : Nat) (buffer : Nat → Nat) :
    Nat → sdcard_t → Nat → Nat → Nat → Option (write_loop × sdcard_t)
  | 0, _, _, _, _ => none
  | fuel + 1, sd, sector, offset, byteswritten =>
    if byteswritten < bytes then
      let r := fat_read_sector sd cluster sector
      if r.1 = 0 then some (write_loop.ret byteswritten, r.2)
      else
        let bytestowrite := sub32 bytes byteswritten
        let bytestowrite :=
          if bytestowrite > sub32 sd.blocksize offset then sub32 sd.blocksize offset
          else bytestowrite
        let next (s : sdcard_t) : Option (write_loop × sdcard_t) :=
          let byteswritten1 := u32 (byteswritten + bytestowrite)
          if bytestowrite = 0 then some (write_loop.done byteswritten1, s)
          else fat_write_file_loop cluster bytes buffer fuel s (u32 (sector + 1)) 0 byteswritten1
        if bytestowrite > 0 then
          let s1 : sdcard_t :=
            { r.2 with buffer := memcpy r.2.buffer offset buffer byteswritten bytestowrite }
          match fat_write_sector fuel s1 cluster sector 1 with
          | none => none
          | some (w, s2) =>
            if w = 0 then some (write_loop.ret byteswritten, s2) else next s2
        else next r.2
    else some (write_loop.done byteswritten, sd)

/-- The function `fat_write_file`: write `bytes` bytes of `buffer` at byte `start` of the
named file, then store the new size in its directory record. -/
def fat_write_file (fuel : Nat) (sd : sdcard_t) (startcluster : Nat) (filename : List Nat)
    (buffer : Nat → Nat) (start bytes : Nat) : Option (Nat × sdcard_t) :=
  if filename.length = 0 then some (0, sd)
  else if bytes = 0 then some (0, sd)
  else
    match fat_find_lfn fuel sd startcluster filename with
    | none => none
    | some (none, sd1) => some (0, sd1)
    | some (some dir, sd1) =>
      let filesize := dir_file_size sd1.buffer dir
      let start := if start > filesize then filesize else start
      let cluster := dir_first_cluster sd1.buffer dir
      let sector := start / sd1.blocksize
      let offset := sub32 start (u32 (sector * sd1.blocksize))
      match fat_write_file_loop cluster bytes buffer fuel sd1 sector offset 0 with
      | none => none
      | some (write_loop.ret n, sd2) => some (n, sd2)
      | some (write_loop.done byteswritten, sd2) =>
        if byteswritten > 0 then
          match fat_find_lfn fuel sd2 startcluster filename with
          | none => none
          | some (none, sd3) => some (0, sd3)
          | some (some dir1, sd3) =>
            let sd4 : sdcard_t :=
              if u32 (start + byteswritten) > filesize then
                { sd3 with buffer := write32 sd3.buffer (dir1 + 28) (u32 (start + byteswritten)) }
              else sd3
            let w := sd_write_block sd4 sd4.loaded_sector
            if w.1 = 0 then some (0, w.2) else some (byteswritten, w.2)
        else some (byteswritten, sd2)

/-! ## `fat_misc.c`: short names -/

/-- Single-byte store `buf[off] = v`. -/
def write8 (buf : Nat → Nat) (off v : Nat) : Nat → Nat :=
  fun i => if i = off then v else buf i

/-- The call `memset(dst + d, v, n)`. -/
def memset_at (dst : Nat → Nat) (d v n : Nat) : Nat → Nat :=
  fun i => if d ≤ i ∧ i < d + n then v else dst i

/-- Character `s[i]` of the C string with characters `s`: the terminating NUL sits at
index `s.length`, and `junk` is the memory that follows it. -/
def str_at (junk : Nat → Nat) (s : List Nat) (i : Nat) : Nat :=
  if i < s.length then s.getD i 0 else if i = s.length then 0 else junk i

/-- The loop of `sfn_checksum`: `i` bytes left, `p` the position of `shortname`.
The byte is added as a `char`; whether `char` is signed makes no difference to the
`uint8_t` result. -/
def sfn_checksum_loop (shortname : Nat → Nat) : Nat → Nat → Nat → Nat
  | 0, sum, _ => sum
  | i + 1, sum, p =>
    sfn_checksum_loop shortname i
      (u8 ((if sum &&& 1 ≠ 0 then 0x80 else 0) + (sum >>> 1) + shortname p)) (p + 1)

/-- The function `sfn_checksum`. -/
def sfn_checksum (shortname : Nat → Nat) : Nat :=
  sfn_checksum_loop shortname 11 0 0

/-- The loop of `sfn_compare`, `n` bytes left from index `i`. -/
def sfn_compare_loop (name1 name2 : Nat → Nat) : Nat → Nat → Nat
  | 0, _ => 1
  | n + 1, i => if name1 i ≠ name2 i then 0 else sfn_compare_loop name1 name2 n (i + 1)

/-- The function `sfn_compare`: do two short names agree on their 11 bytes. -/
def sfn_compare (name1 name2 : Nat → Nat) : Nat :=
  sfn_compare_loop name1 name2 11 0

/-- The expression `c - ((c >= 'a' && c <= 'z') ? 32 : 0)` stored in a `char`. -/
def sfn_upper (c : Nat) : Nat :=
  u8 (if c ≥ 97 ∧ c ≤ 122 then c - 32 else c)

/-- The loop of `lfn_to_sfn` that looks for the first `'.'`, `n` characters left from
index `i`; the answer is the index of the dot. -/
def lfn_to_sfn_dot (lfn : Nat → Nat) : Nat → Nat → Option Nat
  | 0, _ => none
  | n + 1, i => if lfn i = 46 then some i else lfn_to_sfn_dot lfn n (i + 1)

/-- The loop of `lfn_to_sfn` that copies the base name, `n` characters left from index
`i`, `j` bytes stored so far. -/
def lfn_to_sfn_copy (lfn : Nat → Nat) : Nat → Nat → Nat → (Nat → Nat) → (Nat → Nat)
  | 0, _, _, sfn => sfn
  | n + 1, i, j, sfn =>
    if lfn i = 32 ∨ lfn i = 46 then lfn_to_sfn_copy lfn n (i + 1) j sfn
    else
      let sfn1 := write8 sfn j (sfn_upper (lfn i))
      if j + 1 = 8 then sfn1 else lfn_to_sfn_copy lfn n (i + 1) (j + 1) sfn1

/-- Decimal digits of `n` as character codes (`fuel` bounds the number of digits). -/
def decimal_digits : Nat → Nat → List Nat
  | 0, _ => []
  | fuel + 1, n =>
    if n < 10 then [48 + n] else decimal_digits fuel (n / 10) ++ [48 + n % 10]

/-- The string made by `sprintf(tail, "~%d", tailnum)` for a `tailnum` below 9999. -/
def sfn_tail (tailnum : Nat) : List Nat :=
  126 :: decimal_digits 4 tailnum

/-- The loop that stores the tail, `n` characters left from index `i`. -/
def lfn_to_sfn_tail (tail : List Nat) : Nat → Nat → (Nat → Nat) → (Nat → Nat)
  | 0, _, sfn => sfn
  | n + 1, i, sfn =>
    lfn_to_sfn_tail tail n (i + 1) (write8 sfn (8 - tail.length + i) (tail.getD i 0))

/-- The function `lfn_to_sfn`: derive the 11-byte short name of `lfn`, with the tail
`~tailnum` when `0 < tailnum < 9999`.  A name that starts with `'.'` is refused and
`sfn` is left as it was. -/
def lfn_to_sfn (junk : Nat → Nat) (lfn : List Nat) (sfn : Nat → Nat) (tailnum : Nat) :
    Nat × (Nat → Nat) :=
  let s := str_at junk lfn
  let len := u16 lfn.length
  if s 0 = 46 then (0, sfn)
  else
    let sfn := memset sfn 32 11
    let ext : Nat → Nat := fun _ => 32
    let dot := lfn_to_sfn_dot s len 0
    let ext : Nat → Nat :=
      match dot with
      | none => ext
      | some i => write8 (write8 (write8 ext 0 (s (i + 1))) 1 (s (i + 2))) 2 (s (i + 3))
    let len := match dot with
      | none => len
      | some i => i
    let sfn := lfn_to_sfn_copy s len 0 0 sfn
    let sfn := write8 sfn 8 (sfn_upper (ext 0))
    let sfn := write8 sfn 9 (sfn_upper (ext 1))
    let sfn := write8 sfn 10 (sfn_upper (ext 2))
    let sfn :=
      if tailnum > 0 ∧ tailnum < 9999 then
        lfn_to_sfn_tail (sfn_tail tailnum) (sfn_tail tailnum).length 0 sfn
      else sfn
    (1, sfn)

/-- The inner loop `for(i = 0; i < 13; i++)` of `lfn_cache_from_string`, `n` characters
left from position `i` of fragment `entry`.  The position `entry * 13 + i` is kept
in the `uint8_t` variable `offset`. -/
def lfn_cache_from_string_chars (filename : List Nat) (len entry : Nat) :
    Nat → Nat → (Nat → Nat) → (Nat → Nat)
  | 0, _, f => f
  | n + 1, i, f =>
    let offset := u8 (entry * 13 + i)
    let c :=
      if offset ≥ len then (if offset = len then 0x00 else 0xFF)
      else filename.getD offset 0
    lfn_cache_from_string_chars filename len entry n (i + 1) (write8 f (entry * 13 + i) c)

/-- The outer loop `for(entry = 0; entry < entries; entry++)` of
`lfn_cache_from_string`, `n` fragments left from fragment `entry`. -/
def lfn_cache_from_string_loop (filename : List Nat) (len : Nat) :
    Nat → Nat → lfn_cache → lfn_cache
  | 0, _, cache => cache
  | n + 1, entry, cache =>
    lfn_cache_from_string_loop filename len n (entry + 1)
      { cache with
          filename := lfn_cache_from_string_chars filename len entry 13 0 cache.filename
          strings := u8 (cache.strings + 1) }

/-- The function `lfn_cache_from_string`: cut `filename` into fragments of 13
characters.  `len` and `entries` are `uint8_t` in the source. -/
def lfn_cache_from_string (filename : List Nat) (chksum : Nat) : lfn_cache :=
  let cache : lfn_cache := { lfn_cache_reset with checksum := chksum }
  let len := u8 filename.length
  let entries := u8 ((len + 12) / 13)
  lfn_cache_from_string_loop filename len entries 0 cache

/-! ## `fat_fs.c`: lookup by short name, free records, create -/

/-- The loop `for(entry = 0; entry < 16; entry++)` of `fat_find_sfn`, `n` records left
from record `entry`: `some r` when the function returns `r`, `none` when the sector
is used up. -/
def fat_find_sfn_entries (buf : Nat → Nat) (filename : Nat → Nat) :
    Nat → Nat → Option (Option Nat)
  | 0, _ => none
  | n + 1, entry =>
    let dir := entry * 32
    if fat_is_last_entry buf dir then some none
    else if fat_is_free_entry buf dir then fat_find_sfn_entries buf filename n (entry + 1)
    else if fat_is_lfn_entry buf dir then fat_find_sfn_entries buf filename n (entry + 1)
    else if fat_is_sfn_entry buf dir then
      if sfn_compare (fun i => buf (dir + i)) filename ≠ 0 then some (some dir)
      else fat_find_sfn_entries buf filename n (entry + 1)
    else fat_find_sfn_entries buf filename n (entry + 1)

/-- The loop `while(1)` of `fat_find_sfn`. -/
def fat_find_sfn_loop (startcluster : Nat) (filename : Nat → Nat) :
    Nat → sdcard_t → Nat → Option (Option Nat × sdcard_t)
  | 0, _, _ => none
  | fuel + 1, sd, sector =>
    let r := fat_read_sector sd startcluster sector
    if r.1 = 0 then some (none, r.2)
    else
      match fat_find_sfn_entries r.2.buffer filename 16 0 with
      | some dir => some (dir, r.2)
      | none => fat_find_sfn_loop startcluster filename fuel r.2 (u32 (sector + 1))

/-- The function `fat_find_sfn`: the record whose 11-byte short name is `filename`. -/
def fat_find_sfn (fuel : Nat) (sd : sdcard_t) (startcluster : Nat) (filename : Nat → Nat) :
    Option (Option Nat × sdcard_t) :=
  fat_find_sfn_loop startcluster filename fuel sd 0

/-- The structure `fat_entry`: a record position in a directory. -/
structure fat_entry where
  cluster : Nat
  sector : Nat
  entry : Nat

/-- Outcome of scanning one sector in `fat_find_free_entry`: the function returns the
first record of the run (`ret`), or the sector is used up (`next`). -/
inductive free_scan where
  | ret (firstentry : fat_entry)
  | next (count : Nat) (firstentry : fat_entry)

/-- The loop `for(entry = 0; entry < 16; entry++)` of `fat_find_free_entry`, `n` records
left from record `entry`. -/
def fat_find_free_entry_entries (buf : Nat → Nat) (entries sector : Nat) :
    Nat → Nat → Nat → fat_entry → free_scan
  | 0, _, count, firstentry => free_scan.next count firstentry
  | n + 1, entry, count, firstentry =>
    let dir := entry * 32
    if fat_is_last_entry buf dir = true ∨ fat_is_free_entry buf dir = true then
      let firstentry : fat_entry :=
        if count = 0 then { firstentry with sector := sector, entry := entry } else firstentry
      let count := u8 (count + 1)
      if count = entries then free_scan.ret firstentry
      else fat_find_free_entry_entries buf entries sector n (entry + 1) count firstentry
    else fat_find_free_entry_entries buf entries sector n (entry + 1) 0 firstentry

/-- The loop `while(1)` of `fat_find_free_entry`. -/
def fat_find_free_entry_loop (startcluster entries : Nat) :
    Nat → sdcard_t → Nat → Nat → fat_entry → Option (Option fat_entry × sdcard_t)
  | 0, _, _, _, _ => none
  | fuel + 1, sd, sector, count, firstentry =>
    let r := fat_read_sector sd startcluster sector
    if r.1 = 0 then some (none, r.2)
    else
      match fat_find_free_entry_entries r.2.buffer entries sector 16 0 count firstentry with
      | free_scan.ret e => some (some e, r.2)
      | free_scan.next count1 e =>
        fat_find_free_entry_loop startcluster entries fuel r.2 (u32 (sector + 1)) count1 e

/-- The function `fat_find_free_entry`: the first run of `entries` consecutive free
records of the directory. -/
def fat_find_free_entry (fuel : Nat) (sd : sdcard_t) (startcluster entries : Nat) :
    Option (Option fat_entry × sdcard_t) :=
  if entries < 1 then some (none, sd)
  else if sd.malloc_ok = false then some (none, sd)
  else
    fat_find_free_entry_loop startcluster entries fuel sd 0 0
      { cluster := startcluster, sector := 0, entry := 0 }

/-- The loop `while(i < 65535)` of `fat_create_file` that looks for an unused tail
number, `n` values of `i` left.  The answer is the final `i` and the short name. -/
def fat_create_file_sfn (fuel : Nat) (junk : Nat → Nat) (filename : List Nat)
    (startcluster : Nat) :
    Nat → sdcard_t → Nat → (Nat → Nat) → Option (Nat × (Nat → Nat) × sdcard_t)
  | 0, sd, i, sfn => some (i, sfn, sd)
  | n + 1, sd, i, sfn =>
    let sfn1 := (lfn_to_sfn junk filename sfn i).2
    match fat_find_sfn fuel sd startcluster sfn1 with
    | none => none
    | some (none, sd1) => some (i, sfn1, sd1)
    | some (some _, sd1) => fat_create_file_sfn fuel junk filename startcluster n sd1 (i + 1) sfn1

/-- The stores of `fat_create_file` into the long-name record at `buf + off`, for
fragment number `entrynum` of the cache `lfn`. -/
def fat_create_file_ldir (lfn : lfn_cache) (entrynum : Nat) (buf : Nat → Nat) (off : Nat) :
    Nat → Nat :=
  let buf := write8 buf off (u8 (if entrynum = lfn.strings then entrynum ||| 0x40 else entrynum))
  let buf := write8 buf (off + 11) ATTR_LONG_NAME
  let buf := write8 buf (off + 12) 0x00
  let buf := write8 buf (off + 13) lfn.checksum
  let buf := write16 buf (off + 26) 0x00
  let buf := memset_at buf (off + 1) 0x00 10
  let buf := memset_at buf (off + 14) 0x00 12
  let buf := memset_at buf (off + 28) 0x00 4
  (List.range 13).foldl
    (fun b j => write8 b (off + ldir_char_offset j) (lfn.filename ((entrynum - 1) * 13 + j)))
    buf

/-- The step `if(entry->entry >= 16) { entry->entry = 0; entry->sector++; }`. -/
def fat_entry_wrap (e : fat_entry) : fat_entry :=
  if e.entry ≥ 16 then { e with entry := 0, sector := u32 (e.sector + 1) } else e

/-- The loop `for(entrynum = lfn.strings; entrynum > 0; entrynum--)` of
`fat_create_file`, by recursion on `entrynum`.  The inner `none` is a `return 0`. -/
def fat_create_file_lfn (fuel : Nat) (lfn : lfn_cache) :
    Nat → sdcard_t → fat_entry → Option (Option fat_entry × sdcard_t)
  | 0, sd, e => some (some e, sd)
  | n + 1, sd, e =>
    let e1 := fat_entry_wrap e
    let r := fat_read_sector sd e1.cluster e1.sector
    if r.1 = 0 then some (none, r.2)
    else
      let s : sdcard_t :=
        { r.2 with buffer := fat_create_file_ldir lfn (n + 1) r.2.buffer (e1.entry * 32) }
      match fat_write_sector fuel s e1.cluster e1.sector 0 with
      | none => none
      | some (w, sd1) =>
        if w = 0 then some (none, sd1)
        else fat_create_file_lfn fuel lfn n sd1 { e1 with entry := u8 (e1.entry + 1) }

/-- The stores of `fat_create_file` into the short-name record at `buf + off`. -/
def fat_create_file_dir (sfn : Nat → Nat) (cluster : Nat) (buf : Nat → Nat) (off : Nat) :
    Nat → Nat :=
  let buf := (List.range 11).foldl (fun b i => write8 b (off + i) (sfn i)) buf
  let buf := write8 buf (off + 11) ATTR_ARCHIVE
  let buf := write8 buf (off + 12) 0
  let buf := write8 buf (off + 13) 0x00
  let buf := write16 buf (off + 14) 0x00
  let buf := write16 buf (off + 16) 0x00
  let buf := write16 buf (off + 18) 0x00
  let buf := write16 buf (off + 20) (u16 ((cluster >>> 16) &&& 0xFFFF))
  let buf := write16 buf (off + 22) 0x00
  let buf := write16 buf (off + 24) 0x2011
  let buf := write16 buf (off + 26) (u16 (cluster &&& 0xFFFF))
  write32 buf (off + 28) 0x00

/-- The function `fat_create_file`: add the long-name and short-name records of a new,
empty file to the directory at `startcluster` and mark its first cluster as end
of chain.  The local array `sfn` starts out uninitialised. -/
def fat_create_file (fuel : Nat) (sd : sdcard_t) (startcluster : Nat) (filename : List Nat) :
    Option (Nat × sdcard_t) :=
  if filename.length = 0 then some (0, sd)
  else
    match fat_find_lfn fuel sd startcluster filename with
    | none => none
    | some (some _, sd1) => some (0, sd1)
    | some (none, sd1) =>
      match fat_get_next_free_cluster fuel sd1 startcluster with
      | none => none
      | some (cluster, sd2) =>
        if cluster = 0 then some (0, sd2)
        else
          match fat_create_file_sfn fuel sd.uninit filename startcluster 65534 sd2 1
              sd.uninit with
          | none => none
          | some (i, sfn, sd3) =>
            if i = 65535 then some (0, sd3)
            else
              let lfn := lfn_cache_from_string filename (sfn_checksum sfn)
              let entries := u8 (lfn.strings + 1)
              match fat_find_free_entry fuel sd3 startcluster entries with
              | none => none
              | some (none, sd4) => some (0, sd4)
              | some (some entry, sd4) =>
                match fat_create_file_lfn fuel lfn lfn.strings sd4 entry with
                | none => none
                | some (none, sd5) => some (0, sd5)
                | some (some e, sd5) =>
                  let e1 := fat_entry_wrap e
                  let r := fat_read_sector sd5 e1.cluster e1.sector
                  if r.1 = 0 then some (0, r.2)
                  else
                    let s : sdcard_t :=
                      { r.2 with
                          buffer := fat_create_file_dir sfn cluster r.2.buffer (e1.entry * 32) }
                    match fat_write_sector fuel s e1.cluster e1.sector 0 with
                    | none => none
                    | some (w, sd6) =>
                      if w = 0 then some (0, sd6)
                      else
                        let m := fat_set_next_cluster sd6 cluster 0xFFFFFFFF
                        if m.1 = 0 then some (0, m.2) else some (1, m.2)

/-! ## `fat_func.c`: stream handles -/

abbrev FILE_READ : Nat := 2

abbrev FILE_WRITE : Nat := 4

abbrev FILE_APPEND : Nat := 8

abbrev FILE_CREATE : Nat := 16

abbrev FILE_TRUNCATE : Nat := 32

/-- The structure `fat_handle`; the `sdcard` pointer is the state that is passed along. -/
structure fat_handle where
  is_file : Nat
  is_dir : Nat
  flags : Nat
  filename : List Nat
  cluster : Nat
  datacluster : Nat
  filesize : Nat
  ptr : Nat

/-- The function `fat_fread` with a non-null `buffer`. -/
def fat_fread (fuel : Nat) (sd : sdcard_t) (buffer : Nat → Nat) (size count : Nat)
    (handle : fat_handle) : Option (Nat × (Nat → Nat) × fat_handle × sdcard_t) :=
  if handle.flags &&& FILE_READ = 0 then some (0, buffer, handle, sd)
  else
    let bytes := u32 (size * count)
    if bytes = 0 then some (0, buffer, handle, sd)
    else
      match fat_read_file fuel sd handle.cluster handle.filename buffer handle.ptr bytes with
      | none => none
      | some (bytesread, buffer1, sd1) =>
        some (bytesread, buffer1, { handle with ptr := u32 (handle.ptr + bytesread) }, sd1)

/-- The function `fat_fwrite` with a non-null `buffer`. -/
def fat_fwrite (fuel : Nat) (sd : sdcard_t) (buffer : Nat → Nat) (size count : Nat)
    (handle : fat_handle) : Option (Nat × fat_handle × sdcard_t) :=
  if handle.flags &&& FILE_WRITE = 0 then some (0, handle, sd)
  else
    let bytes := u32 (size * count)
    if bytes = 0 then some (0, handle, sd)
    else
      match fat_write_file fuel sd handle.cluster handle.filename buffer handle.ptr bytes with
      | none => none
      | some (byteswritten, sd1) =>
        some (byteswritten, { handle with ptr := u32 (handle.ptr + byteswritten) }, sd1)

/-! ## `fat_func.c`: open and seek -/

abbrev SEEK_SET : Int := 0

abbrev SEEK_CUR : Int := 1

abbrev SEEK_END : Int := 2

/-- Conversion of an `int32_t` value to `uint32_t`. -/
def int_to_u32 (x : Int) : Nat := (x % 4294967296).toNat

/-- The function `fat_fseek`.  `offset` is an `int32_t`; in the comparisons and sums with
the `uint32_t` fields `ptr` and `filesize` it is converted to `uint32_t`, so the
tests `>= 0` on those sums always hold. -/
def fat_fseek (handle : fat_handle) (offset : Int) (origin : Int) : Nat × fat_handle :=
  if handle.flags &&& FILE_APPEND ≠ 0 then (0, handle)
  else if handle.is_file = 0 then (0, handle)
  else if origin = SEEK_SET then
    if offset ≥ 0 ∧ int_to_u32 offset ≤ handle.filesize then
      (1, { handle with ptr := int_to_u32 offset })
    else (0, handle)
  else if origin = SEEK_CUR then
    if u32 (handle.ptr + int_to_u32 offset) ≥ 0 ∧
        u32 (handle.ptr + int_to_u32 offset) ≤ handle.filesize then
      (1, { handle with ptr := u32 (handle.ptr + int_to_u32 offset) })
    else (0, handle)
  else if origin = SEEK_END then
    if u32 (handle.filesize + int_to_u32 offset) ≥ 0 ∧
        u32 (handle.filesize + int_to_u32 offset) ≤ handle.filesize then
      (1, { handle with ptr := u32 (handle.filesize + int_to_u32 offset) })
    else (0, handle)
  else (0, handle)

/-- The flags that `fat_fopen` derives from the mode string (`"r"`, `"w"`, `"a"` in an
`else if` chain, then `"r+"`, `"w+"`, `"a+"` each on its own). -/
def fat_fopen_flags (mode : List Nat) : Nat :=
  let flags := 0
  let flags :=
    if mode = [114] then flags ||| FILE_READ
    else if mode = [119] then flags ||| (FILE_WRITE ||| FILE_CREATE ||| FILE_TRUNCATE)
    else if mode = [97] then flags ||| (FILE_WRITE ||| FILE_APPEND ||| FILE_CREATE)
    else flags
  let flags := if mode = [114, 43] then flags ||| (FILE_READ ||| FILE_WRITE) else flags
  let flags :=
    if mode = [119, 43] then
      flags ||| (FILE_READ ||| FILE_WRITE ||| FILE_CREATE ||| FILE_TRUNCATE)
    else flags
  if mode = [97, 43] then flags ||| (FILE_READ ||| FILE_WRITE ||| FILE_APPEND ||| FILE_CREATE)
  else flags

/-- The function `fat_fopen`, from the truncation step on: `dir` is the record found. -/
def fat_fopen_finish (fuel : Nat) (handle : fat_handle) (sd : sdcard_t) (dir : Nat) :
    Option (Option fat_handle × sdcard_t) :=
  let found : Option (Option Nat × sdcard_t) :=
    if handle.flags &&& FILE_TRUNCATE ≠ 0 then
      match fat_truncate_file fuel sd handle.cluster handle.filename with
      | none => none
      | some (t, sd1) =>
        if t = 0 then some (none, sd1)
        else fat_find_lfn fuel sd1 handle.cluster handle.filename
    else some (some dir, sd)
  match found with
  | none => none
  | some (none, sd1) => some (none, sd1)
  | some (some dir1, sd1) =>
    let handle : fat_handle :=
      { handle with
          datacluster := dir_first_cluster sd1.buffer dir1
          filesize := dir_file_size sd1.buffer dir1
          ptr := 0 }
    let handle : fat_handle :=
      if handle.flags &&& FILE_APPEND ≠ 0 then { handle with ptr := handle.filesize }
      else handle
    some (some handle, sd1)

/-- The function `fat_fopen`: open `filename` in the root directory; `none` inside the
answer is the `NULL` handle. -/
def fat_fopen (fuel : Nat) (sd : sdcard_t) (filename mode : List Nat) :
    Option (Option fat_handle × sdcard_t) :=
  if sd.malloc_ok = false then some (none, sd)
  else
    let handle : fat_handle :=
      { is_file := 1, is_dir := 0, flags := fat_fopen_flags mode, filename := filename,
        cluster := sd.rootdir_begin_cluster, datacluster := 0, filesize := 0, ptr := 0 }
    match fat_find_lfn fuel sd handle.cluster handle.filename with
    | none => none
    | some (some dir, sd1) => fat_fopen_finish fuel handle sd1 dir
    | some (none, sd1) =>
      if handle.flags &&& FILE_CREATE ≠ 0 then
        match fat_create_file fuel sd1 handle.cluster handle.filename with
        | none => none
        | some (c, sd2) =>
          if c = 0 then some (none, sd2)
          else
            match fat_find_lfn fuel sd2 handle.cluster handle.filename with
            | none => none
            | some (none, sd3) => some (none, sd3)
            | some (some dir, sd3) => fat_fopen_finish fuel handle sd3 dir
      else some (none, sd1)

/-! ## Specification vocabulary -/

/-- Block address of the FAT sector that holds the entry of `c`. -/
def fat_entry_lba (sd : sdcard_t) (c : Nat) : Nat :=
  u32 (sd.fat_begin_sector + fat_entry_sector sd c)

/-- The FAT entry of `c` as stored on the card: the 16-bit word on FAT16, the whole
32-bit word otherwise. -/
def fat_entry_on_card (sd : sdcard_t) (c : Nat) : Nat :=
  if sd.fattype = FAT16 then read16 (sd.card (fat_entry_lba sd c)) (fat_entry_offset sd c)
  else read32 (sd.card (fat_entry_lba sd c)) (fat_entry_offset sd c)

/-- The sector cache does not lie about block `lba`: if `loaded_sector` names it,
the buffer holds the card's bytes. -/
def cache_ok (sd : sdcard_t) (lba : Nat) : Prop :=
  sd.loaded_sector = lba → ∀ i, i < sd.blocksize → sd.buffer i = sd.card lba i

/-- End-of-chain normalisation of a stored entry, per FAT variant. -/
def norm_entry (sd : sdcard_t) (v : Nat) : Nat :=
  if sd.fattype = FAT16 then (if v ≥ 0xFFF8 then EOC else v)
  else (if v % 268435456 ≥ 0x0FFFFFF8 then EOC else v % 268435456)

/-- Cluster numbers proper lie below the end-of-chain range of the variant. -/
def below_eoc (sd : sdcard_t) (c : Nat) : Prop :=
  if sd.fattype = FAT16 then c < 0xFFF8 else c < 0x0FFFFFF8

instance below_eoc_decidable (sd : sdcard_t) (c : Nat) : Decidable (below_eoc sd c) := by
  unfold below_eoc; exact inferInstance

/-- The state `sd1` differs from `sd` at most in the sector cache (`loaded_sector`,
`buffer`) and in the contents of the card. -/
def io_step (sd sd1 : sdcard_t) : Prop :=
  ∃ l b c, sd1 = { sd with loaded_sector := l, buffer := b, card := c }

/-- The cache is coherent: unless `loaded_sector` is `-1`, the buffer holds the bytes
of the block it names. -/
def coherent (sd : sdcard_t) : Prop :=
  sd.loaded_sector ≠ EOC → ∀ i, i < sd.blocksize → sd.buffer i = sd.card sd.loaded_sector i

/-- Every block of the card can be read. -/
def reads_ok (sd : sdcard_t) : Prop := ∀ lba, sd.card_read_ok lba = true

/-- Every block of the card can be written. -/
def writes_ok (sd : sdcard_t) : Prop :=
  sd.write_protected = 0 ∧ ∀ lba, sd.card_write_ok lba = true

/-! ## Well-formed volumes -/

/-- Geometry of a mounted volume, as far as the FAT engine relies on it: 512-byte
blocks, clusters of at least one sector, every cluster number `2 .. data_clusters+1`
below the end-of-chain range of the variant, a FAT with room for the entries of all
of them, the FAT region strictly before the data area, and a data area whose block
addresses stay below `0xFFFFFFFF`. -/
structure volume_ok (sd : sdcard_t) : Prop where
  blocksize : sd.blocksize = 512
  spc_pos : 0 < sd.sectors_per_cluster
  clusters : below_eoc sd (sd.data_clusters + 1)
  fat_size : fat_entry_sector sd (sd.data_clusters + 1) ≤ sd.fat_sectors
  fat_lba : sd.fat_begin_sector + sd.fat_sectors < sd.data_begin_sector
  data_lba : sd.data_begin_sector + sd.data_clusters * sd.sectors_per_cluster < 0xFFFFFFFF

/-- The card after a successful `fat_set_next_cluster sd c v`: only the entry of `c`
in its FAT sector is stored anew. -/
def fat_store (sd : sdcard_t) (c v : Nat) : Nat → Nat → Nat :=
  fun l =>
    if l = fat_entry_lba sd c then
      (if sd.fattype = FAT16 then write16 (sd.card l) (fat_entry_offset sd c) (u16 v)
       else write32 (sd.card l) (fat_entry_offset sd c) (u32 v))
    else sd.card l

/-- The FAT entry of `c` read from the card contents `card`, with the geometry of
`sd`. -/
def fat_entry_in (sd : sdcard_t) (card : Nat → Nat → Nat) (c : Nat) : Nat :=
  if sd.fattype = FAT16 then read16 (card (fat_entry_lba sd c)) (fat_entry_offset sd c)
  else read32 (card (fat_entry_lba sd c)) (fat_entry_offset sd c)

/-- The card contents `card` after the entry of `c` was stored anew with `v`
(geometry of `sd`). -/
def fat_store_in (sd : sdcard_t) (card : Nat → Nat → Nat) (c v : Nat) : Nat → Nat → Nat :=
  fun l =>
    if l = fat_entry_lba sd c then
      (if sd.fattype = FAT16 then write16 (card l) (fat_entry_offset sd c) (u16 v)
       else write32 (card l) (fat_entry_offset sd c) (u32 v))
    else card l

/-- The stored form of a value written to a FAT entry: 16 bits on FAT16, 32 bits
otherwise. -/
def fat_trunc (sd : sdcard_t) (v : Nat) : Nat :=
  if sd.fattype = FAT16 then u16 v else u32 v

/-- Successor of `c` according to the card contents `card`: the normalised stored
entry. -/
def fat_next_in (sd : sdcard_t) (card : Nat → Nat → Nat) (c : Nat) : Nat :=
  norm_entry sd (fat_entry_in sd card c)

/-- The list `c0, c1, ..., ck` is a chain for the successor function `next`: every
element is a cluster number in `2 .. dc + 1`, each is followed by its successor, and
the successor of the last one is the end-of-chain mark. -/
def chain_links (next : Nat → Nat) (dc : Nat) : List Nat → Prop
  | [] => False
  | [c] => 2 ≤ c ∧ c ≤ dc + 1 ∧ next c = EOC
  | c :: d :: rest => 2 ≤ c ∧ c ≤ dc + 1 ∧ next c = d ∧ chain_links next dc (d :: rest)

/-- The list `cs` is a well-formed cluster chain in the FAT stored on the card. -/
def is_chain (sd : sdcard_t) (cs : List Nat) : Prop :=
  chain_links (fat_next_in sd sd.card) sd.data_clusters cs

/-- Block address of sector `r` of cluster `c`. -/
def cluster_lba (sd : sdcard_t) (c r : Nat) : Nat :=
  sd.data_begin_sector + (c - 2) * sd.sectors_per_cluster + r

/-- Block address of sector `j` of the directory that starts at `start`, where `cs`
lists the clusters that follow `start` in its chain (FAT16 root directory: the fixed
region, `cs` empty). -/
def dir_sector_lba (sd : sdcard_t) (start : Nat) (cs : List Nat) (j : Nat) : Nat :=
  if sd.fattype = FAT16 ∧ start = 0 then sd.rootdir_begin_sector + j
  else cluster_lba sd ((start :: cs).getD (j / sd.sectors_per_cluster) 0)
    (j % sd.sectors_per_cluster)

/-- Number of sectors of that directory. -/
def dir_sector_count (sd : sdcard_t) (start : Nat) (cs : List Nat) : Nat :=
  if sd.fattype = FAT16 ∧ start = 0 then sd.rootdir_sectors
  else (cs.length + 1) * sd.sectors_per_cluster

/-- A well-formed directory: the FAT16 root region lying between the FAT and the
data area, or a well-formed cluster chain `start :: cs` (of fewer than `2^32`
sectors). -/
def is_dir (sd : sdcard_t) (start : Nat) (cs : List Nat) : Prop :=
  if sd.fattype = FAT16 ∧ start = 0 then
    cs = [] ∧ sd.fat_begin_sector + sd.fat_sectors < sd.rootdir_begin_sector ∧
      sd.rootdir_begin_sector + sd.rootdir_sectors ≤ sd.data_begin_sector
  else
    is_chain sd (start :: cs) ∧ (cs.length + 1) * sd.sectors_per_cluster < 4294967296

/-- The scan of `fat_find_lfn` read off the card contents `card`: `n` sectors of a
directory from sector `j` on, sector `j` being block `lba j`.  The answer is the
sector index and the offset of the record found. -/
def dir_scan (junk : Nat → Nat) (card : Nat → Nat → Nat) (lba : Nat → Nat)
    (filename : List Nat) : Nat → Nat → lfn_cache → Option (Nat × Nat)
  | 0, _, _ => none
  | n + 1, j, lfn =>
    match fat_find_lfn_entries junk (card (lba j)) filename 16 0 lfn with
    | lfn_scan.ret (some dir) => some (j, dir)
    | lfn_scan.ret none => none
    | lfn_scan.next lfn1 => dir_scan junk card lba filename n (j + 1) lfn1

/-- The buffers `a` and `b` agree on the 512 bytes of a sector, except possibly on
the `DIR_FileSize` field of the record at offset `d0`. -/
def same_but_size (d0 : Nat) (a b : Nat → Nat) : Prop :=
  ∀ i, i < 512 → (i < d0 + 28 ∨ d0 + 32 ≤ i) → b i = a i

/-- The lookup of `filename` in the directory `start :: cs`, read off the card
contents `card`: sector index and offset of the short-name record found. -/
def dir_find (sd : sdcard_t) (card : Nat → Nat → Nat) (start : Nat) (cs : List Nat)
    (filename : List Nat) : Option (Nat × Nat) :=
  dir_scan sd.uninit card (dir_sector_lba sd start cs) filename
    (dir_sector_count sd start cs) 0 lfn_cache_reset

/-! ### The lookup as a first match -/

/-- The long-name cache that `fat_find_lfn` holds on reaching record `r` of a directory
whose sector `j` is block `lba j`, as long as it has not returned: a free record and a
short-name record clear it, a long-name record is added to it, any other record
leaves it. -/
def dir_cache (card : Nat → Nat → Nat) (lba : Nat → Nat) : Nat → lfn_cache
  | 0 => lfn_cache_reset
  | r + 1 =>
    if fat_is_free_entry (card (lba (r / 16))) (r % 16 * 32) then lfn_cache_reset
    else if fat_is_lfn_entry (card (lba (r / 16))) (r % 16 * 32) then
      lfn_cache_add (dir_cache card lba r) (card (lba (r / 16))) (r % 16 * 32)
    else if fat_is_sfn_entry (card (lba (r / 16))) (r % 16 * 32) then lfn_cache_reset
    else dir_cache card lba r

/-- Record `r` of the directory is the end-of-directory record. -/
def dir_is_last (card : Nat → Nat → Nat) (lba : Nat → Nat) (r : Nat) : Bool :=
  fat_is_last_entry (card (lba (r / 16))) (r % 16 * 32)

/-- Record `r` of the directory is one at which `fat_find_lfn` returns: it passes the
tests of the loop body down to the short-name test, the cache is not empty, and
`lfn_cache_compare` accepts `filename`.  The name and the checksum of the record are
not looked at. -/
def dir_matches (junk : Nat → Nat) (card : Nat → Nat → Nat) (lba : Nat → Nat)
    (filename : List Nat) (r : Nat) : Bool :=
  decide (fat_is_last_entry (card (lba (r / 16))) (r % 16 * 32) = false ∧
    fat_is_free_entry (card (lba (r / 16))) (r % 16 * 32) = false ∧
    fat_is_lfn_entry (card (lba (r / 16))) (r % 16 * 32) = false ∧
    fat_is_sfn_entry (card (lba (r / 16))) (r % 16 * 32) = true ∧
    (dir_cache card lba r).strings > 0 ∧
    lfn_cache_compare junk (dir_cache card lba r) filename = true)

/-- Record `r` is the first record below `R` at which the lookup of `filename` returns
a record: no record before it ends the directory or matches. -/
def dir_first_match (junk : Nat → Nat) (card : Nat → Nat → Nat) (lba : Nat → Nat)
    (filename : List Nat) (R r : Nat) : Prop :=
  r < R ∧ dir_matches junk card lba filename r = true ∧
    ∀ q, q < r → dir_is_last card lba q = false ∧ dir_matches junk card lba filename q = false

instance dir_first_match_decidable (junk : Nat → Nat) (card : Nat → Nat → Nat)
    (lba : Nat → Nat) (filename : List Nat) (R r : Nat) :
    Decidable (dir_first_match junk card lba filename R r) := by
  unfold dir_first_match
  infer_instance

/-! ## Short names and long-name fragments: specification vocabulary -/

/-- Rotation of an 8-bit value to the right by one bit. -/
def rotr8 (s : Nat) : Nat := ((s >>> 1) ||| (s <<< 7)) &&& 0xFF

/-- The checksum in the words of the specification: starting from 0, rotate the sum
right by one bit and add the next byte, modulo 256, over the bytes of the name. -/
def sfn_checksum_spec (bytes : List Nat) : Nat :=
  bytes.foldl (fun sum b => (rotr8 sum + b) % 256) 0

/-- Character `p` of the fragments that the specification asks for: the name, its NUL
terminator, then `0xFF` padding. -/
def lfn_fragment_char (filename : List Nat) (p : Nat) : Nat :=
  if p < filename.length then filename.getD p 0
  else if p = filename.length then 0x00 else 0xFF

/-- The 32 bytes `rec` are a long-name record with ordinal byte `ord`, attribute
`0x0F`, type 0, checksum byte `chksum`, first-cluster-low 0, and the 13 characters
`frag 0 .. frag 12` stored as UCS-2 with zero high bytes. -/
def is_ldir_record (rec : Nat → Nat) (ord chksum : Nat) (frag : Nat → Nat) : Prop :=
  rec 0 = ord ∧ rec 11 = ATTR_LONG_NAME ∧ rec 12 = 0 ∧ rec 13 = chksum ∧
    read16 rec 26 = 0 ∧
    ∀ j, j < 13 → rec (ldir_char_offset j) = frag j ∧ rec (ldir_char_offset j + 1) = 0

/-- The 32 bytes `rec` are the short-name record that `fat_create_file` writes: the 11
name bytes `sfn`, attribute archive, first cluster `cluster`, size 0, write date
`0x2011`, the other fields zero. -/
def is_new_dir_record (rec : Nat → Nat) (sfn : Nat → Nat) (cluster : Nat) : Prop :=
  (∀ i, i < 11 → rec i = sfn i) ∧ rec 11 = ATTR_ARCHIVE ∧ rec 12 = 0 ∧ rec 13 = 0 ∧
    read16 rec 14 = 0 ∧ read16 rec 16 = 0 ∧ read16 rec 18 = 0 ∧ read16 rec 22 = 0 ∧
    read16 rec 24 = 0x2011 ∧ dir_first_cluster rec 0 = cluster ∧ dir_file_size rec 0 = 0

/-- The sector cache does not lie about any FAT sector of a cluster in range. -/
def fat_cache_ok (sd : sdcard_t) : Prop :=
  ∀ x, x ≤ sd.data_clusters + 1 → cache_ok sd (fat_entry_lba sd x)

/-- The 32 bytes of record number `q` of the directory `start :: cs` (16 records to a
sector), read off the card contents `card`. -/
def dir_record (sd : sdcard_t) (card : Nat → Nat → Nat) (start : Nat) (cs : List Nat)
    (q : Nat) : Nat → Nat :=
  fun i => card (dir_sector_lba sd start cs (q / 16)) (q % 16 * 32 + i)

/-- Record number of a `fat_entry`. -/
def fat_entry_slot (e : fat_entry) : Nat := e.sector * 16 + e.entry

/-- The directory records of a new file named `filename` (of `L` characters, in
`N = (L + 12) / 13` fragments) on the card of `sd1`, as `fat_create_file` is to
leave them in the directory `start :: cs` of `sd`: a state `s3` with the card
contents of `sd` and a coherent cache in which `fat_find_free_entry` answers the
record `e`; from `e` on, `N` long-name records with ordinal bytes `N | 0x40`,
`N - 1`, ..., `1`, each with the checksum of the short name stored behind them and
the 13 characters of fragment `ordinal - 1` (character `p` of the fragments is
`lfn_fragment_char filename (p mod 256)`); then the short-name record, with the
name `sfn` and the first cluster `cluster`. -/
def create_records (sd : sdcard_t) (start : Nat) (cs : List Nat) (fuel : Nat)
    (filename : List Nat) (sd1 : sdcard_t) : Prop :=
  ∃ (sfn : Nat → Nat) (cluster : Nat) (s3 s4 : sdcard_t) (e : fat_entry),
    io_step sd s3 ∧ s3.card = sd.card ∧ coherent s3 ∧
    fat_find_free_entry fuel s3 start ((filename.length + 12) / 13 + 1) = some (some e, s4) ∧
    (∀ t, t < (filename.length + 12) / 13 →
      is_ldir_record (dir_record sd sd1.card start cs (fat_entry_slot e + t))
        (if t = 0 then (filename.length + 12) / 13 ||| 0x40
          else (filename.length + 12) / 13 - t)
        (sfn_checksum
          (dir_record sd sd1.card start cs (fat_entry_slot e + (filename.length + 12) / 13)))
        (fun j => lfn_fragment_char filename
          ((((filename.length + 12) / 13 - t - 1) * 13 + j) % 256))) ∧
    is_new_dir_record
      (dir_record sd sd1.card start cs (fat_entry_slot e + (filename.length + 12) / 13))
      sfn cluster

/-- The buffers `a` and `b` agree on the 512 bytes of a sector, except possibly on
bytes 1..10 of the name of the record at offset `d0`. -/
def same_but_name (d0 : Nat) (a b : Nat → Nat) : Prop :=
  ∀ i, i < 512 → (i ≤ d0 ∨ d0 + 11 ≤ i) → b i = a i

/-- Block address of sector `j` of the file whose cluster chain is `c :: rest`. -/
def file_sector_lba (sd : sdcard_t) (c : Nat) (rest : List Nat) (j : Nat) : Nat :=
  cluster_lba sd ((c :: rest).getD (j / sd.sectors_per_cluster) 0xFFFFFFFF)
    (j % sd.sectors_per_cluster)

/-- Byte `p` of the file whose cluster chain is `c :: rest`, read off the card
contents `card`. -/
def file_byte (sd : sdcard_t) (card : Nat → Nat → Nat) (c : Nat) (rest : List Nat)
    (p : Nat) : Nat :=
  card (file_sector_lba sd c rest (p / 512)) (p % 512)

/-! ## `fat_fs.c`: the master boot record and the boot sector

The structures `mbr_t`, `partition_entry_t` and `bootsector_t` are laid over the
sector buffer.  The target is the 8-bit AVR: structures have no padding, so the
fields sit at their on-disk offsets, and `int` is 16 bits wide, so arithmetic on
`uint8_t` and `uint16_t` operands is done in 16-bit `unsigned int`. -/

/-- The function `read_mbr`: find the first partition.  `signature` is at offset 510,
`partition1` at offset 446, with `partition_type` at 450, `firstsector` at 454 and
`sectors` at 458. -/
def read_mbr (sd : sdcard_t) : Nat × sdcard_t :=
  if sd.inited = 0 then (0, sd)
  else
    let r := sd_read_block sd 0
    if r.1 = 0 then (0, r.2)
    else if read16 r.2.buffer 510 ≠ 0xAA55 then (0, r.2)
    else if r.2.buffer 0 = 0xEB ∨ r.2.buffer 0 = 0xE9 then
      (1, { r.2 with partition_start := 0, partition_sectors := 0 })
    else if r.2.buffer 450 ≠ 0x06 ∧ r.2.buffer 450 ≠ 0x0B ∧ r.2.buffer 450 ≠ 0x0C ∧
        r.2.buffer 450 ≠ 0x0E then (0, r.2)
    else
      (1, { r.2 with partition_start := read32 r.2.buffer 454,
                     partition_sectors := read32 r.2.buffer 458 })

/-- The local `rootdirsectors` of `fat_read_bootsector`:
`((RootEntCnt * 32) + (BytsPerSec - 1)) / BytsPerSec`, in 16-bit `unsigned int`. -/
def bs_rootdirsectors (bs : Nat → Nat) : Nat :=
  u16 (u16 (u16 (read16 bs 17 * 32) + u16 (read16 bs 11 + 65535)) / read16 bs 11)

/-- The local `fatsize` of `fat_read_bootsector`, a `uint16_t`:
`FATSz16 != 0 ? FATSz16 : FATSz32`. -/
def bs_fatsize (bs : Nat → Nat) : Nat :=
  u16 (if read16 bs 22 ≠ 0 then read16 bs 22 else read32 bs 36)

/-- The local `totalsectors` of `fat_read_bootsector`, a `uint32_t`:
`TotSec16 != 0 ? TotSec16 : TotSec32`. -/
def bs_totalsectors (bs : Nat → Nat) : Nat :=
  if read16 bs 19 ≠ 0 then read16 bs 19 else read32 bs 32

/-- The local `datasectors` of `fat_read_bootsector`:
`totalsectors - (ResvdSecCnt + (NumFATs * fatsize) + rootdirsectors)`, the bracket in
16-bit `unsigned int`, the difference in `uint32_t`. -/
def bs_datasectors (bs : Nat → Nat) : Nat :=
  sub32 (bs_totalsectors bs)
    (u16 (u16 (read16 bs 14 + u16 (bs 16 * bs_fatsize bs)) + bs_rootdirsectors bs))

/-- The local `totalclusters` of `fat_read_bootsector`: `datasectors / SecPerClus`.
A zero `SecPerClus` makes the C division undefined; here the quotient is 0. -/
def bs_totalclusters (bs : Nat → Nat) : Nat :=
  bs_datasectors bs / bs 13

/-- The function `fat_read_bootsector`: read the BIOS parameter block of the
partition and set the geometry of the volume.  Field offsets: `BytsPerSec` 11,
`SecPerClus` 13, `ResvdSecCnt` 14, `NumFATs` 16, `RootEntCnt` 17, `TotSec16` 19,
`FATSz16` 22, `TotSec32` 32, `FATSz32` 36, `RootClus` 44, `FSInfo` 48,
`Signature` 510. -/
def fat_read_bootsector (sd : sdcard_t) : Nat × sdcard_t :=
  if sd.inited = 0 then (0, sd)
  else
    let r := sd_read_block sd sd.partition_start
    if r.1 = 0 then (0, r.2)
    else
      let bs := r.2.buffer
      if read16 bs 510 ≠ 0xAA55 then (0, r.2)
      else if read16 bs 11 ≠ 512 then (0, r.2)
      else
        let rootdirsectors := bs_rootdirsectors bs
        let datasectors := bs_datasectors bs
        let totalclusters := bs_totalclusters bs
        if totalclusters < 4085 then (0, r.2)
        else if totalclusters < 65525 then
          let rootdir_begin_sector :=
            u32 (u32 (r.2.partition_start + read16 bs 14) + u16 (bs 16 * read16 bs 22))
          (1, { r.2 with
                  fattype := FAT16
                  fsinfo_sector := 1
                  fat_begin_sector := u32 (r.2.partition_start + read16 bs 14)
                  fat_sectors := read16 bs 22
                  rootdir_begin_sector := rootdir_begin_sector
                  rootdir_begin_cluster := 0
                  rootdir_sectors := rootdirsectors
                  data_begin_sector := u32 (rootdir_begin_sector + rootdirsectors)
                  data_sectors := datasectors
                  data_clusters := totalclusters
                  sectors_per_cluster := bs 13 })
        else
          let s : sdcard_t :=
            { r.2 with
                fattype := FAT32
                fsinfo_sector := read16 bs 48
                fat_begin_sector := u32 (r.2.partition_start + read16 bs 14)
                fat_sectors := read32 bs 36
                rootdir_begin_sector := 0
                rootdir_begin_cluster := read32 bs 44
                rootdir_sectors := 0
                data_begin_sector :=
                  u32 (u32 (r.2.partition_start + read16 bs 14) + u32 (bs 16 * read32 bs 36))
                data_sectors := datasectors
                data_clusters := totalclusters
                sectors_per_cluster := bs 13 }
          (1, { s with rootdir_begin_sector := fat_get_cluster_sector s s.rootdir_begin_cluster })

/-- The function `fat_read_bootsector` with the division
`datasectors / bs->SecPerClus` made explicit: the answer is `none` when that division
is evaluated with the divisor 0 (undefined in C).  Up to that point the function is
written out; with a non-zero divisor it goes on as `fat_read_bootsector`, where the
quotient is the one of the natural numbers. -/
def fat_read_bootsector_checked (sd : sdcard_t) : Option (Nat × sdcard_t) :=
  if sd.inited = 0 then some (0, sd)
  else
    let r := sd_read_block sd sd.partition_start
    if r.1 = 0 then some (0, r.2)
    else
      let bs := r.2.buffer
      if read16 bs 510 ≠ 0xAA55 then some (0, r.2)
      else if read16 bs 11 ≠ 512 then some (0, r.2)
      else if bs 13 = 0 then none
      else some (fat_read_bootsector sd)

/-! ### The boot sector in the words of the specification -/

/-- Size of one FAT as the specification takes it: the 16-bit field if non-zero, else
the full 32-bit field. -/
def spec_fat_size (bs : Nat → Nat) : Nat :=
  if read16 bs 22 ≠ 0 then read16 bs 22 else read32 bs 36

/-- Total sectors as the specification takes them: the 16-bit field if non-zero, else
the 32-bit field. -/
def spec_total_sectors (bs : Nat → Nat) : Nat :=
  if read16 bs 19 ≠ 0 then read16 bs 19 else read32 bs 32

/-- Sectors of the root directory: `RootEntCnt * 32` bytes, rounded up to sectors of
512 bytes. -/
def spec_rootdir_sectors (bs : Nat → Nat) : Nat :=
  (read16 bs 17 * 32 + 511) / 512

/-- The cluster count `T` of the specification:
`(total - (reserved + num_fats * fat_size + rootdir_sectors)) / sectors_per_cluster`. -/
def spec_total_clusters (bs : Nat → Nat) : Nat :=
  (spec_total_sectors bs
      - (read16 bs 14 + bs 16 * spec_fat_size bs + spec_rootdir_sectors bs)) / bs 13

/-! ## `fat_fs.c`: enumerating a directory -/

/-- Outcome of the record loop of `fat_find_next_file`: `ret dir` is a `return` inside
the loop (`none` for `return 0`, otherwise the offset of the record in
`sdcard->buffer`), `next` is leaving the loop at the end of the sector. -/
inductive next_scan where
  | ret (dir : Option Nat) (handle : fat_handle) (lfn : Option lfn_cache)
  | next (handle : fat_handle) (lfn : Option lfn_cache)

/-- The loop `for(; offset < sdcard->blocksize; offset += 32)` of
`fat_find_next_file`; `n` bounds the number of rounds.  The cache `lfn` is `none`
for a null pointer. -/
def fat_find_next_file_entries (buf : Nat → Nat) (blocksize : Nat) :
    Nat → Nat → fat_handle → Option lfn_cache → next_scan
  | 0, _, handle, lfn => next_scan.next handle lfn
  | n + 1, offset, handle, lfn =>
    if offset < blocksize then
      if fat_is_last_entry buf offset then
        next_scan.ret none handle (lfn.map (fun _ => lfn_cache_reset))
      else
        let handle1 : fat_handle := { handle with ptr := u32 (handle.ptr + 32) }
        if fat_is_free_entry buf offset then
          fat_find_next_file_entries buf blocksize n (u32 (offset + 32)) handle1
            (lfn.map (fun _ => lfn_cache_reset))
        else if fat_is_lfn_entry buf offset then
          fat_find_next_file_entries buf blocksize n (u32 (offset + 32)) handle1
            (lfn.map (fun l => lfn_cache_add l buf offset))
        else if fat_is_sfn_entry buf offset then next_scan.ret (some offset) handle1 lfn
        else fat_find_next_file_entries buf blocksize n (u32 (offset + 32)) handle1 lfn
    else next_scan.next handle lfn

/-- The loop `while(1)` of `fat_find_next_file` over the sectors of the directory. -/
def fat_find_next_file_loop (cluster : Nat) :
    Nat → sdcard_t → fat_handle → Option lfn_cache → Nat → Nat →
      Option (Option Nat × fat_handle × Option lfn_cache × sdcard_t)
  | 0, _, _, _, _, _ => none
  | fuel + 1, sd, handle, lfn, sector, offset =>
    let r := fat_read_sector sd cluster sector
    if r.1 = 0 then some (none, handle, lfn, r.2)
    else
      match fat_find_next_file_entries r.2.buffer r.2.blocksize (r.2.blocksize / 32 + 1)
          offset handle lfn with
      | next_scan.ret dir handle1 lfn1 => some (dir, handle1, lfn1, r.2)
      | next_scan.next handle1 lfn1 =>
        fat_find_next_file_loop cluster fuel r.2 handle1 lfn1 (u32 (sector + 1)) 0

/-- The function `fat_find_next_file`: the next short-name record of the directory of
`handle` from the position `handle->ptr` on, as an offset into `sdcard->buffer`
(`none` for `NULL`), together with the handle, whose position has moved, and the
long-name cache.  A zero `blocksize` makes the C division undefined; here the
quotient and the remainder are 0. -/
def fat_find_next_file (fuel : Nat) (sd : sdcard_t) (handle : fat_handle)
    (lfn : Option lfn_cache) :
    Option (Option Nat × fat_handle × Option lfn_cache × sdcard_t) :=
  fat_find_next_file_loop handle.datacluster fuel sd handle
    (lfn.map (fun _ => lfn_cache_reset)) (handle.ptr / sd.blocksize)
    (handle.ptr % sd.blocksize)

/-! ### Enumeration in the words of the specification -/

/-- The sequence of calls of the claim: the result of call number `k + 1` of
`fat_find_next_file` (with a cache), made on the handle and the state that the `k`
calls before it have left. -/
def fat_find_next_file_calls (fuel : Nat) :
    Nat → sdcard_t → fat_handle → Option (Option Nat × fat_handle × sdcard_t)
  | 0, sd, handle =>
    match fat_find_next_file fuel sd handle (some lfn_cache_reset) with
    | none => none
    | some (dir, handle1, _, sd1) => some (dir, handle1, sd1)
  | k + 1, sd, handle =>
    match fat_find_next_file fuel sd handle (some lfn_cache_reset) with
    | none => none
    | some (_, handle1, _, sd1) => fat_find_next_file_calls fuel k sd1 handle1

/-- Indices of the records among `r0 .. r(t-1)` that are classified as short-name
entries, in on-disk order. -/
def sfn_indices (recs : Nat → Nat → Nat) (t : Nat) : List Nat :=
  (List.range t).filter (fun q => fat_is_sfn_entry (recs q) 0)

/-! ## `fat_misc.c` and `fat_func.c`: paths and `fat_opendir` -/

/-- The loop `while(*p != 0)` of `get_path_part` on the characters from `p` on (the
list ends where the string does, and a 0 in it ends the string early); `level` is a
`uint8_t`, `out` is what has been stored to `output` so far. -/
def get_path_part_loop (part : Nat) : List Nat → Nat → List Nat → List Nat
  | [], _, out => out
  | c :: p, level, out =>
    if c = 0 then out
    else if c = 47 then
      match p with
      | [] => out
      | d :: rest =>
        if d = 0 then out
        else if u8 (level + 1) > part then out
        else get_path_part_loop part rest (u8 (level + 1))
          (if u8 (level + 1) = part then out ++ [d] else out)
    else if level > part then out
    else get_path_part_loop part p level (if level = part then out ++ [c] else out)

/-- The function `get_path_part`: the return value and the string left in `output`.
The index `i` is a `uint8_t` and `output` is the caller's buffer (`char dirname[64]`
in `fat_opendir`): the model is exact as long as the part fits the buffer. -/
def get_path_part (path : List Nat) (part : Nat) : Nat × List Nat :=
  if part = 0 then (1, [47])
  else
    let level := if path.headD 0 ≠ 47 then 1 else 0
    let out := get_path_part_loop part path level []
    (if out = [] then 0 else 1, out)

/-- The handle as `fat_opendir` fills it in: a directory handle at position 0 with the
given name, directory cluster and data cluster. -/
def opendir_handle (filename : List Nat) (cluster datacluster : Nat) : fat_handle :=
  { is_file := 0, is_dir := 1, flags := 0, filename := filename, cluster := cluster,
    datacluster := datacluster, filesize := 0, ptr := 0 }

/-- The loop `while(1)` of `fat_opendir`; `level` is a `uint8_t`, and so is the
parameter `part` that receives `level + 1`. -/
def fat_opendir_loop (fuel : Nat) (path : List Nat) :
    Nat → sdcard_t → Nat → Nat → Option (Option fat_handle × sdcard_t)
  | 0, _, _, _ => none
  | n + 1, sd, level, cluster =>
    if (get_path_part path level).1 ≠ 0 then
      match fat_find_lfn fuel sd cluster (get_path_part path level).2 with
      | none => none
      | some (none, s1) => some (none, s1)
      | some (some dir, s1) =>
        if s1.buffer (dir + 11) &&& ATTR_DIRECTORY = 0 then some (none, s1)
        else if (get_path_part path (u8 (level + 1))).1 = 0 then
          some (some (opendir_handle (get_path_part path (u8 (level + 1))).2 cluster
            (dir_first_cluster s1.buffer dir)), s1)
        else
          fat_opendir_loop fuel path n s1 (u8 (level + 1)) (dir_first_cluster s1.buffer dir)
    else some (none, sd)

/-- The function `fat_opendir`; `none` inside the answer is the `NULL` handle.  The
fuel bounds the rounds of the loop and each directory search.  The name left in the
handle of a directory below the root is the content of `dirname` after the failed
`get_path_part` for the part behind the last one. -/
def fat_opendir (fuel : Nat) (sd : sdcard_t) (path : List Nat) :
    Option (Option fat_handle × sdcard_t) :=
  if sd.malloc_ok = false then some (none, sd)
  else if (get_path_part path 1).1 = 0 then
    some (some (opendir_handle path sd.rootdir_begin_cluster sd.rootdir_begin_cluster), sd)
  else fat_opendir_loop fuel path fuel sd 1 sd.rootdir_begin_cluster

/-! ### Paths in the words of the specification -/

/-- The parts `p1, ..., pn` written as `p1/.../pn`. -/
def path_join : List (List Nat) → List Nat
  | [] => []
  | [p] => p
  | p :: q :: ps => p ++ 47 :: path_join (q :: ps)

/-- The path with the parts `parts`, with a leading `/` if `lead` is set. -/
def path_of (lead : Bool) (parts : List (List Nat)) : List Nat :=
  (if lead then [47] else []) ++ path_join parts

/-- A part of a path: not empty, without `/` and without the terminating 0. -/
def path_part_ok (p : List Nat) : Prop := p ≠ [] ∧ ∀ c, c ∈ p → c ≠ 0 ∧ c ≠ 47

/-- Path resolution in the words of the specification: starting from `cluster`, each part
is looked up by `fat_find_lfn` in the directory reached so far and must have the
directory attribute set.  Inside the answer, `none` says that a part does not
resolve; otherwise the answer names the directory in which the last part was found and
the first cluster of the record found for it. -/
def resolve_parts (fuel : Nat) :
    List (List Nat) → sdcard_t → Nat → Option (Option (Nat × Nat) × sdcard_t)
  | [], sd, _ => some (none, sd)
  | p :: ps, sd, cluster =>
    match fat_find_lfn fuel sd cluster p with
    | none => none
    | some (none, s1) => some (none, s1)
    | some (some dir, s1) =>
      if s1.buffer (dir + 11) &&& ATTR_DIRECTORY = 0 then some (none, s1)
      else if ps.isEmpty then some (some (cluster, dir_first_cluster s1.buffer dir), s1)
      else resolve_parts fuel ps s1 (dir_first_cluster s1.buffer dir)

/-! ### Occupancy of the FAT -/

/-- Number of clusters `0 .. data_clusters + 1` whose FAT entry on the card is not
zero. -/
def fat_used_entries (sd : sdcard_t) : Nat :=
  ((List.range (sd.data_clusters + 2)).filter (fun d => fat_entry_on_card sd d ≠ 0)).length

/-! ### Free runs of directory records -/

/-- A directory record is free or last: its first byte is `0x00` or `0xE5`. -/
def slot_free (rec : Nat → Nat) : Bool := decide (rec 0 = 0x00 ∨ rec 0 = 0xE5)

/-- Records `i .. i + N - 1` all satisfy `F`. -/
def free_run (F : Nat → Bool) (N i : Nat) : Prop := ∀ m, m < N → F (i + m) = true

instance free_run_decidable (F : Nat → Bool) (N i : Nat) : Decidable (free_run F N i) := by
  unfold free_run; exact inferInstance

/-- State of the scan of `fat_find_free_entry` in front of record `p`: `count` is below
`N`, the `count` records before `p` are free, `firstentry` names the first of them,
and no run of `N` free records starts before it. -/
def free_scan_inv (F : Nat → Bool) (D N p count : Nat) (firstentry : fat_entry) : Prop :=
  count < N ∧ count ≤ p ∧ (∀ m, m < count → F (p - count + m) = true) ∧
    (0 < count → firstentry.sector = (p - count) / 16 ∧ firstentry.entry = (p - count) % 16) ∧
    firstentry.cluster = D ∧ ∀ i, i + count < p → ¬ free_run F N i

/-- The answer `res` is the first run of `N` free records among the first `total`
records: its location, or `none` if no run fits. -/
def free_scan_out (F : Nat → Bool) (D N total : Nat) (res : Option fat_entry) : Prop :=
  (res = none ∧ ∀ i, i + N ≤ total → ¬ free_run F N i) ∨
  (∃ e i0, res = some e ∧ e.cluster = D ∧ e.sector = i0 / 16 ∧ e.entry = i0 % 16 ∧
    free_run F N i0 ∧ (∀ i, i < i0 → ¬ free_run F N i) ∧ i0 + N ≤ total)

/-! ## Concrete volumes used to instantiate the theorems

One file, `Hello World.txt`, with short name `HELLO~1 TXT`, sits in the root
directory behind its two long-name records; its first data cluster is 3. -/

/-- The name `Hello World.txt`. -/
def demo_name : List Nat :=
  [72, 101, 108, 108, 111, 32, 87, 111, 114, 108, 100, 46, 116, 120, 116]

/-- The bytes `Hello, world!`. -/
def demo_hello : List Nat :=
  [72, 101, 108, 108, 111, 44, 32, 119, 111, 114, 108, 100, 33]

/-- A root directory sector: long-name records 2 and 1, then the short-name record
with first cluster 3 and file size `size`; the rest of the sector is zero. -/
def demo_dir (size : Nat) : List Nat :=
  [66, 120, 0, 116, 0, 0, 0, 255, 0, 255, 0, 15, 0, 237, 255, 0,
   255, 0, 255, 0, 255, 0, 255, 0, 255, 0, 0, 0, 255, 0, 255, 0,
   1, 72, 0, 101, 0, 108, 0, 108, 0, 111, 0, 15, 0, 237, 32, 0,
   87, 0, 111, 0, 114, 0, 108, 0, 100, 0, 0, 0, 46, 0, 116, 0,
   72, 69, 76, 76, 79, 126, 49, 32, 84, 88, 84, 32, 0, 0, 0, 0,
   0, 0, 0, 0, 0, 0, 0, 0, 17, 32, 3, 0,
   size % 256, size / 256 % 256, size / 65536 % 256, size / 16777216 % 256]

/-- A FAT32 volume: FAT at blocks 32..2079, second copy behind it, data area from
block 4128, 8 sectors per cluster, 262000 clusters, root directory in cluster 2.
The first FAT sector holds the 32-bit words `fat`; data blocks hold a pattern. -/
def demo32 (fat : List Nat) (size : Nat) : sdcard_t :=
  { inited := 1, write_protected := 0, byteaddressing := 0, fattype := 32, blocksize := 512,
    fsinfo_sector := 1, partition_start := 0, partition_sectors := 0,
    fat_begin_sector := 32, fat_sectors := 2048, rootdir_begin_sector := 4128,
    rootdir_begin_cluster := 2, rootdir_sectors := 0, data_begin_sector := 4128,
    data_sectors := 2096000, data_clusters := 262000, sectors_per_cluster := 8,
    loaded_sector := 0xFFFFFFFF, buffer := fun _ => 0,
    card := fun lba i =>
      if lba = 32 then fat.getD (i / 4) 0 / 256 ^ (i % 4) % 256
      else if lba = 4128 then (demo_dir size).getD i 0
      else if 4136 ≤ lba then (i * 7 + lba) % 256
      else 0,
    card_read_ok := fun _ => true, card_write_ok := fun _ => true, malloc_ok := true,
    uninit := fun _ => 0 }

/-- A FAT16 volume: FAT at blocks 1..20, second copy behind it, root directory at
blocks 41..72, data area from block 73, 2 sectors per cluster, 5000 clusters.  The
first FAT sector holds the 16-bit words `fat`. -/
def demo16 (fat : List Nat) (size : Nat) : sdcard_t :=
  { inited := 1, write_protected := 0, byteaddressing := 0, fattype := 16, blocksize := 512,
    fsinfo_sector := 1, partition_start := 0, partition_sectors := 0,
    fat_begin_sector := 1, fat_sectors := 20, rootdir_begin_sector := 41,
    rootdir_begin_cluster := 0, rootdir_sectors := 32, data_begin_sector := 73,
    data_sectors := 10000, data_clusters := 5000, sectors_per_cluster := 2,
    loaded_sector := 0xFFFFFFFF, buffer := fun _ => 0,
    card := fun lba i =>
      if lba = 1 then fat.getD (i / 2) 0 / 256 ^ (i % 2) % 256
      else if lba = 41 then (demo_dir size).getD i 0
      else if 75 ≤ lba then (i * 7 + lba) % 256
      else 0,
    card_read_ok := fun _ => true, card_write_ok := fun _ => true, malloc_ok := true,
    uninit := fun _ => 0 }

/-- A handle on `Hello World.txt` in the root directory with the given flags,
recorded size and position. -/
def demo_handle (root flags size ptr : Nat) : fat_handle :=
  { is_file := 1, is_dir := 0, flags := flags, filename := demo_name, cluster := root,
    datacluster := 3, filesize := size, ptr := ptr }

/-- The volume `demo32 fat size` on a card whose block `bad` cannot be read. -/
def demo32_bad (fat : List Nat) (size bad : Nat) : sdcard_t :=
  { demo32 fat size with card_read_ok := fun l => decide (l ≠ bad) }

/-- A caller buffer holding the bytes of `l`, zero behind them. -/
def bytes_of (l : List Nat) : Nat → Nat := fun i => l.getD i 0

/-- A caller buffer holding a recognisable pattern. -/
def demo_data : Nat → Nat := fun i => (i * 13 + 5) % 251

/-- The bytes `HELLOW~1TXT`. -/
def demo_sfn : List Nat := [72, 69, 76, 76, 79, 87, 126, 49, 84, 88, 84]

/-- A name of 248 characters, `ABC...Z` repeated. -/
def demo_long_name : List Nat := (List.range 248).map (fun i => 65 + i % 26)

/-- The FAT32 volume of `demo32` with a root directory whose first sector holds the
bytes `root` (zero behind them) and with zeroed data blocks. -/
def demo32_root (fat : List Nat) (root : List Nat) : sdcard_t :=
  { demo32 fat 0 with
    card := fun lba i =>
      if lba = 32 then fat.getD (i / 4) 0 / 256 ^ (i % 4) % 256
      else if lba = 4128 then root.getD i 0
      else 0 }

/-- A name of 256 characters, all `A`. -/
def demo_name_256 : List Nat := List.replicate 256 65

/-- The bytes `HOLIDAY JPG`. -/
def demo_other_sfn : List Nat := [72, 79, 76, 73, 68, 65, 89, 32, 74, 80, 71]

/-- The volume `demo32 fat size` with bytes 1..10 of the name of the short-name record
of the root directory replaced by those of `name`. -/
def demo32_renamed (fat : List Nat) (size : Nat) (name : List Nat) : sdcard_t :=
  { demo32 fat size with
    card := fun lba i =>
      if lba = 4128 ∧ 64 < i ∧ i < 75 then name.getD (i - 64) 0
      else (demo32 fat size).card lba i }

/-- The volume `demo32 fat size` on a write-protected card. -/
def demo32_locked (fat : List Nat) (size : Nat) : sdcard_t :=
  { demo32 fat size with write_protected := 1 }

/-- A boot sector with the given fields, the signature `0xAA55`, 512 bytes per sector
and zero elsewhere. -/
def demo_boot (spc resvd nfats rootent tot16 fatsz16 tot32 fatsz32 rootclus : Nat) :
    Nat → Nat :=
  write16 (write32 (write32 (write32 (write16 (write16 (write16 (write8 (write16
    (write8 (write16 (write8 (fun _ => 0) 0 0xEB) 11 512) 13 spc) 14 resvd) 16 nfats)
    17 rootent) 19 tot16) 22 fatsz16) 32 tot32) 36 fatsz32) 44 rootclus) 510 0xAA55

/-- An initialised card whose block `ps` holds the sector `boot` (the other blocks
are zero), with `partition_start = ps`, an empty cache and no geometry yet. -/
def demo_card (boot : Nat → Nat) (ps : Nat) : sdcard_t :=
  { inited := 1, write_protected := 0, byteaddressing := 0, fattype := 0, blocksize := 512,
    fsinfo_sector := 0, partition_start := ps, partition_sectors := 0,
    fat_begin_sector := 0, fat_sectors := 0, rootdir_begin_sector := 0,
    rootdir_begin_cluster := 0, rootdir_sectors := 0, data_begin_sector := 0,
    data_sectors := 0, data_clusters := 0, sectors_per_cluster := 0,
    loaded_sector := 0xFFFFFFFF, buffer := fun _ => 0,
    card := fun lba i => if lba = ps then boot i else 0,
    card_read_ok := fun _ => true, card_write_ok := fun _ => true, malloc_ok := true,
    uninit := fun _ => 0 }

/-- A master boot record whose first partition entry has the given type, first sector
and sector count, with the signature `0xAA55` and zero elsewhere. -/
def demo_mbr (ptype first sectors : Nat) : Nat → Nat :=
  write16 (write32 (write32 (write8 (fun _ => 0) 450 ptype) 454 first) 458 sectors)
    510 0xAA55

/-- The volume `demo32 fat size` with the bytes `B` staged in the sector buffer (the
cache names no sector). -/
def demo32_staged (fat : List Nat) (size : Nat) (B : Nat → Nat) : sdcard_t :=
  { demo32 fat size with buffer := B }

/-- A directory handle on the directory that starts at `cluster`, at position
`ptr`. -/
def demo_dir_handle (cluster ptr : Nat) : fat_handle :=
  { is_file := 0, is_dir := 1, flags := 0, filename := [47], cluster := cluster,
    datacluster := cluster, filesize := 0, ptr := ptr }

/-- A root directory sector: the three records of `demo_dir 0`, a deleted record, then
the end of the directory. -/
def demo_dir_deleted : List Nat :=
  demo_dir 0 ++ [0xE5, 65, 65, 65, 65, 65, 65, 65, 65, 65, 65, 0x20]

/-- A FAT32 volume like `demo32_root` with a second directory sector: the first sector
of cluster 2 (block 4128) holds `root`, the first sector of cluster 3 (block 4136)
holds `sub`. -/
def demo32_tree (fat root sub : List Nat) : sdcard_t :=
  { demo32 fat 0 with
    card := fun lba i =>
      if lba = 32 then fat.getD (i / 4) 0 / 256 ^ (i % 4) % 256
      else if lba = 4128 then root.getD i 0
      else if lba = 4136 then sub.getD i 0
      else 0 }

/-- The two records of a subdirectory whose long name is the single lower-case letter
`c`: the long-name record (with the checksum `chk` of the short name) and the
short-name record with the upper-case letter as name, the directory attribute and the
first cluster `cluster` (below 256). -/
def demo_subdir (c chk cluster : Nat) : List Nat :=
  [65, c, 0, 0, 0, 255, 255, 255, 255, 255, 255, 15, 0, chk, 255, 255,
   255, 255, 255, 255, 255, 255, 255, 255, 255, 255, 0, 0, 255, 255, 255, 255,
   c - 32, 32, 32, 32, 32, 32, 32, 32, 32, 32, 32, 16, 0, 0, 0, 0,
   0, 0, 0, 0, 0, 0, 0, 0, 0, 0, cluster, 0, 0, 0, 0, 0]

/-- The root directory sector of `demo_dir 0` with the first-cluster field of the
short-name record set to 0: an empty file that owns no cluster. -/
def demo_dir_cluster0 : List Nat := (demo_dir 0).set 90 0

/-- A long-name record with the ordinal byte `ord`, the checksum 237 and the 13
characters `A` to `M`. -/
def demo_ldir (ord : Nat) : Nat → Nat :=
  bytes_of [ord, 65, 0, 66, 0, 67, 0, 68, 0, 69, 0, 15, 0, 237, 70, 0,
    71, 0, 72, 0, 73, 0, 74, 0, 75, 0, 0, 0, 76, 0, 77, 0]

theorem read16_lt (buf : Nat → Nat) (off : Nat) : read16 buf off < 65536 := by
  unfold read16; omega

theorem read32_lt (buf : Nat → Nat) (off : Nat) : read32 buf off < 4294967296 := by
  unfold read32
  have h1 := read16_lt buf off
  have h2 := read16_lt buf (off + 2)
  omega

theorem land_ffff (v : Nat) : v &&& 0xFFFF = v % 65536 :=
  Nat.and_pow_two_sub_one_eq_mod v 16

theorem land_0fffffff (v : Nat) : v &&& 0x0FFFFFFF = v % 268435456 :=
  Nat.and_pow_two_sub_one_eq_mod v 28

theorem read16_congr (a b : Nat → Nat) (off : Nat)
    (h0 : a off = b off) (h1 : a (off + 1) = b (off + 1)) : read16 a off = read16 b off := by
  unfold read16; rw [h0, h1]

theorem read32_congr (a b : Nat → Nat) (off : Nat)
    (h0 : a off = b off) (h1 : a (off + 1) = b (off + 1))
    (h2 : a (off + 2) = b (off + 2)) (h3 : a (off + 3) = b (off + 3)) :
    read32 a off = read32 b off := by
  unfold read32
  rw [read16_congr a b off h0 h1, read16_congr a b (off + 2) h2 (by simpa using h3)]

theorem fat_entry_offset_fat16 (sd : sdcard_t) (c : Nat) (hbs : sd.blocksize = 512)
    (hf : sd.fattype = FAT16) : fat_entry_offset sd c + 1 < 512 := by
  unfold fat_entry_offset u32; rw [if_pos hf, hbs]; omega

theorem fat_entry_offset_fat32 (sd : sdcard_t) (c : Nat) (hbs : sd.blocksize = 512)
    (hf : sd.fattype ≠ FAT16) : fat_entry_offset sd c + 3 < 512 := by
  unfold fat_entry_offset u32; rw [if_neg hf, hbs]; omega

/-- What a successful `sd_read_block` leaves behind. -/
theorem sd_read_block_ok (sd : sdcard_t) (lba : Nat)
    (hr : sd.card_read_ok lba = true) (hc : cache_ok sd lba) :
    (sd_read_block sd lba).1 = 1 ∧
    (∃ b, (sd_read_block sd lba).2 = { sd with loaded_sector := lba, buffer := b } ∧
      ∀ i, i < sd.blocksize → b i = sd.card lba i) := by
  unfold sd_read_block
  by_cases h : sd.loaded_sector = lba
  · rw [if_pos h]
    refine ⟨rfl, sd.buffer, ?_, hc h⟩
    cases sd; simp_all
  · rw [if_neg h, if_pos hr]
    refine ⟨rfl, _, rfl, ?_⟩
    intro i hi; simp [hi]

theorem land_below (c : Nat) (h : c < 0x0FFFFFF8) : c &&& 0x0FFFFFFF = c := by
  rw [land_0fffffff]; omega

/-- Helper: `fat_get_next_cluster` on a cluster number whose FAT sector can be read
returns the normalised stored entry and leaves that FAT sector in the cache. -/
theorem fat_get_next_cluster_eq (sd : sdcard_t) (c : Nat)
    (hbs : sd.blocksize = 512) (hc : below_eoc sd c)
    (hrange : c ≤ u32 (sd.data_clusters + 1))
    (hsec : fat_entry_sector sd c ≤ sd.fat_sectors)
    (hread : sd.card_read_ok (fat_entry_lba sd c) = true)
    (hcache : cache_ok sd (fat_entry_lba sd c)) :
    ∃ b, fat_get_next_cluster sd c =
        (norm_entry sd (fat_entry_on_card sd c),
          { sd with loaded_sector := fat_entry_lba sd c, buffer := b }) ∧
      ∀ i, i < 512 → b i = sd.card (fat_entry_lba sd c) i := by
  obtain ⟨h1, b, h2, h3⟩ := sd_read_block_ok sd _ hread hcache
  rw [hbs] at h3
  refine ⟨b, ?_, h3⟩
  unfold fat_entry_lba at h1 h2
  unfold fat_get_next_cluster
  by_cases hf : sd.fattype = FAT16
  · have hc' : c < 0xFFF8 := by simpa [below_eoc, hf] using hc
    have ho := fat_entry_offset_fat16 sd c hbs hf
    have hv : read16 b (fat_entry_offset sd c) = fat_entry_on_card sd c := by
      unfold fat_entry_on_card; rw [if_pos hf]
      exact read16_congr _ _ _ (h3 _ (by omega)) (h3 _ (by omega))
    have hlt := read16_lt b (fat_entry_offset sd c)
    simp only [hf, true_and, if_true, not_true_eq_false, false_and, if_false, ne_eq]
    rw [if_neg (by omega), if_neg (by omega), if_neg (by omega), if_neg (by omega)]
    simp only [hf] at h1 h2
    rw [h2, land_ffff, Nat.mod_eq_of_lt hlt, hv]
    simp [norm_entry, hf, fat_entry_lba]
  · have hc' : c < 0x0FFFFFF8 := by simpa [below_eoc, hf] using hc
    have ho := fat_entry_offset_fat32 sd c hbs hf
    have hv : read32 b (fat_entry_offset sd c) = fat_entry_on_card sd c := by
      unfold fat_entry_on_card; rw [if_neg hf]
      exact read32_congr _ _ _ (h3 _ (by omega)) (h3 _ (by omega)) (h3 _ (by omega))
        (h3 _ (by omega))
    simp only [hf, false_and, if_false, not_false_eq_true, true_and, ne_eq, land_below c hc']
    rw [if_neg (by omega), if_neg (by omega), if_neg (by omega), if_neg (by omega)]
    rw [h2, land_0fffffff, hv]
    simp [norm_entry, hf, fat_entry_lba]

/-! ## Frame: what the filesystem code never changes -/

theorem io_step_refl (sd : sdcard_t) : io_step sd sd :=
  ⟨sd.loaded_sector, sd.buffer, sd.card, rfl⟩

theorem io_step_trans {a b c : sdcard_t} (h1 : io_step a b) (h2 : io_step b c) :
    io_step a c := by
  obtain ⟨l1, b1, c1, rfl⟩ := h1
  obtain ⟨l2, b2, c2, rfl⟩ := h2
  exact ⟨l2, b2, c2, rfl⟩

theorem io_step_mk (sd : sdcard_t) (l : Nat) (b : Nat → Nat) (c : Nat → Nat → Nat) :
    io_step sd { sd with loaded_sector := l, buffer := b, card := c } :=
  ⟨l, b, c, rfl⟩

theorem io_step_inited {sd sd1 : sdcard_t} (h : io_step sd sd1) : sd1.inited = sd.inited := by
  obtain ⟨l, b, c, rfl⟩ := h; rfl

theorem io_step_write_protected {sd sd1 : sdcard_t} (h : io_step sd sd1) : sd1.write_protected = sd.write_protected := by
  obtain ⟨l, b, c, rfl⟩ := h; rfl

theorem io_step_byteaddressing {sd sd1 : sdcard_t} (h : io_step sd sd1) : sd1.byteaddressing = sd.byteaddressing := by
  obtain ⟨l, b, c, rfl⟩ := h; rfl

theorem io_step_fattype {sd sd1 : sdcard_t} (h : io_step sd sd1) : sd1.fattype = sd.fattype := by
  obtain ⟨l, b, c, rfl⟩ := h; rfl

theorem io_step_blocksize {sd sd1 : sdcard_t} (h : io_step sd sd1) : sd1.blocksize = sd.blocksize := by
  obtain ⟨l, b, c, rfl⟩ := h; rfl

theorem io_step_fsinfo_sector {sd sd1 : sdcard_t} (h : io_step sd sd1) : sd1.fsinfo_sector = sd.fsinfo_sector := by
  obtain ⟨l, b, c, rfl⟩ := h; rfl

theorem io_step_partition_start {sd sd1 : sdcard_t} (h : io_step sd sd1) : sd1.partition_start = sd.partition_start := by
  obtain ⟨l, b, c, rfl⟩ := h; rfl

theorem io_step_partition_sectors {sd sd1 : sdcard_t} (h : io_step sd sd1) : sd1.partition_sectors = sd.partition_sectors := by
  obtain ⟨l, b, c, rfl⟩ := h; rfl

theorem io_step_fat_begin_sector {sd sd1 : sdcard_t} (h : io_step sd sd1) : sd1.fat_begin_sector = sd.fat_begin_sector := by
  obtain ⟨l, b, c, rfl⟩ := h; rfl

theorem io_step_fat_sectors {sd sd1 : sdcard_t} (h : io_step sd sd1) : sd1.fat_sectors = sd.fat_sectors := by
  obtain ⟨l, b, c, rfl⟩ := h; rfl

theorem io_step_rootdir_begin_sector {sd sd1 : sdcard_t} (h : io_step sd sd1) : sd1.rootdir_begin_sector = sd.rootdir_begin_sector := by
  obtain ⟨l, b, c, rfl⟩ := h; rfl

theorem io_step_rootdir_begin_cluster {sd sd1 : sdcard_t} (h : io_step sd sd1) : sd1.rootdir_begin_cluster = sd.rootdir_begin_cluster := by
  obtain ⟨l, b, c, rfl⟩ := h; rfl

theorem io_step_rootdir_sectors {sd sd1 : sdcard_t} (h : io_step sd sd1) : sd1.rootdir_sectors = sd.rootdir_sectors := by
  obtain ⟨l, b, c, rfl⟩ := h; rfl

theorem io_step_data_begin_sector {sd sd1 : sdcard_t} (h : io_step sd sd1) : sd1.data_begin_sector = sd.data_begin_sector := by
  obtain ⟨l, b, c, rfl⟩ := h; rfl

theorem io_step_data_sectors {sd sd1 : sdcard_t} (h : io_step sd sd1) : sd1.data_sectors = sd.data_sectors := by
  obtain ⟨l, b, c, rfl⟩ := h; rfl

theorem io_step_data_clusters {sd sd1 : sdcard_t} (h : io_step sd sd1) : sd1.data_clusters = sd.data_clusters := by
  obtain ⟨l, b, c, rfl⟩ := h; rfl

theorem io_step_sectors_per_cluster {sd sd1 : sdcard_t} (h : io_step sd sd1) : sd1.sectors_per_cluster = sd.sectors_per_cluster := by
  obtain ⟨l, b, c, rfl⟩ := h; rfl

theorem io_step_card_read_ok {sd sd1 : sdcard_t} (h : io_step sd sd1) : sd1.card_read_ok = sd.card_read_ok := by
  obtain ⟨l, b, c, rfl⟩ := h; rfl

theorem io_step_card_write_ok {sd sd1 : sdcard_t} (h : io_step sd sd1) : sd1.card_write_ok = sd.card_write_ok := by
  obtain ⟨l, b, c, rfl⟩ := h; rfl

theorem io_step_malloc_ok {sd sd1 : sdcard_t} (h : io_step sd sd1) : sd1.malloc_ok = sd.malloc_ok := by
  obtain ⟨l, b, c, rfl⟩ := h; rfl

theorem io_step_uninit {sd sd1 : sdcard_t} (h : io_step sd sd1) : sd1.uninit = sd.uninit := by
  obtain ⟨l, b, c, rfl⟩ := h; rfl

theorem io_step_fat_entry_sector {sd sd1 : sdcard_t} (h : io_step sd sd1) (c : Nat) :
    fat_entry_sector sd1 c = fat_entry_sector sd c := by
  obtain ⟨l, b, c, rfl⟩ := h; rfl

theorem io_step_fat_entry_offset {sd sd1 : sdcard_t} (h : io_step sd sd1) (c : Nat) :
    fat_entry_offset sd1 c = fat_entry_offset sd c := by
  obtain ⟨l, b, c, rfl⟩ := h; rfl

theorem io_step_fat_entry_lba {sd sd1 : sdcard_t} (h : io_step sd sd1) (c : Nat) :
    fat_entry_lba sd1 c = fat_entry_lba sd c := by
  obtain ⟨l, b, c, rfl⟩ := h; rfl

theorem io_step_fat_get_cluster_sector {sd sd1 : sdcard_t} (h : io_step sd sd1) (c : Nat) :
    fat_get_cluster_sector sd1 c = fat_get_cluster_sector sd c := by
  obtain ⟨l, b, c, rfl⟩ := h; rfl

theorem io_step_below_eoc {sd sd1 : sdcard_t} (h : io_step sd sd1) (c : Nat) :
    below_eoc sd1 c = below_eoc sd c := by
  obtain ⟨l, b, c, rfl⟩ := h; rfl

theorem io_step_norm_entry {sd sd1 : sdcard_t} (h : io_step sd sd1) (v : Nat) :
    norm_entry sd1 v = norm_entry sd v := by
  obtain ⟨l, b, c, rfl⟩ := h; rfl

theorem coherent_cache_ok {sd : sdcard_t} (h : coherent sd) (lba : Nat) (hl : lba ≠ EOC) :
    cache_ok sd lba := by
  intro he; subst he; exact h hl

theorem io_step_reads_ok {sd sd1 : sdcard_t} (h : io_step sd sd1) (hr : reads_ok sd) :
    reads_ok sd1 := by
  intro lba; rw [io_step_card_read_ok h]; exact hr lba

theorem io_step_writes_ok {sd sd1 : sdcard_t} (h : io_step sd sd1) (hw : writes_ok sd) :
    writes_ok sd1 := by
  refine ⟨?_, fun lba => ?_⟩
  · rw [io_step_write_protected h]; exact hw.1
  · rw [io_step_card_write_ok h]; exact hw.2 lba

/-- The function `sd_read_block` always leaves a coherent cache and the card untouched. -/
theorem sd_read_block_frame (sd : sdcard_t) (lba : Nat) :
    io_step sd (sd_read_block sd lba).2 ∧ (sd_read_block sd lba).2.card = sd.card ∧
      (coherent sd → coherent (sd_read_block sd lba).2) := by
  unfold sd_read_block
  by_cases h : sd.loaded_sector = lba
  · rw [if_pos h]; exact ⟨io_step_refl sd, rfl, id⟩
  · rw [if_neg h]
    by_cases hr : sd.card_read_ok lba = true
    · rw [if_pos hr]
      refine ⟨⟨_, _, sd.card, rfl⟩, rfl, fun _ _ i hi => ?_⟩
      simp only at hi ⊢
      rw [if_pos hi]
    · rw [if_neg hr]
      refine ⟨⟨_, sd.buffer, sd.card, rfl⟩, rfl, fun _ hne => ?_⟩
      exact absurd rfl hne

/-- A read that succeeds on a coherent cache leaves the requested block in the
buffer. -/
theorem sd_read_block_loaded (sd : sdcard_t) (lba : Nat) (hco : coherent sd)
    (hl : lba ≠ EOC) (hr : sd.card_read_ok lba = true) :
    (sd_read_block sd lba).1 = 1 ∧ (sd_read_block sd lba).2.loaded_sector = lba ∧
      ∀ i, i < sd.blocksize → (sd_read_block sd lba).2.buffer i = sd.card lba i := by
  obtain ⟨h1, b, h2, h3⟩ := sd_read_block_ok sd lba hr (coherent_cache_ok hco lba hl)
  rw [h2]; exact ⟨h1, rfl, h3⟩

theorem io_step_volume_ok {sd sd1 : sdcard_t} (h : io_step sd sd1) (hv : volume_ok sd) :
    volume_ok sd1 := by
  obtain ⟨l, b, c, rfl⟩ := h
  exact ⟨hv.blocksize, hv.spc_pos, hv.clusters, hv.fat_size, hv.fat_lba, hv.data_lba⟩

theorem volume_ok_dc_lt {sd : sdcard_t} (hv : volume_ok sd) :
    sd.data_clusters + 1 < 0x0FFFFFF8 := by
  have h := hv.clusters
  unfold below_eoc at h
  split at h <;> omega

theorem volume_ok_u32_dc {sd : sdcard_t} (hv : volume_ok sd) :
    u32 (sd.data_clusters + 1) = sd.data_clusters + 1 := by
  have := volume_ok_dc_lt hv
  unfold u32; omega

theorem volume_ok_below {sd : sdcard_t} (hv : volume_ok sd) {c : Nat}
    (hc : c ≤ sd.data_clusters + 1) : below_eoc sd c := by
  have h := hv.clusters
  unfold below_eoc at h ⊢
  split at h <;> simp_all <;> omega

theorem volume_ok_sector_le {sd : sdcard_t} (hv : volume_ok sd) {c : Nat}
    (hc : c ≤ sd.data_clusters + 1) : fat_entry_sector sd c ≤ sd.fat_sectors := by
  have h1 := volume_ok_dc_lt hv
  have h2 := hv.fat_size
  have hbs := hv.blocksize
  unfold fat_entry_sector u32 at h2 ⊢
  rw [hbs] at h2 ⊢
  split at h2 <;> simp_all <;> omega

theorem volume_ok_fat_lba {sd : sdcard_t} (hv : volume_ok sd) {c : Nat}
    (hc : c ≤ sd.data_clusters + 1) :
    fat_entry_lba sd c = sd.fat_begin_sector + fat_entry_sector sd c ∧
      fat_entry_lba sd c ≤ sd.fat_begin_sector + sd.fat_sectors ∧
      fat_entry_lba sd c ≠ EOC := by
  have h1 := volume_ok_sector_le hv hc
  have h2 := hv.fat_lba
  have h3 := hv.data_lba
  have h4 : fat_entry_lba sd c = sd.fat_begin_sector + fat_entry_sector sd c := by
    unfold fat_entry_lba u32; omega
  rw [h4]
  refine ⟨rfl, by omega, ?_⟩
  show _ ≠ 4294967295
  omega

/-- Entries of distinct clusters occupy disjoint bytes of the FAT. -/
theorem fat_entry_disjoint {sd : sdcard_t} (hv : volume_ok sd) {c d : Nat}
    (hc : c ≤ sd.data_clusters + 1) (hd : d ≤ sd.data_clusters + 1) (hne : c ≠ d)
    (hs : fat_entry_sector sd c = fat_entry_sector sd d) :
    (sd.fattype = FAT16 ∧ (fat_entry_offset sd c + 2 ≤ fat_entry_offset sd d ∨
        fat_entry_offset sd d + 2 ≤ fat_entry_offset sd c)) ∨
    (sd.fattype ≠ FAT16 ∧ (fat_entry_offset sd c + 4 ≤ fat_entry_offset sd d ∨
        fat_entry_offset sd d + 4 ≤ fat_entry_offset sd c)) := by
  have h1 := volume_ok_dc_lt hv
  have hbs := hv.blocksize
  unfold fat_entry_sector u32 at hs
  unfold fat_entry_offset u32
  rw [hbs] at hs ⊢
  by_cases hf : sd.fattype = FAT16
  · left; refine ⟨hf, ?_⟩
    simp only [hf, if_true] at hs ⊢
    omega
  · right; refine ⟨hf, ?_⟩
    simp only [hf, if_false] at hs ⊢
    omega

theorem read16_write16_same (b : Nat → Nat) (o v : Nat) :
    read16 (write16 b o v) o = v % 65536 := by
  unfold read16 write16
  simp only [if_true, show o + 1 ≠ o by omega, if_false]
  omega

theorem read16_write16_other (b : Nat → Nat) (o v o1 : Nat)
    (h : o + 2 ≤ o1 ∨ o1 + 2 ≤ o) : read16 (write16 b o v) o1 = read16 b o1 := by
  unfold read16 write16
  simp only [show o1 ≠ o by omega, show o1 ≠ o + 1 by omega, show o1 + 1 ≠ o by omega,
    show o1 + 1 ≠ o + 1 by omega, if_false]

theorem read32_write32_same (b : Nat → Nat) (o v : Nat) :
    read32 (write32 b o v) o = v % 4294967296 := by
  unfold read32 read16 write32
  simp only [if_true, show o + 1 ≠ o by omega, show o + 2 ≠ o by omega,
    show o + 2 ≠ o + 1 by omega, show o + 2 + 1 ≠ o by omega, show o + 2 + 1 ≠ o + 1 by omega,
    show o + 2 + 1 ≠ o + 2 by omega, show o + 2 + 1 = o + 3 by omega, if_false]
  omega

theorem read32_write32_other (b : Nat → Nat) (o v o1 : Nat)
    (h : o + 4 ≤ o1 ∨ o1 + 4 ≤ o) : read32 (write32 b o v) o1 = read32 b o1 := by
  unfold read32 read16 write32
  simp only [show o1 ≠ o by omega, show o1 ≠ o + 1 by omega, show o1 ≠ o + 2 by omega,
    show o1 ≠ o + 3 by omega, show o1 + 1 ≠ o by omega, show o1 + 1 ≠ o + 1 by omega,
    show o1 + 1 ≠ o + 2 by omega, show o1 + 1 ≠ o + 3 by omega, show o1 + 2 ≠ o by omega,
    show o1 + 2 ≠ o + 1 by omega, show o1 + 2 ≠ o + 2 by omega, show o1 + 2 ≠ o + 3 by omega,
    show o1 + 2 + 1 ≠ o by omega, show o1 + 2 + 1 ≠ o + 1 by omega,
    show o1 + 2 + 1 ≠ o + 2 by omega, show o1 + 2 + 1 ≠ o + 3 by omega, if_false]

/-! ## `fat_get_next_cluster` and `fat_set_next_cluster` -/

theorem fat_get_next_cluster_frame (sd : sdcard_t) (c : Nat) :
    io_step sd (fat_get_next_cluster sd c).2 ∧ (fat_get_next_cluster sd c).2.card = sd.card ∧
      (coherent sd → coherent (fat_get_next_cluster sd c).2) := by
  have hr := fun lba => sd_read_block_frame sd lba
  unfold fat_get_next_cluster
  simp only
  repeat' split
  all_goals first | exact ⟨io_step_refl sd, rfl, id⟩ | exact hr _

theorem fat_get_next_cluster_eoc (sd : sdcard_t) :
    fat_get_next_cluster sd 0xFFFFFFFF = (0xFFFFFFFF, sd) := by
  have h : (4294967295 : Nat) &&& 268435455 = 268435455 := by decide
  unfold fat_get_next_cluster
  by_cases hf : sd.fattype = FAT16
  · simp [hf]
  · simp [hf, h]

/-- On a well-formed volume with a coherent cache, `fat_get_next_cluster` of a cluster
in range answers the normalised entry stored on the card. -/
theorem fat_get_next_cluster_valid {sd : sdcard_t} (hv : volume_ok sd) (hco : coherent sd)
    (hr : reads_ok sd) {c : Nat} (hc : c ≤ sd.data_clusters + 1) :
    (fat_get_next_cluster sd c).1 = norm_entry sd (fat_entry_on_card sd c) := by
  obtain ⟨_, _, hne⟩ := volume_ok_fat_lba hv hc
  obtain ⟨b, h, _⟩ := fat_get_next_cluster_eq sd c hv.blocksize (volume_ok_below hv hc)
    (by rw [volume_ok_u32_dc hv]; exact hc) (volume_ok_sector_le hv hc) (hr _)
    (coherent_cache_ok hco _ hne)
  rw [h]

theorem sd_write_block_frame (s : sdcard_t) (lba : Nat) :
    io_step s (sd_write_block s lba).2 := by
  unfold sd_write_block
  split
  · exact io_step_refl s
  · split
    · exact ⟨s.loaded_sector, s.buffer, _, rfl⟩
    · exact io_step_refl s

theorem fat_set_next_cluster_frame (sd : sdcard_t) (c v : Nat) :
    io_step sd (fat_set_next_cluster sd c v).2 := by
  have hr := fun lba => (sd_read_block_frame sd lba).1
  unfold fat_set_next_cluster
  simp only
  repeat' split
  all_goals first
    | exact io_step_refl sd
    | exact hr _
    | exact io_step_trans (io_step_trans (hr _) ⟨_, _, _, rfl⟩) (sd_write_block_frame _ _)

/-- On a well-formed volume with working I/O and a coherent cache,
`fat_set_next_cluster` of a cluster in range succeeds, stores exactly the entry, and
leaves the cache coherent on the FAT sector. -/
theorem fat_set_next_cluster_valid {sd : sdcard_t} (hv : volume_ok sd) (hco : coherent sd)
    (hr : reads_ok sd) (hw : writes_ok sd) {c : Nat} (hc : c ≤ sd.data_clusters + 1)
    (v : Nat) :
    (fat_set_next_cluster sd c v).1 = 1 ∧
      (fat_set_next_cluster sd c v).2.card = fat_store sd c v ∧
      (fat_set_next_cluster sd c v).2.loaded_sector = fat_entry_lba sd c ∧
      coherent (fat_set_next_cluster sd c v).2 := by
  obtain ⟨_, _, hne⟩ := volume_ok_fat_lba hv hc
  obtain ⟨h1, b, h2, h3⟩ := sd_read_block_ok sd _ (hr (fat_entry_lba sd c))
    (coherent_cache_ok hco _ hne)
  have hbs := hv.blocksize
  rw [hbs] at h3
  have hbe := volume_ok_below hv hc
  have hse := volume_ok_sector_le hv hc
  have hu := volume_ok_u32_dc hv
  unfold fat_entry_lba at h1 h2
  unfold fat_set_next_cluster
  by_cases hf : sd.fattype = FAT16
  · have hc' : c < 0xFFF8 := by simpa [below_eoc, hf] using hbe
    have ho := fat_entry_offset_fat16 sd c hbs hf
    simp only [hf, true_and, if_true, not_true_eq_false, false_and, if_false, ne_eq]
    rw [if_neg (by omega), if_neg (by omega), if_neg (by omega), if_neg (by omega)]
    simp only [hf] at h1 h2
    rw [h2]
    unfold sd_write_block
    simp only [hw.1, ne_eq, not_true_eq_false, if_false, hw.2, if_true]
    simp only [show (1 : Nat) ≠ 0 by omega, if_false]
    refine ⟨trivial, ?_, by simp [fat_entry_lba, hf], ?_⟩
    · funext l i
      unfold fat_store fat_entry_lba
      simp only [hf, if_true, hbs]
      by_cases hl : l = u32 (sd.fat_begin_sector + fat_entry_sector sd c)
      · subst hl
        by_cases hi : i < 512
        · simp only [hi, and_self, if_true, write16]
          split
          · rfl
          · split
            · rfl
            · exact h3 i hi
        · have e1 : i ≠ fat_entry_offset sd c := by omega
          have e2 : i ≠ fat_entry_offset sd c + 1 := by omega
          simp [hi, write16, e1, e2]
      · simp only [hl, false_and, if_false]
    · intro _ i hi
      simp only [hbs] at hi
      simp only [hbs, hi, and_self, if_true]
  · have hc' : c < 0x0FFFFFF8 := by simpa [below_eoc, hf] using hbe
    have ho := fat_entry_offset_fat32 sd c hbs hf
    simp only [hf, false_and, if_false, not_false_eq_true, true_and, ne_eq, land_below c hc']
    rw [if_neg (by omega), if_neg (by omega), if_neg (by omega), if_neg (by omega)]
    rw [h2]
    unfold sd_write_block
    simp only [hw.1, ne_eq, not_true_eq_false, if_false, hw.2, if_true]
    simp only [show (1 : Nat) ≠ 0 by omega, if_false]
    refine ⟨trivial, ?_, by simp [fat_entry_lba, hf], ?_⟩
    · funext l i
      unfold fat_store fat_entry_lba
      simp only [hf, if_false, hbs]
      by_cases hl : l = u32 (sd.fat_begin_sector + fat_entry_sector sd c)
      · subst hl
        by_cases hi : i < 512
        · simp only [hi, and_self, if_true, write32]
          split
          · rfl
          · split
            · rfl
            · split
              · rfl
              · split
                · rfl
                · exact h3 i hi
        · have e1 : i ≠ fat_entry_offset sd c := by omega
          have e2 : i ≠ fat_entry_offset sd c + 1 := by omega
          have e3 : i ≠ fat_entry_offset sd c + 2 := by omega
          have e4 : i ≠ fat_entry_offset sd c + 3 := by omega
          simp [hi, write32, e1, e2, e3, e4]
      · simp only [hl, false_and, if_false]
    · intro _ i hi
      simp only [hbs] at hi
      simp only [hbs, hi, and_self, if_true]

/-! ## C8: successor read -/

/-- C8 (successor read and end-of-chain normalisation).  For a cluster number `c`
below the end-of-chain range, in range (`c ≤ data_clusters + 1`), whose FAT sector is
inside the FAT, readable and not misrepresented by the cache, `fat_get_next_cluster`
returns `0xFFFFFFFF` when the stored entry `v` (16-bit word on FAT16, 32-bit word
masked to 28 bits on FAT32) is at least `0xFFF8`, resp. `0x0FFFFFF8`, and `v`
otherwise; a FAT16 entry `0xFFF8` reads as `0xFFFFFFFF`, a FAT16 entry `0xFFF7` as
`0xFFF7`. -/
theorem fat_get_next_cluster_normalizes (sd : sdcard_t) (c : Nat)
    (hbs : sd.blocksize = 512) (hc : below_eoc sd c)
    (hrange : c ≤ u32 (sd.data_clusters + 1))
    (hsec : fat_entry_sector sd c ≤ sd.fat_sectors)
    (hread : sd.card_read_ok (fat_entry_lba sd c) = true)
    (hcache : cache_ok sd (fat_entry_lba sd c)) :
    (sd.fattype = FAT16 →
      (fat_get_next_cluster sd c).1 =
        (if fat_entry_on_card sd c ≥ 0xFFF8 then 0xFFFFFFFF else fat_entry_on_card sd c)) ∧
    (sd.fattype ≠ FAT16 →
      (fat_get_next_cluster sd c).1 =
        (if fat_entry_on_card sd c % 0x10000000 ≥ 0x0FFFFFF8 then 0xFFFFFFFF
         else fat_entry_on_card sd c % 0x10000000)) ∧
    (sd.fattype = FAT16 → fat_entry_on_card sd c = 0xFFF8 →
      (fat_get_next_cluster sd c).1 = 0xFFFFFFFF) ∧
    (sd.fattype = FAT16 → fat_entry_on_card sd c = 0xFFF7 →
      (fat_get_next_cluster sd c).1 = 0xFFF7) := by
  obtain ⟨b, h, _⟩ := fat_get_next_cluster_eq sd c hbs hc hrange hsec hread hcache
  rw [h]
  refine ⟨fun hf => ?_, fun hf => ?_, fun hf hv => ?_, fun hf hv => ?_⟩
  · simp [norm_entry, hf]
  · simp [norm_entry, hf]
  · simp [norm_entry, hf, hv]
  · simp [norm_entry, hf, hv]

/-- Instance of C8 on a FAT16 volume whose entry of cluster 3 is `0xFFF7`. -/
theorem fat_get_next_cluster_normalizes_witness :
    (fat_get_next_cluster (demo16 [0xFFF8, 0xFFFF, 0xFFF8, 0xFFF7] 0) 2).1 = 0xFFFFFFFF ∧
    (fat_get_next_cluster (demo16 [0xFFF8, 0xFFFF, 0xFFF8, 0xFFF7] 0) 3).1 = 0xFFF7 :=
  ⟨(fat_get_next_cluster_normalizes (demo16 [0xFFF8, 0xFFFF, 0xFFF8, 0xFFF7] 0) 2 rfl
      (by decide) (by decide) (by decide) rfl (fun h => absurd h (by decide))).2.2.1 rfl
      (by decide),
   (fat_get_next_cluster_normalizes (demo16 [0xFFF8, 0xFFFF, 0xFFF8, 0xFFF7] 0) 3 rfl
      (by decide) (by decide) (by decide) rfl (fun h => absurd h (by decide))).2.2.2 rfl
      (by decide)⟩


/-! ## C7: free-cluster search -/

theorem fat_entry_on_card_eq_in (sd : sdcard_t) (c : Nat) :
    fat_entry_on_card sd c = fat_entry_in sd sd.card c := rfl

theorem io_step_fat_entry_on_card {sd sd1 : sdcard_t} (h : io_step sd sd1) (c : Nat) :
    fat_entry_on_card sd1 c = fat_entry_in sd sd1.card c := by
  obtain ⟨l, b, k, rfl⟩ := h; rfl

theorem io_step_fat_entry_same {sd sd1 : sdcard_t} (h : io_step sd sd1)
    (hc : sd1.card = sd.card) (c : Nat) :
    fat_entry_on_card sd1 c = fat_entry_on_card sd c := by
  rw [io_step_fat_entry_on_card h, hc]; rfl

/-- The word that the free-cluster scan inspects, after the FAT sector was read. -/
theorem fat_scan_value {sd : sdcard_t} (hv : volume_ok sd) {c : Nat}
    (b : Nat → Nat)
    (hb : ∀ i, i < sd.blocksize → b i = sd.card (fat_entry_lba sd c) i) :
    (if sd.fattype = FAT16 then read16 b (fat_entry_offset sd c)
      else read32 b (fat_entry_offset sd c)) = fat_entry_on_card sd c := by
  have hbs := hv.blocksize
  rw [hbs] at hb
  unfold fat_entry_on_card
  by_cases hf : sd.fattype = FAT16
  · have ho := fat_entry_offset_fat16 sd c hbs hf
    rw [if_pos hf, if_pos hf]
    exact read16_congr _ _ _ (hb _ (by omega)) (hb _ (by omega))
  · have ho := fat_entry_offset_fat32 sd c hbs hf
    rw [if_neg hf, if_neg hf]
    exact read32_congr _ _ _ (hb _ (by omega)) (hb _ (by omega)) (hb _ (by omega))
      (hb _ (by omega))

/-- The scan loop of `fat_get_next_free_cluster` is a first-fit search. -/
theorem fat_get_next_free_cluster_loop_spec :
    ∀ (fuel : Nat) (sd : sdcard_t) (c : Nat), volume_ok sd → coherent sd → reads_ok sd →
      sd.data_clusters + 3 ≤ fuel + c → 0 < fuel →
      ∃ r sd1, fat_get_next_free_cluster_loop fuel sd c = some (r, sd1) ∧
        io_step sd sd1 ∧ sd1.card = sd.card ∧ coherent sd1 ∧
        ((c ≤ r ∧ r ≤ sd.data_clusters + 1 ∧ fat_entry_on_card sd r = 0 ∧
            ∀ x, c ≤ x → x < r → fat_entry_on_card sd x ≠ 0) ∨
          (r = 0 ∧ ∀ x, c ≤ x → x ≤ sd.data_clusters + 1 → fat_entry_on_card sd x ≠ 0)) := by
  intro fuel
  induction fuel with
  | zero => intro sd c _ _ _ _ h; omega
  | succ f ih =>
    intro sd c hv hco hr hfuel _
    unfold fat_get_next_free_cluster_loop
    simp only
    rw [volume_ok_u32_dc hv]
    by_cases hc : c > sd.data_clusters + 1
    · rw [if_pos hc]
      exact ⟨0, sd, rfl, io_step_refl sd, rfl, hco, Or.inr ⟨rfl, fun x h1 h2 => by omega⟩⟩
    · rw [if_neg hc]
      have hc' : c ≤ sd.data_clusters + 1 := by omega
      have hse := volume_ok_sector_le hv hc'
      rw [if_neg (by omega)]
      obtain ⟨hl1, _, hl3⟩ := volume_ok_fat_lba hv hc'
      have hrd := sd_read_block_loaded sd (fat_entry_lba sd c) hco hl3 (hr _)
      have hfr := sd_read_block_frame sd (fat_entry_lba sd c)
      unfold fat_entry_lba at hrd hfr
      rw [if_neg (by rw [hrd.1]; omega)]
      rw [fat_scan_value hv (c := c) _ hrd.2.2]
      by_cases hz : fat_entry_on_card sd c = 0
      · rw [if_pos hz]
        exact ⟨c, _, rfl, hfr.1, hfr.2.1, hfr.2.2 hco,
          Or.inl ⟨le_refl c, hc', hz, fun x h1 h2 => by omega⟩⟩
      · rw [if_neg hz]
        have hdc := volume_ok_dc_lt hv
        have hu : u32 (c + 1) = c + 1 := by unfold u32; omega
        rw [hu]
        have hv1 := io_step_volume_ok hfr.1 hv
        have hd1 := io_step_data_clusters hfr.1
        obtain ⟨r, sd1, e, hs, hcard, hco1, hres⟩ :=
          ih _ (c + 1) hv1 (hfr.2.2 hco) (io_step_reads_ok hfr.1 hr)
            (by rw [hd1]; omega) (by omega)
        refine ⟨r, sd1, e, io_step_trans hfr.1 hs, by rw [hcard, hfr.2.1], hco1, ?_⟩
        have hent : ∀ x, fat_entry_on_card
            (sd_read_block sd (u32 (sd.fat_begin_sector + fat_entry_sector sd c))).2 x =
              fat_entry_on_card sd x := io_step_fat_entry_same hfr.1 hfr.2.1
        rw [hd1] at hres
        simp only [hent] at hres
        rcases hres with ⟨h1, h2, h3, h4⟩ | ⟨h1, h2⟩
        · refine Or.inl ⟨by omega, h2, h3, fun x hx1 hx2 => ?_⟩
          by_cases hxc : x = c
          · subst hxc; exact hz
          · exact h4 x (by omega) hx2
        · refine Or.inr ⟨h1, fun x hx1 hx2 => ?_⟩
          by_cases hxc : x = c
          · subst hxc; exact hz
          · exact h2 x (by omega) hx2


theorem demo16_volume_ok (fat : List Nat) (size : Nat) : volume_ok (demo16 fat size) :=
  ⟨rfl, by simp only [demo16]; decide, by simp only [demo16, below_eoc]; decide,
    by simp only [demo16, fat_entry_sector, u32]; decide, by simp only [demo16]; decide,
    by simp only [demo16]; decide⟩

theorem demo32_volume_ok (fat : List Nat) (size : Nat) : volume_ok (demo32 fat size) :=
  ⟨rfl, by simp only [demo32]; decide, by simp only [demo32, below_eoc]; decide,
    by simp only [demo32, fat_entry_sector, u32]; decide, by simp only [demo32]; decide,
    by simp only [demo32]; decide⟩

theorem demo16_coherent (fat : List Nat) (size : Nat) : coherent (demo16 fat size) :=
  fun h => absurd rfl h

theorem demo32_coherent (fat : List Nat) (size : Nat) : coherent (demo32 fat size) :=
  fun h => absurd rfl h

theorem demo16_reads_ok (fat : List Nat) (size : Nat) : reads_ok (demo16 fat size) :=
  fun _ => rfl

theorem demo32_reads_ok (fat : List Nat) (size : Nat) : reads_ok (demo32 fat size) :=
  fun _ => rfl

theorem demo16_writes_ok (fat : List Nat) (size : Nat) : writes_ok (demo16 fat size) :=
  ⟨rfl, fun _ => rfl⟩

theorem demo32_writes_ok (fat : List Nat) (size : Nat) : writes_ok (demo32 fat size) :=
  ⟨rfl, fun _ => rfl⟩

/-- Helper: `fat_get_next_free_cluster` as a first-fit search, with the frame and
coherence facts that callers need. -/
theorem fat_get_next_free_cluster_aux (fuel : Nat) (sd : sdcard_t) (from_ : Nat)
    (hv : volume_ok sd) (hco : coherent sd) (hr : reads_ok sd)
    (hfrom : below_eoc sd from_)
    (hfuel : sd.data_clusters + 3 ≤ fuel + from_) (hpos : 0 < fuel) :
    ∃ r sd1, fat_get_next_free_cluster fuel sd from_ = some (r, sd1) ∧
      io_step sd sd1 ∧ sd1.card = sd.card ∧ coherent sd1 ∧
      ((from_ ≤ r ∧ r ≤ sd.data_clusters + 1 ∧ fat_entry_on_card sd r = 0 ∧
          ∀ x, from_ ≤ x → x < r → fat_entry_on_card sd x ≠ 0) ∨
        (r = 0 ∧ ∀ x, from_ ≤ x → x ≤ sd.data_clusters + 1 → fat_entry_on_card sd x ≠ 0)) := by
  obtain ⟨r, sd1, e, hs, hcard, hco1, hres⟩ :=
    fat_get_next_free_cluster_loop_spec fuel sd from_ hv hco hr hfuel hpos
  refine ⟨r, sd1, ?_, hs, hcard, hco1, hres⟩
  unfold fat_get_next_free_cluster
  unfold below_eoc at hfrom
  by_cases hf : sd.fattype = FAT16
  · rw [if_pos hf] at hfrom
    simp only [hf, true_and, if_true, not_true_eq_false, false_and, if_false, ne_eq]
    rw [if_neg (by omega)]
    exact e
  · rw [if_neg hf] at hfrom
    simp only [hf, false_and, if_false, not_false_eq_true, true_and, ne_eq,
      land_below from_ hfrom]
    rw [if_neg (by omega)]
    exact e

/-- C7 (free-cluster search is first-fit).  On a well-formed volume (FAT large enough
for the entries of all `data_clusters + 2` cluster numbers) with readable blocks and
a coherent cache, for a start cluster `from` below the end-of-chain range,
`fat_get_next_free_cluster` terminates (any fuel of at least
`data_clusters + 3 - from` and at least 1 is enough), leaves the card unchanged and
returns the smallest `r` with `from ≤ r ≤ data_clusters + 1` whose stored FAT word is
0, every cluster in `[from, r)` having a non-zero word; it returns 0 when no cluster
in `[from, data_clusters + 1]` has a zero word. -/
theorem fat_get_next_free_cluster_first_fit (fuel : Nat) (sd : sdcard_t) (from_ : Nat)
    (hv : volume_ok sd) (hco : coherent sd) (hr : reads_ok sd)
    (hfrom : below_eoc sd from_)
    (hfuel : sd.data_clusters + 3 ≤ fuel + from_) (hpos : 0 < fuel) :
    ∃ r sd1, fat_get_next_free_cluster fuel sd from_ = some (r, sd1) ∧
      sd1.card = sd.card ∧
      ((from_ ≤ r ∧ r ≤ sd.data_clusters + 1 ∧ fat_entry_on_card sd r = 0 ∧
          ∀ x, from_ ≤ x → x < r → fat_entry_on_card sd x ≠ 0) ∨
        (r = 0 ∧ ∀ x, from_ ≤ x → x ≤ sd.data_clusters + 1 → fat_entry_on_card sd x ≠ 0)) := by
  obtain ⟨r, sd1, e, _, hcard, _, hres⟩ :=
    fat_get_next_free_cluster_aux fuel sd from_ hv hco hr hfrom hfuel hpos
  exact ⟨r, sd1, e, hcard, hres⟩

/-- Instance of C7: a FAT16 volume whose clusters 2 and 3 are in use, searched from
cluster 2. -/
theorem fat_get_next_free_cluster_first_fit_witness :
    ∃ r sd1, fat_get_next_free_cluster 5001 (demo16 [0xFFF8, 0xFFFF, 3, 0xFFFF] 0) 2
        = some (r, sd1) ∧
      sd1.card = (demo16 [0xFFF8, 0xFFFF, 3, 0xFFFF] 0).card ∧
      ((2 ≤ r ∧ r ≤ (demo16 [0xFFF8, 0xFFFF, 3, 0xFFFF] 0).data_clusters + 1 ∧
          fat_entry_on_card (demo16 [0xFFF8, 0xFFFF, 3, 0xFFFF] 0) r = 0 ∧
          ∀ x, 2 ≤ x → x < r → fat_entry_on_card (demo16 [0xFFF8, 0xFFFF, 3, 0xFFFF] 0) x ≠ 0) ∨
        (r = 0 ∧ ∀ x, 2 ≤ x → x ≤ (demo16 [0xFFF8, 0xFFFF, 3, 0xFFFF] 0).data_clusters + 1 →
          fat_entry_on_card (demo16 [0xFFF8, 0xFFFF, 3, 0xFFFF] 0) x ≠ 0)) :=
  fat_get_next_free_cluster_first_fit 5001 (demo16 [0xFFF8, 0xFFFF, 3, 0xFFFF] 0) 2
    (demo16_volume_ok _ _) (demo16_coherent _ _) (demo16_reads_ok _ _) (by decide)
    (by decide) (by decide)


/-! ## C5: cluster allocation -/

theorem fat_store_eq_in (sd : sdcard_t) (c v : Nat) :
    fat_store sd c v = fat_store_in sd sd.card c v := rfl

theorem io_step_fat_store {sd sd1 : sdcard_t} (h : io_step sd sd1) (c v : Nat) :
    fat_store sd1 c v = fat_store_in sd sd1.card c v := by
  obtain ⟨l, b, k, rfl⟩ := h; rfl

theorem fat_entry_in_store_same (sd : sdcard_t) (card : Nat → Nat → Nat) (c v : Nat) :
    fat_entry_in sd (fat_store_in sd card c v) c = fat_trunc sd v := by
  unfold fat_entry_in fat_store_in fat_trunc
  by_cases hf : sd.fattype = FAT16
  · simp only [hf, if_true]
    rw [read16_write16_same]; unfold u16; omega
  · simp only [hf, if_false, if_true]
    rw [read32_write32_same]; unfold u32; omega

theorem fat_entry_in_store_other {sd : sdcard_t} (hv : volume_ok sd)
    (card : Nat → Nat → Nat) {c d : Nat} (v : Nat)
    (hc : c ≤ sd.data_clusters + 1) (hd : d ≤ sd.data_clusters + 1) (hne : d ≠ c) :
    fat_entry_in sd (fat_store_in sd card c v) d = fat_entry_in sd card d := by
  unfold fat_entry_in fat_store_in
  by_cases hl : fat_entry_lba sd d = fat_entry_lba sd c
  · have hs : fat_entry_sector sd c = fat_entry_sector sd d := by
      have h1 := (volume_ok_fat_lba hv hc).1
      have h2 := (volume_ok_fat_lba hv hd).1
      omega
    rcases fat_entry_disjoint hv hc hd (Ne.symm hne) hs with ⟨hf, ho⟩ | ⟨hf, ho⟩
    · simp only [hf, if_true, hl]
      exact read16_write16_other _ _ _ _ ho
    · simp only [hf, if_false, hl, if_true]
      exact read32_write32_other _ _ _ _ ho
  · simp only [hl, if_false]

theorem fat_store_in_other_lba (sd : sdcard_t) (card : Nat → Nat → Nat) (c v l : Nat)
    (h : l ≠ fat_entry_lba sd c) : fat_store_in sd card c v l = card l := by
  unfold fat_store_in; rw [if_neg h]

/-- Normalisation of what was stored for a cluster number in range. -/
theorem norm_entry_trunc_cluster {sd : sdcard_t} (hv : volume_ok sd) {r : Nat}
    (hr : r ≤ sd.data_clusters + 1) : norm_entry sd (fat_trunc sd r) = r := by
  have hb := volume_ok_below hv hr
  unfold below_eoc at hb
  unfold norm_entry fat_trunc u16 u32
  by_cases hf : sd.fattype = FAT16
  · simp only [hf, if_true] at hb ⊢
    rw [Nat.mod_eq_of_lt (by omega), if_neg (by omega)]
  · simp only [hf, if_false] at hb ⊢
    rw [Nat.mod_eq_of_lt (by omega), Nat.mod_eq_of_lt (by omega), if_neg (by omega)]

theorem norm_entry_trunc_eoc (sd : sdcard_t) :
    norm_entry sd (fat_trunc sd 0xFFFFFFFF) = 0xFFFFFFFF := by
  unfold norm_entry fat_trunc u16 u32
  by_cases hf : sd.fattype = FAT16
  · simp [hf]
  · simp [hf]

/-- What `fat_allocate_cluster` does on a well-formed volume with working I/O. -/
theorem fat_allocate_cluster_spec (fuel : Nat) (sd : sdcard_t) (k : Nat)
    (hv : volume_ok sd) (hco : coherent sd) (hr : reads_ok sd) (hw : writes_ok sd)
    (hk : below_eoc sd k) (hfuel : sd.data_clusters + 3 ≤ fuel + k) (hpos : 0 < fuel) :
    (fat_allocate_cluster fuel sd k = none → False) ∧
    ∀ n sd1, fat_allocate_cluster fuel sd k = some (n, sd1) → n ≠ 0 →
      io_step sd sd1 ∧ coherent sd1 ∧ k ≤ n ∧ n ≤ sd.data_clusters + 1 ∧
      fat_entry_on_card sd n = 0 ∧ (∀ x, k ≤ x → x < n → fat_entry_on_card sd x ≠ 0) ∧
      sd1.card = fat_store_in sd (fat_store_in sd sd.card k n) n 0xFFFFFFFF := by
  obtain ⟨r, s1, e, hs1, hcard1, hco1, hres⟩ :=
    fat_get_next_free_cluster_aux fuel sd k hv hco hr hk hfuel hpos
  unfold fat_allocate_cluster
  rw [e]
  simp only
  refine ⟨fun h => ?_, fun n sd1 h hn => ?_⟩
  · split at h
    · exact Option.noConfusion h
    · split at h
      · exact Option.noConfusion h
      · split at h <;> exact Option.noConfusion h
  · by_cases hr0 : r = 0
    · rw [if_pos hr0] at h
      injection h with h; injection h with h1 h2; omega
    · rw [if_neg hr0] at h
      rcases hres with ⟨h1, h2, h3, h4⟩ | ⟨h1, _⟩
      swap
      · exact absurd h1 hr0
      have hv1 := io_step_volume_ok hs1 hv
      have hd1 := io_step_data_clusters hs1
      have hka : k ≤ s1.data_clusters + 1 := by rw [hd1]; omega
      obtain ⟨a1, a2, a3, a4⟩ := fat_set_next_cluster_valid hv1 hco1
        (io_step_reads_ok hs1 hr) (io_step_writes_ok hs1 hw) hka r
      have hsa := fat_set_next_cluster_frame s1 k r
      have hs2 := io_step_trans hs1 hsa
      have hv2 := io_step_volume_ok hs2 hv
      have hd2 := io_step_data_clusters hs2
      obtain ⟨b1, b2, b3, b4⟩ := fat_set_next_cluster_valid hv2 a4
        (io_step_reads_ok hs2 hr) (io_step_writes_ok hs2 hw)
        (c := r) (by rw [hd2]; exact h2) 0xFFFFFFFF
      have hsb := fat_set_next_cluster_frame (fat_set_next_cluster s1 k r).2 r 0xFFFFFFFF
      rw [if_neg (by rw [a1]; omega), if_neg (by rw [b1]; omega)] at h
      injection h with h; injection h with e1 e2
      subst e1; subst e2
      refine ⟨io_step_trans hs2 hsb, b4, h1, h2, h3, h4, ?_⟩
      rw [b2, io_step_fat_store hs2, a2, io_step_fat_store hs1, hcard1]


/-- C5 (as amended).  On a well-formed FAT16 or FAT32 volume with working block I/O
and a coherent cache, if `fat_allocate_cluster(k)` returns `n ≠ 0` then afterwards
`fat_get_next_cluster(k) ≠ 0` and
`fat_get_next_cluster(fat_get_next_cluster(k)) = 0xFFFFFFFF`; moreover
`fat_get_next_cluster(n) = 0xFFFFFFFF`, and `fat_get_next_cluster(k) = n` whenever
the FAT entry of `k` was non-zero before the call.  (When `k` itself is free the
search, which starts at `k`, returns `n = k`, and `fat_get_next_cluster(k)` is
`0xFFFFFFFF`.) -/
theorem fat_allocate_cluster_postcondition (fuel : Nat) (sd : sdcard_t) (k n : Nat)
    (sd1 : sdcard_t)
    (hv : volume_ok sd) (hco : coherent sd) (hr : reads_ok sd) (hw : writes_ok sd)
    (hk : below_eoc sd k) (hfuel : sd.data_clusters + 3 ≤ fuel + k) (hpos : 0 < fuel)
    (h : fat_allocate_cluster fuel sd k = some (n, sd1)) (hn : n ≠ 0) :
    (fat_get_next_cluster sd1 k).1 ≠ 0 ∧
    (fat_get_next_cluster (fat_get_next_cluster sd1 k).2 (fat_get_next_cluster sd1 k).1).1
      = 0xFFFFFFFF ∧
    (fat_get_next_cluster sd1 n).1 = 0xFFFFFFFF ∧
    (fat_entry_on_card sd k ≠ 0 → (fat_get_next_cluster sd1 k).1 = n) ∧
    (fat_entry_on_card sd k = 0 → n = k ∧ (fat_get_next_cluster sd1 k).1 = 0xFFFFFFFF) := by
  obtain ⟨hs, hco1, hkn, hnr, hz, hnz, hcard⟩ :=
    (fat_allocate_cluster_spec fuel sd k hv hco hr hw hk hfuel hpos).2 n sd1 h hn
  have hv1 := io_step_volume_ok hs hv
  have hr1 := io_step_reads_ok hs hr
  have hd1 := io_step_data_clusters hs
  have hkr : k ≤ sd.data_clusters + 1 := by omega
  have gk : (fat_get_next_cluster sd1 k).1 = norm_entry sd (fat_entry_in sd sd1.card k) := by
    rw [fat_get_next_cluster_valid hv1 hco1 hr1 (by rw [hd1]; exact hkr),
      io_step_norm_entry hs, io_step_fat_entry_on_card hs]
  have gn : ∀ s2 : sdcard_t, io_step sd1 s2 → s2.card = sd1.card → coherent s2 →
      (fat_get_next_cluster s2 n).1 = 0xFFFFFFFF := by
    intro s2 hs2 hc2 hco2
    have hs' := io_step_trans hs hs2
    rw [fat_get_next_cluster_valid (io_step_volume_ok hs' hv) hco2 (io_step_reads_ok hs' hr)
        (by rw [io_step_data_clusters hs']; exact hnr),
      io_step_norm_entry hs', io_step_fat_entry_on_card hs', hc2, hcard,
      fat_entry_in_store_same, norm_entry_trunc_eoc]
  have hcase : (k = n ∧ (fat_get_next_cluster sd1 k).1 = 0xFFFFFFFF) ∨
      (k ≠ n ∧ (fat_get_next_cluster sd1 k).1 = n) := by
    by_cases hkn' : k = n
    · left; refine ⟨hkn', ?_⟩
      rw [gk, hcard, hkn', fat_entry_in_store_same, norm_entry_trunc_eoc]
    · right; refine ⟨hkn', ?_⟩
      rw [gk, hcard, fat_entry_in_store_other hv _ _ hnr hkr hkn', fat_entry_in_store_same,
        norm_entry_trunc_cluster hv hnr]
  have hfr := fat_get_next_cluster_frame sd1 k
  refine ⟨?_, ?_, gn sd1 (io_step_refl sd1) rfl hco1, fun hne => ?_, fun he => ?_⟩
  · rcases hcase with ⟨_, e⟩ | ⟨_, e⟩ <;> rw [e] <;> omega
  · rcases hcase with ⟨_, e⟩ | ⟨_, e⟩
    · rw [e, fat_get_next_cluster_eoc]
    · rw [e]; exact gn _ hfr.1 hfr.2.1 (hfr.2.2 hco1)
  · rcases hcase with ⟨e, _⟩ | ⟨_, e⟩
    · subst e; exact absurd hz hne
    · exact e
  · rcases hcase with ⟨e, e2⟩ | ⟨e, _⟩
    · exact ⟨e.symm, e2⟩
    · exact absurd he (hnz k (le_refl k) (by omega))

set_option maxRecDepth 100000 in
theorem demo32_allocate_after_3 :
    (fat_allocate_cluster 262003 (demo32 [0x0FFFFFF8, 0x0FFFFFFF, 0x0FFFFFFF, 0x0FFFFFFF] 0) 3).map
      (fun r => r.1) = some 4 := by
  decide

/-- Instance of the amended C5: allocating after cluster 3, which is in use, on a
FAT32 volume whose cluster 4 is free. -/
theorem fat_allocate_cluster_postcondition_witness :
    ∃ sd1 : sdcard_t,
      (fat_get_next_cluster sd1 3).1 ≠ 0 ∧
      (fat_get_next_cluster (fat_get_next_cluster sd1 3).2 (fat_get_next_cluster sd1 3).1).1
        = 0xFFFFFFFF ∧
      (fat_get_next_cluster sd1 4).1 = 0xFFFFFFFF ∧
      (fat_entry_on_card (demo32 [0x0FFFFFF8, 0x0FFFFFFF, 0x0FFFFFFF, 0x0FFFFFFF] 0) 3 ≠ 0 →
        (fat_get_next_cluster sd1 3).1 = 4) ∧
      (fat_entry_on_card (demo32 [0x0FFFFFF8, 0x0FFFFFFF, 0x0FFFFFFF, 0x0FFFFFFF] 0) 3 = 0 →
        4 = 3 ∧ (fat_get_next_cluster sd1 3).1 = 0xFFFFFFFF) := by
  cases h : fat_allocate_cluster 262003
      (demo32 [0x0FFFFFF8, 0x0FFFFFFF, 0x0FFFFFFF, 0x0FFFFFFF] 0) 3 with
  | none => have := demo32_allocate_after_3; rw [h] at this; exact Option.noConfusion this
  | some r =>
    obtain ⟨n, sd1⟩ := r
    have hn : n = 4 := by
      have := demo32_allocate_after_3; rw [h] at this; simpa using this
    subst hn
    exact ⟨sd1, fat_allocate_cluster_postcondition 262003 _ 3 4 sd1 (demo32_volume_ok _ _)
      (demo32_coherent _ _) (demo32_reads_ok _ _) (demo32_writes_ok _ _) (by decide)
      (by decide) (by decide) h (by decide)⟩

set_option maxRecDepth 100000 in
theorem demo32_allocate_at_free_4 :
    (fat_allocate_cluster 262003 (demo32 [0x0FFFFFF8, 0x0FFFFFFF, 0x0FFFFFFF, 0x0FFFFFFF] 0) 4).map
      (fun r => (r.1, (fat_get_next_cluster r.2 4).1)) = some (4, 0xFFFFFFFF) := by
  decide

/-- Counterexample to C5 as stated: on a FAT32 volume whose cluster 4 is free,
`fat_allocate_cluster(4)` returns some `n ≠ 0` (namely 4), and afterwards
`fat_get_next_cluster(4)` is not `n` (it is `0xFFFFFFFF`). -/
theorem fat_allocate_cluster_free_start_counterexample :
    ∃ n sd1,
      fat_allocate_cluster 262003 (demo32 [0x0FFFFFF8, 0x0FFFFFFF, 0x0FFFFFFF, 0x0FFFFFFF] 0) 4
        = some (n, sd1) ∧ n ≠ 0 ∧ (fat_get_next_cluster sd1 4).1 ≠ n := by
  have e := demo32_allocate_at_free_4
  cases h : fat_allocate_cluster 262003
      (demo32 [0x0FFFFFF8, 0x0FFFFFFF, 0x0FFFFFFF, 0x0FFFFFFF] 0) 4 with
  | none => rw [h] at e; exact Option.noConfusion e
  | some r =>
    rw [h] at e
    simp only [Option.map_some', Option.some.injEq, Prod.mk.injEq] at e
    exact ⟨r.1, r.2, rfl, by omega, by omega⟩


/-! ## C9: sectors of a chain -/

theorem io_step_fat_next_in {sd sd1 : sdcard_t} (h : io_step sd sd1) (card : Nat → Nat → Nat) :
    fat_next_in sd1 card = fat_next_in sd card := by
  obtain ⟨l, b, k, rfl⟩ := h; rfl

theorem io_step_is_chain {sd sd1 : sdcard_t} (h : io_step sd sd1) (hc : sd1.card = sd.card)
    (cs : List Nat) : is_chain sd1 cs ↔ is_chain sd cs := by
  unfold is_chain
  rw [io_step_fat_next_in h, hc, io_step_data_clusters h]

theorem chain_links_head {next : Nat → Nat} {dc c : Nat} {rest : List Nat}
    (h : chain_links next dc (c :: rest)) : 2 ≤ c ∧ c ≤ dc + 1 := by
  cases rest with
  | nil => exact ⟨h.1, h.2.1⟩
  | cons d r => exact ⟨h.1, h.2.1⟩

theorem chain_links_mem {next : Nat → Nat} {dc : Nat} :
    ∀ {cs : List Nat}, chain_links next dc cs → ∀ c ∈ cs, 2 ≤ c ∧ c ≤ dc + 1
  | [], h, _, _ => False.elim h
  | [c], h, x, hx => by
    simp only [List.mem_singleton] at hx; subst hx; exact ⟨h.1, h.2.1⟩
  | c :: d :: rest, h, x, hx => by
    rcases List.mem_cons.1 hx with e | e
    · subst e; exact ⟨h.1, h.2.1⟩
    · exact chain_links_mem h.2.2.2 x e

theorem fat_get_next_cluster_next {sd : sdcard_t} (hv : volume_ok sd) (hco : coherent sd)
    (hr : reads_ok sd) {c : Nat} (hc : c ≤ sd.data_clusters + 1) :
    (fat_get_next_cluster sd c).1 = fat_next_in sd sd.card c :=
  fat_get_next_cluster_valid hv hco hr hc

theorem fat_read_sector_hops_eoc : ∀ (n : Nat) (sd : sdcard_t),
    fat_read_sector_hops n sd 0xFFFFFFFF = (0xFFFFFFFF, sd)
  | 0, _ => rfl
  | n + 1, sd => by
    unfold fat_read_sector_hops
    simp only [fat_get_next_cluster_eoc]
    exact fat_read_sector_hops_eoc n sd

theorem fat_read_sector_hops_frame : ∀ (n : Nat) (sd : sdcard_t) (c : Nat),
    io_step sd (fat_read_sector_hops n sd c).2 ∧ (fat_read_sector_hops n sd c).2.card = sd.card ∧
      (coherent sd → coherent (fat_read_sector_hops n sd c).2)
  | 0, sd, _ => ⟨io_step_refl sd, rfl, id⟩
  | n + 1, sd, c => by
    unfold fat_read_sector_hops
    simp only
    have h1 := fat_get_next_cluster_frame sd c
    have h2 := fat_read_sector_hops_frame n (fat_get_next_cluster sd c).2
      (fat_get_next_cluster sd c).1
    exact ⟨io_step_trans h1.1 h2.1, by rw [h2.2.1, h1.2.1], fun h => h2.2.2 (h1.2.2 h)⟩

/-- Following a well-formed chain for `n` hops yields its `n`-th cluster, or the
end-of-chain mark when the chain is shorter. -/
theorem fat_read_sector_hops_chain : ∀ (n : Nat) (sd : sdcard_t) (c : Nat) (rest : List Nat),
    volume_ok sd → coherent sd → reads_ok sd → is_chain sd (c :: rest) →
    (fat_read_sector_hops n sd c).1 = (c :: rest).getD n 0xFFFFFFFF
  | 0, _, _, _, _, _, _, _ => rfl
  | n + 1, sd, c, rest, hv, hco, hr, hch => by
    unfold fat_read_sector_hops
    simp only
    have hc := chain_links_head hch
    have hfr := fat_get_next_cluster_frame sd c
    rw [fat_get_next_cluster_next hv hco hr hc.2]
    cases rest with
    | nil =>
      have e : fat_next_in sd sd.card c = 0xFFFFFFFF := hch.2.2
      rw [e, fat_read_sector_hops_eoc]
      simp
    | cons d r =>
      have e : fat_next_in sd sd.card c = d := hch.2.2.1
      rw [e]
      have h := fat_read_sector_hops_chain n (fat_get_next_cluster sd c).2 d r
        (io_step_volume_ok hfr.1 hv) (hfr.2.2 hco) (io_step_reads_ok hfr.1 hr)
        ((io_step_is_chain hfr.1 hfr.2.1 _).2 hch.2.2.2)
      rw [h]
      simp

theorem getD_chain_mem {next : Nat → Nat} {dc : Nat} {cs : List Nat}
    (h : chain_links next dc cs) {n : Nat} (hn : n < cs.length) :
    2 ≤ cs.getD n 0xFFFFFFFF ∧ cs.getD n 0xFFFFFFFF ≤ dc + 1 := by
  apply chain_links_mem h
  rw [List.getD_eq_getElem _ _ hn]
  exact List.getElem_mem _

/-- Sectors of clusters in range have block addresses inside the data area. -/
theorem cluster_lba_bounds (sd : sdcard_t) {c r : Nat}
    (hc2 : 2 ≤ c) (hc : c ≤ sd.data_clusters + 1) (hr : r < sd.sectors_per_cluster) :
    sd.data_begin_sector ≤ cluster_lba sd c r ∧
    cluster_lba sd c r < sd.data_begin_sector + sd.data_clusters * sd.sectors_per_cluster := by
  unfold cluster_lba
  have h1 : (c - 2 + 1) * sd.sectors_per_cluster ≤ sd.data_clusters * sd.sectors_per_cluster :=
    Nat.mul_le_mul_right _ (by omega)
  rw [Nat.add_mul, Nat.one_mul] at h1
  omega

theorem fat_get_cluster_sector_valid {sd : sdcard_t} (hv : volume_ok sd) {c : Nat}
    (hc2 : 2 ≤ c) (hc : c ≤ sd.data_clusters + 1) :
    fat_get_cluster_sector sd c = cluster_lba sd c 0 := by
  have hb := cluster_lba_bounds sd hc2 hc hv.spc_pos
  have hd := hv.data_lba
  unfold cluster_lba at hb ⊢
  unfold fat_get_cluster_sector u32
  simp only [show ¬ c < 2 by omega, if_false]
  omega


theorem fat_read_sector_frame (sd : sdcard_t) (c s : Nat) :
    io_step sd (fat_read_sector sd c s).2 ∧ (fat_read_sector sd c s).2.card = sd.card ∧
      (coherent sd → coherent (fat_read_sector sd c s).2) := by
  have hr := fun lba => sd_read_block_frame sd lba
  have hh := fun n c => fat_read_sector_hops_frame n sd c
  have hr2 := fun n c lba => sd_read_block_frame (fat_read_sector_hops n sd c).2 lba
  unfold fat_read_sector
  simp only
  repeat' split
  all_goals first
    | exact ⟨io_step_refl sd, rfl, id⟩
    | exact hr _
    | exact hh _ _
    | exact ⟨io_step_trans (hh _ _).1 (hr2 _ _ _).1,
        by rw [(hr2 _ _ _).2.1, (hh _ _).2.1], fun h => (hr2 _ _ _).2.2 ((hh _ _).2.2 h)⟩

/-- Helper for C9: `fat_read_sector` along a well-formed chain. -/
theorem fat_read_sector_chain {sd : sdcard_t} (hv : volume_ok sd) (hco : coherent sd)
    (hr : reads_ok sd) {c : Nat} {rest : List Nat} (hch : is_chain sd (c :: rest)) (s : Nat) :
    (s / sd.sectors_per_cluster < (c :: rest).length →
      (fat_read_sector sd c s).1 = 1 ∧
      (fat_read_sector sd c s).2.loaded_sector =
        cluster_lba sd ((c :: rest).getD (s / sd.sectors_per_cluster) 0xFFFFFFFF)
          (s % sd.sectors_per_cluster) ∧
      ∀ i, i < 512 → (fat_read_sector sd c s).2.buffer i =
        sd.card (cluster_lba sd ((c :: rest).getD (s / sd.sectors_per_cluster) 0xFFFFFFFF)
          (s % sd.sectors_per_cluster)) i) ∧
    (¬ s / sd.sectors_per_cluster < (c :: rest).length → (fat_read_sector sd c s).1 = 0) := by
  have hc := chain_links_head hch
  have hbe := volume_ok_below hv hc.2
  have hhop := fat_read_sector_hops_chain (s / sd.sectors_per_cluster) sd c rest hv hco hr hch
  have hfr := fat_read_sector_hops_frame (s / sd.sectors_per_cluster) sd c
  have hpre : fat_read_sector sd c s =
      (if (fat_read_sector_hops (s / sd.sectors_per_cluster) sd c).1 = 0xFFFFFFFF then
        (0, (fat_read_sector_hops (s / sd.sectors_per_cluster) sd c).2)
      else
        (if (sd_read_block (fat_read_sector_hops (s / sd.sectors_per_cluster) sd c).2
              (u32 (fat_get_cluster_sector (fat_read_sector_hops (s / sd.sectors_per_cluster) sd c).2
                (fat_read_sector_hops (s / sd.sectors_per_cluster) sd c).1
                + (s - s / sd.sectors_per_cluster * sd.sectors_per_cluster)))).1 = 0 then
          (0, (sd_read_block (fat_read_sector_hops (s / sd.sectors_per_cluster) sd c).2
              (u32 (fat_get_cluster_sector (fat_read_sector_hops (s / sd.sectors_per_cluster) sd c).2
                (fat_read_sector_hops (s / sd.sectors_per_cluster) sd c).1
                + (s - s / sd.sectors_per_cluster * sd.sectors_per_cluster)))).2)
        else
          (1, (sd_read_block (fat_read_sector_hops (s / sd.sectors_per_cluster) sd c).2
              (u32 (fat_get_cluster_sector (fat_read_sector_hops (s / sd.sectors_per_cluster) sd c).2
                (fat_read_sector_hops (s / sd.sectors_per_cluster) sd c).1
                + (s - s / sd.sectors_per_cluster * sd.sectors_per_cluster)))).2))) := by
    unfold fat_read_sector
    unfold below_eoc at hbe
    by_cases hf : sd.fattype = FAT16
    · rw [if_pos hf] at hbe
      simp only [hf, true_and, if_true, not_true_eq_false, false_and, if_false, ne_eq]
      rw [if_neg (by omega), if_neg (by omega)]
    · rw [if_neg hf] at hbe
      simp only [hf, false_and, if_false, not_false_eq_true, true_and, ne_eq,
        land_below c hbe]
      rw [if_neg (by omega)]
  rw [hpre, hhop]
  constructor
  · intro hlt
    have hm := getD_chain_mem hch hlt
    set x := (c :: rest).getD (s / sd.sectors_per_cluster) 0xFFFFFFFF with hx
    have hdc := volume_ok_dc_lt hv
    have hmod : s - s / sd.sectors_per_cluster * sd.sectors_per_cluster
        = s % sd.sectors_per_cluster := by
      rw [Nat.mod_def, Nat.mul_comm]
    have hml := Nat.mod_lt s hv.spc_pos
    have hb := cluster_lba_bounds sd hm.1 hm.2 hml
    have hdl := hv.data_lba
    have htarget : u32 (fat_get_cluster_sector
        (fat_read_sector_hops (s / sd.sectors_per_cluster) sd c).2 x
          + (s - s / sd.sectors_per_cluster * sd.sectors_per_cluster))
        = cluster_lba sd x (s % sd.sectors_per_cluster) := by
      rw [io_step_fat_get_cluster_sector hfr.1, fat_get_cluster_sector_valid hv hm.1 hm.2, hmod]
      unfold cluster_lba at hb ⊢
      unfold u32
      omega
    rw [htarget]
    have hne : cluster_lba sd x (s % sd.sectors_per_cluster) ≠ EOC := by
      show _ ≠ 4294967295
      omega
    have hrd := sd_read_block_loaded (fat_read_sector_hops (s / sd.sectors_per_cluster) sd c).2
      (cluster_lba sd x (s % sd.sectors_per_cluster)) (hfr.2.2 hco) hne
      (io_step_reads_ok hfr.1 hr _)
    rw [io_step_blocksize hfr.1, hv.blocksize, hfr.2.1] at hrd
    rw [if_neg (by omega), if_neg (by rw [hrd.1]; omega)]
    exact ⟨rfl, hrd.2.1, hrd.2.2⟩
  · intro hge
    rw [List.getD_eq_default _ _ (by omega)]
    simp


/-- C9 (sector-within-chain translation).  On a well-formed volume with readable
blocks and a coherent cache, for a well-formed chain `c0 -> c1 -> ... -> ck -> EOC`
(the list `c0 :: rest`) and a sector offset `s` with `h = s / sectors_per_cluster`:
if `h ≤ k` then `fat_read_sector(c0, s)` succeeds, leaves the card unchanged and loads
exactly the block at `data_begin_sector + (c_h - 2) * sectors_per_cluster +
s mod sectors_per_cluster`; if `h > k` it fails.  `fat_get_cluster_sector(c)` is
`data_begin_sector + (c - 2) * sectors_per_cluster` in 32-bit arithmetic for every
`c ≥ 2`, and exactly that number for every cluster of the volume. -/
theorem fat_read_sector_translation (sd : sdcard_t) (c0 : Nat) (rest : List Nat) (s : Nat)
    (hv : volume_ok sd) (hco : coherent sd) (hr : reads_ok sd)
    (hch : is_chain sd (c0 :: rest)) :
    (s / sd.sectors_per_cluster < (c0 :: rest).length →
      (fat_read_sector sd c0 s).1 = 1 ∧
      (fat_read_sector sd c0 s).2.card = sd.card ∧
      (fat_read_sector sd c0 s).2.loaded_sector =
        sd.data_begin_sector
          + ((c0 :: rest).getD (s / sd.sectors_per_cluster) 0 - 2) * sd.sectors_per_cluster
          + s % sd.sectors_per_cluster ∧
      ∀ i, i < 512 → (fat_read_sector sd c0 s).2.buffer i =
        sd.card (sd.data_begin_sector
          + ((c0 :: rest).getD (s / sd.sectors_per_cluster) 0 - 2) * sd.sectors_per_cluster
          + s % sd.sectors_per_cluster) i) ∧
    (¬ s / sd.sectors_per_cluster < (c0 :: rest).length → (fat_read_sector sd c0 s).1 = 0) ∧
    (∀ c, 2 ≤ c → fat_get_cluster_sector sd c =
      (sd.data_begin_sector + (c - 2) * sd.sectors_per_cluster) % 4294967296) ∧
    (∀ c, 2 ≤ c → c ≤ sd.data_clusters + 1 → fat_get_cluster_sector sd c =
      sd.data_begin_sector + (c - 2) * sd.sectors_per_cluster) := by
  obtain ⟨h1, h2⟩ := fat_read_sector_chain hv hco hr hch s
  refine ⟨fun hlt => ?_, h2, fun c hc => ?_, fun c hc2 hc => ?_⟩
  · obtain ⟨a, b, d⟩ := h1 hlt
    have e : (c0 :: rest).getD (s / sd.sectors_per_cluster) 0
        = (c0 :: rest).getD (s / sd.sectors_per_cluster) 0xFFFFFFFF := by
      rw [List.getD_eq_getElem _ _ hlt, List.getD_eq_getElem _ _ hlt]
    rw [e]
    exact ⟨a, (fat_read_sector_frame sd c0 s).2.1, b, d⟩
  · unfold fat_get_cluster_sector u32
    simp only [show ¬ c < 2 by omega, if_false]
    omega
  · rw [fat_get_cluster_sector_valid hv hc2 hc]
    unfold cluster_lba; omega

set_option maxRecDepth 100000 in
theorem demo32_chain_3_4 :
    is_chain (demo32 [0x0FFFFFF8, 0x0FFFFFFF, 0x0FFFFFFF, 4, 0x0FFFFFFF] 0) [3, 4] := by
  simp only [is_chain, chain_links]
  decide

/-- Instance of C9: sector 9 of the chain `3 -> 4` on a FAT32 volume with 8 sectors
per cluster is sector 1 of cluster 4, block `4128 + 2 * 8 + 1`. -/
theorem fat_read_sector_translation_witness :
    (fat_read_sector (demo32 [0x0FFFFFF8, 0x0FFFFFFF, 0x0FFFFFFF, 4, 0x0FFFFFFF] 0) 3 9).1 = 1 ∧
    (fat_read_sector (demo32 [0x0FFFFFF8, 0x0FFFFFFF, 0x0FFFFFFF, 4, 0x0FFFFFFF] 0) 3 9).2.loaded_sector
      = 4145 ∧
    (fat_read_sector (demo32 [0x0FFFFFF8, 0x0FFFFFFF, 0x0FFFFFFF, 4, 0x0FFFFFFF] 0) 3 16).1 = 0 :=
  ⟨((fat_read_sector_translation _ 3 [4] 9 (demo32_volume_ok _ _) (demo32_coherent _ _)
      (demo32_reads_ok _ _) demo32_chain_3_4).1 (by decide)).1,
   ((fat_read_sector_translation _ 3 [4] 9 (demo32_volume_ok _ _) (demo32_coherent _ _)
      (demo32_reads_ok _ _) demo32_chain_3_4).1 (by decide)).2.2.1,
   (fat_read_sector_translation _ 3 [4] 16 (demo32_volume_ok _ _) (demo32_coherent _ _)
      (demo32_reads_ok _ _) demo32_chain_3_4).2.1 (by decide)⟩


/-! ## C6: freeing a chain -/

theorem sd_write_block_cache (s : sdcard_t) (lba : Nat) :
    (sd_write_block s lba).2.loaded_sector = s.loaded_sector ∧
    (sd_write_block s lba).2.buffer = s.buffer ∧
    ∀ l, l ≠ lba → (sd_write_block s lba).2.card l = s.card l := by
  unfold sd_write_block
  split
  · exact ⟨rfl, rfl, fun _ _ => rfl⟩
  · split
    · refine ⟨rfl, rfl, fun l hl => ?_⟩
      funext i
      simp only [hl, false_and, if_false]
    · exact ⟨rfl, rfl, fun _ _ => rfl⟩

/-- Writing a sector of the first cluster of a chain touches at most that block and
leaves the cache coherent. -/
theorem fat_write_sector_data_frame {sd : sdcard_t} (hv : volume_ok sd) (fuel : Nat)
    {c sector : Nat} (allocate : Nat) (hc2 : 2 ≤ c) (hc : c ≤ sd.data_clusters + 1)
    (hs : sector < sd.sectors_per_cluster) :
    ∃ r sd1, fat_write_sector fuel sd c sector allocate = some (r, sd1) ∧
      io_step sd sd1 ∧ (coherent sd → coherent sd1) ∧
      ∀ l, l ≠ cluster_lba sd c sector → sd1.card l = sd.card l := by
  have hbe := volume_ok_below hv hc
  have hdiv : sector / sd.sectors_per_cluster = 0 := Nat.div_eq_of_lt hs
  have hb := cluster_lba_bounds sd hc2 hc hs
  have hdl := hv.data_lba
  have htarget : u32 (fat_get_cluster_sector sd c + (sector - 0 * sd.sectors_per_cluster))
      = cluster_lba sd c sector := by
    rw [fat_get_cluster_sector_valid hv hc2 hc]
    unfold cluster_lba at hb ⊢
    unfold u32
    omega
  unfold fat_write_sector
  unfold below_eoc at hbe
  have hcl : (if sd.fattype = FAT16 then c else c &&& 0x0FFFFFFF) = c := by
    by_cases hf : sd.fattype = FAT16
    · rw [if_pos hf]
    · rw [if_neg hf] at hbe; rw [if_neg hf, land_below c hbe]
  have hg1 : ¬ (sd.fattype = FAT16 ∧ c ≥ 0xFFF8) := by
    rintro ⟨hf, h⟩; rw [if_pos hf] at hbe; omega
  have hg2 : ¬ (sd.fattype ≠ FAT16 ∧ c ≥ 0x0FFFFFF8) := by
    rintro ⟨hf, h⟩; rw [if_neg hf] at hbe; omega
  have hg3 : ¬ (sd.fattype = FAT16 ∧ c = 0) := by
    rintro ⟨_, h⟩; omega
  simp only [hcl]
  rw [if_neg hg1, if_neg hg2]
  by_cases hm : sd.malloc_ok = false
  · rw [if_pos hm]
    exact ⟨0, sd, rfl, io_step_refl sd, id, fun _ _ => rfl⟩
  · rw [if_neg hm, if_neg hg3, hdiv]
    simp only [fat_write_sector_hops, htarget]
    have hw := sd_write_block_cache
      { sd with loaded_sector := 0xFFFFFFFF
                buffer := memcpy sd.buffer 0 sd.buffer 0 sd.blocksize }
      (cluster_lba sd c sector)
    have hf := sd_write_block_frame
      { sd with loaded_sector := 0xFFFFFFFF
                buffer := memcpy sd.buffer 0 sd.buffer 0 sd.blocksize }
      (cluster_lba sd c sector)
    have hio : io_step sd (sd_write_block
      { sd with loaded_sector := 0xFFFFFFFF
                buffer := memcpy sd.buffer 0 sd.buffer 0 sd.blocksize }
      (cluster_lba sd c sector)).2 := io_step_trans ⟨_, _, _, rfl⟩ hf
    have hco : coherent (sd_write_block
      { sd with loaded_sector := 0xFFFFFFFF
                buffer := memcpy sd.buffer 0 sd.buffer 0 sd.blocksize }
      (cluster_lba sd c sector)).2 := by
      intro hne; rw [hw.1] at hne; exact absurd rfl hne
    split
    · exact ⟨_, _, rfl, hio, fun _ => hco, hw.2.2⟩
    · exact ⟨_, _, rfl, hio, fun _ => hco, hw.2.2⟩

/-- The data-clearing loop of `fat_free_cluster_chain` touches only sectors of the
cluster being cleared. -/
theorem fat_free_cluster_chain_clear_frame {sd0 : sdcard_t} (hv0 : volume_ok sd0) (fuel : Nat)
    {c : Nat} (hc2 : 2 ≤ c) (hc : c ≤ sd0.data_clusters + 1) :
    ∀ (n j : Nat) (sd : sdcard_t), io_step sd0 sd → j + n ≤ sd0.sectors_per_cluster →
      coherent sd →
      ∃ sd1, fat_free_cluster_chain_clear fuel c n j sd = some sd1 ∧ io_step sd sd1 ∧
        coherent sd1 ∧
        ∀ l, (∀ j1, j1 < sd0.sectors_per_cluster → l ≠ cluster_lba sd0 c j1) →
          sd1.card l = sd.card l
  | 0, _, sd, _, _, hco => ⟨sd, rfl, io_step_refl sd, hco, fun _ _ => rfl⟩
  | n + 1, j, sd, hio, hj, hco => by
    have hv := io_step_volume_ok hio hv0
    have hspc := io_step_sectors_per_cluster hio
    have hdc := io_step_data_clusters hio
    obtain ⟨r, s1, e, h1, h2, h3⟩ := @fat_write_sector_data_frame sd hv fuel c j 0
      hc2 (by rw [hdc]; exact hc) (by rw [hspc]; omega)
    obtain ⟨s2, e2, k1, k2, k3⟩ := fat_free_cluster_chain_clear_frame hv0 fuel hc2 hc n (j + 1)
      s1 (io_step_trans hio h1) (by omega) (h2 hco)
    unfold fat_free_cluster_chain_clear
    rw [e]
    simp only
    refine ⟨s2, e2, io_step_trans h1 k1, k2, fun l hl => ?_⟩
    rw [k3 l hl]
    apply h3
    have : cluster_lba sd c j = cluster_lba sd0 c j := by
      unfold cluster_lba
      rw [io_step_data_begin_sector hio, hspc]
    rw [this]
    exact hl j (by omega)


theorem io_step_fat_entry_in {sd sd1 : sdcard_t} (h : io_step sd sd1)
    (card : Nat → Nat → Nat) (c : Nat) : fat_entry_in sd1 card c = fat_entry_in sd card c := by
  obtain ⟨l, b, k, rfl⟩ := h; rfl

theorem io_step_cluster_lba {sd sd1 : sdcard_t} (h : io_step sd sd1) (c r : Nat) :
    cluster_lba sd1 c r = cluster_lba sd c r := by
  obtain ⟨l, b, k, rfl⟩ := h; rfl

theorem fat_entry_in_congr (sd : sdcard_t) (card card1 : Nat → Nat → Nat) (c : Nat)
    (h : card1 (fat_entry_lba sd c) = card (fat_entry_lba sd c)) :
    fat_entry_in sd card1 c = fat_entry_in sd card c := by
  unfold fat_entry_in; rw [h]

theorem fat_trunc_zero (sd : sdcard_t) : fat_trunc sd 0 = 0 := by
  unfold fat_trunc u16 u32; split <;> rfl

/-- FAT sectors and data sectors are different blocks. -/
theorem fat_lba_ne_cluster_lba {sd : sdcard_t} (hv : volume_ok sd) {d : Nat}
    (hd : d ≤ sd.data_clusters + 1) (c j : Nat) : fat_entry_lba sd d ≠ cluster_lba sd c j := by
  have h1 := (volume_ok_fat_lba hv hd).2.1
  have h2 := hv.fat_lba
  unfold cluster_lba
  omega

/-- One iteration of the loop of `fat_free_cluster_chain` on a cluster in range:
the entry of `c` becomes 0, no other entry changes, and besides the FAT sector of
`c` only data sectors of `c` may be written. -/
theorem fat_free_cluster_chain_loop_step (cleardata f : Nat) {sd : sdcard_t}
    (hv : volume_ok sd) (hco : coherent sd) (hr : reads_ok sd) (hw : writes_ok sd)
    {c : Nat} (hc2 : 2 ≤ c) (hc : c ≤ sd.data_clusters + 1) :
    ∃ t, fat_free_cluster_chain_loop cleardata (f + 1) sd c
          = fat_free_cluster_chain_loop cleardata f t (fat_next_in sd sd.card c) ∧
      io_step sd t ∧ coherent t ∧
      fat_entry_in sd t.card c = 0 ∧
      (∀ d, d ≤ sd.data_clusters + 1 → d ≠ c →
        fat_entry_in sd t.card d = fat_entry_in sd sd.card d) ∧
      (∀ l, l ≠ fat_entry_lba sd c →
        (∀ j, j < sd.sectors_per_cluster → l ≠ cluster_lba sd c j) → t.card l = sd.card l) := by
  have hdc := volume_ok_dc_lt hv
  have hg := fat_get_next_cluster_next hv hco hr hc
  have hgf := fat_get_next_cluster_frame sd c
  have hv1 := io_step_volume_ok hgf.1 hv
  obtain ⟨a1, a2, a3, a4⟩ := fat_set_next_cluster_valid hv1 (hgf.2.2 hco)
    (io_step_reads_ok hgf.1 hr) (io_step_writes_ok hgf.1 hw)
    (c := c) (by rw [io_step_data_clusters hgf.1]; exact hc) 0
  have hsf := fat_set_next_cluster_frame (fat_get_next_cluster sd c).2 c 0
  have hio := io_step_trans hgf.1 hsf
  rw [io_step_fat_store hgf.1, hgf.2.1] at a2
  have pa : fat_entry_in sd (fat_set_next_cluster (fat_get_next_cluster sd c).2 c 0).2.card c
      = 0 := by
    rw [a2, fat_entry_in_store_same, fat_trunc_zero]
  have pb : ∀ d, d ≤ sd.data_clusters + 1 → d ≠ c →
      fat_entry_in sd (fat_set_next_cluster (fat_get_next_cluster sd c).2 c 0).2.card d
        = fat_entry_in sd sd.card d := by
    intro d hd hne
    rw [a2, fat_entry_in_store_other hv _ _ hc hd hne]
  have pc : ∀ l, l ≠ fat_entry_lba sd c →
      (fat_set_next_cluster (fat_get_next_cluster sd c).2 c 0).2.card l = sd.card l := by
    intro l hl
    rw [a2, fat_store_in_other_lba _ _ _ _ _ hl]
  have hcond : c ≠ 0xFFFFFFFF ∧ c ≠ 0 := ⟨by omega, by omega⟩
  by_cases hcd : cleardata ≠ 0
  · have hio1 : io_step sd
        { (fat_set_next_cluster (fat_get_next_cluster sd c).2 c 0).2 with
          loaded_sector := 0xFFFFFFFF
          buffer := memset (fat_set_next_cluster (fat_get_next_cluster sd c).2 c 0).2.buffer 0x00
            (fat_set_next_cluster (fat_get_next_cluster sd c).2 c 0).2.blocksize } :=
      io_step_trans hio ⟨_, _, _, rfl⟩
    obtain ⟨s2, e2, k1, k2, k3⟩ := fat_free_cluster_chain_clear_frame hv f hc2 hc
      sd.sectors_per_cluster 0 _ hio1 (by omega) (fun hne => absurd rfl hne)
    refine ⟨s2, ?_, io_step_trans hio1 k1, k2, ?_, ?_, ?_⟩
    · conv_lhs => unfold fat_free_cluster_chain_loop
      simp only
      rw [if_pos hcond, if_pos hcd, e2, hg]
    · rw [fat_entry_in_congr sd _ _ c (k3 _ (fun j _ => fat_lba_ne_cluster_lba hv hc c j))]
      exact pa
    · intro d hd hne
      rw [fat_entry_in_congr sd _ _ d (k3 _ (fun j _ => fat_lba_ne_cluster_lba hv hd c j))]
      exact pb d hd hne
    · intro l hl hl2
      rw [k3 l hl2]
      exact pc l hl
  · refine ⟨_, ?_, hio, a4, pa, pb, fun l hl _ => pc l hl⟩
    conv_lhs => unfold fat_free_cluster_chain_loop
    simp only
    rw [if_pos hcond, if_neg hcd, hg]


theorem chain_links_congr {next next1 : Nat → Nat} {dc : Nat} :
    ∀ {cs : List Nat}, (∀ x ∈ cs, next1 x = next x) → chain_links next dc cs →
      chain_links next1 dc cs
  | [], _, h => h
  | [c], he, h => ⟨h.1, h.2.1, by rw [he c (List.mem_singleton.2 rfl)]; exact h.2.2⟩
  | c :: d :: rest, he, h =>
    ⟨h.1, h.2.1, by rw [he c (List.mem_cons_self _ _)]; exact h.2.2.1,
      chain_links_congr (fun x hx => he x (List.mem_cons_of_mem _ hx)) h.2.2.2⟩

theorem fat_free_cluster_chain_loop_stop (cleardata f : Nat) (sd : sdcard_t) :
    fat_free_cluster_chain_loop cleardata (f + 1) sd 0xFFFFFFFF = some (1, sd) := by
  unfold fat_free_cluster_chain_loop
  simp

/-- Helper for C6: the loop of `fat_free_cluster_chain` along a well-formed chain of
distinct clusters. -/
theorem fat_free_cluster_chain_loop_chain (cleardata : Nat) :
    ∀ (cs : List Nat) (c fuel : Nat) (sd : sdcard_t),
      volume_ok sd → coherent sd → reads_ok sd → writes_ok sd →
      is_chain sd (c :: cs) → (c :: cs).Nodup → cs.length + 2 ≤ fuel →
      ∃ sd1, fat_free_cluster_chain_loop cleardata fuel sd c = some (1, sd1) ∧
        io_step sd sd1 ∧ coherent sd1 ∧
        (∀ x ∈ c :: cs, fat_entry_in sd sd1.card x = 0) ∧
        (∀ d, d ≤ sd.data_clusters + 1 → d ∉ c :: cs →
          fat_entry_in sd sd1.card d = fat_entry_in sd sd.card d) ∧
        (∀ l, (∀ x ∈ c :: cs, l ≠ fat_entry_lba sd x) →
          (∀ x ∈ c :: cs, ∀ j, j < sd.sectors_per_cluster → l ≠ cluster_lba sd x j) →
          sd1.card l = sd.card l) := by
  intro cs
  induction cs with
  | nil =>
    intro c fuel sd hv hco hr hw hch _ hfuel
    obtain ⟨f, rfl⟩ : ∃ f, fuel = f + 2 := ⟨fuel - 2, by simp at hfuel; omega⟩
    have hc := chain_links_head hch
    obtain ⟨t, e, hio, hcot, pa, pb, pc⟩ :=
      fat_free_cluster_chain_loop_step cleardata (f + 1) hv hco hr hw hc.1 hc.2
    have hn : fat_next_in sd sd.card c = 0xFFFFFFFF := hch.2.2
    rw [hn, fat_free_cluster_chain_loop_stop] at e
    refine ⟨t, e, hio, hcot, ?_, ?_, ?_⟩
    · intro x hx
      rw [List.mem_singleton.1 hx]; exact pa
    · intro d hd hnd
      exact pb d hd (fun h => hnd (by rw [h]; exact List.mem_singleton.2 rfl))
    · intro l h1 h2
      exact pc l (h1 c (List.mem_singleton.2 rfl)) (h2 c (List.mem_singleton.2 rfl))
  | cons d rest ih =>
    intro c fuel sd hv hco hr hw hch hnd hfuel
    obtain ⟨f, rfl⟩ : ∃ f, fuel = f + 1 := ⟨fuel - 1, by simp at hfuel; omega⟩
    have hc := chain_links_head hch
    obtain ⟨t, e, hio, hcot, pa, pb, pc⟩ :=
      fat_free_cluster_chain_loop_step cleardata f hv hco hr hw hc.1 hc.2
    have hn : fat_next_in sd sd.card c = d := hch.2.2.1
    have htail : chain_links (fat_next_in sd sd.card) sd.data_clusters (d :: rest) := hch.2.2.2
    have hcn : c ∉ d :: rest := (List.nodup_cons.1 hnd).1
    have hnd2 : (d :: rest).Nodup := (List.nodup_cons.1 hnd).2
    have hdc := io_step_data_clusters hio
    have hcht : is_chain t (d :: rest) := by
      unfold is_chain
      rw [hdc, io_step_fat_next_in hio]
      refine chain_links_congr (fun x hx => ?_) htail
      have hxm := chain_links_mem htail x hx
      unfold fat_next_in
      rw [pb x hxm.2 (fun h => hcn (by rw [← h]; exact hx))]
    obtain ⟨sd1, e1, hio1, hco1, qa, qb, qc⟩ :=
      ih d f t (io_step_volume_ok hio hv) hcot (io_step_reads_ok hio hr)
        (io_step_writes_ok hio hw) hcht hnd2 (by simp at hfuel ⊢; omega)
    rw [hn, e1] at e
    simp only [io_step_fat_entry_in hio, hdc, io_step_fat_entry_lba hio,
      io_step_cluster_lba hio, io_step_sectors_per_cluster hio] at qa qb qc
    refine ⟨sd1, e, io_step_trans hio hio1, hco1, ?_, ?_, ?_⟩
    · intro x hx
      rcases List.mem_cons.1 hx with h | h
      · subst h
        rw [qb x hc.2 hcn]; exact pa
      · exact qa x h
    · intro y hy hny
      have hyc : y ≠ c := fun h => hny (by rw [h]; exact List.mem_cons_self _ _)
      have hyr : y ∉ d :: rest := fun h => hny (List.mem_cons_of_mem _ h)
      rw [qb y hy hyr, pb y hy hyc]
    · intro l h1 h2
      rw [qc l (fun x hx => h1 x (List.mem_cons_of_mem _ hx))
        (fun x hx => h2 x (List.mem_cons_of_mem _ hx))]
      exact pc l (h1 c (List.mem_cons_self _ _)) (h2 c (List.mem_cons_self _ _))


/-- C6 (free-chain postcondition).  On a well-formed volume (data area behind the
FAT) with working block I/O and a coherent cache, for a well-formed chain
`c0 -> ... -> ck -> EOC` of distinct clusters in range and either value of
`cleardata`, `fat_free_cluster_chain(c0, cleardata)` terminates (fuel `k + 2`
suffices) returning 1; afterwards the stored FAT entry of every `ci` is 0 and the
stored FAT entry of every other cluster number is unchanged. -/
theorem fat_free_cluster_chain_frees (fuel : Nat) (sd : sdcard_t) (c0 : Nat)
    (rest : List Nat) (cleardata : Nat)
    (hv : volume_ok sd) (hco : coherent sd) (hr : reads_ok sd) (hw : writes_ok sd)
    (hch : is_chain sd (c0 :: rest)) (hnd : (c0 :: rest).Nodup)
    (hfuel : rest.length + 2 ≤ fuel) :
    ∃ sd1, fat_free_cluster_chain fuel sd c0 cleardata = some (1, sd1) ∧
      (∀ x ∈ c0 :: rest, fat_entry_on_card sd1 x = 0) ∧
      (∀ d, d ≤ sd.data_clusters + 1 → d ∉ c0 :: rest →
        fat_entry_on_card sd1 d = fat_entry_on_card sd d) := by
  obtain ⟨sd1, e, hio, _, qa, qb, _⟩ :=
    fat_free_cluster_chain_loop_chain cleardata rest c0 fuel sd hv hco hr hw hch hnd hfuel
  refine ⟨sd1, e, fun x hx => ?_, fun d hd hnd => ?_⟩
  · rw [io_step_fat_entry_on_card hio]; exact qa x hx
  · rw [io_step_fat_entry_on_card hio]; exact qb d hd hnd

/-- Instance of C6: freeing the chain `3 -> 4` with `cleardata = 1` on a FAT32
volume. -/
theorem fat_free_cluster_chain_frees_witness :
    ∃ sd1, fat_free_cluster_chain 3
        (demo32 [0x0FFFFFF8, 0x0FFFFFFF, 0x0FFFFFFF, 4, 0x0FFFFFFF] 0) 3 1 = some (1, sd1) ∧
      (∀ x ∈ [3, 4], fat_entry_on_card sd1 x = 0) ∧
      (∀ d, d ≤ (demo32 [0x0FFFFFF8, 0x0FFFFFFF, 0x0FFFFFFF, 4, 0x0FFFFFFF] 0).data_clusters + 1 →
        d ∉ [3, 4] →
        fat_entry_on_card sd1 d
          = fat_entry_on_card (demo32 [0x0FFFFFF8, 0x0FFFFFFF, 0x0FFFFFFF, 4, 0x0FFFFFFF] 0) d) :=
  fat_free_cluster_chain_frees 3 _ 3 [4] 1 (demo32_volume_ok _ _) (demo32_coherent _ _)
    (demo32_reads_ok _ _) (demo32_writes_ok _ _) demo32_chain_3_4 (by decide) (by decide)


/-! ## Directories and lookup by long name -/

/-- Sectors of a well-formed directory lie behind the FAT and below `0xFFFFFFFF`. -/
theorem dir_sector_lba_bounds {sd : sdcard_t} (hv : volume_ok sd) {start : Nat}
    {cs : List Nat} (hd : is_dir sd start cs) {j : Nat}
    (hj : j < dir_sector_count sd start cs) :
    sd.fat_begin_sector + sd.fat_sectors < dir_sector_lba sd start cs j ∧
      dir_sector_lba sd start cs j < 0xFFFFFFFF := by
  have h1 := hv.fat_lba
  have h2 := hv.data_lba
  unfold is_dir at hd
  unfold dir_sector_count at hj
  unfold dir_sector_lba
  by_cases hroot : sd.fattype = FAT16 ∧ start = 0
  · rw [if_pos hroot] at hd hj ⊢
    omega
  · rw [if_neg hroot] at hd hj ⊢
    have hlt : j / sd.sectors_per_cluster < (start :: cs).length := by
      rw [Nat.div_lt_iff_lt_mul hv.spc_pos]; simpa using hj
    have hm := getD_chain_mem hd.1 hlt
    rw [List.getD_eq_getElem _ _ hlt] at hm
    rw [List.getD_eq_getElem _ _ hlt]
    have hb := cluster_lba_bounds sd hm.1 hm.2 (Nat.mod_lt j hv.spc_pos)
    omega

/-- Reading sector `j` of a well-formed directory. -/
theorem fat_read_sector_dir {sd : sdcard_t} (hv : volume_ok sd) (hco : coherent sd)
    (hr : reads_ok sd) {start : Nat} {cs : List Nat} (hd : is_dir sd start cs) (j : Nat) :
    (j < dir_sector_count sd start cs →
      (fat_read_sector sd start j).1 = 1 ∧
      (fat_read_sector sd start j).2.loaded_sector = dir_sector_lba sd start cs j ∧
      ∀ i, i < 512 → (fat_read_sector sd start j).2.buffer i =
        sd.card (dir_sector_lba sd start cs j) i) ∧
    (¬ j < dir_sector_count sd start cs → (fat_read_sector sd start j).1 = 0) := by
  have hbnd := fun hj => dir_sector_lba_bounds hv hd (j := j) hj
  unfold is_dir at hd
  unfold dir_sector_count
  unfold dir_sector_lba at hbnd ⊢
  unfold dir_sector_count at hbnd
  by_cases hroot : sd.fattype = FAT16 ∧ start = 0
  · simp only [if_pos hroot] at hd hbnd ⊢
    obtain ⟨hf, hs⟩ := hroot
    subst hs
    unfold fat_read_sector
    simp only [hf, true_and, if_true, not_true_eq_false, false_and, if_false, ne_eq,
      ge_iff_le]
    rw [if_neg (by omega)]
    constructor
    · intro hj
      have hb := hbnd hj
      have hu : u32 (sd.rootdir_begin_sector + j) = sd.rootdir_begin_sector + j := by
        unfold u32; omega
      have hne : sd.rootdir_begin_sector + j ≠ EOC := by
        show _ ≠ 4294967295
        omega
      have hrd := sd_read_block_loaded sd _ hco hne (hr (sd.rootdir_begin_sector + j))
      rw [hv.blocksize] at hrd
      rw [if_neg (by omega), hu, if_neg (by rw [hrd.1]; omega)]
      exact ⟨rfl, hrd.2.1, hrd.2.2⟩
    · intro hj
      rw [if_pos (by omega)]
  · simp only [if_neg hroot] at hd hbnd ⊢
    obtain ⟨h1, h2⟩ := fat_read_sector_chain hv hco hr hd.1 j
    have hiff : j / sd.sectors_per_cluster < (start :: cs).length ↔
        j < (cs.length + 1) * sd.sectors_per_cluster := by
      rw [Nat.div_lt_iff_lt_mul hv.spc_pos]; simp
    constructor
    · intro hj
      have hlt := hiff.2 hj
      obtain ⟨a, b, c⟩ := h1 hlt
      have e : (start :: cs).getD (j / sd.sectors_per_cluster) 0
          = (start :: cs).getD (j / sd.sectors_per_cluster) 0xFFFFFFFF := by
        rw [List.getD_eq_getElem _ _ hlt, List.getD_eq_getElem _ _ hlt]
      rw [e]
      exact ⟨a, b, c⟩
    · intro hj
      exact h2 (fun h => hj (hiff.1 h))


theorem ldir_char_offset_lt (k : Nat) (hk : k < 13) : ldir_char_offset k < 32 := by
  unfold ldir_char_offset
  split
  · omega
  · split <;> omega

theorem lfn_cache_add_congr (lfn : lfn_cache) (a b : Nat → Nat) (off : Nat)
    (h : ∀ k, k < 32 → b (off + k) = a (off + k)) :
    lfn_cache_add lfn b off = lfn_cache_add lfn a off := by
  have h0 : b off = a off := h 0 (by omega)
  have h13 : b (off + 13) = a (off + 13) := h 13 (by omega)
  have key : ∀ (num : Nat) (X : Nat → Nat),
      (fun i => if num * 13 ≤ i ∧ i < num * 13 + 13 then
          b (off + ldir_char_offset (i - num * 13)) else X i)
        = (fun i => if num * 13 ≤ i ∧ i < num * 13 + 13 then
          a (off + ldir_char_offset (i - num * 13)) else X i) := by
    intro num X
    funext i
    split
    · exact h _ (ldir_char_offset_lt _ (by omega))
    · rfl
  unfold lfn_cache_add
  simp only [h0, h13, key]

theorem same_but_size_refl (d0 : Nat) (a : Nat → Nat) : same_but_size d0 a a :=
  fun _ _ _ => rfl

/-- The record scan of `fat_find_lfn` does not look at the size field of a record
that is not a long-name record. -/
theorem fat_find_lfn_entries_congr (junk a b : Nat → Nat) (filename : List Nat) (d0 : Nat)
    (hd0 : d0 % 32 = 0) (hl : d0 < 512 → fat_is_lfn_entry a d0 = false)
    (hab : same_but_size d0 a b) :
    ∀ (n e : Nat) (lfn : lfn_cache), e + n ≤ 16 →
      fat_find_lfn_entries junk b filename n e lfn
        = fat_find_lfn_entries junk a filename n e lfn
  | 0, _, _, _ => rfl
  | n + 1, e, lfn, hen => by
    have ih := fat_find_lfn_entries_congr junk a b filename d0 hd0 hl hab n (e + 1)
    have hb0 : b (e * 32) = a (e * 32) := hab _ (by omega) (by omega)
    have hb11 : b (e * 32 + 11) = a (e * 32 + 11) := hab _ (by omega) (by omega)
    have c1 : fat_is_last_entry b (e * 32) = fat_is_last_entry a (e * 32) := by
      unfold fat_is_last_entry; rw [hb0]
    have c2 : fat_is_free_entry b (e * 32) = fat_is_free_entry a (e * 32) := by
      unfold fat_is_free_entry; rw [hb0]
    have c3 : fat_is_lfn_entry b (e * 32) = fat_is_lfn_entry a (e * 32) := by
      unfold fat_is_lfn_entry; rw [hb11]
    have c4 : fat_is_sfn_entry b (e * 32) = fat_is_sfn_entry a (e * 32) := by
      unfold fat_is_sfn_entry; rw [hb0, hb11]
    unfold fat_find_lfn_entries
    simp only [c1, c2, c3, c4]
    split
    · rfl
    · split
      · exact ih _ (by omega)
      · split
        · rename_i hlfn
          have hne : e * 32 ≠ d0 := by
            intro h; rw [h] at hlfn; rw [hl (by omega)] at hlfn; exact Bool.noConfusion hlfn
          rw [lfn_cache_add_congr lfn a b (e * 32)
            (fun k hk => hab _ (by omega) (by omega))]
          exact ih _ (by omega)
        · split
          · split
            · rfl
            · exact ih _ (by omega)
          · exact ih _ (by omega)

/-- Buffers that agree on the 512 bytes of a sector are scanned alike. -/
theorem fat_find_lfn_entries_agree (junk a b : Nat → Nat) (filename : List Nat)
    (hab : ∀ i, i < 512 → b i = a i) (lfn : lfn_cache) :
    fat_find_lfn_entries junk b filename 16 0 lfn
      = fat_find_lfn_entries junk a filename 16 0 lfn :=
  fat_find_lfn_entries_congr junk a b filename 512 (by decide) (fun h => absurd h (by omega))
    (fun i hi _ => hab i hi) 16 0 lfn (by omega)


/-- A record returned by the scan is a 32-byte-aligned short-name record of the
sector. -/
theorem fat_find_lfn_entries_found (junk a : Nat → Nat) (filename : List Nat) :
    ∀ (n e : Nat) (lfn : lfn_cache) (dir : Nat), e + n ≤ 16 →
      fat_find_lfn_entries junk a filename n e lfn = lfn_scan.ret (some dir) →
      dir % 32 = 0 ∧ dir < 512 ∧ fat_is_lfn_entry a dir = false ∧
        fat_is_sfn_entry a dir = true
  | 0, _, _, _, _, h => by
    unfold fat_find_lfn_entries at h; exact lfn_scan.noConfusion h
  | n + 1, e, lfn, dir, hen, h => by
    have ih := fun l => fat_find_lfn_entries_found junk a filename n (e + 1) l dir (by omega)
    unfold fat_find_lfn_entries at h
    simp only at h
    split at h
    · injection h with h; exact Option.noConfusion h
    · split at h
      · exact ih _ h
      · split at h
        · exact ih _ h
        · split at h
          · split at h
            · injection h with h; injection h with h
              subst h
              rename_i h1 h2 _
              refine ⟨by omega, by omega, ?_, h2⟩
              simpa using h1
            · exact ih _ h
          · exact ih _ h

theorem dir_scan_found (junk : Nat → Nat) (card : Nat → Nat → Nat) (lba : Nat → Nat)
    (filename : List Nat) :
    ∀ (n j : Nat) (lfn : lfn_cache) (j1 dir : Nat),
      dir_scan junk card lba filename n j lfn = some (j1, dir) →
      j ≤ j1 ∧ j1 < j + n ∧ dir % 32 = 0 ∧ dir < 512 ∧
        fat_is_lfn_entry (card (lba j1)) dir = false ∧
        fat_is_sfn_entry (card (lba j1)) dir = true
  | 0, _, _, _, _, h => by
    unfold dir_scan at h; exact Option.noConfusion h
  | n + 1, j, lfn, j1, dir, h => by
    unfold dir_scan at h
    split at h
    · rename_i d he
      injection h with h; injection h with h1 h2
      subst h1; subst h2
      have := fat_find_lfn_entries_found _ _ _ 16 0 lfn _ (by omega) he
      exact ⟨le_refl _, by omega, this⟩
    · exact Option.noConfusion h
    · obtain ⟨a, b, c⟩ := dir_scan_found junk card lba filename n (j + 1) _ j1 dir h
      exact ⟨by omega, by omega, c⟩

theorem io_step_dir_sector_lba {sd sd1 : sdcard_t} (h : io_step sd sd1) (start : Nat)
    (cs : List Nat) : dir_sector_lba sd1 start cs = dir_sector_lba sd start cs := by
  obtain ⟨l, b, k, rfl⟩ := h; rfl

theorem io_step_dir_sector_count {sd sd1 : sdcard_t} (h : io_step sd sd1) (start : Nat)
    (cs : List Nat) : dir_sector_count sd1 start cs = dir_sector_count sd start cs := by
  obtain ⟨l, b, k, rfl⟩ := h; rfl

theorem io_step_is_dir {sd sd1 : sdcard_t} (h : io_step sd sd1) (hc : sd1.card = sd.card)
    (start : Nat) (cs : List Nat) : is_dir sd1 start cs ↔ is_dir sd start cs := by
  unfold is_dir
  rw [io_step_is_chain h hc, io_step_fattype h, io_step_fat_begin_sector h,
    io_step_fat_sectors h, io_step_rootdir_begin_sector h, io_step_rootdir_sectors h,
    io_step_data_begin_sector h, io_step_sectors_per_cluster h]

theorem dir_sector_count_lt {sd : sdcard_t} (hv : volume_ok sd) {start : Nat} {cs : List Nat}
    (hd : is_dir sd start cs) : dir_sector_count sd start cs < 4294967296 := by
  have h2 := hv.data_lba
  unfold is_dir at hd
  unfold dir_sector_count
  split
  · rename_i h; rw [if_pos h] at hd; omega
  · rename_i h; rw [if_neg h] at hd; exact hd.2

/-- The loop of `fat_find_lfn` over a well-formed directory agrees with the scan of
the card contents. -/
theorem fat_find_lfn_loop_scan (start : Nat) (cs : List Nat) (filename : List Nat) :
    ∀ (n j fuel : Nat) (sd : sdcard_t) (lfn : lfn_cache),
      volume_ok sd → coherent sd → reads_ok sd → is_dir sd start cs →
      j + n = dir_sector_count sd start cs → n < fuel →
      ∃ res s1, fat_find_lfn_loop start filename fuel sd j lfn = some (res, s1) ∧
        io_step sd s1 ∧ s1.card = sd.card ∧ coherent s1 ∧
        ((res = none ∧
            dir_scan sd.uninit sd.card (dir_sector_lba sd start cs) filename n j lfn = none) ∨
          (∃ j1 dir, res = some dir ∧
            dir_scan sd.uninit sd.card (dir_sector_lba sd start cs) filename n j lfn
              = some (j1, dir) ∧
            s1.loaded_sector = dir_sector_lba sd start cs j1)) := by
  intro n
  induction n with
  | zero =>
    intro j fuel sd lfn hv hco hr hd hj hfuel
    obtain ⟨f, rfl⟩ : ∃ f, fuel = f + 1 := ⟨fuel - 1, by omega⟩
    have hfr := fat_read_sector_frame sd start j
    have hrd := (fat_read_sector_dir hv hco hr hd j).2 (by omega)
    unfold fat_find_lfn_loop
    simp only
    rw [if_pos hrd]
    exact ⟨none, _, rfl, hfr.1, hfr.2.1, hfr.2.2 hco, Or.inl ⟨rfl, rfl⟩⟩
  | succ n ih =>
    intro j fuel sd lfn hv hco hr hd hj hfuel
    obtain ⟨f, rfl⟩ : ∃ f, fuel = f + 1 := ⟨fuel - 1, by omega⟩
    have hfr := fat_read_sector_frame sd start j
    obtain ⟨r1, r2, r3⟩ := (fat_read_sector_dir hv hco hr hd j).1 (by omega)
    have hcnt := dir_sector_count_lt hv hd
    have hent := fat_find_lfn_entries_agree sd.uninit
      (sd.card (dir_sector_lba sd start cs j)) (fat_read_sector sd start j).2.buffer
      filename r3 lfn
    unfold fat_find_lfn_loop
    simp only
    rw [if_neg (by rw [r1]; omega), hent]
    conv => enter [1, res, 1, s1, 2, 2, 2]; unfold dir_scan
    cases he : fat_find_lfn_entries sd.uninit (sd.card (dir_sector_lba sd start cs j))
        filename 16 0 lfn with
    | ret d =>
      cases d with
      | none =>
        exact ⟨none, _, rfl, hfr.1, hfr.2.1, hfr.2.2 hco, Or.inl ⟨rfl, rfl⟩⟩
      | some dir =>
        exact ⟨some dir, _, rfl, hfr.1, hfr.2.1, hfr.2.2 hco,
          Or.inr ⟨j, dir, rfl, rfl, r2⟩⟩
    | next lfn1 =>
      simp only
      have hu : u32 (j + 1) = j + 1 := by unfold u32; omega
      rw [hu]
      obtain ⟨res, s1, e, k1, k2, k3, k4⟩ := ih (j + 1) f (fat_read_sector sd start j).2 lfn1
        (io_step_volume_ok hfr.1 hv) (hfr.2.2 hco) (io_step_reads_ok hfr.1 hr)
        ((io_step_is_dir hfr.1 hfr.2.1 _ _).2 hd)
        (by rw [io_step_dir_sector_count hfr.1]; omega) (by omega)
      rw [io_step_uninit hfr.1, hfr.2.1, io_step_dir_sector_lba hfr.1] at k4
      exact ⟨res, s1, e, io_step_trans hfr.1 k1, by rw [k2, hfr.2.1], k3, k4⟩


theorem io_step_dir_find {sd sd1 : sdcard_t} (h : io_step sd sd1) (card : Nat → Nat → Nat)
    (start : Nat) (cs : List Nat) (filename : List Nat) :
    dir_find sd1 card start cs filename = dir_find sd card start cs filename := by
  unfold dir_find
  rw [io_step_uninit h, io_step_dir_sector_lba h, io_step_dir_sector_count h]

/-- The function `fat_find_lfn` on a well-formed directory: it terminates (fuel above the
number of directory sectors suffices), changes nothing but the cache, and finds
what the scan of the card contents finds, leaving the sector of the record loaded. -/
theorem fat_find_lfn_spec {sd : sdcard_t} (hv : volume_ok sd) (hco : coherent sd)
    (hr : reads_ok sd) {start : Nat} {cs : List Nat} (hd : is_dir sd start cs)
    (filename : List Nat) {fuel : Nat} (hfuel : dir_sector_count sd start cs < fuel) :
    ∃ res s1, fat_find_lfn fuel sd start filename = some (res, s1) ∧
      io_step sd s1 ∧ s1.card = sd.card ∧ coherent s1 ∧
      ((res = none ∧ dir_find sd sd.card start cs filename = none) ∨
        (∃ j1 dir, res = some dir ∧ dir_find sd sd.card start cs filename = some (j1, dir) ∧
          s1.loaded_sector = dir_sector_lba sd start cs j1)) :=
  fat_find_lfn_loop_scan start cs filename (dir_sector_count sd start cs) 0 fuel sd
    lfn_cache_reset hv hco hr hd (by omega) hfuel

/-- Card contents that differ, on the sectors of a directory, at most in the size
field of one record that is not a long-name record, are scanned alike. -/
theorem dir_scan_congr (junk : Nat → Nat) (card card1 : Nat → Nat → Nat) (lba : Nat → Nat)
    (filename : List Nat) (d0 jmax : Nat) (hd0 : d0 % 32 = 0)
    (h : ∀ j, j < jmax →
      (same_but_size d0 (card (lba j)) (card1 (lba j)) ∧
        (d0 < 512 → fat_is_lfn_entry (card (lba j)) d0 = false)) ∨
      (∀ i, i < 512 → card1 (lba j) i = card (lba j) i)) :
    ∀ (n j : Nat) (lfn : lfn_cache), j + n ≤ jmax →
      dir_scan junk card1 lba filename n j lfn = dir_scan junk card lba filename n j lfn
  | 0, _, _, _ => rfl
  | n + 1, j, lfn, hj => by
    have ih := fun l => dir_scan_congr junk card card1 lba filename d0 jmax hd0 h n (j + 1) l
      (by omega)
    have he : fat_find_lfn_entries junk (card1 (lba j)) filename 16 0 lfn
        = fat_find_lfn_entries junk (card (lba j)) filename 16 0 lfn := by
      rcases h j (by omega) with ⟨h1, h2⟩ | h1
      · exact fat_find_lfn_entries_congr junk _ _ filename d0 hd0 h2 h1 16 0 lfn (by omega)
      · exact fat_find_lfn_entries_agree junk _ _ filename h1 lfn
    unfold dir_scan
    rw [he]
    split
    · rfl
    · rfl
    · exact ih _

/-- Sectors of a directory are not sectors of a cluster outside the directory. -/
theorem dir_lba_ne_cluster_lba {sd : sdcard_t} (hv : volume_ok sd) {start : Nat}
    {cs : List Nat} (hd : is_dir sd start cs) {j : Nat}
    (hj : j < dir_sector_count sd start cs) {x r : Nat} (hx : x ∉ start :: cs)
    (hx2 : 2 ≤ x) (hr : r < sd.sectors_per_cluster) :
    dir_sector_lba sd start cs j ≠ cluster_lba sd x r := by
  unfold is_dir at hd
  unfold dir_sector_count at hj
  unfold dir_sector_lba
  by_cases hroot : sd.fattype = FAT16 ∧ start = 0
  · simp only [if_pos hroot] at hd hj ⊢
    unfold cluster_lba
    omega
  · simp only [if_neg hroot] at hd hj ⊢
    have hlt : j / sd.sectors_per_cluster < (start :: cs).length := by
      rw [Nat.div_lt_iff_lt_mul hv.spc_pos]; simpa using hj
    have hmem : (start :: cs).getD (j / sd.sectors_per_cluster) 0 ∈ start :: cs := by
      rw [List.getD_eq_getElem _ _ hlt]; exact List.getElem_mem _
    have hm := chain_links_mem hd.1 _ hmem
    set y := (start :: cs).getD (j / sd.sectors_per_cluster) 0 with hy
    have hne : y ≠ x := fun h => hx (h ▸ hmem)
    have hml := Nat.mod_lt j hv.spc_pos
    unfold cluster_lba
    intro heq
    rcases Nat.lt_or_gt_of_ne hne with hlt2 | hgt
    · have : (y - 2 + 1) * sd.sectors_per_cluster ≤ (x - 2) * sd.sectors_per_cluster :=
        Nat.mul_le_mul_right _ (by omega)
      rw [Nat.add_mul, Nat.one_mul] at this
      omega
    · have : (x - 2 + 1) * sd.sectors_per_cluster ≤ (y - 2) * sd.sectors_per_cluster :=
        Nat.mul_le_mul_right _ (by omega)
      rw [Nat.add_mul, Nat.one_mul] at this
      omega

/-- Sectors of a directory are not FAT sectors. -/
theorem dir_lba_ne_fat_lba {sd : sdcard_t} (hv : volume_ok sd) {start : Nat}
    {cs : List Nat} (hd : is_dir sd start cs) {j : Nat}
    (hj : j < dir_sector_count sd start cs) {x : Nat} (hx : x ≤ sd.data_clusters + 1) :
    dir_sector_lba sd start cs j ≠ fat_entry_lba sd x := by
  have h1 := (dir_sector_lba_bounds hv hd hj).1
  have h2 := (volume_ok_fat_lba hv hx).2.1
  omega


/-! ## C10: truncate -/

theorem sd_write_block_ok (s : sdcard_t) (lba : Nat) (hw : writes_ok s) :
    sd_write_block s lba =
      (1, { s with card := fun l i =>
              if l = lba ∧ i < s.blocksize then s.buffer i else s.card l i }) := by
  unfold sd_write_block
  rw [if_neg (by rw [hw.1]; simp), if_pos (hw.2 lba)]

theorem dir_first_cluster_congr (a b : Nat → Nat) (dir : Nat) (hdir : dir + 32 ≤ 512)
    (h : ∀ i, i < 512 → (i < dir + 28 ∨ dir + 32 ≤ i) → b i = a i) :
    dir_first_cluster b dir = dir_first_cluster a dir := by
  unfold dir_first_cluster
  rw [read16_congr b a (dir + 20) (h _ (by omega) (by omega)) (h _ (by omega) (by omega)),
    read16_congr b a (dir + 26) (h _ (by omega) (by omega)) (h _ (by omega) (by omega))]

theorem dir_file_size_congr (a b : Nat → Nat) (dir : Nat) (hdir : dir + 32 ≤ 512)
    (h : ∀ i, i < 512 → b i = a i) : dir_file_size b dir = dir_file_size a dir := by
  unfold dir_file_size
  exact read32_congr b a (dir + 28) (h _ (by omega)) (h _ (by omega)) (h _ (by omega))
    (h _ (by omega))

/-- Storing a new `DIR_FileSize` in the loaded directory sector and writing the sector
back, as `fat_truncate_file` and `fat_write_file` do. -/
theorem dir_size_update {s1 : sdcard_t} (hv : volume_ok s1) (hco : coherent s1)
    (hw : writes_ok s1) (hL : s1.loaded_sector ≠ EOC) {dir : Nat} (hdir : dir + 32 ≤ 512)
    (v : Nat) :
    ∃ s2, sd_write_block { s1 with buffer := write32 s1.buffer (dir + 28) v } s1.loaded_sector
        = (1, s2) ∧
      io_step s1 s2 ∧ coherent s2 ∧ s2.loaded_sector = s1.loaded_sector ∧
      (∀ l, l ≠ s1.loaded_sector → s2.card l = s1.card l) ∧
      same_but_size dir (s1.card s1.loaded_sector) (s2.card s1.loaded_sector) ∧
      dir_file_size (s2.card s1.loaded_sector) dir = v % 4294967296 := by
  have hbs := hv.blocksize
  have hbuf := hco hL
  rw [hbs] at hbuf
  have hw2 : writes_ok { s1 with buffer := write32 s1.buffer (dir + 28) v } := hw
  refine ⟨_, sd_write_block_ok _ _ hw2, ⟨_, _, _, rfl⟩, ?_, rfl, ?_, ?_, ?_⟩
  · intro _ i hi
    simp only [hbs] at hi ⊢
    simp only [hi, and_self, if_true]
  · intro l hl
    funext i
    simp only [hl, false_and, if_false]
  · intro i hi hout
    simp only [hbs, hi, and_self, if_true, write32]
    rw [if_neg (by omega), if_neg (by omega), if_neg (by omega), if_neg (by omega)]
    exact hbuf i hi
  · have e : dir_file_size
        (fun i => if s1.loaded_sector = s1.loaded_sector ∧ i < s1.blocksize then
          write32 s1.buffer (dir + 28) v i else s1.card s1.loaded_sector i) dir
        = dir_file_size (write32 s1.buffer (dir + 28) v) dir := by
      apply dir_file_size_congr _ _ _ hdir
      intro i hi
      simp only [hbs, hi, and_self, if_true]
    show dir_file_size (fun i => if s1.loaded_sector = s1.loaded_sector ∧ i < s1.blocksize then
          write32 s1.buffer (dir + 28) v i else s1.card s1.loaded_sector i) dir = _
    rw [e]
    unfold dir_file_size
    exact read32_write32_same _ _ _


/-- What a successful lookup tells about the state it leaves. -/
theorem fat_find_lfn_found {sd : sdcard_t} (hv : volume_ok sd) (hco : coherent sd)
    (hr : reads_ok sd) {start : Nat} {cs : List Nat} (hd : is_dir sd start cs)
    {filename : List Nat} {fuel : Nat} (hfuel : dir_sector_count sd start cs < fuel)
    {dir : Nat} {s1 : sdcard_t}
    (hfind : fat_find_lfn fuel sd start filename = some (some dir, s1)) :
    io_step sd s1 ∧ s1.card = sd.card ∧ coherent s1 ∧
      ∃ j1, dir_find sd sd.card start cs filename = some (j1, dir) ∧
        j1 < dir_sector_count sd start cs ∧
        s1.loaded_sector = dir_sector_lba sd start cs j1 ∧
        s1.loaded_sector ≠ EOC ∧ dir % 32 = 0 ∧ dir + 32 ≤ 512 ∧
        fat_is_lfn_entry (sd.card s1.loaded_sector) dir = false ∧
        (∀ i, i < 512 → s1.buffer i = sd.card s1.loaded_sector i) := by
  obtain ⟨res, s, e, h1, h2, h3, h4⟩ := fat_find_lfn_spec hv hco hr hd filename hfuel
  rw [hfind] at e
  injection e with e; injection e with e1 e2
  subst e1; subst e2
  refine ⟨h1, h2, h3, ?_⟩
  rcases h4 with ⟨h, _⟩ | ⟨j1, dir1, h5, h6, h7⟩
  · exact Option.noConfusion h
  · injection h5 with h5
    subst h5
    have hf := dir_scan_found _ _ _ _ _ _ _ _ _ h6
    have hb := dir_sector_lba_bounds hv hd (j := j1) (by omega)
    have hne : s1.loaded_sector ≠ EOC := by
      rw [h7]; show _ ≠ 4294967295; omega
    refine ⟨j1, h6, by omega, h7, hne, hf.2.2.1, by omega, ?_, ?_⟩
    · rw [h7]; exact hf.2.2.2.2.1
    · intro i hi
      have := h3 hne i (by rw [io_step_blocksize h1, hv.blocksize]; exact hi)
      rw [this, h2]


theorem is_dir_congr {sd sd1 : sdcard_t} (h : io_step sd sd1) {start : Nat} {cs : List Nat}
    (he : ∀ x ∈ start :: cs, x ≤ sd.data_clusters + 1 →
      fat_entry_in sd sd1.card x = fat_entry_in sd sd.card x)
    (hd : is_dir sd start cs) : is_dir sd1 start cs := by
  unfold is_dir at hd ⊢
  rw [io_step_fattype h, io_step_fat_begin_sector h, io_step_fat_sectors h,
    io_step_rootdir_begin_sector h, io_step_rootdir_sectors h, io_step_data_begin_sector h,
    io_step_sectors_per_cluster h]
  split
  · rename_i hroot; rw [if_pos hroot] at hd; exact hd
  · rename_i hroot; rw [if_neg hroot] at hd
    refine ⟨?_, hd.2⟩
    unfold is_chain
    rw [io_step_data_clusters h, io_step_fat_next_in h]
    refine chain_links_congr (fun x hx => ?_) hd.1
    unfold fat_next_in
    rw [he x hx (chain_links_mem hd.1 x hx).2]

theorem is_chain_congr {sd sd1 : sdcard_t} (h : io_step sd sd1) {cs : List Nat}
    (he : ∀ x ∈ cs, x ≤ sd.data_clusters + 1 →
      fat_entry_in sd sd1.card x = fat_entry_in sd sd.card x)
    (hc : is_chain sd cs) : is_chain sd1 cs := by
  unfold is_chain at hc ⊢
  rw [io_step_data_clusters h, io_step_fat_next_in h]
  refine chain_links_congr (fun x hx => ?_) hc
  unfold fat_next_in
  rw [he x hx (chain_links_mem hc x hx).2]

/-- Helper for the lookups after a change of the card: if the directory's own FAT
entries are unchanged and its sectors differ at most in the size field of the
record found, the lookup finds the same record. -/
theorem fat_find_lfn_again {sd sd1 : sdcard_t} (hv : volume_ok sd) (hr : reads_ok sd)
    {start : Nat} {cs : List Nat} (hd : is_dir sd start cs) {filename : List Nat}
    {fuel : Nat} (hfuel : dir_sector_count sd start cs < fuel) {j1 dir : Nat}
    (hfound : dir_find sd sd.card start cs filename = some (j1, dir))
    (hio : io_step sd sd1) (hco1 : coherent sd1)
    (hfat : ∀ x ∈ start :: cs, x ≤ sd.data_clusters + 1 →
      fat_entry_in sd sd1.card x = fat_entry_in sd sd.card x)
    (hsec : ∀ j, j < dir_sector_count sd start cs →
      (dir_sector_lba sd start cs j = dir_sector_lba sd start cs j1 ∧
        same_but_size dir (sd.card (dir_sector_lba sd start cs j1))
          (sd1.card (dir_sector_lba sd start cs j1))) ∨
      (∀ i, i < 512 → sd1.card (dir_sector_lba sd start cs j) i
        = sd.card (dir_sector_lba sd start cs j) i)) :
    ∃ s2, fat_find_lfn fuel sd1 start filename = some (some dir, s2) ∧
      io_step sd1 s2 ∧ s2.card = sd1.card ∧ coherent s2 ∧
      s2.loaded_sector = dir_sector_lba sd start cs j1 ∧
      ∀ i, i < 512 → s2.buffer i = sd1.card (dir_sector_lba sd start cs j1) i := by
  have hf := dir_scan_found _ _ _ _ _ _ _ _ _ hfound
  have hd1 := is_dir_congr hio hfat hd
  have hv1 := io_step_volume_ok hio hv
  have hsame : dir_find sd1 sd1.card start cs filename = some (j1, dir) := by
    rw [io_step_dir_find hio, ← hfound]
    unfold dir_find
    refine dir_scan_congr _ _ _ _ _ dir (dir_sector_count sd start cs) hf.2.2.1
      (fun j hj => ?_) _ 0 _ (by omega)
    rcases hsec j hj with ⟨h1, h2⟩ | h1
    · left
      rw [h1]
      exact ⟨h2, fun _ => hf.2.2.2.2.1⟩
    · right; exact h1
  obtain ⟨res, s2, e, k1, k2, k3, k4⟩ := @fat_find_lfn_spec sd1 hv1 hco1
    (io_step_reads_ok hio hr) start cs hd1 filename fuel
    (by rw [io_step_dir_sector_count hio]; exact hfuel)
  rw [hsame] at k4
  rcases k4 with ⟨_, h⟩ | ⟨j2, dir2, h5, h6, h7⟩
  · exact Option.noConfusion h
  · injection h6 with h6; injection h6 with h61 h62
    subst h61; subst h62
    rw [io_step_dir_sector_lba hio] at h7
    have hb := dir_sector_lba_bounds hv hd (j := j1) (by omega)
    have hne : s2.loaded_sector ≠ EOC := by
      rw [h7]; show _ ≠ 4294967295; omega
    refine ⟨s2, by rw [e, h5], k1, k2, k3, h7, fun i hi => ?_⟩
    have := k3 hne i (by rw [io_step_blocksize k1, io_step_blocksize hio, hv.blocksize]; exact hi)
    rw [this, k2, h7]


/-- Helper for C10: truncating a file of non-zero size. -/
theorem fat_truncate_file_nonempty {sd : sdcard_t} (hv : volume_ok sd) (hco : coherent sd)
    (hr : reads_ok sd) (hw : writes_ok sd) {start : Nat} {cs : List Nat}
    (hd : is_dir sd start cs) {filename : List Nat} (hname : filename ≠ []) {fuel : Nat}
    (hfuel : dir_sector_count sd start cs < fuel) {dir : Nat} {s1 : sdcard_t}
    (hfind : fat_find_lfn fuel sd start filename = some (some dir, s1))
    {c0 : Nat} {rest : List Nat}
    (hc0 : dir_first_cluster (sd.card s1.loaded_sector) dir = c0)
    (hsize : 0 < dir_file_size (sd.card s1.loaded_sector) dir)
    (hch : is_chain sd (c0 :: rest)) (hnd : (c0 :: rest).Nodup)
    (hdisj : ∀ x ∈ c0 :: rest, x ∉ start :: cs) (hfuel2 : rest.length + 2 ≤ fuel) :
    ∃ sd1, fat_truncate_file fuel sd start filename = some (1, sd1) ∧
      io_step sd sd1 ∧ coherent sd1 ∧
      same_but_size dir (sd.card s1.loaded_sector) (sd1.card s1.loaded_sector) ∧
      dir_file_size (sd1.card s1.loaded_sector) dir = 0 ∧
      (∃ s2, fat_find_lfn fuel sd1 start filename = some (some dir, s2) ∧
        s2.loaded_sector = s1.loaded_sector) ∧
      fat_entry_in sd sd1.card c0 = fat_trunc sd 0xFFFFFFFF ∧
      (∀ x ∈ rest, fat_entry_in sd sd1.card x = 0) := by
  obtain ⟨hio1, hc1, hco1, j1, hdf, hj1, hL, hLne, hd32, hd512, hnotlfn, hbuf⟩ :=
    fat_find_lfn_found hv hco hr hd hfuel hfind
  have hv1 := io_step_volume_ok hio1 hv
  have hclu : dir_first_cluster s1.buffer dir = c0 := by
    rw [← hc0]
    exact dir_first_cluster_congr _ _ dir hd512 (fun i hi _ => hbuf i hi)
  have hsz : dir_file_size s1.buffer dir = dir_file_size (sd.card s1.loaded_sector) dir :=
    dir_file_size_congr _ _ dir hd512 hbuf
  -- the size update
  obtain ⟨s2, ew, hio2, hco2, hL2, hfr2, hsbs2, hsz2⟩ :=
    dir_size_update hv1 hco1 (io_step_writes_ok hio1 hw) hLne hd512 0
  rw [hc1] at hfr2 hsbs2
  have hio02 := io_step_trans hio1 hio2
  have hv2 := io_step_volume_ok hio02 hv
  have hmem := chain_links_mem hch
  have hLfat : ∀ x, x ≤ sd.data_clusters + 1 → fat_entry_lba sd x ≠ s1.loaded_sector := by
    intro x hx; rw [hL]; exact (dir_lba_ne_fat_lba hv hd hj1 hx).symm
  have hLdata : ∀ x ∈ c0 :: rest, ∀ j, j < sd.sectors_per_cluster →
      s1.loaded_sector ≠ cluster_lba sd x j := by
    intro x hx j hj; rw [hL]
    exact dir_lba_ne_cluster_lba hv hd hj1 (hdisj x hx) (hmem x hx).1 hj
  have hent2 : ∀ x, x ≤ sd.data_clusters + 1 →
      fat_entry_in sd s2.card x = fat_entry_in sd sd.card x := by
    intro x hx
    exact fat_entry_in_congr sd _ _ x (hfr2 _ (hLfat x hx))
  have hch2 : is_chain s2 (c0 :: rest) := is_chain_congr hio02 (fun x _ hx => hent2 x hx) hch
  -- freeing the chain
  obtain ⟨s3, e3, hio3, hco3, qa, qb, qc⟩ :=
    fat_free_cluster_chain_loop_chain 1 rest c0 fuel s2 hv2 hco2 (io_step_reads_ok hio02 hr)
      (io_step_writes_ok hio02 hw) hch2 hnd hfuel2
  simp only [io_step_fat_entry_in hio02, io_step_data_clusters hio02,
    io_step_fat_entry_lba hio02, io_step_cluster_lba hio02,
    io_step_sectors_per_cluster hio02] at qa qb qc
  have hio03 := io_step_trans hio02 hio3
  have hv3 := io_step_volume_ok hio03 hv
  have hc0r := (hmem c0 (List.mem_cons_self _ _))
  -- marking the first cluster
  obtain ⟨b1, b2, b3, b4⟩ := fat_set_next_cluster_valid hv3 hco3 (io_step_reads_ok hio03 hr)
    (io_step_writes_ok hio03 hw) (c := c0) (by rw [io_step_data_clusters hio03]; exact hc0r.2)
    0xFFFFFFFF
  have hio4 := io_step_trans hio03 (fat_set_next_cluster_frame s3 c0 0xFFFFFFFF)
  rw [io_step_fat_store hio03] at b2
  have hcardL : (fat_set_next_cluster s3 c0 0xFFFFFFFF).2.card s1.loaded_sector
      = s2.card s1.loaded_sector := by
    rw [b2, fat_store_in_other_lba _ _ _ _ _ (hLfat c0 hc0r.2).symm]
    exact qc _ (fun x hx => (hLfat x (hmem x hx).2).symm) hLdata
  have hentd : ∀ x ∈ start :: cs, x ≤ sd.data_clusters + 1 →
      fat_entry_in sd (fat_set_next_cluster s3 c0 0xFFFFFFFF).2.card x
        = fat_entry_in sd sd.card x := by
    intro x hx hxr
    have hxn : x ∉ c0 :: rest := fun h => hdisj x h hx
    have hxc : x ≠ c0 := fun h => hxn (by rw [h]; exact List.mem_cons_self _ _)
    rw [b2, fat_entry_in_store_other hv _ _ hc0r.2 hxr hxc, qb x hxr hxn, hent2 x hxr]
  have hsecs : ∀ j, j < dir_sector_count sd start cs →
      (dir_sector_lba sd start cs j = dir_sector_lba sd start cs j1 ∧
        same_but_size dir (sd.card (dir_sector_lba sd start cs j1))
          ((fat_set_next_cluster s3 c0 0xFFFFFFFF).2.card (dir_sector_lba sd start cs j1))) ∨
      (∀ i, i < 512 → (fat_set_next_cluster s3 c0 0xFFFFFFFF).2.card
          (dir_sector_lba sd start cs j) i = sd.card (dir_sector_lba sd start cs j) i) := by
    intro j hj
    by_cases hjl : dir_sector_lba sd start cs j = dir_sector_lba sd start cs j1
    · left
      refine ⟨hjl, ?_⟩
      rw [← hL, hcardL]; exact hsbs2
    · right
      intro i _
      rw [b2, fat_store_in_other_lba _ _ _ _ _ (dir_lba_ne_fat_lba hv hd hj hc0r.2),
        qc _ (fun x hx => dir_lba_ne_fat_lba hv hd hj (hmem x hx).2)
          (fun x hx r hr => dir_lba_ne_cluster_lba hv hd hj (hdisj x hx) (hmem x hx).1 hr),
        hfr2 _ (by rw [hL]; exact hjl)]
  obtain ⟨s5, e5, _, _, _, k5, _⟩ := fat_find_lfn_again hv hr hd hfuel hdf hio4 b4 hentd hsecs
  refine ⟨(fat_set_next_cluster s3 c0 0xFFFFFFFF).2, ?_, hio4, b4, ?_, ?_,
    ⟨s5, e5, by rw [k5, hL]⟩, ?_, ?_⟩
  · unfold fat_truncate_file
    rw [if_neg (by simpa using hname), hfind]
    simp only
    rw [hsz, if_neg (by omega), ew]
    simp only [hclu]
    unfold fat_free_cluster_chain
    rw [e3]
    simp only
    rw [b1]
    simp
  · rw [hcardL]; exact hsbs2
  · rw [hcardL]; exact hsz2
  · rw [b2, fat_entry_in_store_same]
  · intro x hx
    have hxc : x ≠ c0 := fun h => (List.nodup_cons.1 hnd).1 (h ▸ hx)
    rw [b2, fat_entry_in_store_other hv _ _ hc0r.2 (hmem x (List.mem_cons_of_mem _ hx)).2 hxc]
    exact qa x (List.mem_cons_of_mem _ hx)


/-- C10 (truncate).  On a well-formed volume with working block I/O and a coherent
cache, let `fat_find_lfn` find the record of the file at offset `dir` of the
directory sector `L` it leaves loaded.  If the record's `FileSize` is 0, then
`fat_truncate_file` returns 1 and the card is unchanged.  If `FileSize > 0` and the
record's first cluster `c0` starts a well-formed chain `c0 -> ... -> ck -> EOC` of
distinct clusters, none of them a cluster of the directory, then
`fat_truncate_file` returns 1 and afterwards: the directory sector differs from
before at most in the size field of the record, `FileSize` is 0, the first-cluster
field is still `c0`, `fat_find_lfn` still finds the record at the same place,
`fat_get_next_cluster(c0)` is `0xFFFFFFFF`, and the stored FAT entry of every `ci`
with `i ≥ 1` is 0. -/
theorem fat_truncate_file_spec (fuel : Nat) (sd : sdcard_t) (start : Nat) (cs : List Nat)
    (filename : List Nat) (dir : Nat) (s1 : sdcard_t)
    (hv : volume_ok sd) (hco : coherent sd) (hr : reads_ok sd) (hw : writes_ok sd)
    (hd : is_dir sd start cs) (hname : filename ≠ [])
    (hfuel : dir_sector_count sd start cs < fuel)
    (hfind : fat_find_lfn fuel sd start filename = some (some dir, s1)) :
    (dir_file_size (sd.card s1.loaded_sector) dir = 0 →
      fat_truncate_file fuel sd start filename = some (1, s1) ∧ s1.card = sd.card) ∧
    (∀ rest : List Nat, 0 < dir_file_size (sd.card s1.loaded_sector) dir →
      is_chain sd (dir_first_cluster (sd.card s1.loaded_sector) dir :: rest) →
      (dir_first_cluster (sd.card s1.loaded_sector) dir :: rest).Nodup →
      (∀ x ∈ dir_first_cluster (sd.card s1.loaded_sector) dir :: rest, x ∉ start :: cs) →
      rest.length + 2 ≤ fuel →
      ∃ sd1, fat_truncate_file fuel sd start filename = some (1, sd1) ∧
        (∀ i, i < 512 → (i < dir + 28 ∨ dir + 32 ≤ i) →
          sd1.card s1.loaded_sector i = sd.card s1.loaded_sector i) ∧
        dir_file_size (sd1.card s1.loaded_sector) dir = 0 ∧
        dir_first_cluster (sd1.card s1.loaded_sector) dir
          = dir_first_cluster (sd.card s1.loaded_sector) dir ∧
        (∃ s2, fat_find_lfn fuel sd1 start filename = some (some dir, s2) ∧
          s2.loaded_sector = s1.loaded_sector) ∧
        (fat_get_next_cluster sd1 (dir_first_cluster (sd.card s1.loaded_sector) dir)).1
          = 0xFFFFFFFF ∧
        ∀ x ∈ rest, fat_entry_on_card sd1 x = 0) := by
  obtain ⟨hio1, hc1, hco1, j1, hdf, hj1, hL, hLne, hd32, hd512, hnotlfn, hbuf⟩ :=
    fat_find_lfn_found hv hco hr hd hfuel hfind
  constructor
  · intro hz
    refine ⟨?_, hc1⟩
    have hsz : dir_file_size s1.buffer dir = 0 := by
      rw [dir_file_size_congr _ _ dir hd512 hbuf]; exact hz
    unfold fat_truncate_file
    rw [if_neg (by simpa using hname), hfind]
    simp only
    rw [if_pos hsz]
  · intro rest hsize hch hnd hdisj hfuel2
    obtain ⟨sd1, e, hio, hcoh, hsbs, hsz, hagain, hc0, hrest⟩ :=
      fat_truncate_file_nonempty hv hco hr hw hd hname hfuel hfind rfl hsize hch hnd hdisj
        hfuel2
    have hc0r := chain_links_head hch
    refine ⟨sd1, e, hsbs, hsz, dir_first_cluster_congr _ _ dir hd512 hsbs, hagain, ?_, ?_⟩
    · rw [fat_get_next_cluster_valid (io_step_volume_ok hio hv) hcoh (io_step_reads_ok hio hr)
          (by rw [io_step_data_clusters hio]; exact hc0r.2),
        io_step_norm_entry hio, io_step_fat_entry_on_card hio, hc0, norm_entry_trunc_eoc]
    · intro x hx
      rw [io_step_fat_entry_on_card hio]; exact hrest x hx

set_option maxRecDepth 100000 in
theorem demo32_lookup_5000 :
    (fat_find_lfn 9 (demo32 [0x0FFFFFF8, 0x0FFFFFFF, 0x0FFFFFFF, 4, 0x0FFFFFFF] 5000) 2
      demo_name).map (fun r => (r.1, r.2.loaded_sector)) = some (some 64, 4128) := by
  decide

set_option maxRecDepth 100000 in
theorem demo32_is_dir_5000 :
    is_dir (demo32 [0x0FFFFFF8, 0x0FFFFFFF, 0x0FFFFFFF, 4, 0x0FFFFFFF] 5000) 2 [] := by
  simp only [is_dir, is_chain, chain_links]
  decide

set_option maxRecDepth 100000 in
theorem demo32_chain_5000 :
    is_chain (demo32 [0x0FFFFFF8, 0x0FFFFFFF, 0x0FFFFFFF, 4, 0x0FFFFFFF] 5000) [3, 4] := by
  simp only [is_chain, chain_links]
  decide

set_option maxRecDepth 100000 in
/-- Instance of C10: truncating `Hello World.txt` (5000 bytes, chain `3 -> 4`) in the
root directory of a FAT32 volume. -/
theorem fat_truncate_file_spec_witness :
    ∃ s1 sd1,
      fat_find_lfn 9 (demo32 [0x0FFFFFF8, 0x0FFFFFFF, 0x0FFFFFFF, 4, 0x0FFFFFFF] 5000) 2
        demo_name = some (some 64, s1) ∧
      fat_truncate_file 9 (demo32 [0x0FFFFFF8, 0x0FFFFFFF, 0x0FFFFFFF, 4, 0x0FFFFFFF] 5000) 2
        demo_name = some (1, sd1) ∧
      dir_file_size (sd1.card s1.loaded_sector) 64 = 0 ∧
      (fat_get_next_cluster sd1 3).1 = 0xFFFFFFFF ∧
      ∀ x ∈ [4], fat_entry_on_card sd1 x = 0 := by
  have e := demo32_lookup_5000
  cases h : fat_find_lfn 9
      (demo32 [0x0FFFFFF8, 0x0FFFFFFF, 0x0FFFFFFF, 4, 0x0FFFFFFF] 5000) 2 demo_name with
  | none => rw [h] at e; exact Option.noConfusion e
  | some r =>
    obtain ⟨res, s1⟩ := r
    rw [h] at e
    simp only [Option.map_some', Option.some.injEq, Prod.mk.injEq] at e
    obtain ⟨e1, e2⟩ := e
    subst e1
    have hc3 : dir_first_cluster
        ((demo32 [0x0FFFFFF8, 0x0FFFFFFF, 0x0FFFFFFF, 4, 0x0FFFFFFF] 5000).card
          s1.loaded_sector) 64 = 3 := by
      rw [e2]; decide
    obtain ⟨sd1, a1, _, a3, _, _, a6, a7⟩ :=
      (fat_truncate_file_spec 9 _ 2 [] demo_name 64 s1 (demo32_volume_ok _ _)
        (demo32_coherent _ _) (demo32_reads_ok _ _) (demo32_writes_ok _ _)
        demo32_is_dir_5000 (by decide) (by decide) h).2 [4]
        (by rw [e2]; decide) (by rw [hc3]; exact demo32_chain_5000)
        (by rw [hc3]; decide) (by rw [hc3]; decide) (by decide)
    rw [hc3] at a6
    exact ⟨s1, sd1, rfl, a1, a3, a6, a7⟩


/-! ## C2, C3, C4: the code at the failing inputs -/

set_option maxRecDepth 1000000 in
/-- C2, the code at the failing input: a file of 600 bytes in a cluster of 8 sectors,
a read handle at position 0 and a request of 1000 bytes.  `fat_fread` returns 1624
and leaves the position at 1624; the claim says 600. -/
theorem fat_fread_overcount :
    (fat_fread 9 (demo32 [0x0FFFFFF8, 0x0FFFFFFF, 0x0FFFFFFF, 0x0FFFFFFF] 600) (fun _ => 0)
      1000 1 (demo_handle 2 FILE_READ 600 0)).map (fun r => (r.1, r.2.2.1.ptr))
      = some (1624, 1624) := by
  decide

set_option maxRecDepth 1000000 in
/-- C3, the code at the failing input: a file of size 0 whose chain is the single
cluster 3, cluster 4 free, and a write of `8 * 512 + 1` bytes at offset 0.
`fat_write_file` returns 4096, the FAT entry of cluster 3 is still the end-of-chain
word, cluster 4 is still free, and `FileSize` is still 0. -/
theorem fat_write_file_no_extension :
    (fat_write_file 9 (demo32 [0x0FFFFFF8, 0x0FFFFFFF, 0x0FFFFFFF, 0x0FFFFFFF] 0) 2 demo_name
      demo_data 0 4097).map
      (fun r => (r.1, fat_entry_on_card r.2 3, fat_entry_on_card r.2 4,
        dir_file_size (r.2.card 4128) 64))
      = some (4096, 0x0FFFFFFF, 0, 0) := by
  decide

set_option maxRecDepth 1000000 in
/-- C4, the code at the failing input: a file of size 0 in cluster 3 (blocks 4136 to
4143), block 4137 unreadable, and a write of 600 bytes at offset 0.
`fat_write_file` returns 512 after the second sector cannot be read; the first
sector holds the data, and `FileSize` on the card is still 0, not 512. -/
theorem fat_write_file_partial_size :
    (fat_write_file 9 (demo32_bad [0x0FFFFFF8, 0x0FFFFFFF, 0x0FFFFFFF, 0x0FFFFFFF] 0 4137) 2
      demo_name demo_data 0 600).map
      (fun r => (r.1, dir_file_size (r.2.card 4128) 64, r.2.card 4136 0, r.2.card 4136 511))
      = some (512, 0, demo_data 0, demo_data 511) := by
  decide


/-! ## C1: write/read round trip -/

/-- Reading a sector of the first cluster of a chain needs no FAT look-up. -/
theorem fat_read_sector_first {sd : sdcard_t} (hv : volume_ok sd) (hco : coherent sd)
    (hr : reads_ok sd) {c : Nat} (hc2 : 2 ≤ c) (hc : c ≤ sd.data_clusters + 1) {j : Nat}
    (hj : j < sd.sectors_per_cluster) :
    (fat_read_sector sd c j).1 = 1 ∧
      (fat_read_sector sd c j).2.loaded_sector = cluster_lba sd c j ∧
      (∀ i, i < 512 → (fat_read_sector sd c j).2.buffer i = sd.card (cluster_lba sd c j) i) := by
  have hbe := volume_ok_below hv hc
  have hdiv : j / sd.sectors_per_cluster = 0 := Nat.div_eq_of_lt hj
  have hb := cluster_lba_bounds sd hc2 hc hj
  have hdl := hv.data_lba
  have htarget : u32 (fat_get_cluster_sector sd c + (j - 0 * sd.sectors_per_cluster))
      = cluster_lba sd c j := by
    rw [fat_get_cluster_sector_valid hv hc2 hc]
    unfold cluster_lba at hb ⊢
    unfold u32
    omega
  have hne : cluster_lba sd c j ≠ EOC := by
    show _ ≠ 4294967295
    omega
  have hrd := sd_read_block_loaded sd (cluster_lba sd c j) hco hne (hr _)
  rw [hv.blocksize] at hrd
  unfold below_eoc at hbe
  have hcl : (if sd.fattype = FAT16 then c else c &&& 0x0FFFFFFF) = c := by
    by_cases hf : sd.fattype = FAT16
    · rw [if_pos hf]
    · rw [if_neg hf] at hbe; rw [if_neg hf, land_below c hbe]
  have hg1 : ¬ (sd.fattype = FAT16 ∧ c ≥ 0xFFF8) := by
    rintro ⟨hf, h⟩; rw [if_pos hf] at hbe; omega
  have hg2 : ¬ (sd.fattype ≠ FAT16 ∧ c ≥ 0x0FFFFFF8) := by
    rintro ⟨hf, h⟩; rw [if_neg hf] at hbe; omega
  have hg3 : ¬ (sd.fattype = FAT16 ∧ c = 0) := by
    rintro ⟨_, h⟩; omega
  have hdc := volume_ok_dc_lt hv
  have e : fat_read_sector sd c j = (1, (sd_read_block sd (cluster_lba sd c j)).2) := by
    unfold fat_read_sector
    simp only [hcl]
    rw [if_neg hg1, if_neg hg2, if_neg hg3, hdiv]
    simp only [fat_read_sector_hops, htarget]
    rw [if_neg (by omega), if_neg (by rw [hrd.1]; omega)]
  rw [e]
  exact ⟨rfl, hrd.2.1, hrd.2.2⟩

/-- Writing a sector of the first cluster of a chain: the buffer goes to that block,
and the cache is invalidated. -/
theorem fat_write_sector_first {sd : sdcard_t} (hv : volume_ok sd) (hw : writes_ok sd)
    (hm : sd.malloc_ok = true) (fuel : Nat) {c : Nat} (allocate : Nat) (hc2 : 2 ≤ c)
    (hc : c ≤ sd.data_clusters + 1) {j : Nat} (hj : j < sd.sectors_per_cluster) :
    ∃ sd1, fat_write_sector fuel sd c j allocate = some (1, sd1) ∧ io_step sd sd1 ∧
      sd1.loaded_sector = EOC ∧
      (∀ i, i < 512 → sd1.card (cluster_lba sd c j) i = sd.buffer i) ∧
      (∀ l, l ≠ cluster_lba sd c j → sd1.card l = sd.card l) := by
  have hbe := volume_ok_below hv hc
  have hdiv : j / sd.sectors_per_cluster = 0 := Nat.div_eq_of_lt hj
  have hb := cluster_lba_bounds sd hc2 hc hj
  have hdl := hv.data_lba
  have hbs := hv.blocksize
  have htarget : u32 (fat_get_cluster_sector sd c + (j - 0 * sd.sectors_per_cluster))
      = cluster_lba sd c j := by
    rw [fat_get_cluster_sector_valid hv hc2 hc]
    unfold cluster_lba at hb ⊢
    unfold u32
    omega
  unfold below_eoc at hbe
  have hcl : (if sd.fattype = FAT16 then c else c &&& 0x0FFFFFFF) = c := by
    by_cases hf : sd.fattype = FAT16
    · rw [if_pos hf]
    · rw [if_neg hf] at hbe; rw [if_neg hf, land_below c hbe]
  have hg1 : ¬ (sd.fattype = FAT16 ∧ c ≥ 0xFFF8) := by
    rintro ⟨hf, h⟩; rw [if_pos hf] at hbe; omega
  have hg2 : ¬ (sd.fattype ≠ FAT16 ∧ c ≥ 0x0FFFFFF8) := by
    rintro ⟨hf, h⟩; rw [if_neg hf] at hbe; omega
  have hg3 : ¬ (sd.fattype = FAT16 ∧ c = 0) := by
    rintro ⟨_, h⟩; omega
  have hw2 : writes_ok { sd with loaded_sector := 0xFFFFFFFF,
                                  buffer := memcpy sd.buffer 0 sd.buffer 0 sd.blocksize } := hw
  have hwb := sd_write_block_ok _ (cluster_lba sd c j) hw2
  refine ⟨{ sd with loaded_sector := 0xFFFFFFFF,
                     buffer := memcpy sd.buffer 0 sd.buffer 0 sd.blocksize,
                     card := fun l i => if l = cluster_lba sd c j ∧ i < sd.blocksize then
                       memcpy sd.buffer 0 sd.buffer 0 sd.blocksize i else sd.card l i },
    ?_, ⟨_, _, _, rfl⟩, rfl, ?_, ?_⟩
  · unfold fat_write_sector
    simp only [hcl]
    rw [if_neg hg1, if_neg hg2, if_neg (by rw [hm]; simp), if_neg hg3, hdiv]
    simp only [fat_write_sector_hops, htarget, hwb]
    simp
  · intro i hi
    simp only [hbs, hi, and_self, if_true, memcpy]
    simp [hi]
  · intro l hl
    funext i
    simp only [hl, false_and, if_false]


theorem sub32_eq {a b : Nat} (ha : a < 4294967296) (hb : b ≤ a) : sub32 a b = a - b := by
  unfold sub32 u32; omega

theorem volume_ok_spc_lt {sd : sdcard_t} (hv : volume_ok sd) {c : Nat} (hc2 : 2 ≤ c)
    (hc : c ≤ sd.data_clusters + 1) : sd.sectors_per_cluster < 4294967295 := by
  have h := hv.data_lba
  have h1 : 1 * sd.sectors_per_cluster ≤ sd.data_clusters * sd.sectors_per_cluster :=
    Nat.mul_le_mul_right _ (by omega)
  omega

/-- One iteration of the loop of `fat_write_file` inside the first cluster. -/
theorem fat_write_file_loop_step {s : sdcard_t} (hv : volume_ok s) (hco : coherent s)
    (hr : reads_ok s) (hw : writes_ok s) (hm : s.malloc_ok = true) {c0 : Nat}
    (hc2 : 2 ≤ c0) (hc : c0 ≤ s.data_clusters + 1) (N : Nat) (data : Nat → Nat)
    (hN : N < 4294967296) (f j : Nat) (hj : j < s.sectors_per_cluster)
    (hlt : 512 * j < N) :
    ∃ s2, fat_write_file_loop c0 N data (f + 1) s j 0 (512 * j)
          = fat_write_file_loop c0 N data f s2 (j + 1) 0 (min (512 * (j + 1)) N) ∧
      io_step s s2 ∧ coherent s2 ∧
      (∀ i, i < 512 → 512 * j + i < N → s2.card (cluster_lba s c0 j) i = data (512 * j + i)) ∧
      (∀ l, l ≠ cluster_lba s c0 j → s2.card l = s.card l) := by
  obtain ⟨r1, r2, r3⟩ := fat_read_sector_first hv hco hr hc2 hc hj
  have hfr := fat_read_sector_frame s c0 j
  have hbs := hv.blocksize
  have hspc := volume_ok_spc_lt hv hc2 hc
  have hb1 : sub32 N (512 * j) = N - 512 * j := sub32_eq hN (by omega)
  have hb2 : sub32 s.blocksize 0 = 512 := by rw [hbs]; rfl
  have hio1 : io_step s
      { (fat_read_sector s c0 j).2 with
        buffer := memcpy (fat_read_sector s c0 j).2.buffer 0 data (512 * j)
          (min (N - 512 * j) 512) } :=
    io_step_trans hfr.1 ⟨_, _, _, rfl⟩
  obtain ⟨s2, e2, hio2, hl2, hc2a, hc2b⟩ := fat_write_sector_first
    (io_step_volume_ok hio1 hv) (io_step_writes_ok hio1 hw)
    (by rw [io_step_malloc_ok hio1]; exact hm) f 1 hc2
    (by rw [io_step_data_clusters hio1]; exact hc)
    (j := j) (by rw [io_step_sectors_per_cluster hio1]; exact hj)
  rw [io_step_cluster_lba hio1] at hc2a hc2b
  have hbtw : (if N - 512 * j > 512 then 512 else N - 512 * j) = min (N - 512 * j) 512 := by
    split <;> omega
  refine ⟨s2, ?_, io_step_trans hio1 hio2, fun h => absurd hl2 h, ?_, ?_⟩
  · conv_lhs => unfold fat_write_file_loop
    simp only
    rw [if_pos hlt, if_neg (by rw [r1]; omega), hb1, hb2, hbtw]
    rw [if_pos (by omega), e2]
    simp only
    rw [if_neg (by omega), if_neg (by omega)]
    have e1 : u32 (j + 1) = j + 1 := by unfold u32; omega
    have e3 : u32 (512 * j + min (N - 512 * j) 512) = min (512 * (j + 1)) N := by
      unfold u32; omega
    rw [e1, e3]
  · intro i hi hiN
    rw [hc2a i hi]
    simp only [memcpy]
    rw [if_pos (by omega)]
    simp
  · intro l hl
    rw [hc2b l hl]
    exact congrFun hfr.2.1 l


theorem cluster_lba_inj (sd : sdcard_t) (c : Nat) {j k : Nat} (h : j ≠ k) :
    cluster_lba sd c j ≠ cluster_lba sd c k := by
  unfold cluster_lba; omega

/-- The loop of `fat_write_file` for a write that starts at offset 0 and stays inside
the first cluster: all `N` bytes reach the card. -/
theorem fat_write_file_loop_first {sd0 : sdcard_t} (hv0 : volume_ok sd0)
    (hr0 : reads_ok sd0) (hw0 : writes_ok sd0) (hm0 : sd0.malloc_ok = true) {c0 : Nat}
    (hc2 : 2 ≤ c0) (hc : c0 ≤ sd0.data_clusters + 1) (N : Nat) (data : Nat → Nat)
    (hN : N < 4294967296) :
    ∀ (n j fuel : Nat) (s : sdcard_t), io_step sd0 s → coherent s →
      N ≤ 512 * (j + n) → j + n ≤ sd0.sectors_per_cluster → n < fuel →
      ∃ s1, fat_write_file_loop c0 N data fuel s j 0 (min (512 * j) N)
            = some (write_loop.done N, s1) ∧
        io_step s s1 ∧ coherent s1 ∧
        (∀ k i, j ≤ k → i < 512 → 512 * k + i < N →
          s1.card (cluster_lba sd0 c0 k) i = data (512 * k + i)) ∧
        (∀ l, (∀ k, j ≤ k → k < sd0.sectors_per_cluster → l ≠ cluster_lba sd0 c0 k) →
          s1.card l = s.card l) := by
  intro n
  induction n with
  | zero =>
    intro j fuel s hio hco h1 h2 hfuel
    obtain ⟨f, rfl⟩ : ∃ f, fuel = f + 1 := ⟨fuel - 1, by omega⟩
    refine ⟨s, ?_, io_step_refl s, hco, fun k i hk hi hki => by omega, fun _ _ => rfl⟩
    unfold fat_write_file_loop
    rw [Nat.min_eq_right (by omega), if_neg (by omega)]
  | succ n ih =>
    intro j fuel s hio hco h1 h2 hfuel
    obtain ⟨f, rfl⟩ : ∃ f, fuel = f + 1 := ⟨fuel - 1, by omega⟩
    by_cases hlt : 512 * j < N
    · have hv := io_step_volume_ok hio hv0
      obtain ⟨s2, e, hio2, hco2, ha, hb⟩ := fat_write_file_loop_step hv hco
        (io_step_reads_ok hio hr0) (io_step_writes_ok hio hw0)
        (by rw [io_step_malloc_ok hio]; exact hm0) hc2
        (by rw [io_step_data_clusters hio]; exact hc) N data hN f j
        (by rw [io_step_sectors_per_cluster hio]; omega) hlt
      rw [io_step_cluster_lba hio] at ha hb
      obtain ⟨s3, e3, hio3, hco3, hc3, hd3⟩ := ih (j + 1) f s2 (io_step_trans hio hio2) hco2
        (by omega) (by omega) (by omega)
      refine ⟨s3, ?_, io_step_trans hio2 hio3, hco3, ?_, ?_⟩
      · rw [Nat.min_eq_left (by omega), e, e3]
      · intro k i hk hi hki
        by_cases hkj : k = j
        · subst hkj
          rw [hd3 _ (fun k2 hk2 _ => cluster_lba_inj sd0 c0 (by omega))]
          exact ha i hi hki
        · exact hc3 k i (by omega) hi hki
      · intro l hl
        rw [hd3 l (fun k hk hk2 => hl k (by omega) hk2)]
        exact hb l (hl j (le_refl j) (by omega))
    · refine ⟨s, ?_, io_step_refl s, hco, fun k i hk hi hki => by omega, fun _ _ => rfl⟩
      unfold fat_write_file_loop
      rw [Nat.min_eq_right (by omega), if_neg (by omega)]

/-- One iteration of the loop of `fat_read_file` inside the first cluster, for a
request that ends at the end of the file. -/
theorem fat_read_file_loop_step {s : sdcard_t} (hv : volume_ok s) (hco : coherent s)
    (hr : reads_ok s) {c0 : Nat} (hc2 : 2 ≤ c0) (hc : c0 ≤ s.data_clusters + 1) (N : Nat)
    (out : Nat → Nat) (hN : N < 4294967296) (f j : Nat) (hj : j < s.sectors_per_cluster)
    (hlt : 512 * j < N) :
    ∃ s2 out2, fat_read_file_loop c0 0 N N (f + 1) s out j 0 (512 * j)
          = fat_read_file_loop c0 0 N N f s2 out2 (j + 1) 0 (min (512 * (j + 1)) N) ∧
      io_step s s2 ∧ coherent s2 ∧ s2.card = s.card ∧
      (∀ i, 512 * j ≤ i → i < 512 * (j + 1) → i < N →
        out2 i = s.card (cluster_lba s c0 j) (i - 512 * j)) ∧
      (∀ i, (i < 512 * j ∨ min (512 * (j + 1)) N ≤ i) → out2 i = out i) := by
  obtain ⟨r1, r2, r3⟩ := fat_read_sector_first hv hco hr hc2 hc hj
  have hfr := fat_read_sector_frame s c0 j
  have hbs := hv.blocksize
  have hspc := volume_ok_spc_lt hv hc2 hc
  have hb1 : sub32 N (512 * j) = N - 512 * j := sub32_eq hN (by omega)
  have hb2 : sub32 s.blocksize 0 = 512 := by rw [hbs]; rfl
  have hbtw : (if N - 512 * j > 512 then 512 else N - 512 * j) = min (N - 512 * j) 512 := by
    split <;> omega
  refine ⟨(fat_read_sector s c0 j).2,
    memcpy out (512 * j) (fat_read_sector s c0 j).2.buffer 0 (min (N - 512 * j) 512),
    ?_, hfr.1, hfr.2.2 hco, hfr.2.1, ?_, ?_⟩
  · conv_lhs => unfold fat_read_file_loop
    simp only
    rw [if_pos hlt, if_neg (by rw [r1]; omega), hb1, hb2, hbtw]
    have e0 : u32 (u32 (0 + 512 * j) + min (N - 512 * j) 512) = 512 * j + min (N - 512 * j) 512 := by
      unfold u32; omega
    have h5 : ¬ (512 * j + min (N - 512 * j) 512 > N) := by omega
    have h6 : min (N - 512 * j) 512 > 0 := by omega
    have h7 : ¬ (min (N - 512 * j) 512 = 0) := by omega
    simp only [e0, if_neg h5, if_pos h6, if_neg h7]
    have e1 : u32 (j + 1) = j + 1 := by unfold u32; omega
    have e3 : u32 (512 * j + min (N - 512 * j) 512) = min (512 * (j + 1)) N := by
      unfold u32; omega
    rw [e1, e3]
  · intro i h1 h2 h3
    simp only [memcpy]
    rw [if_pos (by omega), Nat.zero_add]
    exact r3 _ (by omega)
  · intro i hi
    simp only [memcpy]
    rw [if_neg (by omega)]

/-- The loop of `fat_read_file` for a read of the whole file from offset 0, the file
lying inside its first cluster. -/
theorem fat_read_file_loop_first {sd0 : sdcard_t} (hv0 : volume_ok sd0)
    (hr0 : reads_ok sd0) {c0 : Nat} (hc2 : 2 ≤ c0) (hc : c0 ≤ sd0.data_clusters + 1)
    (N : Nat) (hN : N < 4294967296) :
    ∀ (n j fuel : Nat) (s : sdcard_t) (out : Nat → Nat), io_step sd0 s → coherent s →
      N ≤ 512 * (j + n) → j + n ≤ sd0.sectors_per_cluster → n < fuel →
      ∃ out1 s1, fat_read_file_loop c0 0 N N fuel s out j 0 (min (512 * j) N)
            = some (N, out1, s1) ∧
        io_step s s1 ∧ coherent s1 ∧ s1.card = s.card ∧
        (∀ i, 512 * j ≤ i → i < N →
          out1 i = s.card (cluster_lba sd0 c0 (i / 512)) (i % 512)) ∧
        (∀ i, (i < 512 * j ∨ N ≤ i) → out1 i = out i) := by
  intro n
  induction n with
  | zero =>
    intro j fuel s out hio hco h1 h2 hfuel
    obtain ⟨f, rfl⟩ : ∃ f, fuel = f + 1 := ⟨fuel - 1, by omega⟩
    refine ⟨out, s, ?_, io_step_refl s, hco, rfl, fun i h3 h4 => by omega, fun _ _ => rfl⟩
    unfold fat_read_file_loop
    rw [Nat.min_eq_right (by omega), if_neg (by omega)]
  | succ n ih =>
    intro j fuel s out hio hco h1 h2 hfuel
    obtain ⟨f, rfl⟩ : ∃ f, fuel = f + 1 := ⟨fuel - 1, by omega⟩
    by_cases hlt : 512 * j < N
    · have hv := io_step_volume_ok hio hv0
      obtain ⟨s2, out2, e, hio2, hco2, hcard2, ha, hb⟩ := fat_read_file_loop_step hv hco
        (io_step_reads_ok hio hr0) hc2
        (by rw [io_step_data_clusters hio]; exact hc) N out hN f j
        (by rw [io_step_sectors_per_cluster hio]; omega) hlt
      rw [io_step_cluster_lba hio] at ha
      obtain ⟨out3, s3, e3, hio3, hco3, hcard3, hc3, hd3⟩ := ih (j + 1) f s2 out2
        (io_step_trans hio hio2) hco2 (by omega) (by omega) (by omega)
      refine ⟨out3, s3, ?_, io_step_trans hio2 hio3, hco3, by rw [hcard3, hcard2], ?_, ?_⟩
      · rw [Nat.min_eq_left (by omega), e, e3]
      · intro i h3 h4
        by_cases hi : i < 512 * (j + 1)
        · rw [hd3 i (Or.inl hi), ha i h3 hi h4]
          have e1 : i / 512 = j := by omega
          have e2 : i % 512 = i - 512 * j := by omega
          rw [e1, e2]
        · rw [hc3 i (by omega) h4, hcard2]
      · intro i hi
        rw [hd3 i (by omega), hb i (by omega)]
    · refine ⟨out, s, ?_, io_step_refl s, hco, rfl, fun i h3 h4 => by omega, fun _ _ => rfl⟩
      unfold fat_read_file_loop
      rw [Nat.min_eq_right (by omega), if_neg (by omega)]


/-- Helper for C1: the write half. -/
theorem fat_write_file_first {sd : sdcard_t} (hv : volume_ok sd) (hco : coherent sd)
    (hr : reads_ok sd) (hw : writes_ok sd) (hm : sd.malloc_ok = true) {start : Nat}
    {cs : List Nat} (hd : is_dir sd start cs) {filename : List Nat} (hname : filename ≠ [])
    {fuel : Nat} (hfuel : dir_sector_count sd start cs < fuel)
    (hfuel2 : sd.sectors_per_cluster < fuel) {dir : Nat} {s1 : sdcard_t}
    (hfind : fat_find_lfn fuel sd start filename = some (some dir, s1))
    (hsize : dir_file_size (sd.card s1.loaded_sector) dir = 0) {c0 : Nat}
    (hc0 : dir_first_cluster (sd.card s1.loaded_sector) dir = c0)
    (hc2 : 2 ≤ c0) (hc : c0 ≤ sd.data_clusters + 1) (hnd : c0 ∉ start :: cs)
    (N : Nat) (data : Nat → Nat) (hN1 : 1 ≤ N) (hN2 : N ≤ sd.sectors_per_cluster * 512)
    (hN3 : N < 4294967296) :
    ∃ sd1, fat_write_file fuel sd start filename data 0 N = some (N, sd1) ∧
      io_step sd sd1 ∧ coherent sd1 ∧
      dir_file_size (sd1.card s1.loaded_sector) dir = N ∧
      same_but_size dir (sd.card s1.loaded_sector) (sd1.card s1.loaded_sector) ∧
      (∀ k i, k < sd.sectors_per_cluster → i < 512 → 512 * k + i < N →
        sd1.card (cluster_lba sd c0 k) i = data (512 * k + i)) ∧
      (∀ l, l ≠ s1.loaded_sector → (∀ k, k < sd.sectors_per_cluster → l ≠ cluster_lba sd c0 k) →
        sd1.card l = sd.card l) := by
  obtain ⟨hio1, hc1, hco1, j1, hdf, hj1, hL, hLne, hd32, hd512, hnotlfn, hbuf⟩ :=
    fat_find_lfn_found hv hco hr hd hfuel hfind
  have hbs1 : s1.blocksize = 512 := by rw [io_step_blocksize hio1]; exact hv.blocksize
  have hclu : dir_first_cluster s1.buffer dir = c0 := by
    rw [← hc0]
    exact dir_first_cluster_congr _ _ dir hd512 (fun i hi _ => hbuf i hi)
  have hsz : dir_file_size s1.buffer dir = 0 := by
    rw [dir_file_size_congr _ _ dir hd512 hbuf]; exact hsize
  -- the data sectors
  obtain ⟨s2, e2, hio2, hco2, ha2, hb2⟩ := fat_write_file_loop_first hv hr hw hm hc2 hc N data
    hN3 sd.sectors_per_cluster 0 fuel s1 hio1 hco1 (by omega) (by omega) hfuel2
  rw [hc1] at hb2
  have hio02 := io_step_trans hio1 hio2
  have hLdata : ∀ k, k < sd.sectors_per_cluster → s1.loaded_sector ≠ cluster_lba sd c0 k := by
    intro k hk; rw [hL]
    exact dir_lba_ne_cluster_lba hv hd hj1 hnd hc2 hk
  -- the second lookup
  obtain ⟨s3, e3, hio3, hcard3, hco3, hL3, hbuf3⟩ := fat_find_lfn_again hv hr hd hfuel hdf
    hio02 hco2
    (fun x _ hx => fat_entry_in_congr sd _ _ x
      (hb2 _ (fun k _ _ => fat_lba_ne_cluster_lba hv hx c0 k)))
    (fun j hj => Or.inr (fun i _ => by
      rw [hb2 _ (fun k _ hk => dir_lba_ne_cluster_lba hv hd hj hnd hc2 hk)]))
  rw [← hL] at hL3 hbuf3
  have hio03 := io_step_trans hio02 hio3
  -- the size update
  obtain ⟨s5, ew, hio5, hco5, hL5, hfr5, hsbs5, hsz5⟩ :=
    dir_size_update (io_step_volume_ok hio03 hv) hco3 (io_step_writes_ok hio03 hw)
      (by rw [hL3]; exact hLne) hd512 (u32 (0 + N))
  rw [hL3] at hfr5 hsbs5 hsz5
  rw [hcard3] at hfr5 hsbs5
  rw [hL3] at ew
  have hs2L : s2.card s1.loaded_sector = sd.card s1.loaded_sector :=
    hb2 _ (fun k _ hk => hLdata k hk)
  have huN : u32 (0 + N) = N := by unfold u32; omega
  refine ⟨s5, ?_, io_step_trans hio03 hio5, hco5, ?_, ?_, ?_, ?_⟩
  · unfold fat_write_file
    rw [if_neg (by simpa using hname), if_neg (by omega), hfind]
    simp only [hsz, hclu, hbs1]
    have e0 : sub32 (if 0 > 0 then 0 else 0) (u32 ((if 0 > 0 then 0 else 0) / 512 * 512))
        = 0 := by decide
    have e1 : (if 0 > 0 then 0 else 0) / 512 = 0 := by decide
    rw [e0, e1]
    have e2' := e2
    simp only [Nat.mul_zero, Nat.zero_min] at e2'
    rw [e2']
    simp only
    rw [if_pos (by omega), e3]
    simp only
    have e4 : (if 0 > 0 then 0 else 0) = 0 := by decide
    have hN0 : N > 0 := by omega
    rw [e4, huN]
    simp only [if_pos hN0, hL3]
    rw [huN] at ew
    rw [ew]
    simp
  · rw [hsz5, huN]; exact Nat.mod_eq_of_lt hN3
  · rw [← hs2L]; exact hsbs5
  · intro k i hk hi hki
    rw [hfr5 _ (hLdata k hk).symm]
    exact ha2 k i (Nat.zero_le _) hi hki
  · intro l hl1 hl2
    rw [hfr5 l hl1]
    exact hb2 l (fun k _ hk => hl2 k hk)


/-- Claim C1 (write/read round trip).  On a well-formed volume whose block reads and
writes all succeed (`sectors_per_cluster` in its `uint8_t` range, enough fuel for the
directory scan and the sector loop), let `filename` be found in the directory `start :: cs` at record
`dir` with `DIR_FileSize = 0` and a first cluster `c0` that is a data cluster outside
the directory chain.  For every `N` with `1 ≤ N ≤ sectors_per_cluster * 512` and every
buffer `data`, `fat_write_file` at start 0 with `N` bytes returns `N`, the directory
record's `DIR_FileSize` on the card becomes `N`, and a following `fat_read_file` of
`N` bytes from start 0 returns `N` and stores `data i` at every position `i < N` of
the output buffer. -/
theorem fat_write_read_round_trip {sd : sdcard_t} (hv : volume_ok sd) (hco : coherent sd)
    (hr : reads_ok sd) (hw : writes_ok sd) (hm : sd.malloc_ok = true) {start : Nat}
    {cs : List Nat} (hd : is_dir sd start cs) {filename : List Nat} (hname : filename ≠ [])
    {fuel : Nat} (hfuel : dir_sector_count sd start cs < fuel)
    (hfuel2 : sd.sectors_per_cluster < fuel) (hspc : sd.sectors_per_cluster < 256)
    {dir : Nat} {s1 : sdcard_t}
    (hfind : fat_find_lfn fuel sd start filename = some (some dir, s1))
    (hsize : dir_file_size (sd.card s1.loaded_sector) dir = 0)
    (hc2 : 2 ≤ dir_first_cluster (sd.card s1.loaded_sector) dir)
    (hc : dir_first_cluster (sd.card s1.loaded_sector) dir ≤ sd.data_clusters + 1)
    (hnd : dir_first_cluster (sd.card s1.loaded_sector) dir ∉ start :: cs)
    (N : Nat) (data : Nat → Nat) (hN1 : 1 ≤ N) (hN2 : N ≤ sd.sectors_per_cluster * 512) :
    ∃ sd1, fat_write_file fuel sd start filename data 0 N = some (N, sd1) ∧
      dir_file_size (sd1.card s1.loaded_sector) dir = N ∧
      ∀ out : Nat → Nat, ∃ out1 sd2,
        fat_read_file fuel sd1 start filename out 0 N = some (N, out1, sd2) ∧
        ∀ i, i < N → out1 i = data i := by
  have hN3 : N < 4294967296 := by omega
  obtain ⟨c0, hc0⟩ : ∃ c0, dir_first_cluster (sd.card s1.loaded_sector) dir = c0 := ⟨_, rfl⟩
  rw [hc0] at hc2 hc hnd
  obtain ⟨_, _, _, j1, hdf, hj1, hL, hLne, hd32, hd512, hnotlfn, _⟩ :=
    fat_find_lfn_found hv hco hr hd hfuel hfind
  obtain ⟨sd1, ew, hio1, hco1, hsz1, hsbs, hdata, hframe⟩ :=
    fat_write_file_first hv hco hr hw hm hd hname hfuel hfuel2 hfind hsize hc0 hc2 hc hnd
      N data hN1 hN2 hN3
  refine ⟨sd1, ew, hsz1, fun out => ?_⟩
  -- the lookup made by the read
  obtain ⟨s6, e6, hio6, hcard6, hco6, hL6, hbuf6⟩ := fat_find_lfn_again hv hr hd hfuel hdf
    hio1 hco1
    (fun x _ hx => fat_entry_in_congr sd _ _ x
      (hframe _ (by rw [hL]; exact (dir_lba_ne_fat_lba hv hd hj1 hx).symm)
        (fun k _ => fat_lba_ne_cluster_lba hv hx c0 k)))
    (fun j hj => by
      by_cases h : dir_sector_lba sd start cs j = dir_sector_lba sd start cs j1
      · left
        refine ⟨h, ?_⟩
        rw [← hL]; exact hsbs
      · right
        intro i _
        rw [hframe _ (by rw [hL]; exact h)
          (fun k hk => dir_lba_ne_cluster_lba hv hd hj hnd hc2 hk)])
  rw [← hL] at hL6 hbuf6
  have hbs6 : s6.blocksize = 512 := by
    rw [io_step_blocksize (io_step_trans hio1 hio6)]; exact hv.blocksize
  have hsz6 : dir_file_size s6.buffer dir = N := by
    rw [dir_file_size_congr _ _ dir hd512 hbuf6]; exact hsz1
  have hclu6 : dir_first_cluster s6.buffer dir = c0 := by
    rw [dir_first_cluster_congr _ _ dir hd512 (fun i hi _ => hbuf6 i hi),
      dir_first_cluster_congr _ _ dir hd512 hsbs]
    exact hc0
  obtain ⟨out1, s7, e7, _, _, _, hout, _⟩ := fat_read_file_loop_first hv hr hc2 hc N hN3
    sd.sectors_per_cluster 0 fuel s6 out (io_step_trans hio1 hio6) hco6 (by omega)
    (by omega) hfuel2
  refine ⟨out1, s7, ?_, ?_⟩
  · unfold fat_read_file
    rw [if_neg (by simpa using hname), if_neg (by omega), e6]
    simp only [hsz6, hclu6, hbs6]
    have hcond : ¬ (N = 0 ∨ 0 ≥ N) := by omega
    rw [if_neg hcond]
    have e0 : sub32 0 (u32 (0 / 512 * 512)) = 0 := by decide
    have e1 : 0 / 512 = 0 := by decide
    rw [e0, e1]
    simpa using e7
  · intro i hi
    rw [hout i (by omega) hi, hcard6]
    have hk : i / 512 < sd.sectors_per_cluster := by
      rw [Nat.div_lt_iff_lt_mul (by decide)]; omega
    rw [hdata (i / 512) (i % 512) hk (Nat.mod_lt _ (by decide)) (by omega)]
    congr 1
    omega

set_option maxRecDepth 100000 in
theorem demo32_lookup_0 :
    (fat_find_lfn 9 (demo32 [0x0FFFFFF8, 0x0FFFFFFF, 0x0FFFFFFF, 0x0FFFFFFF] 0) 2
      demo_name).map (fun r => (r.1, r.2.loaded_sector)) = some (some 64, 4128) := by
  decide

set_option maxRecDepth 100000 in
theorem demo32_is_dir_0 :
    is_dir (demo32 [0x0FFFFFF8, 0x0FFFFFFF, 0x0FFFFFFF, 0x0FFFFFFF] 0) 2 [] := by
  simp only [is_dir, is_chain, chain_links]
  decide

set_option maxRecDepth 100000 in
/-- Instance of C1: `Hello World.txt` (size 0, first cluster 3) in the root directory of
a FAT32 volume with 8 sectors per cluster; writing then reading the 13 bytes
`Hello, world!`, and 600 bytes spanning two sectors. -/
theorem fat_write_read_round_trip_witness :
    (∃ sd1 out1 sd2,
      fat_write_file 9 (demo32 [0x0FFFFFF8, 0x0FFFFFFF, 0x0FFFFFFF, 0x0FFFFFFF] 0) 2
        demo_name (bytes_of demo_hello) 0 13 = some (13, sd1) ∧
      dir_file_size (sd1.card 4128) 64 = 13 ∧
      fat_read_file 9 sd1 2 demo_name (fun _ => 0) 0 13 = some (13, out1, sd2) ∧
      ∀ i, i < 13 → out1 i = bytes_of demo_hello i) ∧
    (∃ sd1 out1 sd2,
      fat_write_file 9 (demo32 [0x0FFFFFF8, 0x0FFFFFFF, 0x0FFFFFFF, 0x0FFFFFFF] 0) 2
        demo_name demo_data 0 600 = some (600, sd1) ∧
      dir_file_size (sd1.card 4128) 64 = 600 ∧
      fat_read_file 9 sd1 2 demo_name (fun _ => 0) 0 600 = some (600, out1, sd2) ∧
      ∀ i, i < 600 → out1 i = demo_data i) := by
  have e := demo32_lookup_0
  cases h : fat_find_lfn 9
      (demo32 [0x0FFFFFF8, 0x0FFFFFFF, 0x0FFFFFFF, 0x0FFFFFFF] 0) 2 demo_name with
  | none => rw [h] at e; exact Option.noConfusion e
  | some r =>
    obtain ⟨res, s1⟩ := r
    rw [h] at e
    simp only [Option.map_some', Option.some.injEq, Prod.mk.injEq] at e
    obtain ⟨e1, e2⟩ := e
    subst e1
    have hc3 : dir_first_cluster
        ((demo32 [0x0FFFFFF8, 0x0FFFFFFF, 0x0FFFFFFF, 0x0FFFFFFF] 0).card
          s1.loaded_sector) 64 = 3 := by
      rw [e2]; decide
    constructor
    · obtain ⟨sd1, a1, a2, a3⟩ :=
        fat_write_read_round_trip (demo32_volume_ok _ _) (demo32_coherent _ _)
          (demo32_reads_ok _ _) (demo32_writes_ok _ _) rfl demo32_is_dir_0
          (by decide) (by decide) (by decide) (by decide) h (by rw [e2]; decide)
          (by rw [hc3]; decide) (by rw [hc3]; decide) (by rw [hc3]; decide)
          13 (bytes_of demo_hello) (by decide) (by decide)
      obtain ⟨out1, sd2, a4, a5⟩ := a3 (fun _ => 0)
      rw [e2] at a2
      exact ⟨sd1, out1, sd2, a1, a2, a4, a5⟩
    · obtain ⟨sd1, a1, a2, a3⟩ :=
        fat_write_read_round_trip (demo32_volume_ok _ _) (demo32_coherent _ _)
          (demo32_reads_ok _ _) (demo32_writes_ok _ _) rfl demo32_is_dir_0
          (by decide) (by decide) (by decide) (by decide) h (by rw [e2]; decide)
          (by rw [hc3]; decide) (by rw [hc3]; decide) (by rw [hc3]; decide)
          600 demo_data (by decide) (by decide)
      obtain ⟨out1, sd2, a4, a5⟩ := a3 (fun _ => 0)
      rw [e2] at a2
      exact ⟨sd1, out1, sd2, a1, a2, a4, a5⟩


/-! # Short names, seek, create (C11 to C20) -/

/-! ## C17: the short-name checksum -/




set_option maxRecDepth 100000 in
theorem rotr8_eq : ∀ s, s < 256 → (if s &&& 1 ≠ 0 then 0x80 else 0) + (s >>> 1) = rotr8 s := by
  decide

theorem sfn_checksum_loop_fold (shortname : Nat → Nat) : ∀ (n sum p : Nat),
    sfn_checksum_loop shortname n sum p =
      ((List.range n).map (fun i => shortname (p + i))).foldl
        (fun sum b => ((if sum &&& 1 ≠ 0 then 0x80 else 0) + (sum >>> 1) + b) % 256) sum
  | 0, _, _ => rfl
  | n + 1, sum, p => by
    unfold sfn_checksum_loop
    rw [sfn_checksum_loop_fold shortname n, List.range_succ_eq_map, List.map_cons, List.foldl_cons,
      List.map_map]
    simp only [u8, Nat.add_zero]
    congr 2
    funext i
    simp only [Function.comp, Nat.succ_eq_add_one]
    congr 1
    omega

theorem foldl_spec_eq (l : List Nat) : ∀ (sum : Nat), sum < 256 →
    l.foldl (fun sum b => ((if sum &&& 1 ≠ 0 then 0x80 else 0) + (sum >>> 1) + b) % 256) sum
      = l.foldl (fun sum b => (rotr8 sum + b) % 256) sum ∧
    l.foldl (fun sum b => (rotr8 sum + b) % 256) sum < 256 := by
  induction l with
  | nil => intro sum h; exact ⟨rfl, h⟩
  | cons b l ih =>
    intro sum h
    simp only [List.foldl_cons]
    rw [rotr8_eq sum h]
    exact ih _ (Nat.mod_lt _ (by decide))

/-- Claim C17 (short-name checksum).  For every short name, `sfn_checksum` is the fold of
`sum := ((sum & 1) ? 0x80 : 0) + (sum >> 1) + b_i (mod 256)` over its bytes
`b_0 .. b_10` from `sum = 0`; that is rotate right by one bit, then add
(`sfn_checksum_spec`); the result is an 8-bit value, and it is the same for any two
names that agree on those 11 bytes. -/
theorem sfn_checksum_rotating_sum (shortname : Nat → Nat) :
    sfn_checksum shortname =
        ((List.range 11).map shortname).foldl
          (fun sum b => ((if sum &&& 1 ≠ 0 then 0x80 else 0) + (sum >>> 1) + b) % 256) 0 ∧
      sfn_checksum shortname = sfn_checksum_spec ((List.range 11).map shortname) ∧
      sfn_checksum shortname < 256 ∧
      ∀ other : Nat → Nat, (∀ i, i < 11 → other i = shortname i) →
        sfn_checksum other = sfn_checksum shortname := by
  have h1 : ∀ s : Nat → Nat, sfn_checksum s =
      ((List.range 11).map s).foldl
        (fun sum b => ((if sum &&& 1 ≠ 0 then 0x80 else 0) + (sum >>> 1) + b) % 256) 0 := by
    intro s
    unfold sfn_checksum
    rw [sfn_checksum_loop_fold]
    simp only [Nat.zero_add]
  have h2 := foldl_spec_eq ((List.range 11).map shortname) 0 (by decide)
  refine ⟨h1 _, ?_, ?_, ?_⟩
  · rw [h1, h2.1]; rfl
  · rw [h1, h2.1]; exact h2.2
  · intro other ho
    rw [h1, h1]
    congr 1
    apply List.map_congr_left
    intro i hi
    exact ho i (List.mem_range.mp hi)

/-- Instance of C17: the checksum of `HELLOW~1TXT` is 27, by either reading. -/
theorem sfn_checksum_rotating_sum_witness :
    sfn_checksum (bytes_of demo_sfn) = sfn_checksum_spec demo_sfn ∧
      sfn_checksum_spec demo_sfn = 27 ∧
      sfn_checksum (bytes_of (demo_sfn ++ [1, 2, 3])) = sfn_checksum (bytes_of demo_sfn) :=
  ⟨(sfn_checksum_rotating_sum (bytes_of demo_sfn)).2.1, by decide,
    (sfn_checksum_rotating_sum (bytes_of demo_sfn)).2.2.2 _ (by decide)⟩




/-! ## C18, C19: seek -/

/-- C18, the code at the failing input: a handle without the append flag on a file of
`0x80000000` bytes, position 0, and `fat_fseek(handle, -2147483648, SEEK_CUR)`.  The
target `0 + (-2147483648)` is negative, yet the code returns 1 and sets the position
to `0x80000000`.  Likewise with a file of `0xFFFFFFF0` bytes, `SEEK_END` and offset
`0x20`: the target is past the end of the file, the code returns 1 and sets the
position to `0x10`. -/
theorem fat_fseek_wraps_around :
    (fat_fseek (demo_handle 2 FILE_READ 0x80000000 0) (-2147483648) SEEK_CUR).1 = 1 ∧
      (fat_fseek (demo_handle 2 FILE_READ 0x80000000 0) (-2147483648) SEEK_CUR).2.ptr
        = 0x80000000 ∧
      (fat_fseek (demo_handle 2 FILE_READ 0xFFFFFFF0 0) 0x20 SEEK_END).1 = 1 ∧
      (fat_fseek (demo_handle 2 FILE_READ 0xFFFFFFF0 0) 0x20 SEEK_END).2.ptr = 0x10 := by
  decide

/-- On files of less than `2^31` bytes the seek bounds hold: with the position inside
the file and no append flag, `fat_fseek` accepts exactly the targets in
`[0, filesize]`. -/
theorem fat_fseek_bounds_below_2G (h : fat_handle) (offset origin : Int)
    (happ : h.flags &&& FILE_APPEND = 0) (hfile : h.is_file ≠ 0)
    (hsz : h.filesize < 2147483648) (hptr : h.ptr ≤ h.filesize)
    (ho1 : -2147483648 ≤ offset) (ho2 : offset < 2147483648)
    (target : Int)
    (ht : (origin = SEEK_SET ∧ target = offset) ∨
      (origin = SEEK_CUR ∧ target = h.ptr + offset) ∨
      (origin = SEEK_END ∧ target = h.filesize + offset)) :
    (0 ≤ target ∧ target ≤ h.filesize →
        fat_fseek h offset origin = (1, { h with ptr := target.toNat })) ∧
      (¬ (0 ≤ target ∧ target ≤ h.filesize) → fat_fseek h offset origin = (0, h)) := by
  unfold fat_fseek
  have e1 : ¬ (h.flags &&& FILE_APPEND ≠ 0) := by simp [happ]
  rw [if_neg e1, if_neg hfile]
  simp only [SEEK_SET, SEEK_CUR, SEEK_END, int_to_u32, u32] at ht ⊢
  rcases ht with ⟨rfl, rfl⟩ | ⟨rfl, rfl⟩ | ⟨rfl, rfl⟩
  · simp only [if_true]
    constructor
    · intro ⟨a, b⟩
      have c : (target % 4294967296).toNat = target.toNat := by omega
      rw [if_pos ⟨a, by omega⟩, c]
    · intro hn
      rw [if_neg (by omega)]
  · have d1 : ¬ ((1 : Int) = 0) := by decide
    simp only [d1, if_false, if_true]
    constructor
    · intro ⟨a, b⟩
      have c : (h.ptr + (offset % 4294967296).toNat) % 4294967296
          = ((h.ptr : Int) + offset).toNat := by omega
      rw [if_pos ⟨by omega, by omega⟩, c]
    · intro hn
      rw [if_neg (by omega)]
  · have d1 : ¬ ((2 : Int) = 0) := by decide
    have d2 : ¬ ((2 : Int) = 1) := by decide
    simp only [d1, d2, if_false, if_true]
    constructor
    · intro ⟨a, b⟩
      have c : (h.filesize + (offset % 4294967296).toNat) % 4294967296
          = ((h.filesize : Int) + offset).toNat := by omega
      rw [if_pos ⟨by omega, by omega⟩, c]
    · intro hn
      rw [if_neg (by omega)]

/-- Counterexample to C19 as stated: on a handle opened with mode `a+` a seek returns
0, which is not the value 1 that an accepted `SEEK_SET` move returns. -/
theorem fat_fseek_append_counterexample :
    (fat_fseek (demo_handle 2 (fat_fopen_flags [97, 43]) 100 100) 0 SEEK_SET).1 ≠ 1 ∧
      (fat_fseek (demo_handle 2 (fat_fopen_flags [114, 43]) 100 100) 0 SEEK_SET).1 = 1 := by
  decide

/-- Claim C19, amended (seek on an append handle).  The modes `"a"` and `"a+"` set the
append flag, and for every handle with the append flag, every offset and every
whence, `fat_fseek` returns 0, the value it returns for a rejected move, and leaves
the handle, hence its position, unchanged. -/
theorem fat_fseek_append_ignored :
    fat_fopen_flags [97] &&& FILE_APPEND ≠ 0 ∧ fat_fopen_flags [97, 43] &&& FILE_APPEND ≠ 0 ∧
      ∀ (h : fat_handle) (offset origin : Int), h.flags &&& FILE_APPEND ≠ 0 →
        fat_fseek h offset origin = (0, h) := by
  refine ⟨by decide, by decide, ?_⟩
  intro h offset origin happ
  unfold fat_fseek
  rw [if_pos happ]

/-- Instance of C19: a seek to 0 on a handle opened with `a+` at position 100. -/
theorem fat_fseek_append_ignored_witness :
    fat_fseek (demo_handle 2 (fat_fopen_flags [97, 43]) 100 100) 0 SEEK_SET
      = (0, demo_handle 2 (fat_fopen_flags [97, 43]) 100 100) :=
  fat_fseek_append_ignored.2.2 _ 0 SEEK_SET (by decide)

/-! ## C16: fragments of a long name -/

set_option maxRecDepth 1000000 in
/-- C16, the code at the failing input: a name of 248 characters.  The cache holds 20
fragments; position 248 is the NUL terminator, positions 249 to 255 hold `0xFF`,
but positions 256 to 259 hold the first four characters of the name, `ABCD`, not
`0xFF`: the position is kept in a `uint8_t` and wraps around. -/
theorem lfn_cache_from_string_wraps :
    (lfn_cache_from_string demo_long_name 0).strings = 20 ∧
      (lfn_cache_from_string demo_long_name 0).filename 248 = 0 ∧
      (List.range 7).map (fun i => (lfn_cache_from_string demo_long_name 0).filename (249 + i))
        = [255, 255, 255, 255, 255, 255, 255] ∧
      (List.range 4).map (fun i => (lfn_cache_from_string demo_long_name 0).filename (256 + i))
        = [65, 66, 67, 68] := by
  decide





/-- The inner loop of `lfn_cache_from_string` in closed form. -/
theorem lfn_cache_from_string_chars_eq (filename : List Nat) (len entry : Nat) :
    ∀ (n i : Nat) (f : Nat → Nat) (p : Nat),
      lfn_cache_from_string_chars filename len entry n i f p =
        if entry * 13 + i ≤ p ∧ p < entry * 13 + i + n then
          (if u8 p ≥ len then (if u8 p = len then 0x00 else 0xFF) else filename.getD (u8 p) 0)
        else f p
  | 0, i, f, p => by
    unfold lfn_cache_from_string_chars
    rw [if_neg (by omega)]
  | n + 1, i, f, p => by
    unfold lfn_cache_from_string_chars
    simp only
    rw [lfn_cache_from_string_chars_eq filename len entry n (i + 1)]
    unfold write8
    by_cases h1 : p = entry * 13 + i
    · subst h1
      have c1 : ¬ (entry * 13 + (i + 1) ≤ entry * 13 + i ∧
          entry * 13 + i < entry * 13 + (i + 1) + n) := by omega
      have c2 : entry * 13 + i ≤ entry * 13 + i ∧ entry * 13 + i < entry * 13 + i + (n + 1) := by
        omega
      simp only [if_neg c1, if_pos c2, if_true]
    · by_cases h2 : entry * 13 + (i + 1) ≤ p ∧ p < entry * 13 + (i + 1) + n
      · have c2 : entry * 13 + i ≤ p ∧ p < entry * 13 + i + (n + 1) := by omega
        simp only [if_pos h2, if_pos c2]
      · have c2 : ¬ (entry * 13 + i ≤ p ∧ p < entry * 13 + i + (n + 1)) := by omega
        simp only [if_neg h2, if_neg h1, if_neg c2]

/-- The outer loop of `lfn_cache_from_string` in closed form. -/
theorem lfn_cache_from_string_loop_eq (filename : List Nat) (len : Nat) :
    ∀ (n entry : Nat) (cache : lfn_cache),
      (lfn_cache_from_string_loop filename len n entry cache).checksum = cache.checksum ∧
      (lfn_cache_from_string_loop filename len n entry cache).strings % 256
        = (cache.strings + n) % 256 ∧
      (cache.strings < 256 →
        (lfn_cache_from_string_loop filename len n entry cache).strings < 256) ∧
      ∀ p, (lfn_cache_from_string_loop filename len n entry cache).filename p =
        if entry * 13 ≤ p ∧ p < (entry + n) * 13 then
          (if u8 p ≥ len then (if u8 p = len then 0x00 else 0xFF) else filename.getD (u8 p) 0)
        else cache.filename p
  | 0, entry, cache => by
    unfold lfn_cache_from_string_loop
    refine ⟨rfl, rfl, id, fun p => ?_⟩
    rw [if_neg (by omega)]
  | n + 1, entry, cache => by
    unfold lfn_cache_from_string_loop
    obtain ⟨a, b, c, d⟩ := lfn_cache_from_string_loop_eq filename len n (entry + 1)
      { cache with
          filename := lfn_cache_from_string_chars filename len entry 13 0 cache.filename
          strings := u8 (cache.strings + 1) }
    refine ⟨a, ?_, ?_, fun p => ?_⟩
    · rw [b]; simp only [u8]; omega
    · intro _; exact c (Nat.mod_lt _ (by decide))
    · rw [d p]
      simp only [lfn_cache_from_string_chars_eq]
      by_cases h2 : (entry + 1) * 13 ≤ p ∧ p < (entry + 1 + n) * 13
      · have c2 : entry * 13 ≤ p ∧ p < (entry + (n + 1)) * 13 := by omega
        simp only [if_pos h2, if_pos c2]
      · by_cases h3 : entry * 13 + 0 ≤ p ∧ p < entry * 13 + 0 + 13
        · have c2 : entry * 13 ≤ p ∧ p < (entry + (n + 1)) * 13 := by omega
          simp only [if_neg h2, if_pos h3, if_pos c2]
        · have c2 : ¬ (entry * 13 ≤ p ∧ p < (entry + (n + 1)) * 13) := by omega
          simp only [if_neg h2, if_neg h3, if_neg c2]

/-- The function `lfn_cache_from_string` on names of at most 255 characters: the number
of fragments is `(L + 12) / 13`, and the character at position `p` of the fragments
is the one of `lfn_fragment_char` taken at `p mod 256`. -/
theorem lfn_cache_from_string_eq (filename : List Nat) (chksum : Nat)
    (hL : filename.length ≤ 255) :
    (lfn_cache_from_string filename chksum).checksum = chksum ∧
      (lfn_cache_from_string filename chksum).strings = (filename.length + 12) / 13 ∧
      ∀ p, p < (filename.length + 12) / 13 * 13 →
        (lfn_cache_from_string filename chksum).filename p
          = lfn_fragment_char filename (p % 256) := by
  unfold lfn_cache_from_string
  have e1 : u8 filename.length = filename.length := Nat.mod_eq_of_lt (by omega)
  have e2 : u8 ((filename.length + 12) / 13) = (filename.length + 12) / 13 :=
    Nat.mod_eq_of_lt (by omega)
  simp only [e1, e2]
  generalize hc0 : ({ lfn_cache_reset with checksum := chksum } : lfn_cache) = cache0
  have s0 : cache0.strings = 0 := by rw [← hc0]; rfl
  have k0 : cache0.checksum = chksum := by rw [← hc0]
  obtain ⟨a, b, c, d⟩ := lfn_cache_from_string_loop_eq filename filename.length
    ((filename.length + 12) / 13) 0 cache0
  refine ⟨by rw [a, k0], ?_, fun p hp => ?_⟩
  · have c1 := c (by rw [s0]; decide)
    rw [s0] at b
    omega
  · have c2 : 0 * 13 ≤ p ∧ p < (0 + (filename.length + 12) / 13) * 13 := by omega
    rw [d p]
    simp only [if_pos c2]
    unfold lfn_fragment_char u8
    by_cases h1 : p % 256 < filename.length
    · have c3 : ¬ (p % 256 ≥ filename.length) := by omega
      simp only [if_neg c3, if_pos h1]
    · have c3 : p % 256 ≥ filename.length := by omega
      simp only [if_pos c3, if_neg h1]

/-- C16 on names of at most 247 characters: the fragments hold the name, then (unless
the length is a multiple of 13) the NUL terminator, then `0xFF` padding. -/
theorem lfn_cache_from_string_round_trip (filename : List Nat) (chksum : Nat)
    (hL : filename.length ≤ 247) :
    (lfn_cache_from_string filename chksum).strings = (filename.length + 12) / 13 ∧
      ∀ p, p < (filename.length + 12) / 13 * 13 →
        (lfn_cache_from_string filename chksum).filename p = lfn_fragment_char filename p := by
  obtain ⟨_, b, c⟩ := lfn_cache_from_string_eq filename chksum (by omega)
  refine ⟨b, fun p hp => ?_⟩
  rw [c p hp, Nat.mod_eq_of_lt (by omega)]

/-! ## C12: the short name of `Hello World.txt` -/

/-- Counterexample to C12 as stated: `lfn_to_sfn("Hello World.txt", sfn, 1)` does not
produce the bytes `HELLO~1 TXT`. -/
theorem lfn_to_sfn_hello_counterexample :
    (List.range 11).map (lfn_to_sfn (fun _ => 0) demo_name (fun _ => 0) 1).2
      ≠ [72, 69, 76, 76, 79, 126, 49, 32, 84, 88, 84] := by
  decide

set_option maxRecDepth 1000000 in
/-- Claim C12, amended (short name of the end-to-end scenario).  For any memory contents,
`lfn_to_sfn("Hello World.txt", sfn, 1)` succeeds and produces the bytes
`HELLOW~1TXT`: eight base-name characters with the space skipped, the tail `~1`
written over the last two of them, and the extension.  Creating `Hello World.txt`
in an empty FAT32 root directory stores these 11 bytes as the name of the
short-name record (the third record, at offset 64). -/
theorem lfn_to_sfn_hello (junk sfn : Nat → Nat) :
    (lfn_to_sfn junk demo_name sfn 1).1 = 1 ∧
      (List.range 11).map (lfn_to_sfn junk demo_name sfn 1).2 = demo_sfn ∧
      (fat_create_file 9 (demo32_root [0x0FFFFFF8, 0x0FFFFFFF, 0x0FFFFFFF] []) 2 demo_name).map
        (fun r => (r.1, (List.range 11).map (fun i => r.2.card 4128 (64 + i))))
        = some (1, demo_sfn) := by
  refine ⟨rfl, rfl, ?_⟩
  decide


/-! ## C14: create against an existing name -/

/-- The lookup by long name only reads: whatever it answers, the card is as before. -/
theorem fat_find_lfn_loop_frame (start : Nat) (filename : List Nat) :
    ∀ (fuel : Nat) (sd : sdcard_t) (sector : Nat) (lfn : lfn_cache) (res : Option Nat)
      (s1 : sdcard_t),
      fat_find_lfn_loop start filename fuel sd sector lfn = some (res, s1) →
      io_step sd s1 ∧ s1.card = sd.card ∧ (coherent sd → coherent s1)
  | 0, _, _, _, _, _, h => by
    unfold fat_find_lfn_loop at h
    exact Option.noConfusion h
  | fuel + 1, sd, sector, lfn, res, s1, h => by
    unfold fat_find_lfn_loop at h
    simp only at h
    have hfr := fat_read_sector_frame sd start sector
    by_cases h0 : (fat_read_sector sd start sector).1 = 0
    · rw [if_pos h0] at h
      simp only [Option.some.injEq, Prod.mk.injEq] at h
      rw [← h.2]
      exact hfr
    · rw [if_neg h0] at h
      have huninit : (fat_read_sector sd start sector).2.uninit = sd.uninit :=
        io_step_uninit hfr.1
      cases hs : fat_find_lfn_entries sd.uninit (fat_read_sector sd start sector).2.buffer
          filename 16 0 lfn with
      | ret dir =>
        rw [hs] at h
        simp only [Option.some.injEq, Prod.mk.injEq] at h
        rw [← h.2]
        exact hfr
      | next lfn1 =>
        rw [hs] at h
        simp only at h
        have ih := fat_find_lfn_loop_frame start filename fuel _ _ _ _ _ h
        exact ⟨io_step_trans hfr.1 ih.1, by rw [ih.2.1, hfr.2.1], fun hc => ih.2.2 (hfr.2.2 hc)⟩

/-- Claim C14 (create against an existing name).  For every card state, directory and
non-empty name for which `fat_find_lfn` finds a record, `fat_create_file` returns 0
in the state that the lookup left behind, and the contents of the card (FAT,
directories, data) are what they were before the call: nothing was written. -/
theorem fat_create_file_existing (fuel : Nat) (sd : sdcard_t) (startcluster : Nat)
    (filename : List Nat) (dir : Nat) (s1 : sdcard_t) (hname : filename ≠ [])
    (hfind : fat_find_lfn fuel sd startcluster filename = some (some dir, s1)) :
    fat_create_file fuel sd startcluster filename = some (0, s1) ∧ s1.card = sd.card := by
  constructor
  · unfold fat_create_file
    rw [if_neg (by simpa using hname), hfind]
  · exact (fat_find_lfn_loop_frame startcluster filename fuel sd 0 lfn_cache_reset _ _ hfind).2.1

set_option maxRecDepth 100000 in
theorem demo32_lookup_600 :
    (fat_find_lfn 9 (demo32 [0x0FFFFFF8, 0x0FFFFFFF, 0x0FFFFFFF, 0x0FFFFFFF] 600) 2
      demo_name).map (fun r => r.1) = some (some 64) := by
  decide

/-- Instance of C14: `Hello World.txt` exists in the root directory of the FAT32 volume;
creating it again returns 0 and leaves the card as it was. -/
theorem fat_create_file_existing_witness :
    ∃ s1, fat_create_file 9 (demo32 [0x0FFFFFF8, 0x0FFFFFFF, 0x0FFFFFFF, 0x0FFFFFFF] 600) 2
        demo_name = some (0, s1) ∧
      s1.card = (demo32 [0x0FFFFFF8, 0x0FFFFFFF, 0x0FFFFFFF, 0x0FFFFFFF] 600).card := by
  have e := demo32_lookup_600
  cases h : fat_find_lfn 9
      (demo32 [0x0FFFFFF8, 0x0FFFFFFF, 0x0FFFFFFF, 0x0FFFFFFF] 600) 2 demo_name with
  | none => rw [h] at e; exact Option.noConfusion e
  | some r =>
    obtain ⟨res, s1⟩ := r
    rw [h] at e
    simp only [Option.map_some', Option.some.injEq] at e
    subst e
    exact ⟨s1, fat_create_file_existing 9 _ 2 demo_name 64 s1 (by decide) h⟩



theorem ldir_char_offset_range (j : Nat) (hj : j < 13) :
    1 ≤ ldir_char_offset j ∧ ldir_char_offset j + 1 < 32 ∧ ldir_char_offset j ≠ 11 ∧
      ldir_char_offset j ≠ 12 ∧ ldir_char_offset j ≠ 13 ∧ ldir_char_offset j ≠ 26 ∧
      ldir_char_offset j ≠ 27 ∧ ldir_char_offset j ≠ 25 ∧
      ldir_char_offset j + 1 ≠ 11 ∧ ldir_char_offset j + 1 ≠ 13 ∧
      ldir_char_offset j + 1 ≠ 27 := by
  unfold ldir_char_offset
  split
  · omega
  · split <;> omega

theorem ldir_char_offset_succ_ne (j k : Nat) :
    ldir_char_offset j + 1 ≠ ldir_char_offset k := by
  unfold ldir_char_offset
  repeat' split
  all_goals omega

theorem ldir_char_offset_inj (j k : Nat) (hj : j < 13) (hk : k < 13)
    (h : ldir_char_offset j = ldir_char_offset k) : j = k := by
  unfold ldir_char_offset at h
  repeat' split at h
  all_goals omega

/-- The character stores of `fat_create_file` leave the other bytes alone. -/
theorem ldir_chars_other (frag : Nat → Nat) (off p : Nat) :
    ∀ (l : List Nat) (b : Nat → Nat), (∀ j ∈ l, p ≠ off + ldir_char_offset j) →
      l.foldl (fun b j => write8 b (off + ldir_char_offset j) (frag j)) b p = b p
  | [], _, _ => rfl
  | j :: l, b, h => by
    rw [List.foldl_cons, ldir_chars_other frag off p l _
      (fun k hk => h k (List.mem_cons_of_mem _ hk))]
    unfold write8
    rw [if_neg (h j (List.mem_cons_self _ _))]

/-- The character stores of `fat_create_file`: character `j` lands at its offset. -/
theorem ldir_chars_same (frag : Nat → Nat) (off : Nat) :
    ∀ (l : List Nat) (b : Nat → Nat) (j : Nat), j ∈ l → j < 13 → (∀ k ∈ l, k < 13) →
      l.foldl (fun b j => write8 b (off + ldir_char_offset j) (frag j)) b
        (off + ldir_char_offset j) = frag j
  | [], _, _, h, _, _ => absurd h (List.not_mem_nil _)
  | k :: l, b, j, h, hj, hl => by
    rw [List.foldl_cons]
    by_cases hm : j ∈ l
    · exact ldir_chars_same frag off l _ j hm hj (fun x hx => hl x (List.mem_cons_of_mem _ hx))
    · have hjk : j = k := by
        rcases List.mem_cons.1 h with e | e
        · exact e
        · exact absurd e hm
      subst hjk
      rw [ldir_chars_other frag off _ l _ (fun x hx he => by
        have hx13 := hl x (List.mem_cons_of_mem _ hx)
        have := ldir_char_offset_inj j x hj hx13 (by omega)
        subst this
        exact hm hx)]
      unfold write8
      rw [if_pos rfl]

theorem fat_create_file_ldir_frame (lfn : lfn_cache) (k : Nat) (buf : Nat → Nat) (off p : Nat)
    (hp : p < off ∨ off + 32 ≤ p) : fat_create_file_ldir lfn k buf off p = buf p := by
  unfold fat_create_file_ldir
  rw [ldir_chars_other _ off p _ _ (fun j hj => by
    have := ldir_char_offset_range j (List.mem_range.1 hj); omega)]
  unfold memset_at write16 write8
  simp only [show ¬ (off + 28 ≤ p ∧ p < off + 28 + 4) by omega,
    show ¬ (off + 14 ≤ p ∧ p < off + 14 + 12) by omega,
    show ¬ (off + 1 ≤ p ∧ p < off + 1 + 10) by omega,
    show ¬ p = off + 26 by omega, show ¬ p = off + 26 + 1 by omega,
    show ¬ p = off + 13 by omega, show ¬ p = off + 12 by omega,
    show ¬ p = off + 11 by omega, show ¬ p = off by omega, if_false]

theorem fat_create_file_ldir_record (lfn : lfn_cache) (k : Nat) (buf : Nat → Nat) (off : Nat) :
    is_ldir_record (fun i => fat_create_file_ldir lfn k buf off (off + i))
      (u8 (if k = lfn.strings then k ||| 0x40 else k)) lfn.checksum
      (fun j => lfn.filename ((k - 1) * 13 + j)) := by
  have hother : ∀ i, i < 32 → (∀ j, j < 13 → i ≠ ldir_char_offset j) →
      fat_create_file_ldir lfn k buf off (off + i) =
        memset_at (memset_at (memset_at (write16 (write8 (write8 (write8 (write8 buf off
          (u8 (if k = lfn.strings then k ||| 0x40 else k))) (off + 11) ATTR_LONG_NAME)
          (off + 12) 0x00) (off + 13) lfn.checksum) (off + 26) 0x00) (off + 1) 0x00 10)
          (off + 14) 0x00 12) (off + 28) 0x00 4 (off + i) := by
    intro i _ hi
    unfold fat_create_file_ldir
    rw [ldir_chars_other _ off (off + i) _ _ (fun j hj he => hi j (List.mem_range.1 hj)
      (by omega))]
  have hne : ∀ i, (i = 0 ∨ i = 11 ∨ i = 12 ∨ i = 13 ∨ i = 26 ∨ i = 27) →
      ∀ j, j < 13 → i ≠ ldir_char_offset j := by
    intro i hi j hj
    have := ldir_char_offset_range j hj
    omega
  have h0 := hother 0 (by decide) (hne 0 (by decide))
  have h11 := hother 11 (by decide) (hne 11 (by decide))
  have h12 := hother 12 (by decide) (hne 12 (by decide))
  have h13 := hother 13 (by decide) (hne 13 (by decide))
  have h26 := hother 26 (by decide) (hne 26 (by decide))
  have h27 := hother 27 (by decide) (hne 27 (by decide))
  unfold is_ldir_record read16
  dsimp only
  refine ⟨?_, ?_, ?_, ?_, ?_, ?_⟩
  · rw [h0]; simp [memset_at, write16, write8]; omega
  · rw [h11]; simp [memset_at, write16, write8]
  · rw [h12]; simp [memset_at, write16, write8]
  · rw [h13]; simp [memset_at, write16, write8]
  · rw [h26, show off + (26 + 1) = off + 27 from rfl, h27]
    simp [memset_at, write16, write8]
  · intro j hj
    have hr := ldir_char_offset_range j hj
    constructor
    · unfold fat_create_file_ldir
      exact ldir_chars_same _ off _ _ j (List.mem_range.2 hj) hj
        (fun x hx => List.mem_range.1 hx)
    · rw [hother (ldir_char_offset j + 1) (by omega) (fun x _ =>
        ldir_char_offset_succ_ne j x)]
      unfold memset_at write16 write8
      by_cases c1 : off + 28 ≤ off + (ldir_char_offset j + 1) ∧
          off + (ldir_char_offset j + 1) < off + 28 + 4
      · simp only [if_pos c1]
      · by_cases c2 : off + 14 ≤ off + (ldir_char_offset j + 1) ∧
            off + (ldir_char_offset j + 1) < off + 14 + 12
        · simp only [if_neg c1, if_pos c2]
        · have c3 : off + 1 ≤ off + (ldir_char_offset j + 1) ∧
              off + (ldir_char_offset j + 1) < off + 1 + 10 := by omega
          simp only [if_neg c1, if_neg c2, if_pos c3]



/-- A run of single-byte stores leaves the other bytes alone. -/
theorem write8_fold_other (pos val : Nat → Nat) (p : Nat) :
    ∀ (l : List Nat) (b : Nat → Nat), (∀ j ∈ l, p ≠ pos j) →
      l.foldl (fun b j => write8 b (pos j) (val j)) b p = b p
  | [], _, _ => rfl
  | j :: l, b, h => by
    rw [List.foldl_cons, write8_fold_other pos val p l _
      (fun k hk => h k (List.mem_cons_of_mem _ hk))]
    unfold write8
    rw [if_neg (h j (List.mem_cons_self _ _))]

/-- A run of single-byte stores at distinct positions: each byte holds its value. -/
theorem write8_fold_same (pos val : Nat → Nat) :
    ∀ (l : List Nat) (b : Nat → Nat) (j : Nat), j ∈ l →
      (∀ k ∈ l, pos k = pos j → k = j) →
      l.foldl (fun b j => write8 b (pos j) (val j)) b (pos j) = val j
  | [], _, _, h, _ => absurd h (List.not_mem_nil _)
  | k :: l, b, j, h, hinj => by
    rw [List.foldl_cons]
    by_cases hm : j ∈ l
    · exact write8_fold_same pos val l _ j hm (fun x hx => hinj x (List.mem_cons_of_mem _ hx))
    · have hjk : j = k := by
        rcases List.mem_cons.1 h with e | e
        · exact e
        · exact absurd e hm
      subst hjk
      rw [write8_fold_other pos val _ l _ (fun x hx he => by
        have := hinj x (List.mem_cons_of_mem _ hx) he.symm
        subst this
        exact hm hx)]
      unfold write8
      rw [if_pos rfl]

theorem fat_create_file_dir_frame (sfn : Nat → Nat) (cluster : Nat) (buf : Nat → Nat)
    (off p : Nat) (hp : p < off ∨ off + 32 ≤ p) :
    fat_create_file_dir sfn cluster buf off p = buf p := by
  unfold fat_create_file_dir
  unfold write32 write16 write8
  simp only [show ¬ p = off + 28 by omega, show ¬ p = off + 28 + 1 by omega,
    show ¬ p = off + 28 + 2 by omega, show ¬ p = off + 28 + 3 by omega,
    show ¬ p = off + 26 by omega, show ¬ p = off + 26 + 1 by omega,
    show ¬ p = off + 24 by omega, show ¬ p = off + 24 + 1 by omega,
    show ¬ p = off + 22 by omega, show ¬ p = off + 22 + 1 by omega,
    show ¬ p = off + 20 by omega, show ¬ p = off + 20 + 1 by omega,
    show ¬ p = off + 18 by omega, show ¬ p = off + 18 + 1 by omega,
    show ¬ p = off + 16 by omega, show ¬ p = off + 16 + 1 by omega,
    show ¬ p = off + 14 by omega, show ¬ p = off + 14 + 1 by omega,
    show ¬ p = off + 13 by omega, show ¬ p = off + 12 by omega,
    show ¬ p = off + 11 by omega, if_false]
  exact write8_fold_other (fun i => off + i) sfn p _ _ (fun j hj => by
    have := List.mem_range.1 hj
    show p ≠ off + j
    omega)

theorem split16 (c : Nat) (hc : c < 4294967296) :
    (u16 ((c >>> 16) &&& 0xFFFF) % 256 + 256 * (u16 ((c >>> 16) &&& 0xFFFF) / 256 % 256)) * 65536
      + (u16 (c &&& 0xFFFF) % 256 + 256 * (u16 (c &&& 0xFFFF) / 256 % 256)) = c := by
  rw [land_ffff, land_ffff, Nat.shiftRight_eq_div_pow]
  unfold u16
  omega

theorem fat_create_file_dir_record (sfn : Nat → Nat) (cluster : Nat) (buf : Nat → Nat)
    (off : Nat) (hc : cluster < 4294967296) :
    is_new_dir_record (fun i => fat_create_file_dir sfn cluster buf off (off + i)) sfn
      cluster := by
  have hs := split16 cluster hc
  unfold is_new_dir_record dir_first_cluster dir_file_size read32 read16
  dsimp only
  refine ⟨?_, ?_, ?_, ?_, ?_, ?_, ?_, ?_, ?_, ?_, ?_⟩
  · intro i hi
    unfold fat_create_file_dir
    unfold write32 write16 write8
    simp only [show ¬ off + i = off + 28 by omega, show ¬ off + i = off + 28 + 1 by omega,
      show ¬ off + i = off + 28 + 2 by omega, show ¬ off + i = off + 28 + 3 by omega,
      show ¬ off + i = off + 26 by omega, show ¬ off + i = off + 26 + 1 by omega,
      show ¬ off + i = off + 24 by omega, show ¬ off + i = off + 24 + 1 by omega,
      show ¬ off + i = off + 22 by omega, show ¬ off + i = off + 22 + 1 by omega,
      show ¬ off + i = off + 20 by omega, show ¬ off + i = off + 20 + 1 by omega,
      show ¬ off + i = off + 18 by omega, show ¬ off + i = off + 18 + 1 by omega,
      show ¬ off + i = off + 16 by omega, show ¬ off + i = off + 16 + 1 by omega,
      show ¬ off + i = off + 14 by omega, show ¬ off + i = off + 14 + 1 by omega,
      show ¬ off + i = off + 13 by omega, show ¬ off + i = off + 12 by omega,
      show ¬ off + i = off + 11 by omega, if_false]
    exact write8_fold_same (fun i => off + i) sfn _ _ i (List.mem_range.2 hi)
      (fun k _ h => by simp only at h; omega)
  all_goals unfold fat_create_file_dir write32 write16 write8
  all_goals simp
  exact hs



theorem coherent_fat_cache_ok {sd : sdcard_t} (hv : volume_ok sd) (hco : coherent sd) :
    fat_cache_ok sd :=
  fun _ hx => coherent_cache_ok hco _ (volume_ok_fat_lba hv hx).2.2

/-- A cache that holds a block behind the FAT tells no lie about the FAT. -/
theorem loaded_fat_cache_ok {sd : sdcard_t} (hv : volume_ok sd)
    (hl : sd.fat_begin_sector + sd.fat_sectors < sd.loaded_sector) : fat_cache_ok sd := by
  intro x hx h
  have := (volume_ok_fat_lba hv hx).2.1
  omega

/-- One FAT look-up with a cache that is right about the FAT: the successor stored on
the card, and a coherent cache afterwards. -/
theorem fat_get_next_cluster_cached {sd : sdcard_t} (hv : volume_ok sd) (hr : reads_ok sd)
    (hca : fat_cache_ok sd) {c : Nat} (hc : c ≤ sd.data_clusters + 1) :
    (fat_get_next_cluster sd c).1 = fat_next_in sd sd.card c ∧
      io_step sd (fat_get_next_cluster sd c).2 ∧
      (fat_get_next_cluster sd c).2.card = sd.card ∧
      coherent (fat_get_next_cluster sd c).2 := by
  obtain ⟨b, h, hb⟩ := fat_get_next_cluster_eq sd c hv.blocksize (volume_ok_below hv hc)
    (by rw [volume_ok_u32_dc hv]; exact hc) (volume_ok_sector_le hv hc) (hr _) (hca c hc)
  rw [h]
  refine ⟨rfl, ⟨_, _, sd.card, rfl⟩, rfl, ?_⟩
  intro _ i hi
  have hbs := hv.blocksize
  exact hb i (by simpa [hbs] using hi)

/-- The hop loop of `fat_write_sector` inside a well-formed chain: it arrives at the
`n`-th cluster and writes nothing. -/
theorem fat_write_sector_hops_chain (fuel allocate : Nat) :
    ∀ (n : Nat) (sd : sdcard_t) (c : Nat) (rest : List Nat),
      volume_ok sd → reads_ok sd → fat_cache_ok sd → is_chain sd (c :: rest) →
      n < (c :: rest).length →
      ∃ s, fat_write_sector_hops fuel allocate n sd c
          = some (some ((c :: rest).getD n 0xFFFFFFFF), s) ∧
        io_step sd s ∧ s.card = sd.card
  | 0, sd, c, rest, _, _, _, _, _ => ⟨sd, rfl, io_step_refl sd, rfl⟩
  | n + 1, sd, c, rest, hv, hr, hca, hch, hn => by
    have hc := chain_links_head hch
    obtain ⟨g1, g2, g3, g4⟩ := fat_get_next_cluster_cached hv hr hca hc.2
    cases rest with
    | nil => simp at hn
    | cons d r =>
      have e : fat_next_in sd sd.card c = d := hch.2.2.1
      have hd := chain_links_head hch.2.2.2
      have hdc := volume_ok_dc_lt hv
      have hv1 := io_step_volume_ok g2 hv
      obtain ⟨s, h1, h2, h3⟩ := fat_write_sector_hops_chain fuel allocate n
        (fat_get_next_cluster sd c).2 d r hv1 (io_step_reads_ok g2 hr)
        (coherent_fat_cache_ok hv1 g4) ((io_step_is_chain g2 g3 _).2 hch.2.2.2)
        (by simpa using hn)
      refine ⟨s, ?_, io_step_trans g2 h2, by rw [h3, g3]⟩
      unfold fat_write_sector_hops
      simp only
      rw [g1, e, if_neg (by omega), h1]
      simp

/-- Writing the sector buffer to sector `j` of a well-formed chain: the block of that
sector receives the buffer, nothing else on the card changes, and the cache is
left empty. -/
theorem fat_write_sector_chain {sd : sdcard_t} (hv : volume_ok sd) (hr : reads_ok sd)
    (hw : writes_ok sd) (hm : sd.malloc_ok = true) (hca : fat_cache_ok sd) (fuel : Nat)
    {c : Nat} {rest : List Nat} (hch : is_chain sd (c :: rest)) (allocate : Nat) {j : Nat}
    (hj : j / sd.sectors_per_cluster < (c :: rest).length) :
    ∃ sd1, fat_write_sector fuel sd c j allocate = some (1, sd1) ∧ io_step sd sd1 ∧
      sd1.loaded_sector = EOC ∧
      (∀ i, i < 512 → sd1.card (cluster_lba sd
          ((c :: rest).getD (j / sd.sectors_per_cluster) 0xFFFFFFFF)
          (j % sd.sectors_per_cluster)) i = sd.buffer i) ∧
      (∀ l, l ≠ cluster_lba sd ((c :: rest).getD (j / sd.sectors_per_cluster) 0xFFFFFFFF)
          (j % sd.sectors_per_cluster) → sd1.card l = sd.card l) := by
  have hc := chain_links_head hch
  have hbe := volume_ok_below hv hc.2
  have hbs := hv.blocksize
  obtain ⟨s, h1, h2, h3⟩ := fat_write_sector_hops_chain fuel allocate
    (j / sd.sectors_per_cluster) sd c rest hv hr hca hch hj
  have hm1 := getD_chain_mem hch hj
  set x := (c :: rest).getD (j / sd.sectors_per_cluster) 0xFFFFFFFF with hx
  have hml := Nat.mod_lt j hv.spc_pos
  have hb := cluster_lba_bounds sd hm1.1 hm1.2 hml
  have hdl := hv.data_lba
  have hmod : j - j / sd.sectors_per_cluster * sd.sectors_per_cluster
      = j % sd.sectors_per_cluster := by
    rw [Nat.mod_def, Nat.mul_comm]
  have htarget : u32 (fat_get_cluster_sector s x
      + (j - j / sd.sectors_per_cluster * sd.sectors_per_cluster))
      = cluster_lba sd x (j % sd.sectors_per_cluster) := by
    rw [io_step_fat_get_cluster_sector h2, fat_get_cluster_sector_valid hv hm1.1 hm1.2, hmod]
    unfold cluster_lba at hb ⊢
    unfold u32
    omega
  unfold below_eoc at hbe
  have hcl : (if sd.fattype = FAT16 then c else c &&& 0x0FFFFFFF) = c := by
    by_cases hf : sd.fattype = FAT16
    · rw [if_pos hf]
    · rw [if_neg hf] at hbe; rw [if_neg hf, land_below c hbe]
  have hg1 : ¬ (sd.fattype = FAT16 ∧ c ≥ 0xFFF8) := by
    rintro ⟨hf, h⟩; rw [if_pos hf] at hbe; omega
  have hg2 : ¬ (sd.fattype ≠ FAT16 ∧ c ≥ 0x0FFFFFF8) := by
    rintro ⟨hf, h⟩; rw [if_neg hf] at hbe; omega
  have hg3 : ¬ (sd.fattype = FAT16 ∧ c = 0) := by
    rintro ⟨_, h⟩; omega
  have hw2 : writes_ok { s with loaded_sector := 0xFFFFFFFF,
                                 buffer := memcpy s.buffer 0 sd.buffer 0 sd.blocksize } :=
    io_step_writes_ok (io_step_trans h2 ⟨_, _, s.card, rfl⟩) hw
  have hwb := sd_write_block_ok _ (cluster_lba sd x (j % sd.sectors_per_cluster)) hw2
  have hbs1 : s.blocksize = 512 := by rw [io_step_blocksize h2]; exact hbs
  refine ⟨{ s with loaded_sector := 0xFFFFFFFF,
                    buffer := memcpy s.buffer 0 sd.buffer 0 sd.blocksize,
                    card := fun l i =>
                      if l = cluster_lba sd x (j % sd.sectors_per_cluster) ∧ i < s.blocksize then
                        memcpy s.buffer 0 sd.buffer 0 sd.blocksize i else s.card l i },
    ?_, io_step_trans h2 ⟨_, _, _, rfl⟩, rfl, ?_, ?_⟩
  · unfold fat_write_sector
    simp only [hcl]
    rw [if_neg hg1, if_neg hg2, if_neg (by rw [hm]; simp), if_neg hg3, h1]
    simp only [htarget, hwb]
    simp
  · intro i hi
    simp only [hbs, hbs1, hi, and_self, if_true, memcpy]
    simp [hi]
  · intro l hl
    funext i
    simp only [hl, false_and, if_false, h3]

/-- Writing the sector buffer to sector `j` of a well-formed directory. -/
theorem fat_write_sector_dir {sd : sdcard_t} (hv : volume_ok sd) (hr : reads_ok sd)
    (hw : writes_ok sd) (hm : sd.malloc_ok = true) (hca : fat_cache_ok sd) (fuel : Nat)
    {start : Nat} {cs : List Nat} (hd : is_dir sd start cs) (allocate : Nat) {j : Nat}
    (hj : j < dir_sector_count sd start cs) :
    ∃ sd1, fat_write_sector fuel sd start j allocate = some (1, sd1) ∧ io_step sd sd1 ∧
      sd1.loaded_sector = EOC ∧
      (∀ i, i < 512 → sd1.card (dir_sector_lba sd start cs j) i = sd.buffer i) ∧
      (∀ l, l ≠ dir_sector_lba sd start cs j → sd1.card l = sd.card l) := by
  have hbnd := dir_sector_lba_bounds hv hd hj
  have hbs := hv.blocksize
  unfold is_dir at hd
  unfold dir_sector_count at hj
  unfold dir_sector_lba at hbnd ⊢
  by_cases hroot : sd.fattype = FAT16 ∧ start = 0
  · simp only [if_pos hroot] at hd hbnd hj ⊢
    obtain ⟨hf, hs⟩ := hroot
    subst hs
    have hu : u32 (sd.rootdir_begin_sector + j) = sd.rootdir_begin_sector + j := by
      unfold u32; omega
    have hw2 : writes_ok { sd with loaded_sector := 0xFFFFFFFF,
                                    buffer := memcpy sd.buffer 0 sd.buffer 0 sd.blocksize } := hw
    have hwb := sd_write_block_ok _ (sd.rootdir_begin_sector + j) hw2
    refine ⟨{ sd with loaded_sector := 0xFFFFFFFF,
                       buffer := memcpy sd.buffer 0 sd.buffer 0 sd.blocksize,
                       card := fun l i =>
                         if l = sd.rootdir_begin_sector + j ∧ i < sd.blocksize then
                           memcpy sd.buffer 0 sd.buffer 0 sd.blocksize i else sd.card l i },
      ?_, ⟨_, _, _, rfl⟩, rfl, ?_, ?_⟩
    · have hcl : (if sd.fattype = FAT16 then 0 else 0 &&& 0x0FFFFFFF) = 0 := by
        rw [if_pos hf]
      have hg1 : ¬ (sd.fattype = FAT16 ∧ 0 ≥ 0xFFF8) := by
        rintro ⟨_, h⟩; omega
      have hg2 : ¬ (sd.fattype ≠ FAT16 ∧ 0 ≥ 0x0FFFFFF8) := by
        rintro ⟨_, h⟩; omega
      have hg3 : sd.fattype = FAT16 ∧ 0 = 0 := ⟨hf, rfl⟩
      have hg4 : ¬ (j ≥ sd.rootdir_sectors) := by omega
      unfold fat_write_sector
      simp only [hcl]
      rw [if_neg hg1, if_neg hg2, if_neg (by rw [hm]; simp)]
      first
        | rw [if_pos hg3, if_neg hg4]
        | rw [if_pos hf, if_neg hg4]
        | simp only [if_pos hg3, if_pos hf, if_neg hg4]
      simp only [hu, hwb]
      simp
      intro h
      exact absurd hf h
    · intro i hi
      simp only [hbs, hi, and_self, if_true, memcpy]
      simp [hi]
    · intro l hl
      funext i
      simp only [hl, false_and, if_false]
  · simp only [if_neg hroot] at hd hbnd hj ⊢
    have hlt : j / sd.sectors_per_cluster < (start :: cs).length := by
      rw [Nat.div_lt_iff_lt_mul hv.spc_pos]; simpa using hj
    have e : (start :: cs).getD (j / sd.sectors_per_cluster) 0
        = (start :: cs).getD (j / sd.sectors_per_cluster) 0xFFFFFFFF := by
      rw [List.getD_eq_getElem _ _ hlt, List.getD_eq_getElem _ _ hlt]
    rw [e]
    exact fat_write_sector_chain hv hr hw hm hca fuel hd.1 allocate hlt


/-! ## Frames of the scans used by `fat_create_file` -/

/-- The lookup by short name only reads. -/
theorem fat_find_sfn_loop_frame (start : Nat) (filename : Nat → Nat) :
    ∀ (fuel : Nat) (sd : sdcard_t) (sector : Nat) (res : Option Nat) (s1 : sdcard_t),
      fat_find_sfn_loop start filename fuel sd sector = some (res, s1) →
      io_step sd s1 ∧ s1.card = sd.card ∧ (coherent sd → coherent s1)
  | 0, _, _, _, _, h => by
    unfold fat_find_sfn_loop at h
    exact Option.noConfusion h
  | fuel + 1, sd, sector, res, s1, h => by
    unfold fat_find_sfn_loop at h
    simp only at h
    have hfr := fat_read_sector_frame sd start sector
    by_cases h0 : (fat_read_sector sd start sector).1 = 0
    · rw [if_pos h0] at h
      simp only [Option.some.injEq, Prod.mk.injEq] at h
      rw [← h.2]
      exact hfr
    · rw [if_neg h0] at h
      cases hs : fat_find_sfn_entries (fat_read_sector sd start sector).2.buffer filename 16 0 with
      | some dir =>
        rw [hs] at h
        simp only [Option.some.injEq, Prod.mk.injEq] at h
        rw [← h.2]
        exact hfr
      | none =>
        rw [hs] at h
        simp only at h
        have ih := fat_find_sfn_loop_frame start filename fuel _ _ _ _ h
        exact ⟨io_step_trans hfr.1 ih.1, by rw [ih.2.1, hfr.2.1], fun hc => ih.2.2 (hfr.2.2 hc)⟩

/-- The search for an unused tail number only reads. -/
theorem fat_create_file_sfn_frame (fuel : Nat) (junk : Nat → Nat) (filename : List Nat)
    (start : Nat) :
    ∀ (n : Nat) (sd : sdcard_t) (i : Nat) (sfn : Nat → Nat) (i1 : Nat) (sfn1 : Nat → Nat)
      (s1 : sdcard_t),
      fat_create_file_sfn fuel junk filename start n sd i sfn = some (i1, sfn1, s1) →
      io_step sd s1 ∧ s1.card = sd.card ∧ (coherent sd → coherent s1)
  | 0, sd, i, sfn, i1, sfn1, s1, h => by
    unfold fat_create_file_sfn at h
    simp only [Option.some.injEq, Prod.mk.injEq] at h
    rw [← h.2.2]
    exact ⟨io_step_refl sd, rfl, id⟩
  | n + 1, sd, i, sfn, i1, sfn1, s1, h => by
    unfold fat_create_file_sfn at h
    simp only at h
    cases hf : fat_find_sfn fuel sd start (lfn_to_sfn junk filename sfn i).2 with
    | none => rw [hf] at h; exact Option.noConfusion h
    | some r =>
      obtain ⟨res, s2⟩ := r
      have hfr := fat_find_sfn_loop_frame start _ fuel sd 0 res s2 hf
      rw [hf] at h
      cases res with
      | none =>
        simp only [Option.some.injEq, Prod.mk.injEq] at h
        rw [← h.2.2]
        exact hfr
      | some d =>
        simp only at h
        have ih := fat_create_file_sfn_frame fuel junk filename start n _ _ _ _ _ _ h
        exact ⟨io_step_trans hfr.1 ih.1, by rw [ih.2.1, hfr.2.1], fun hc => ih.2.2 (hfr.2.2 hc)⟩

/-- The record scan of `fat_find_free_entry` answers a record of the directory it
scans, with an index below 16. -/
theorem fat_find_free_entry_entries_pos (buf : Nat → Nat) (entries sector : Nat) :
    ∀ (n entry count : Nat) (fe : fat_entry), entry + n ≤ 16 → fe.entry < 16 →
      (∀ e, fat_find_free_entry_entries buf entries sector n entry count fe = free_scan.ret e →
        e.cluster = fe.cluster ∧ e.entry < 16) ∧
      (∀ c e, fat_find_free_entry_entries buf entries sector n entry count fe
          = free_scan.next c e → e.cluster = fe.cluster ∧ e.entry < 16)
  | 0, _, _, fe, _, h => by
    unfold fat_find_free_entry_entries
    constructor
    · intro e he; exact free_scan.noConfusion he
    · intro c e he
      injection he with h1 h2
      rw [← h2]
      exact ⟨rfl, h⟩
  | n + 1, entry, count, fe, hn, h => by
    unfold fat_find_free_entry_entries
    simp only
    have ih := fun c f hf =>
      fat_find_free_entry_entries_pos buf entries sector n (entry + 1) c f (by omega) hf
    have hfe2 : (if count = 0 then ({ fe with sector := sector, entry := entry } : fat_entry)
        else fe).cluster = fe.cluster ∧
        (if count = 0 then ({ fe with sector := sector, entry := entry } : fat_entry)
        else fe).entry < 16 := by
      split
      · exact ⟨rfl, by show entry < 16; omega⟩
      · exact ⟨rfl, h⟩
    by_cases c1 : fat_is_last_entry buf (entry * 32) = true ∨
        fat_is_free_entry buf (entry * 32) = true
    · rw [if_pos c1]
      by_cases c2 : u8 (count + 1) = entries
      · rw [if_pos c2]
        constructor
        · intro e he
          injection he with h1
          rw [← h1]
          exact hfe2
        · intro c e he; exact free_scan.noConfusion he
      · rw [if_neg c2]
        have h1 := ih (u8 (count + 1)) _ hfe2.2
        rw [hfe2.1] at h1
        exact h1
    · rw [if_neg c1]
      exact ih 0 fe h

/-- The search for free records only reads, and answers a record of the directory with
an index below 16. -/
theorem fat_find_free_entry_loop_frame (start entries : Nat) :
    ∀ (fuel : Nat) (sd : sdcard_t) (sector count : Nat) (fe : fat_entry) (res : Option fat_entry)
      (s1 : sdcard_t), fe.entry < 16 →
      fat_find_free_entry_loop start entries fuel sd sector count fe = some (res, s1) →
      io_step sd s1 ∧ s1.card = sd.card ∧ (coherent sd → coherent s1) ∧
        ∀ e, res = some e → e.cluster = fe.cluster ∧ e.entry < 16
  | 0, _, _, _, _, _, _, _, h => by
    unfold fat_find_free_entry_loop at h
    exact Option.noConfusion h
  | fuel + 1, sd, sector, count, fe, res, s1, hfe, h => by
    unfold fat_find_free_entry_loop at h
    simp only at h
    have hfr := fat_read_sector_frame sd start sector
    by_cases h0 : (fat_read_sector sd start sector).1 = 0
    · rw [if_pos h0] at h
      simp only [Option.some.injEq, Prod.mk.injEq] at h
      rw [← h.2, ← h.1]
      exact ⟨hfr.1, hfr.2.1, hfr.2.2, fun e he => Option.noConfusion he⟩
    · rw [if_neg h0] at h
      have hp := fat_find_free_entry_entries_pos (fat_read_sector sd start sector).2.buffer
        entries sector 16 0 count fe (by omega) hfe
      cases hs : fat_find_free_entry_entries (fat_read_sector sd start sector).2.buffer entries
          sector 16 0 count fe with
      | ret e =>
        have hp1 := hp.1 e hs
        rw [hs] at h
        simp only [Option.some.injEq, Prod.mk.injEq] at h
        rw [← h.2, ← h.1]
        refine ⟨hfr.1, hfr.2.1, hfr.2.2, fun e1 he => ?_⟩
        simp only [Option.some.injEq] at he
        rw [← he]
        exact hp1
      | next c1 e =>
        have hp2 := hp.2 c1 e hs
        rw [hs] at h
        simp only at h
        have ih := fat_find_free_entry_loop_frame start entries fuel _ _ _ _ _ _ hp2.2 h
        refine ⟨io_step_trans hfr.1 ih.1, by rw [ih.2.1, hfr.2.1],
          fun hc => ih.2.2.1 (hfr.2.2 hc), fun e1 he => ?_⟩
        have := ih.2.2.2 e1 he
        rw [hp2.1] at this
        exact this

theorem fat_find_free_entry_frame {fuel : Nat} {sd : sdcard_t} {start entries : Nat}
    {res : Option fat_entry} {s1 : sdcard_t}
    (h : fat_find_free_entry fuel sd start entries = some (res, s1)) :
    io_step sd s1 ∧ s1.card = sd.card ∧ (coherent sd → coherent s1) ∧
      ∀ e, res = some e → e.cluster = start ∧ e.entry < 16 := by
  unfold fat_find_free_entry at h
  split at h
  · simp only [Option.some.injEq, Prod.mk.injEq] at h
    rw [← h.2, ← h.1]
    exact ⟨io_step_refl sd, rfl, id, fun e he => Option.noConfusion he⟩
  · split at h
    · simp only [Option.some.injEq, Prod.mk.injEq] at h
      rw [← h.2, ← h.1]
      exact ⟨io_step_refl sd, rfl, id, fun e he => Option.noConfusion he⟩
    · exact fat_find_free_entry_loop_frame start entries fuel sd 0 0 _ res s1 (Nat.zero_lt_succ _) h

/-! ## Chains have no repeated cluster -/

theorem chain_links_iterate {next : Nat → Nat} {dc : Nat} (hdc : dc + 1 < EOC) :
    ∀ (cs : List Nat) (c : Nat), chain_links next dc (c :: cs) →
      next^[cs.length + 1] c = EOC ∧ ∀ m, m ≤ cs.length → next^[m] c ≠ EOC
  | [], c, h => by
    refine ⟨h.2.2, fun m hm => ?_⟩
    have : m = 0 := by simpa using hm
    subst this
    have := h.2.1
    show c ≠ EOC
    omega
  | d :: r, c, h => by
    obtain ⟨a, b⟩ := chain_links_iterate hdc r d h.2.2.2
    have e : next c = d := h.2.2.1
    refine ⟨?_, fun m hm => ?_⟩
    · rw [Function.iterate_succ_apply, e]; exact a
    · cases m with
      | zero =>
        have := h.2.1
        show c ≠ EOC
        omega
      | succ k =>
        rw [Function.iterate_succ_apply, e]
        exact b k (by simpa using hm)

theorem chain_links_reach {next : Nat → Nat} {dc : Nat} (hdc : dc + 1 < EOC) :
    ∀ (cs : List Nat), chain_links next dc cs →
      ∀ x ∈ cs, ∃ k, k ≤ cs.length ∧ next^[k] x = EOC
  | [], h, _, _ => False.elim h
  | [c], h, x, hx => by
    simp only [List.mem_singleton] at hx
    subst hx
    exact ⟨1, by simp, h.2.2⟩
  | c :: d :: r, h, x, hx => by
    rcases List.mem_cons.1 hx with e | e
    · subst e
      exact ⟨(d :: r).length + 1, by simp, (chain_links_iterate hdc (d :: r) x h).1⟩
    · obtain ⟨k, hk, hk2⟩ := chain_links_reach hdc (d :: r) h.2.2.2 x e
      exact ⟨k, by simp at hk ⊢; omega, hk2⟩

theorem chain_links_nodup {next : Nat → Nat} {dc : Nat} (hdc : dc + 1 < EOC) :
    ∀ (cs : List Nat), chain_links next dc cs → cs.Nodup
  | [], h => False.elim h
  | [c], _ => List.nodup_singleton c
  | c :: d :: r, h => by
    refine List.nodup_cons.2 ⟨fun hin => ?_, chain_links_nodup hdc (d :: r) h.2.2.2⟩
    obtain ⟨k, hk, hk2⟩ := chain_links_reach hdc (d :: r) h.2.2.2 c hin
    exact (chain_links_iterate hdc (d :: r) c h).2 k hk hk2

theorem is_chain_nodup {sd : sdcard_t} (hv : volume_ok sd) {cs : List Nat}
    (h : is_chain sd cs) : cs.Nodup :=
  chain_links_nodup (by have := volume_ok_dc_lt hv; show _ < 4294967295; omega) cs h

/-- Distinct sectors of a well-formed directory are distinct blocks. -/
theorem dir_sector_lba_inj {sd : sdcard_t} (hv : volume_ok sd) {start : Nat} {cs : List Nat}
    (hd : is_dir sd start cs) {j k : Nat} (hj : j < dir_sector_count sd start cs)
    (hk : k < dir_sector_count sd start cs)
    (h : dir_sector_lba sd start cs j = dir_sector_lba sd start cs k) : j = k := by
  unfold is_dir at hd
  unfold dir_sector_count at hj hk
  unfold dir_sector_lba at h
  by_cases hroot : sd.fattype = FAT16 ∧ start = 0
  · simp only [if_pos hroot] at h
    omega
  · simp only [if_neg hroot] at hd hj hk h
    have hspc := hv.spc_pos
    have hnd := is_chain_nodup hv hd.1
    have hlj : j / sd.sectors_per_cluster < (start :: cs).length := by
      rw [Nat.div_lt_iff_lt_mul hspc]; simpa using hj
    have hlk : k / sd.sectors_per_cluster < (start :: cs).length := by
      rw [Nat.div_lt_iff_lt_mul hspc]; simpa using hk
    have hmj := chain_links_mem hd.1 _ (List.getElem_mem hlj)
    have hmk := chain_links_mem hd.1 _ (List.getElem_mem hlk)
    rw [List.getD_eq_getElem _ _ hlj, List.getD_eq_getElem _ _ hlk] at h
    unfold cluster_lba at h
    have hrj := Nat.mod_lt j hspc
    have hrk := Nat.mod_lt k hspc
    set a := (start :: cs)[j / sd.sectors_per_cluster] with ha
    set b := (start :: cs)[k / sd.sectors_per_cluster] with hb
    have hab : a = b ∧ j % sd.sectors_per_cluster = k % sd.sectors_per_cluster := by
      rcases Nat.lt_trichotomy a b with hlt | heq | hgt
      · have : (a - 2 + 1) * sd.sectors_per_cluster ≤ (b - 2) * sd.sectors_per_cluster :=
          Nat.mul_le_mul_right _ (by omega)
        rw [Nat.add_mul, Nat.one_mul] at this
        omega
      · rw [heq] at h
        exact ⟨heq, by omega⟩
      · have : (b - 2 + 1) * sd.sectors_per_cluster ≤ (a - 2) * sd.sectors_per_cluster :=
          Nat.mul_le_mul_right _ (by omega)
        rw [Nat.add_mul, Nat.one_mul] at this
        omega
    have hidx : j / sd.sectors_per_cluster = k / sd.sectors_per_cluster :=
      (List.Nodup.getElem_inj_iff hnd).1 hab.1
    have e1 := Nat.div_add_mod j sd.sectors_per_cluster
    have e2 := Nat.div_add_mod k sd.sectors_per_cluster
    rw [hidx, hab.2] at e1
    omega



theorem is_ldir_record_congr {a b : Nat → Nat} (h : ∀ i, i < 32 → b i = a i)
    {ord chksum : Nat} {frag : Nat → Nat} (ha : is_ldir_record a ord chksum frag) :
    is_ldir_record b ord chksum frag := by
  unfold is_ldir_record read16 at ha ⊢
  obtain ⟨h0, h11, h12, h13, h26, hch⟩ := ha
  refine ⟨by rw [h 0 (by decide)]; exact h0, by rw [h 11 (by decide)]; exact h11,
    by rw [h 12 (by decide)]; exact h12, by rw [h 13 (by decide)]; exact h13,
    by rw [h 26 (by decide), h (26 + 1) (by decide)]; exact h26, fun j hj => ?_⟩
  have hr := ldir_char_offset_range j hj
  rw [h _ (by omega), h _ (by omega)]
  exact hch j hj

theorem is_new_dir_record_congr {a b : Nat → Nat} (h : ∀ i, i < 32 → b i = a i)
    {sfn : Nat → Nat} {cluster : Nat} (ha : is_new_dir_record a sfn cluster) :
    is_new_dir_record b sfn cluster := by
  unfold is_new_dir_record dir_first_cluster dir_file_size read32 read16 at ha ⊢
  obtain ⟨h0, h11, h12, h13, h14, h16, h18, h22, h24, hfc, hsz⟩ := ha
  simp only [Nat.zero_add] at hfc hsz ⊢
  refine ⟨fun i hi => by rw [h i (by omega)]; exact h0 i hi,
    by rw [h 11 (by decide)]; exact h11, by rw [h 12 (by decide)]; exact h12,
    by rw [h 13 (by decide)]; exact h13,
    by rw [h 14 (by decide), h (14 + 1) (by decide)]; exact h14,
    by rw [h 16 (by decide), h (16 + 1) (by decide)]; exact h16,
    by rw [h 18 (by decide), h (18 + 1) (by decide)]; exact h18,
    by rw [h 22 (by decide), h (22 + 1) (by decide)]; exact h22,
    by rw [h 24 (by decide), h (24 + 1) (by decide)]; exact h24, ?_, ?_⟩
  · rw [h 20 (by decide), h (20 + 1) (by decide), h 26 (by decide), h (26 + 1) (by decide)]
    exact hfc
  · rw [h 28 (by decide), h (28 + 1) (by decide), h (28 + 2) (by decide),
      h (28 + 2 + 1) (by decide)]
    exact hsz

/-- One read-modify-write of a directory sector, as `fat_create_file` does it: when the
read succeeds the sector exists, the write succeeds, the block receives the new
buffer, nothing else on the card changes, and the directory stays well formed. -/
theorem fat_dir_sector_update {s : sdcard_t} (hv : volume_ok s) (hr : reads_ok s)
    (hw : writes_ok s) (hm : s.malloc_ok = true) (hco : coherent s) {start : Nat}
    {cs : List Nat} (hd : is_dir s start cs) (fuel allocate j : Nat)
    (newbuf : Nat → Nat) (hread : (fat_read_sector s start j).1 ≠ 0) :
    j < dir_sector_count s start cs ∧
      (∀ i, i < 512 → (fat_read_sector s start j).2.buffer i
        = s.card (dir_sector_lba s start cs j) i) ∧
      ∃ s1, fat_write_sector fuel { (fat_read_sector s start j).2 with buffer := newbuf }
          start j allocate = some (1, s1) ∧
        io_step s s1 ∧ s1.loaded_sector = EOC ∧ coherent s1 ∧ is_dir s1 start cs ∧
        (∀ i, i < 512 → s1.card (dir_sector_lba s start cs j) i = newbuf i) ∧
        (∀ l, l ≠ dir_sector_lba s start cs j → s1.card l = s.card l) := by
  obtain ⟨h1, h2⟩ := fat_read_sector_dir hv hco hr hd j
  have hj : j < dir_sector_count s start cs := by
    by_contra hn
    exact hread (h2 hn)
  obtain ⟨_, hl, hb⟩ := h1 hj
  have hfr := fat_read_sector_frame s start j
  have hio : io_step s { (fat_read_sector s start j).2 with buffer := newbuf } :=
    io_step_trans hfr.1 ⟨_, _, (fat_read_sector s start j).2.card, rfl⟩
  have hcard : ({ (fat_read_sector s start j).2 with buffer := newbuf } : sdcard_t).card
      = s.card := hfr.2.1
  have hv1 := io_step_volume_ok hio hv
  have hd1 : is_dir { (fat_read_sector s start j).2 with buffer := newbuf } start cs :=
    (io_step_is_dir hio hcard start cs).2 hd
  have hbnd := dir_sector_lba_bounds hv hd hj
  have hca : fat_cache_ok { (fat_read_sector s start j).2 with buffer := newbuf } := by
    apply loaded_fat_cache_ok hv1
    show _ < (fat_read_sector s start j).2.loaded_sector
    rw [hl, io_step_fat_begin_sector hio, io_step_fat_sectors hio]
    exact hbnd.1
  obtain ⟨s1, e1, e2, e3, e4, e5⟩ := fat_write_sector_dir hv1 (io_step_reads_ok hio hr)
    (io_step_writes_ok hio hw) (by rw [io_step_malloc_ok hio]; exact hm) hca fuel hd1 allocate
    (by rw [io_step_dir_sector_count hio]; exact hj)
  rw [io_step_dir_sector_lba hio] at e4 e5
  rw [hcard] at e5
  have hio1 := io_step_trans hio e2
  refine ⟨hj, hb, s1, e1, hio1, e3, fun h => absurd e3 h, ?_, e4, e5⟩
  refine is_dir_congr hio1 (fun x _ hx => ?_) hd
  exact fat_entry_in_congr s _ _ x (e5 _ (dir_lba_ne_fat_lba hv hd hj hx).symm)


theorem io_step_dir_record {sd sd1 : sdcard_t} (h : io_step sd sd1) (card : Nat → Nat → Nat)
    (start : Nat) (cs : List Nat) (q : Nat) :
    dir_record sd1 card start cs q = dir_record sd card start cs q := by
  unfold dir_record
  rw [io_step_dir_sector_lba h]

theorem fat_entry_wrap_spec (e : fat_entry) (h16 : e.entry ≤ 16)
    (hs : e.entry = 16 → e.sector + 1 < 4294967296) :
    (fat_entry_wrap e).cluster = e.cluster ∧ (fat_entry_wrap e).entry < 16 ∧
      fat_entry_slot (fat_entry_wrap e) = fat_entry_slot e := by
  unfold fat_entry_wrap fat_entry_slot
  by_cases h : e.entry ≥ 16
  · rw [if_pos h]
    have h1 : u32 (e.sector + 1) = e.sector + 1 := Nat.mod_eq_of_lt (hs (by omega))
    refine ⟨rfl, by show 0 < 16; decide, ?_⟩
    show u32 (e.sector + 1) * 16 + 0 = _
    rw [h1]; omega
  · rw [if_neg h]
    exact ⟨rfl, by omega, rfl⟩

/-- The loop of `fat_create_file` that writes the long-name records: when it succeeds
from record `q`, the records `q, q+1, ..., q+n-1` of the directory hold the
fragments `n, n-1, ..., 1`, and nothing else on the card has changed. -/
theorem fat_create_file_lfn_spec (fuel : Nat) (lfn : lfn_cache) (start : Nat) (cs : List Nat) :
    ∀ (n : Nat) (s : sdcard_t) (e e1 : fat_entry) (s1 : sdcard_t),
      volume_ok s → reads_ok s → writes_ok s → s.malloc_ok = true → coherent s →
      is_dir s start cs → e.cluster = start → e.entry ≤ 16 →
      (e.entry = 16 → e.sector + 1 < 4294967296) →
      fat_create_file_lfn fuel lfn n s e = some (some e1, s1) →
      io_step s s1 ∧ coherent s1 ∧ is_dir s1 start cs ∧
        e1.cluster = start ∧ e1.entry ≤ 16 ∧ (e1.entry = 16 → e1.sector + 1 < 4294967296) ∧
        fat_entry_slot e1 = fat_entry_slot e + n ∧
        (∀ t, t < n → (fat_entry_slot e + t) / 16 < dir_sector_count s start cs ∧
          is_ldir_record (dir_record s s1.card start cs (fat_entry_slot e + t))
            (u8 (if n - t = lfn.strings then (n - t) ||| 0x40 else n - t)) lfn.checksum
            (fun j => lfn.filename ((n - t - 1) * 13 + j))) ∧
        (∀ l, (∀ t, t < n → l ≠ dir_sector_lba s start cs ((fat_entry_slot e + t) / 16)) →
          s1.card l = s.card l) ∧
        (∀ l i, i < 512 →
          (∀ t, t < n → ¬ (l = dir_sector_lba s start cs ((fat_entry_slot e + t) / 16) ∧
            (fat_entry_slot e + t) % 16 * 32 ≤ i ∧ i < (fat_entry_slot e + t) % 16 * 32 + 32)) →
          s1.card l i = s.card l i)
  | 0, s, e, e1, s1, _, _, _, _, hco, hd, hc, h16, hs, h => by
    unfold fat_create_file_lfn at h
    simp only [Option.some.injEq, Prod.mk.injEq] at h
    obtain ⟨h1, h2⟩ := h
    subst h1 h2
    exact ⟨io_step_refl s, hco, hd, hc, h16, hs, rfl, fun t ht => absurd ht (by omega),
      fun _ _ => rfl, fun _ _ _ _ => rfl⟩
  | n + 1, s, e, e1, s1, hv, hr, hw, hm, hco, hd, hc, h16, hs, h => by
    obtain ⟨w1, w2, w3⟩ := fat_entry_wrap_spec e h16 hs
    rw [hc] at w1
    generalize hwe : fat_entry_wrap e = we at w1 w2 w3
    unfold fat_create_file_lfn at h
    simp only at h
    rw [hwe, w1] at h
    by_cases h0 : (fat_read_sector s start we.sector).1 = 0
    · rw [if_pos h0] at h
      simp at h
    · rw [if_neg h0] at h
      obtain ⟨hj, hb, s2, e2, hio2, hl2, hco2, hd2, hnew, hold⟩ :=
        fat_dir_sector_update hv hr hw hm hco hd fuel 0 we.sector
          (fat_create_file_ldir lfn (n + 1) (fat_read_sector s start we.sector).2.buffer
            (we.entry * 32)) h0
      rw [e2] at h
      simp only [one_ne_zero, if_false] at h
      have hcnt := dir_sector_count_lt hv hd
      have hu8 : u8 (we.entry + 1) = we.entry + 1 := Nat.mod_eq_of_lt (by omega)
      rw [hu8] at h
      generalize hne : ({ cluster := start, sector := we.sector, entry := we.entry + 1 } :
        fat_entry) = ne at h
      have n1 : ne.cluster = start := by rw [← hne]
      have n2 : ne.entry = we.entry + 1 := by rw [← hne]
      have n3 : ne.sector = we.sector := by rw [← hne]
      obtain ⟨a1, a2, a3, a4, a5, a6, a7, a8, a9, a10⟩ :=
        fat_create_file_lfn_spec fuel lfn start cs n s2 ne e1 s1
          (io_step_volume_ok hio2 hv) (io_step_reads_ok hio2 hr) (io_step_writes_ok hio2 hw)
          (by rw [io_step_malloc_ok hio2]; exact hm) hco2 hd2 n1 (by omega)
          (fun _ => by omega) h
      have hslot : fat_entry_slot ne = fat_entry_slot e + 1 := by
        rw [← w3]; unfold fat_entry_slot
        rw [n2, n3]; omega
      rw [hslot] at a7 a8 a9 a10
      have hq : (fat_entry_slot e) / 16 = we.sector ∧ (fat_entry_slot e) % 16 = we.entry := by
        rw [← w3]; unfold fat_entry_slot
        constructor <;> omega
      simp only [io_step_dir_sector_lba hio2, io_step_dir_sector_count hio2,
        io_step_dir_record hio2] at a8 a9 a10
      -- the record written by this step survives the rest of the loop
      have hkeep : ∀ i, i < 32 →
          s1.card (dir_sector_lba s start cs (fat_entry_slot e / 16))
            (fat_entry_slot e % 16 * 32 + i)
          = s2.card (dir_sector_lba s start cs (fat_entry_slot e / 16))
            (fat_entry_slot e % 16 * 32 + i) := by
        intro i hi
        apply a10 _ _ (by omega)
        intro t ht hcon
        obtain ⟨c1, c2, c3⟩ := hcon
        have hsec : fat_entry_slot e / 16 = (fat_entry_slot e + 1 + t) / 16 :=
          dir_sector_lba_inj hv hd (by rw [hq.1]; exact hj) (a8 t ht).1 c1
        omega
      refine ⟨io_step_trans hio2 a1, a2, a3, a4, a5, a6, by rw [a7]; omega, ?_, ?_, ?_⟩
      · intro t ht
        cases t with
        | zero =>
          refine ⟨by rw [Nat.add_zero, hq.1]; exact hj, ?_⟩
          have hrec := fat_create_file_ldir_record lfn (n + 1)
            (fat_read_sector s start we.sector).2.buffer (we.entry * 32)
          refine is_ldir_record_congr (fun i hi => ?_) hrec
          unfold dir_record
          simp only [Nat.add_zero]
          rw [hkeep i hi, hq.1, hq.2]
          exact hnew _ (by omega)
        | succ t =>
          have := a8 t (by omega)
          have e3 : fat_entry_slot e + (t + 1) = fat_entry_slot e + 1 + t := by omega
          have e4 : n + 1 - (t + 1) = n - t := by omega
          rw [e3, e4]
          exact this
      · intro l hout
        rw [a9 l (fun t ht => by
          have := hout (t + 1) (by omega)
          rw [show fat_entry_slot e + (t + 1) = fat_entry_slot e + 1 + t by omega] at this
          exact this)]
        have h0' := hout 0 (by omega)
        rw [Nat.add_zero, hq.1] at h0'
        exact hold l h0'
      · intro l i hi hout
        rw [a10 l i hi (fun t ht => by
          have := hout (t + 1) (by omega)
          rw [show fat_entry_slot e + (t + 1) = fat_entry_slot e + 1 + t by omega] at this
          exact this)]
        have h0' := hout 0 (by omega)
        rw [Nat.add_zero, hq.1, hq.2] at h0'
        by_cases hl : l = dir_sector_lba s start cs we.sector
        · subst hl
          rw [hnew i hi, fat_create_file_ldir_frame _ _ _ _ _ (by
            by_contra hc2
            exact h0' ⟨rfl, by omega, by omega⟩)]
          exact hb i hi
        · rw [hold l hl]


theorem sfn_checksum_congr (a b : Nat → Nat) (h : ∀ i, i < 11 → b i = a i) :
    sfn_checksum b = sfn_checksum a := by
  unfold sfn_checksum
  rw [sfn_checksum_loop_fold, sfn_checksum_loop_fold]
  congr 1
  apply List.map_congr_left
  intro i hi
  simp only [Nat.zero_add]
  exact h i (List.mem_range.mp hi)

theorem lfn_cache_from_string_checksum (filename : List Nat) (chksum : Nat) :
    (lfn_cache_from_string filename chksum).checksum = chksum := by
  unfold lfn_cache_from_string
  exact (lfn_cache_from_string_loop_eq filename _ _ 0 _).1

/-- What a successful `fat_create_file` leaves on the card.  With `cluster` the free
cluster found, `sfn` the short name chosen, `lfn` the fragments of the name and `e`
the record found by `fat_find_free_entry`: the records from `e` on hold the
fragments `strings, ..., 1`, the next record is the short-name record, the FAT
entry of `cluster` holds the stored form of `0xFFFFFFFF`, and the rest of the card
is untouched. -/
theorem fat_create_file_spec {sd : sdcard_t} (hv : volume_ok sd) (hco : coherent sd)
    (hr : reads_ok sd) (hw : writes_ok sd) (hm : sd.malloc_ok = true) {start : Nat}
    {cs : List Nat} (hd : is_dir sd start cs) {fuel : Nat}
    (hfuel : sd.data_clusters + 3 ≤ fuel) {filename : List Nat} {sd1 : sdcard_t}
    (h : fat_create_file fuel sd start filename = some (1, sd1)) :
    ∃ (cluster : Nat) (sfn : Nat → Nat) (s3 s4 : sdcard_t) (e : fat_entry),
      filename ≠ [] ∧
      start ≤ cluster ∧ cluster ≠ 0 ∧ cluster ≤ sd.data_clusters + 1 ∧
      fat_entry_on_card sd cluster = 0 ∧
      io_step sd s3 ∧ s3.card = sd.card ∧ coherent s3 ∧
      fat_find_free_entry fuel s3 start
        (u8 ((lfn_cache_from_string filename (sfn_checksum sfn)).strings + 1))
        = some (some e, s4) ∧
      io_step sd sd1 ∧ coherent sd1 ∧
      (fat_entry_slot e + (lfn_cache_from_string filename (sfn_checksum sfn)).strings) / 16
        < dir_sector_count sd start cs ∧
      (∀ t, t < (lfn_cache_from_string filename (sfn_checksum sfn)).strings →
        is_ldir_record (dir_record sd sd1.card start cs (fat_entry_slot e + t))
          (u8 (if (lfn_cache_from_string filename (sfn_checksum sfn)).strings - t
                = (lfn_cache_from_string filename (sfn_checksum sfn)).strings then
              ((lfn_cache_from_string filename (sfn_checksum sfn)).strings - t) ||| 0x40
            else (lfn_cache_from_string filename (sfn_checksum sfn)).strings - t))
          (sfn_checksum sfn)
          (fun j => (lfn_cache_from_string filename (sfn_checksum sfn)).filename
            (((lfn_cache_from_string filename (sfn_checksum sfn)).strings - t - 1) * 13 + j))) ∧
      is_new_dir_record (dir_record sd sd1.card start cs
        (fat_entry_slot e + (lfn_cache_from_string filename (sfn_checksum sfn)).strings))
        sfn cluster ∧
      fat_entry_in sd sd1.card cluster = fat_trunc sd 0xFFFFFFFF ∧
      (∀ d, d ≤ sd.data_clusters + 1 → d ≠ cluster →
        fat_entry_in sd sd1.card d = fat_entry_in sd sd.card d) ∧
      (∀ l i, i < 512 → l ≠ fat_entry_lba sd cluster →
        (∀ t, t ≤ (lfn_cache_from_string filename (sfn_checksum sfn)).strings →
          ¬ (l = dir_sector_lba sd start cs ((fat_entry_slot e + t) / 16) ∧
            (fat_entry_slot e + t) % 16 * 32 ≤ i ∧ i < (fat_entry_slot e + t) % 16 * 32 + 32)) →
        sd1.card l i = sd.card l i) ∧
      (∃ (s1 s2 : sdcard_t) (i : Nat),
        fat_find_lfn fuel sd start filename = some (none, s1) ∧
        fat_get_next_free_cluster fuel s1 start = some (cluster, s2) ∧
        fat_create_file_sfn fuel sd.uninit filename start 65534 s2 1 sd.uninit
          = some (i, sfn, s3)) := by
  unfold fat_create_file at h
  by_cases hn : filename.length = 0
  · rw [if_pos hn] at h; simp at h
  rw [if_neg hn] at h
  -- the lookup by long name
  cases h1 : fat_find_lfn fuel sd start filename with
  | none => rw [h1] at h; simp at h
  | some r1 =>
  obtain ⟨res1, s1⟩ := r1
  rw [h1] at h
  cases res1 with
  | some d => simp at h
  | none =>
  simp only at h
  obtain ⟨io1, c1, co1⟩ := fat_find_lfn_loop_frame start filename fuel sd 0 lfn_cache_reset _ _ h1
  have hv1 := io_step_volume_ok io1 hv
  have hd1 : is_dir s1 start cs := (io_step_is_dir io1 c1 start cs).2 hd
  -- the free cluster
  have hstart : below_eoc sd start := by
    unfold is_dir at hd
    by_cases hroot : sd.fattype = FAT16 ∧ start = 0
    · unfold below_eoc; rw [if_pos hroot.1, hroot.2]; decide
    · rw [if_neg hroot] at hd
      exact volume_ok_below hv (chain_links_head hd.1).2
  obtain ⟨c, s2, h2, io2, c2, co2, hfree⟩ := fat_get_next_free_cluster_aux fuel s1 start hv1
    (co1 hco) (io_step_reads_ok io1 hr) (by rw [io_step_below_eoc io1]; exact hstart)
    (by rw [io_step_data_clusters io1]; omega) (by omega)
  rw [h2] at h
  simp only at h
  by_cases hc0 : c = 0
  · rw [if_pos hc0] at h; simp at h
  rw [if_neg hc0] at h
  have hcl : start ≤ c ∧ c ≤ sd.data_clusters + 1 ∧ fat_entry_on_card sd c = 0 := by
    rcases hfree with ⟨a, b, d, _⟩ | ⟨a, _⟩
    · rw [io_step_data_clusters io1] at b
      rw [io_step_fat_entry_same io1 c1] at d
      exact ⟨a, b, d⟩
    · exact absurd a hc0
  -- the short name
  cases h3 : fat_create_file_sfn fuel sd.uninit filename start 65534 s2 1 sd.uninit with
  | none => rw [h3] at h; simp at h
  | some r3 =>
  obtain ⟨i3, sfn, s3⟩ := r3
  rw [h3] at h
  simp only at h
  by_cases hi3 : i3 = 65535
  · rw [if_pos hi3] at h; simp at h
  rw [if_neg hi3] at h
  obtain ⟨io3, c3, co3⟩ := fat_create_file_sfn_frame fuel _ filename start _ _ _ _ _ _ _ h3
  have io03 := io_step_trans (io_step_trans io1 io2) io3
  have c03 : s3.card = sd.card := by rw [c3, c2, c1]
  have hco3 : coherent s3 := co3 co2
  -- the free records
  generalize hlfn : lfn_cache_from_string filename (sfn_checksum sfn) = lfn at h ⊢
  cases h4 : fat_find_free_entry fuel s3 start (u8 (lfn.strings + 1)) with
  | none => rw [h4] at h; simp at h
  | some r4 =>
  obtain ⟨res4, s4⟩ := r4
  rw [h4] at h
  cases res4 with
  | none => simp at h
  | some e =>
  simp only at h
  obtain ⟨io4, c4, co4, he⟩ := fat_find_free_entry_frame h4
  obtain ⟨he1, he2⟩ := he e rfl
  have io04 := io_step_trans io03 io4
  have c04 : s4.card = sd.card := by rw [c4, c03]
  have hv4 := io_step_volume_ok io04 hv
  have hd4 : is_dir s4 start cs := (io_step_is_dir io04 c04 start cs).2 hd
  -- the long-name records
  cases h5 : fat_create_file_lfn fuel lfn lfn.strings s4 e with
  | none => rw [h5] at h; simp at h
  | some r5 =>
  obtain ⟨res5, s5⟩ := r5
  rw [h5] at h
  cases res5 with
  | none => simp at h
  | some e5 =>
  simp only at h
  obtain ⟨io5, co5, hd5, k1, k2, k3, k4, k5, k6, k7⟩ :=
    fat_create_file_lfn_spec fuel lfn start cs lfn.strings s4 e e5 s5 hv4
      (io_step_reads_ok io04 hr) (io_step_writes_ok io04 hw)
      (by rw [io_step_malloc_ok io04]; exact hm) (co4 hco3) hd4 he1 (by omega)
      (fun hh => by omega) h5
  simp only [io_step_dir_sector_lba io04, io_step_dir_sector_count io04,
    io_step_dir_record io04] at k5 k6 k7
  have io05 := io_step_trans io04 io5
  have hv5 := io_step_volume_ok io05 hv
  -- the short-name record
  obtain ⟨w1, w2, w3⟩ := fat_entry_wrap_spec e5 k2 k3
  rw [k1] at w1
  rw [k4] at w3
  generalize hwe : fat_entry_wrap e5 = we at w1 w2 w3 h
  rw [w1] at h
  by_cases h0 : (fat_read_sector s5 start we.sector).1 = 0
  · rw [if_pos h0] at h; simp at h
  rw [if_neg h0] at h
  obtain ⟨hj, hb, s6, e6, io6, hl6, co6, hd6, hnew, hold⟩ :=
    fat_dir_sector_update hv5 (io_step_reads_ok io05 hr) (io_step_writes_ok io05 hw)
      (by rw [io_step_malloc_ok io05]; exact hm) co5 hd5 fuel 0 we.sector
      (fat_create_file_dir sfn c (fat_read_sector s5 start we.sector).2.buffer
        (we.entry * 32)) h0
  simp only [io_step_dir_sector_lba io05, io_step_dir_sector_count io05] at hj hb hnew hold
  rw [e6] at h
  simp only [one_ne_zero, if_false] at h
  have io06 := io_step_trans io05 io6
  have hv6 := io_step_volume_ok io06 hv
  -- the FAT entry
  have hm6 := fat_set_next_cluster_valid hv6 co6 (io_step_reads_ok io06 hr)
    (io_step_writes_ok io06 hw) (c := c) (by rw [io_step_data_clusters io06]; exact hcl.2.1)
    0xFFFFFFFF
  rw [if_neg (by rw [hm6.1]; decide)] at h
  simp only [Option.some.injEq, Prod.mk.injEq, true_and] at h
  have io7 := fat_set_next_cluster_frame s6 c 0xFFFFFFFF
  rw [h] at hm6 io7
  obtain ⟨_, m2, m3, m4⟩ := hm6
  rw [io_step_fat_store io06] at m2
  have hq : (fat_entry_slot e + lfn.strings) / 16 = we.sector ∧
      (fat_entry_slot e + lfn.strings) % 16 = we.entry := by
    rw [← w3]; unfold fat_entry_slot
    constructor <;> omega
  have hdc := volume_ok_dc_lt hv
  have hcard7 : ∀ l, l ≠ fat_entry_lba sd c → sd1.card l = s6.card l := by
    intro l hl
    rw [m2]
    exact fat_store_in_other_lba sd _ c _ l hl
  have hcard6 : ∀ l i, i < 512 →
      ¬ (l = dir_sector_lba sd start cs we.sector ∧ we.entry * 32 ≤ i ∧ i < we.entry * 32 + 32) →
      s6.card l i = s5.card l i := by
    intro l i hi hout
    by_cases hl : l = dir_sector_lba sd start cs we.sector
    · subst hl
      rw [hnew i hi, fat_create_file_dir_frame _ _ _ _ _ (by
        by_contra hc2
        exact hout ⟨rfl, by omega, by omega⟩)]
      exact hb i hi
    · rw [hold l hl]
  have hdirfat : ∀ j, j < dir_sector_count sd start cs →
      dir_sector_lba sd start cs j ≠ fat_entry_lba sd c :=
    fun j hj2 => dir_lba_ne_fat_lba hv hd hj2 hcl.2.1
  have hck : lfn.checksum = sfn_checksum sfn := by
    rw [← hlfn]; exact lfn_cache_from_string_checksum _ _
  rw [hck] at k5
  refine ⟨c, sfn, s3, s4, e, fun hh => hn (by rw [hh]; rfl), hcl.1, hc0, hcl.2.1, hcl.2.2,
    io03, c03, hco3, ?_⟩
  rw [hlfn]
  refine ⟨h4, io_step_trans io06 io7, m4, by rw [hq.1]; exact hj, ?_, ?_, ?_, ?_, ?_,
    ⟨s1, s2, i3, rfl, h2, h3⟩⟩
  · -- long-name records
    intro t ht
    obtain ⟨g1, g2⟩ := k5 t ht
    refine is_ldir_record_congr (fun i hi => ?_) g2
    unfold dir_record
    rw [hcard7 _ (hdirfat _ g1)]
    apply hcard6 _ _ (by omega)
    intro hcon
    obtain ⟨a1, a2, a3⟩ := hcon
    have := dir_sector_lba_inj hv hd g1 hj a1
    omega
  · -- the short-name record
    refine is_new_dir_record_congr (fun i hi => ?_)
      (fat_create_file_dir_record sfn c (fat_read_sector s5 start we.sector).2.buffer
        (we.entry * 32) (by omega))
    unfold dir_record
    rw [hq.1, hq.2, hcard7 _ (hdirfat _ hj)]
    exact hnew _ (by omega)
  · rw [m2]
    exact fat_entry_in_store_same sd _ c _
  · intro d hd2 hne
    rw [m2, fat_entry_in_store_other hv _ _ hcl.2.1 hd2 hne]
    have e1 : s6.card (fat_entry_lba sd d) = s5.card (fat_entry_lba sd d) :=
      hold _ (dir_lba_ne_fat_lba hv hd hj hd2).symm
    have e2 : s5.card (fat_entry_lba sd d) = s4.card (fat_entry_lba sd d) :=
      k6 _ (fun t ht => (dir_lba_ne_fat_lba hv hd (k5 t ht).1 hd2).symm)
    rw [fat_entry_in_congr sd _ _ d (by rw [e1, e2, c04])]
  · intro l i hi hl hout
    rw [hcard7 l hl, hcard6 l i hi (by
      have := hout lfn.strings (le_refl _)
      rw [hq.1, hq.2] at this
      exact this), k7 l i hi (fun t ht => hout t (by omega)), c04]



/-! ## C11: the records written by create -/

set_option maxRecDepth 1000000 in
/-- Counterexample to C11 as stated: a name of 256 characters needs 20 long-name
fragments, yet a successful `fat_create_file` in an empty root directory writes
the short-name record (attribute `0x20`, first byte `A`) at the first free record
and no long-name record at all, the length being kept in a `uint8_t`. -/
theorem fat_create_file_long_name_counterexample :
    ∃ sd1, fat_create_file 9 (demo32_root [0x0FFFFFF8, 0x0FFFFFFF, 0x0FFFFFFF] []) 2
        demo_name_256 = some (1, sd1) ∧
      sd1.card 4128 11 ≠ ATTR_LONG_NAME ∧ sd1.card 4128 0 ≠ 20 ||| 0x40 := by
  have e : (fat_create_file 9 (demo32_root [0x0FFFFFF8, 0x0FFFFFFF, 0x0FFFFFFF] []) 2
      demo_name_256).map (fun r => (r.1, r.2.card 4128 11, r.2.card 4128 0))
      = some (1, 0x20, 65) := by decide
  cases h : fat_create_file 9 (demo32_root [0x0FFFFFF8, 0x0FFFFFFF, 0x0FFFFFFF] []) 2
      demo_name_256 with
  | none => rw [h] at e; exact Option.noConfusion e
  | some r =>
    obtain ⟨a, sd1⟩ := r
    rw [h] at e
    simp only [Option.map_some', Option.some.injEq, Prod.mk.injEq] at e
    obtain ⟨e1, e2, e3⟩ := e
    subst e1
    exact ⟨sd1, rfl, by rw [e2]; decide, by rw [e3]; decide⟩

/-- Claim C11, amended (directory records written by create).  On a well-formed volume
with working block I/O, for every name of `1 ≤ L ≤ 255` characters, needing
`N = (L + 12) / 13` long-name fragments, a successful `fat_create_file` leaves
`N + 1` consecutive records starting at the record returned by
`fat_find_free_entry`: first `N` long-name records with ordinal bytes `N | 0x40`,
`N - 1`, ..., `1` in that order, each with attribute `0x0F`, type 0,
first-cluster-low 0, checksum byte equal to `sfn_checksum` of the short name, and
the 13 characters of fragment `ordinal - 1` stored as UCS-2 with zero high bytes;
then the short-name record (`create_records`). -/
theorem fat_create_file_records {sd : sdcard_t} (hv : volume_ok sd) (hco : coherent sd)
    (hr : reads_ok sd) (hw : writes_ok sd) (hm : sd.malloc_ok = true) {start : Nat}
    {cs : List Nat} (hd : is_dir sd start cs) {fuel : Nat}
    (hfuel : sd.data_clusters + 3 ≤ fuel) {filename : List Nat}
    (hL : filename.length ≤ 255) {sd1 : sdcard_t}
    (h : fat_create_file fuel sd start filename = some (1, sd1)) :
    filename ≠ [] ∧ create_records sd start cs fuel filename sd1 := by
  obtain ⟨cluster, sfn, s3, s4, e, a1, _, _, _, _, a6, a7, a8, a9, _, _, _, a13, a14, _, _, _⟩ :=
    fat_create_file_spec hv hco hr hw hm hd hfuel h
  obtain ⟨b1, b2, b3⟩ := lfn_cache_from_string_eq filename (sfn_checksum sfn) hL
  rw [b2] at a9 a13 a14
  have hN : (filename.length + 12) / 13 ≤ 20 := by omega
  have hu : u8 ((filename.length + 12) / 13 + 1) = (filename.length + 12) / 13 + 1 :=
    Nat.mod_eq_of_lt (by omega)
  rw [hu] at a9
  have hck : sfn_checksum
      (dir_record sd sd1.card start cs (fat_entry_slot e + (filename.length + 12) / 13))
      = sfn_checksum sfn := sfn_checksum_congr _ _ a14.1
  refine ⟨a1, sfn, cluster, s3, s4, e, a6, a7, a8, a9, fun t ht => ?_, a14⟩
  have g := a13 t ht
  rw [hck]
  have hord : u8 (if (filename.length + 12) / 13 - t = (filename.length + 12) / 13 then
        ((filename.length + 12) / 13 - t) ||| 0x40 else (filename.length + 12) / 13 - t)
      = (if t = 0 then (filename.length + 12) / 13 ||| 0x40
          else (filename.length + 12) / 13 - t) := by
    by_cases ht0 : t = 0
    · subst ht0
      have hlt : (filename.length + 12) / 13 ||| 0x40 < 2 ^ 8 :=
        Nat.or_lt_two_pow (by omega) (by decide)
      simp only [Nat.sub_zero, if_true]
      exact Nat.mod_eq_of_lt hlt
    · rw [if_neg (by omega), if_neg ht0]
      exact Nat.mod_eq_of_lt (by omega)
  rw [hord] at g
  have hfr : (fun j => (lfn_cache_from_string filename (sfn_checksum sfn)).filename
        (((filename.length + 12) / 13 - t - 1) * 13 + j))
      = (fun j => if j < 13 then lfn_fragment_char filename
          ((((filename.length + 12) / 13 - t - 1) * 13 + j) % 256)
        else (lfn_cache_from_string filename (sfn_checksum sfn)).filename
          (((filename.length + 12) / 13 - t - 1) * 13 + j)) := by
    funext j
    by_cases hj : j < 13
    · rw [if_pos hj]
      apply b3
      have : ((filename.length + 12) / 13 - t - 1 + 1) * 13 ≤ (filename.length + 12) / 13 * 13 :=
        Nat.mul_le_mul_right _ (by omega)
      omega
    · rw [if_neg hj]
  rw [hfr] at g
  unfold is_ldir_record at g ⊢
  obtain ⟨g1, g2, g3, g4, g5, g6⟩ := g
  refine ⟨g1, g2, g3, g4, g5, fun j hj => ?_⟩
  have := g6 j hj
  simp only [if_pos hj] at this
  exact this


theorem demo32_root_volume_ok (fat root : List Nat) : volume_ok (demo32_root fat root) :=
  ⟨rfl, by simp only [demo32_root, demo32]; decide,
    by simp only [demo32_root, demo32, below_eoc]; decide,
    by simp only [demo32_root, demo32, fat_entry_sector, u32]; decide,
    by simp only [demo32_root, demo32]; decide,
    by simp only [demo32_root, demo32]; decide⟩

theorem demo32_root_coherent (fat root : List Nat) : coherent (demo32_root fat root) :=
  fun h => absurd rfl h

theorem demo32_root_reads_ok (fat root : List Nat) : reads_ok (demo32_root fat root) :=
  fun _ => rfl

theorem demo32_root_writes_ok (fat root : List Nat) : writes_ok (demo32_root fat root) :=
  ⟨rfl, fun _ => rfl⟩

set_option maxRecDepth 100000 in
theorem demo32_root_is_dir_empty :
    is_dir (demo32_root [0x0FFFFFF8, 0x0FFFFFFF, 0x0FFFFFFF] []) 2 [] := by
  simp only [is_dir, is_chain, chain_links]
  decide

set_option maxRecDepth 1000000 in
theorem demo32_root_create_hello :
    (fat_create_file 262003 (demo32_root [0x0FFFFFF8, 0x0FFFFFFF, 0x0FFFFFFF] []) 2
      demo_name).map (fun r => (r.1, r.2.card 4128 0, r.2.card 4128 32, r.2.card 4128 75,
        dir_first_cluster (r.2.card 4128) 64, fat_entry_on_card r.2 3))
      = some (1, 0x42, 0x01, 0x20, 3, 0xFFFFFFFF) := by
  decide

/-- Instance of C11: creating `Hello World.txt` (15 characters, 2 fragments) in an empty
FAT32 root directory succeeds and leaves the records with ordinal bytes `0x42` and
`0x01`, then the short-name record. -/
theorem fat_create_file_records_witness :
    ∃ sd1, fat_create_file 262003 (demo32_root [0x0FFFFFF8, 0x0FFFFFFF, 0x0FFFFFFF] []) 2
        demo_name = some (1, sd1) ∧
      create_records (demo32_root [0x0FFFFFF8, 0x0FFFFFFF, 0x0FFFFFFF] []) 2 [] 262003
        demo_name sd1 ∧
      sd1.card 4128 0 = 0x42 ∧ sd1.card 4128 32 = 0x01 ∧ sd1.card 4128 75 = ATTR_ARCHIVE := by
  have e := demo32_root_create_hello
  cases h : fat_create_file 262003 (demo32_root [0x0FFFFFF8, 0x0FFFFFFF, 0x0FFFFFFF] []) 2
      demo_name with
  | none => rw [h] at e; exact Option.noConfusion e
  | some r =>
    obtain ⟨a, sd1⟩ := r
    rw [h] at e
    simp only [Option.map_some', Option.some.injEq, Prod.mk.injEq] at e
    obtain ⟨e1, e2, e3, e4, _, _⟩ := e
    subst e1
    exact ⟨sd1, rfl, (fat_create_file_records (demo32_root_volume_ok _ _)
      (demo32_root_coherent _ _) (demo32_root_reads_ok _ _) (demo32_root_writes_ok _ _) rfl
      demo32_root_is_dir_empty (by decide) (by decide) h).2, e2, e3, e4⟩


/-! ## C13: the end-of-chain word on FAT32 -/

/-- Counterexample to C13 as stated: on the FAT32 demo volume with an empty root
directory, `fat_create_file` of `Hello World.txt` succeeds, stores first cluster 3
in the short-name record, and leaves the 32-bit FAT word of cluster 3 equal to
`0xFFFFFFFF`, not `0x0FFFFFFF`: the high 4 bits are set. -/
theorem fat_create_file_eoc_word_counterexample :
    (demo32_root [0x0FFFFFF8, 0x0FFFFFFF, 0x0FFFFFFF] []).fattype = FAT32 ∧
    ∃ sd1, fat_create_file 262003 (demo32_root [0x0FFFFFF8, 0x0FFFFFFF, 0x0FFFFFFF] []) 2
        demo_name = some (1, sd1) ∧
      dir_first_cluster (sd1.card 4128) 64 = 3 ∧
      fat_entry_on_card sd1 3 ≠ 0x0FFFFFFF ∧
      fat_entry_on_card sd1 3 / 268435456 = 15 := by
  refine ⟨rfl, ?_⟩
  have e := demo32_root_create_hello
  cases h : fat_create_file 262003 (demo32_root [0x0FFFFFF8, 0x0FFFFFFF, 0x0FFFFFFF] []) 2
      demo_name with
  | none => rw [h] at e; exact Option.noConfusion e
  | some r =>
    obtain ⟨a, sd1⟩ := r
    rw [h] at e
    simp only [Option.map_some', Option.some.injEq, Prod.mk.injEq] at e
    obtain ⟨e1, _, _, _, e5, e6⟩ := e
    subst e1
    exact ⟨sd1, rfl, e5, by rw [e6]; decide, by rw [e6]⟩

/-- C13, amended: on every well-formed FAT32 volume with a coherent cache and working
block I/O, after a successful `fat_create_file` in the directory `start :: cs` there
is a record `q` of that directory holding the new short-name record (attribute
`0x20`, size 0) whose stored first cluster `cluster` is at least 2 and at most
`data_clusters + 1`; that cluster was free before; and the 32-bit on-disk FAT word of
that cluster equals `0xFFFFFFFF` (the value handed to `fat_set_next_cluster`, stored
unmasked), which is read back as the end-of-chain mark. -/
theorem fat_create_file_eoc_word {sd : sdcard_t} (hv : volume_ok sd) (hco : coherent sd)
    (hr : reads_ok sd) (hw : writes_ok sd) (hm : sd.malloc_ok = true)
    (hf : sd.fattype = FAT32) {start : Nat}
    {cs : List Nat} (hd : is_dir sd start cs) {fuel : Nat}
    (hfuel : sd.data_clusters + 3 ≤ fuel) {filename : List Nat} {sd1 : sdcard_t}
    (h : fat_create_file fuel sd start filename = some (1, sd1)) :
    ∃ (cluster q : Nat),
      q / 16 < dir_sector_count sd start cs ∧
      (dir_record sd sd1.card start cs q) 11 = ATTR_ARCHIVE ∧
      dir_file_size (dir_record sd sd1.card start cs q) 0 = 0 ∧
      dir_first_cluster (dir_record sd sd1.card start cs q) 0 = cluster ∧
      2 ≤ cluster ∧ cluster ≤ sd.data_clusters + 1 ∧
      fat_entry_on_card sd cluster = 0 ∧
      fat_entry_on_card sd1 cluster = 0xFFFFFFFF ∧
      fat_next_in sd1 sd1.card cluster = EOC := by
  obtain ⟨cluster, sfn, s3, s4, e, _, a2, _, a4, a5, _, _, _, _, a10, _, a12, _, a14, a15, _, _⟩ :=
    fat_create_file_spec hv hco hr hw hm hd hfuel h
  have h16 : ¬ (sd.fattype = FAT16 ∧ start = 0) := by
    rw [hf]; intro hh; exact absurd hh.1 (by decide)
  have hs2 : 2 ≤ start := by
    unfold is_dir at hd
    rw [if_neg h16] at hd
    have hc := hd.1
    unfold is_chain at hc
    cases cs with
    | nil => exact hc.1
    | cons d rest => exact hc.1
  have hword : fat_entry_on_card sd1 cluster = 0xFFFFFFFF := by
    rw [io_step_fat_entry_on_card a10, a15]
    unfold fat_trunc u32
    rw [hf]
    decide
  refine ⟨cluster, _, a12, a14.2.1, a14.2.2.2.2.2.2.2.2.2.2, a14.2.2.2.2.2.2.2.2.2.1,
    by omega, a4, a5, hword, ?_⟩
  unfold fat_next_in
  rw [← fat_entry_on_card_eq_in, hword]
  unfold norm_entry
  rw [io_step_fattype a10, hf]
  decide

/-- Instance of C13 (amended): `Hello World.txt` created in the empty root directory
of the FAT32 demo volume. -/
theorem fat_create_file_eoc_word_witness :
    ∃ sd1, fat_create_file 262003 (demo32_root [0x0FFFFFF8, 0x0FFFFFFF, 0x0FFFFFFF] []) 2
        demo_name = some (1, sd1) ∧
      ∃ (cluster q : Nat),
        q / 16 < dir_sector_count (demo32_root [0x0FFFFFF8, 0x0FFFFFFF, 0x0FFFFFFF] []) 2 [] ∧
        (dir_record (demo32_root [0x0FFFFFF8, 0x0FFFFFFF, 0x0FFFFFFF] []) sd1.card 2 [] q) 11
          = ATTR_ARCHIVE ∧
        dir_file_size
          (dir_record (demo32_root [0x0FFFFFF8, 0x0FFFFFFF, 0x0FFFFFFF] []) sd1.card 2 [] q) 0
          = 0 ∧
        dir_first_cluster
          (dir_record (demo32_root [0x0FFFFFF8, 0x0FFFFFFF, 0x0FFFFFFF] []) sd1.card 2 [] q) 0
          = cluster ∧
        2 ≤ cluster ∧
        cluster ≤ (demo32_root [0x0FFFFFF8, 0x0FFFFFFF, 0x0FFFFFFF] []).data_clusters + 1 ∧
        fat_entry_on_card (demo32_root [0x0FFFFFF8, 0x0FFFFFFF, 0x0FFFFFFF] []) cluster = 0 ∧
        fat_entry_on_card sd1 cluster = 0xFFFFFFFF ∧
        fat_next_in sd1 sd1.card cluster = EOC := by
  have e := demo32_root_create_hello
  cases h : fat_create_file 262003 (demo32_root [0x0FFFFFF8, 0x0FFFFFFF, 0x0FFFFFFF] []) 2
      demo_name with
  | none => rw [h] at e; exact Option.noConfusion e
  | some r =>
    obtain ⟨a, sd1⟩ := r
    rw [h] at e
    simp only [Option.map_some', Option.some.injEq, Prod.mk.injEq] at e
    obtain ⟨e1, _⟩ := e
    subst e1
    exact ⟨sd1, rfl, fat_create_file_eoc_word (demo32_root_volume_ok _ _)
      (demo32_root_coherent _ _) (demo32_root_reads_ok _ _) (demo32_root_writes_ok _ _) rfl
      rfl demo32_root_is_dir_empty (by decide) h⟩



/-! ## C15: the lookup and the checksum of the short name -/

/-- The record scan of `fat_find_lfn` does not look at bytes 1..10 of the name of a
record that is not a long-name record. -/
theorem fat_find_lfn_entries_congr_name (junk a b : Nat → Nat) (filename : List Nat)
    (d0 : Nat) (hd0 : d0 % 32 = 0) (hl : d0 < 512 → fat_is_lfn_entry a d0 = false)
    (hab : same_but_name d0 a b) :
    ∀ (n e : Nat) (lfn : lfn_cache), e + n ≤ 16 →
      fat_find_lfn_entries junk b filename n e lfn
        = fat_find_lfn_entries junk a filename n e lfn
  | 0, _, _, _ => rfl
  | n + 1, e, lfn, hen => by
    have ih := fat_find_lfn_entries_congr_name junk a b filename d0 hd0 hl hab n (e + 1)
    have hb0 : b (e * 32) = a (e * 32) := hab _ (by omega) (by omega)
    have hb11 : b (e * 32 + 11) = a (e * 32 + 11) := hab _ (by omega) (by omega)
    have c1 : fat_is_last_entry b (e * 32) = fat_is_last_entry a (e * 32) := by
      unfold fat_is_last_entry; rw [hb0]
    have c2 : fat_is_free_entry b (e * 32) = fat_is_free_entry a (e * 32) := by
      unfold fat_is_free_entry; rw [hb0]
    have c3 : fat_is_lfn_entry b (e * 32) = fat_is_lfn_entry a (e * 32) := by
      unfold fat_is_lfn_entry; rw [hb11]
    have c4 : fat_is_sfn_entry b (e * 32) = fat_is_sfn_entry a (e * 32) := by
      unfold fat_is_sfn_entry; rw [hb0, hb11]
    unfold fat_find_lfn_entries
    simp only [c1, c2, c3, c4]
    split
    · rfl
    · split
      · exact ih _ (by omega)
      · split
        · rename_i hlfn
          have hne : e * 32 ≠ d0 := by
            intro h; rw [h] at hlfn; rw [hl (by omega)] at hlfn; exact Bool.noConfusion hlfn
          rw [lfn_cache_add_congr lfn a b (e * 32)
            (fun k hk => hab _ (by omega) (by omega))]
          exact ih _ (by omega)
        · split
          · split
            · rfl
            · exact ih _ (by omega)
          · exact ih _ (by omega)

/-- Card contents that differ, on the sectors of a directory, at most in bytes 1..10
of the name of one record that is not a long-name record, are scanned alike. -/
theorem dir_scan_congr_name (junk : Nat → Nat) (card card1 : Nat → Nat → Nat)
    (lba : Nat → Nat) (filename : List Nat) (d0 jmax : Nat) (hd0 : d0 % 32 = 0)
    (h : ∀ j, j < jmax →
      (same_but_name d0 (card (lba j)) (card1 (lba j)) ∧
        (d0 < 512 → fat_is_lfn_entry (card (lba j)) d0 = false)) ∨
      (∀ i, i < 512 → card1 (lba j) i = card (lba j) i)) :
    ∀ (n j : Nat) (lfn : lfn_cache), j + n ≤ jmax →
      dir_scan junk card1 lba filename n j lfn = dir_scan junk card lba filename n j lfn
  | 0, _, _, _ => rfl
  | n + 1, j, lfn, hj => by
    have ih := fun l => dir_scan_congr_name junk card card1 lba filename d0 jmax hd0 h n
      (j + 1) l (by omega)
    have he : fat_find_lfn_entries junk (card1 (lba j)) filename 16 0 lfn
        = fat_find_lfn_entries junk (card (lba j)) filename 16 0 lfn := by
      rcases h j (by omega) with ⟨h1, h2⟩ | h1
      · exact fat_find_lfn_entries_congr_name junk _ _ filename d0 hd0 h2 h1 16 0 lfn
          (by omega)
      · exact fat_find_lfn_entries_agree junk _ _ filename h1 lfn
    unfold dir_scan
    rw [he]
    split
    · rfl
    · rfl
    · exact ih _

set_option maxRecDepth 100000 in
/-- Counterexample to C15 as stated: in the root directory of the FAT32 demo volume the
two long-name records of `Hello World.txt` carry the checksum byte 237 and are
followed by a short-name record named `HOLIDAY JPG`, whose `sfn_checksum` is 249;
`fat_find_lfn` returns that short-name record (offset 64) all the same. -/
theorem fat_find_lfn_checksum_counterexample :
    (fat_find_lfn 9 (demo32_renamed [0x0FFFFFF8, 0x0FFFFFFF, 0x0FFFFFFF, 0x0FFFFFFF] 600
        demo_other_sfn) 2 demo_name).map
      (fun r => (r.1, r.2.buffer 13, r.2.buffer 45,
        (List.range 11).map (fun i => r.2.buffer (64 + i)),
        sfn_checksum (fun i => r.2.buffer (64 + i))))
      = some (some 64, 237, 237, demo_other_sfn, 249) ∧ 249 ≠ 237 := by
  decide

theorem dir_cache_succ (card : Nat → Nat → Nat) (lba : Nat → Nat) (r : Nat) :
    dir_cache card lba (r + 1) =
      if fat_is_free_entry (card (lba (r / 16))) (r % 16 * 32) = true then lfn_cache_reset
      else if fat_is_lfn_entry (card (lba (r / 16))) (r % 16 * 32) = true then
        lfn_cache_add (dir_cache card lba r) (card (lba (r / 16))) (r % 16 * 32)
      else if fat_is_sfn_entry (card (lba (r / 16))) (r % 16 * 32) = true then lfn_cache_reset
      else dir_cache card lba r := rfl

theorem dir_matches_not_last {junk : Nat → Nat} {card : Nat → Nat → Nat} {lba : Nat → Nat}
    {filename : List Nat} {r : Nat} (h : dir_matches junk card lba filename r = true) :
    dir_is_last card lba r = false := by
  unfold dir_matches at h
  exact (of_decide_eq_true h).1

/-- The record loop of `fat_find_lfn` on sector `j`, entered at record `e` with the cache
of the directory so far and no match so far. -/
theorem fat_find_lfn_entries_first (junk : Nat → Nat) (card : Nat → Nat → Nat)
    (lba : Nat → Nat) (name : List Nat) (j : Nat) :
    ∀ (k e : Nat), e + k ≤ 16 →
      (∀ q, q < 16 * j + e →
        dir_is_last card lba q = false ∧ dir_matches junk card lba name q = false) →
      (∀ d, fat_find_lfn_entries junk (card (lba j)) name k e (dir_cache card lba (16 * j + e))
          = lfn_scan.ret (some d) →
        ∃ r, r / 16 = j ∧ d = r % 16 * 32 ∧ dir_matches junk card lba name r = true ∧
          ∀ q, q < r →
            dir_is_last card lba q = false ∧ dir_matches junk card lba name q = false) ∧
      (fat_find_lfn_entries junk (card (lba j)) name k e (dir_cache card lba (16 * j + e))
          = lfn_scan.ret none →
        ∃ r, r / 16 = j ∧ dir_is_last card lba r = true ∧
          ∀ q, q < r →
            dir_is_last card lba q = false ∧ dir_matches junk card lba name q = false) ∧
      (∀ l, fat_find_lfn_entries junk (card (lba j)) name k e (dir_cache card lba (16 * j + e))
          = lfn_scan.next l →
        l = dir_cache card lba (16 * j + e + k) ∧
          ∀ q, q < 16 * j + e + k →
            dir_is_last card lba q = false ∧ dir_matches junk card lba name q = false) := by
  intro k
  induction k with
  | zero =>
    intro e _ hI
    unfold fat_find_lfn_entries
    refine ⟨fun d h => lfn_scan.noConfusion h, fun h => lfn_scan.noConfusion h, fun l h => ?_⟩
    injection h with h
    exact ⟨h.symm, hI⟩
  | succ k ih =>
    intro e he hI
    have hq : (16 * j + e) / 16 = j := by omega
    have hm : (16 * j + e) % 16 = e := by omega
    have hsucc := dir_cache_succ card lba (16 * j + e)
    rw [hq, hm] at hsucc
    have hlastdef : dir_is_last card lba (16 * j + e)
        = fat_is_last_entry (card (lba j)) (e * 32) := by
      unfold dir_is_last; rw [hq, hm]
    have hmatchdef : dir_matches junk card lba name (16 * j + e)
        = decide (fat_is_last_entry (card (lba j)) (e * 32) = false ∧
          fat_is_free_entry (card (lba j)) (e * 32) = false ∧
          fat_is_lfn_entry (card (lba j)) (e * 32) = false ∧
          fat_is_sfn_entry (card (lba j)) (e * 32) = true ∧
          (dir_cache card lba (16 * j + e)).strings > 0 ∧
          lfn_cache_compare junk (dir_cache card lba (16 * j + e)) name = true) := by
      unfold dir_matches; rw [hq, hm]
    have e1 : 16 * j + (e + 1) = 16 * j + e + 1 := by omega
    have e2 : 16 * j + e + 1 + k = 16 * j + e + (k + 1) := by omega
    have step : dir_is_last card lba (16 * j + e) = false →
        dir_matches junk card lba name (16 * j + e) = false → _ :=
      fun hl hmf => ih (e + 1) (by omega) (fun q hqq => by
        by_cases c : q < 16 * j + e
        · exact hI q c
        · have : q = 16 * j + e := by omega
          subst this
          exact ⟨hl, hmf⟩)
    rw [e1, e2] at step
    unfold fat_find_lfn_entries
    simp only
    by_cases c1 : fat_is_last_entry (card (lba j)) (e * 32) = true
    · simp only [if_pos c1]
      refine ⟨fun d h => ?_, fun _ => ⟨16 * j + e, hq, by rw [hlastdef]; exact c1, hI⟩,
        fun l h => lfn_scan.noConfusion h⟩
      injection h with h
      exact Option.noConfusion h
    · simp only [if_neg c1]
      have hl : dir_is_last card lba (16 * j + e) = false := by
        rw [hlastdef]; exact Bool.eq_false_iff.2 c1
      by_cases c2 : fat_is_free_entry (card (lba j)) (e * 32) = true
      · simp only [if_pos c2]
        have hc : dir_cache card lba (16 * j + e + 1) = lfn_cache_reset := by
          rw [hsucc, if_pos c2]
        have hmf : dir_matches junk card lba name (16 * j + e) = false := by
          rw [hmatchdef]
          exact decide_eq_false (fun h => by rw [c2] at h; exact Bool.noConfusion h.2.1)
        rw [← hc]
        exact step hl hmf
      · simp only [if_neg c2]
        by_cases c3 : fat_is_lfn_entry (card (lba j)) (e * 32) = true
        · simp only [if_pos c3]
          have hc : dir_cache card lba (16 * j + e + 1)
              = lfn_cache_add (dir_cache card lba (16 * j + e)) (card (lba j)) (e * 32) := by
            rw [hsucc, if_neg c2, if_pos c3]
          have hmf : dir_matches junk card lba name (16 * j + e) = false := by
            rw [hmatchdef]
            exact decide_eq_false (fun h => by rw [c3] at h; exact Bool.noConfusion h.2.2.1)
          rw [← hc]
          exact step hl hmf
        · simp only [if_neg c3]
          by_cases c4 : fat_is_sfn_entry (card (lba j)) (e * 32) = true
          · simp only [if_pos c4]
            by_cases cp : (dir_cache card lba (16 * j + e)).strings > 0 ∧
                lfn_cache_compare junk (dir_cache card lba (16 * j + e)) name = true
            · rw [if_pos cp]
              refine ⟨fun d h => ⟨16 * j + e, hq, ?_, ?_, hI⟩,
                fun h => ?_, fun l h => lfn_scan.noConfusion h⟩
              · injection h with h
                injection h with h
                rw [hm]; exact h.symm
              · rw [hmatchdef]
                exact decide_eq_true ⟨Bool.eq_false_iff.2 c1, Bool.eq_false_iff.2 c2,
                  Bool.eq_false_iff.2 c3, c4, cp.1, cp.2⟩
              · injection h with h
                exact Option.noConfusion h
            · rw [if_neg cp]
              have hc : dir_cache card lba (16 * j + e + 1) = lfn_cache_reset := by
                rw [hsucc, if_neg c2, if_neg c3, if_pos c4]
              have hmf : dir_matches junk card lba name (16 * j + e) = false := by
                rw [hmatchdef]
                exact decide_eq_false (fun h => cp ⟨h.2.2.2.2.1, h.2.2.2.2.2⟩)
              rw [← hc]
              exact step hl hmf
          · simp only [if_neg c4]
            have hc : dir_cache card lba (16 * j + e + 1) = dir_cache card lba (16 * j + e) := by
              rw [hsucc, if_neg c2, if_neg c3, if_neg c4]
            have hmf : dir_matches junk card lba name (16 * j + e) = false := by
              rw [hmatchdef]
              exact decide_eq_false (fun h => c4 h.2.2.2.1)
            have hs := step hl hmf
            rw [hc] at hs
            exact hs

/-- The scan of the directory from sector `j` on, entered with the cache of the
directory so far and no match so far. -/
theorem dir_scan_first (junk : Nat → Nat) (card : Nat → Nat → Nat) (lba : Nat → Nat)
    (name : List Nat) :
    ∀ (n j : Nat),
      (∀ q, q < 16 * j →
        dir_is_last card lba q = false ∧ dir_matches junk card lba name q = false) →
      (∀ j1 d, dir_scan junk card lba name n j (dir_cache card lba (16 * j)) = some (j1, d) →
        ∃ r, r < 16 * (j + n) ∧ j1 = r / 16 ∧ d = r % 16 * 32 ∧
          dir_matches junk card lba name r = true ∧
          ∀ q, q < r →
            dir_is_last card lba q = false ∧ dir_matches junk card lba name q = false) ∧
      (dir_scan junk card lba name n j (dir_cache card lba (16 * j)) = none →
        ∀ r, r < 16 * (j + n) → dir_matches junk card lba name r = true →
          ∃ q, q < r ∧ dir_is_last card lba q = true) := by
  intro n
  induction n with
  | zero =>
    intro j hI
    unfold dir_scan
    refine ⟨fun j1 d h => Option.noConfusion h, fun _ r hr hmt => ?_⟩
    have := (hI r (by omega)).2
    rw [hmt] at this
    exact Bool.noConfusion this
  | succ n ih =>
    intro j hI
    obtain ⟨h1, h2, h3⟩ := fat_find_lfn_entries_first junk card lba name j 16 0 (by omega) hI
    unfold dir_scan
    cases hs : fat_find_lfn_entries junk (card (lba j)) name 16 0 (dir_cache card lba (16 * j)) with
    | ret res =>
      cases res with
      | none =>
        obtain ⟨r0, hr0, hlast, hI0⟩ := h2 hs
        refine ⟨fun j1 d h => Option.noConfusion h, fun _ r hr hmt => ?_⟩
        by_cases c : r < r0
        · have := (hI0 r c).2
          rw [hmt] at this
          exact Bool.noConfusion this
        · by_cases c2 : r = r0
          · subst c2
            have := dir_matches_not_last hmt
            rw [hlast] at this
            exact Bool.noConfusion this
          · exact ⟨r0, by omega, hlast⟩
      | some d0 =>
        obtain ⟨r0, hr0, hd0, hmt0, hI0⟩ := h1 d0 hs
        refine ⟨fun j1 d h => ?_, fun h => Option.noConfusion h⟩
        simp only [Option.some.injEq, Prod.mk.injEq] at h
        exact ⟨r0, by omega, by omega, by omega, hmt0, hI0⟩
    | next l =>
      obtain ⟨hl, hI1⟩ := h3 l hs
      have e : 16 * j + 0 + 16 = 16 * (j + 1) := by omega
      rw [e] at hl hI1
      obtain ⟨k1, k2⟩ := ih (j + 1) hI1
      rw [← hl] at k1 k2
      simp only
      refine ⟨fun j1 d h => ?_, fun h r hr hmt => k2 h r (by omega) hmt⟩
      obtain ⟨r, a, b⟩ := k1 j1 d h
      exact ⟨r, by omega, b⟩

/-- What the lookup read off the card finds is the first match of the directory. -/
theorem dir_find_first_match (sd : sdcard_t) (card : Nat → Nat → Nat) (start : Nat)
    (cs : List Nat) (name : List Nat) (r : Nat) :
    dir_first_match sd.uninit card (dir_sector_lba sd start cs) name
        (16 * dir_sector_count sd start cs) r
      ↔ dir_find sd card start cs name = some (r / 16, r % 16 * 32) := by
  have hI0 : ∀ q, q < 16 * 0 →
      dir_is_last card (dir_sector_lba sd start cs) q = false ∧
        dir_matches sd.uninit card (dir_sector_lba sd start cs) name q = false :=
    fun q hq => absurd hq (by omega)
  obtain ⟨h1, h2⟩ := dir_scan_first sd.uninit card (dir_sector_lba sd start cs) name
    (dir_sector_count sd start cs) 0 hI0
  unfold dir_find
  constructor
  · rintro ⟨hr, hmt, hI⟩
    cases hf : dir_scan sd.uninit card (dir_sector_lba sd start cs) name
        (dir_sector_count sd start cs) 0 lfn_cache_reset with
    | none =>
      obtain ⟨q, hq, hl⟩ := h2 hf r (by omega) hmt
      have := (hI q hq).1
      rw [hl] at this
      exact Bool.noConfusion this
    | some x =>
      obtain ⟨j1, d⟩ := x
      obtain ⟨r1, _, a, b, hmt1, hI1⟩ := h1 j1 d hf
      have : r1 = r := by
        by_cases c1 : r1 < r
        · have := (hI r1 c1).2
          rw [hmt1] at this
          exact Bool.noConfusion this
        · by_cases c2 : r < r1
          · have := (hI1 r c2).2
            rw [hmt] at this
            exact Bool.noConfusion this
          · omega
      subst this
      rw [a, b]
  · intro hf
    obtain ⟨r1, hr1, a, b, hmt1, hI1⟩ := h1 _ _ hf
    have : r1 = r := by omega
    subst this
    exact ⟨by omega, hmt1, hI1⟩

/-- A record found by the lookup read off the card is the first match. -/
theorem dir_find_some_first_match {sd : sdcard_t} {card : Nat → Nat → Nat} {start : Nat}
    {cs : List Nat} {name : List Nat} {j d : Nat}
    (h : dir_find sd card start cs name = some (j, d)) :
    ∃ r, j = r / 16 ∧ d = r % 16 * 32 ∧
      dir_first_match sd.uninit card (dir_sector_lba sd start cs) name
        (16 * dir_sector_count sd start cs) r := by
  have hI0 : ∀ q, q < 16 * 0 →
      dir_is_last card (dir_sector_lba sd start cs) q = false ∧
        dir_matches sd.uninit card (dir_sector_lba sd start cs) name q = false :=
    fun q hq => absurd hq (by omega)
  obtain ⟨h1, _⟩ := dir_scan_first sd.uninit card (dir_sector_lba sd start cs) name
    (dir_sector_count sd start cs) 0 hI0
  unfold dir_find at h
  obtain ⟨r1, hr1, a, b, hmt1, hI1⟩ := h1 j d h
  exact ⟨r1, a, b, by omega, hmt1, hI1⟩

/-- C15, amended: the lookup does not consult the short name.  On a well-formed volume
with coherent caches and readable blocks, `fat_find_lfn` returns the first record of
the directory, before the end-of-directory record, that passes the short-name test
with a non-empty cache that `lfn_cache_compare` accepts for the name, and `NULL` when
there is none; the test `dir_matches` reads neither the name nor the checksum of the
record.  Let the card contents of `sd2` differ from those of `sd` at most in bytes
1..10 of the 11-byte name of one record (sector `j0`, offset `d0`) of the directory
`start :: cs` that is not a long-name record.  Then `fat_find_lfn` returns on `sd2`
exactly what it returns on `sd`, and the first match is the same record: the
short-name record behind the matched long-name records is returned whatever the
checksum of its name. -/
theorem fat_find_lfn_ignores_short_name {sd sd2 : sdcard_t} (hv : volume_ok sd)
    (hco : coherent sd) (hr : reads_ok sd) {start : Nat} {cs : List Nat}
    (hd : is_dir sd start cs) (hio : io_step sd sd2) (hco2 : coherent sd2)
    {j0 d0 : Nat} (hj0 : j0 < dir_sector_count sd start cs) (hd0 : d0 % 32 = 0)
    (hl : fat_is_lfn_entry (sd.card (dir_sector_lba sd start cs j0)) d0 = false)
    (hdiff : ∀ l i, ¬ (l = dir_sector_lba sd start cs j0 ∧ d0 < i ∧ i < d0 + 11) →
      sd2.card l i = sd.card l i)
    (filename : List Nat) {fuel : Nat} (hfuel : dir_sector_count sd start cs < fuel) :
    ∃ res s1 s2, fat_find_lfn fuel sd start filename = some (res, s1) ∧
      fat_find_lfn fuel sd2 start filename = some (res, s2) ∧
      (∀ r, dir_first_match sd.uninit sd.card (dir_sector_lba sd start cs) filename
          (16 * dir_sector_count sd start cs) r →
        res = some (r % 16 * 32) ∧
          s1.loaded_sector = dir_sector_lba sd start cs (r / 16) ∧
          s2.loaded_sector = dir_sector_lba sd start cs (r / 16)) ∧
      (∀ dir, res = some dir → ∃ r, dir = r % 16 * 32 ∧
        dir_first_match sd.uninit sd.card (dir_sector_lba sd start cs) filename
          (16 * dir_sector_count sd start cs) r) ∧
      (∀ r, dir_first_match sd2.uninit sd2.card (dir_sector_lba sd2 start cs) filename
          (16 * dir_sector_count sd2 start cs) r ↔
        dir_first_match sd.uninit sd.card (dir_sector_lba sd start cs) filename
          (16 * dir_sector_count sd start cs) r) := by
  have hfat : ∀ x ∈ start :: cs, x ≤ sd.data_clusters + 1 →
      fat_entry_in sd sd2.card x = fat_entry_in sd sd.card x := by
    intro x _ hx
    have hne := dir_lba_ne_fat_lba hv hd hj0 hx
    have hc : sd2.card (fat_entry_lba sd x) = sd.card (fat_entry_lba sd x) := by
      funext i
      exact hdiff _ _ (fun h => hne h.1.symm)
    unfold fat_entry_in
    rw [hc]
  have hd2 := is_dir_congr hio hfat hd
  have hv2 := io_step_volume_ok hio hv
  have hsame : dir_find sd2 sd2.card start cs filename
      = dir_find sd sd.card start cs filename := by
    rw [io_step_dir_find hio]
    unfold dir_find
    refine dir_scan_congr_name _ _ _ _ _ d0 (dir_sector_count sd start cs) hd0
      (fun j _ => ?_) _ 0 _ (by omega)
    by_cases hj : dir_sector_lba sd start cs j = dir_sector_lba sd start cs j0
    · left
      rw [hj]
      exact ⟨fun i _ hi => hdiff _ _ (fun h => by omega), fun _ => hl⟩
    · right
      intro i _
      exact hdiff _ _ (fun h => hj h.1)
  have hfm2 : ∀ r, dir_first_match sd2.uninit sd2.card (dir_sector_lba sd2 start cs) filename
        (16 * dir_sector_count sd2 start cs) r ↔
      dir_first_match sd.uninit sd.card (dir_sector_lba sd start cs) filename
        (16 * dir_sector_count sd start cs) r := by
    intro r
    rw [dir_find_first_match, dir_find_first_match, hsame]
  obtain ⟨res, s1, e1, _, _, _, k1⟩ := fat_find_lfn_spec hv hco hr hd filename hfuel
  obtain ⟨res2, s2, e2, _, _, _, k2⟩ := @fat_find_lfn_spec sd2 hv2 hco2
    (io_step_reads_ok hio hr) start cs hd2 filename fuel
    (by rw [io_step_dir_sector_count hio]; exact hfuel)
  rw [hsame] at k2
  rcases k1 with ⟨a1, a2⟩ | ⟨j1, dir, a1, a2, a3⟩
  · rcases k2 with ⟨b1, _⟩ | ⟨_, _, _, b2, _⟩
    · refine ⟨res, s1, s2, e1, by rw [e2, a1, b1], fun r hfm => ?_, fun d hd => ?_, hfm2⟩
      · rw [dir_find_first_match, a2] at hfm
        exact Option.noConfusion hfm
      · rw [a1] at hd
        exact Option.noConfusion hd
    · rw [a2] at b2; exact Option.noConfusion b2
  · rcases k2 with ⟨_, b2⟩ | ⟨j2, dir2, b1, b2, b3⟩
    · rw [a2] at b2; exact Option.noConfusion b2
    · rw [a2] at b2
      injection b2 with b2; injection b2 with b21 b22
      subst b21; subst b22
      rw [io_step_dir_sector_lba hio] at b3
      refine ⟨res, s1, s2, e1, by rw [e2, a1, b1], fun r hfm => ?_, fun d hd => ?_, hfm2⟩
      · rw [dir_find_first_match, a2] at hfm
        injection hfm with hfm; injection hfm with h1 h2
        rw [a1, ← h1, ← h2]
        exact ⟨rfl, a3, b3⟩
      · rw [a1] at hd
        injection hd with hd
        subst hd
        obtain ⟨r, c1, c2, c3⟩ := dir_find_some_first_match a2
        exact ⟨r, c2, c3⟩

set_option maxRecDepth 1000000 in
/-- Instance of C15 (amended): renaming the short-name record `HELLO~1 TXT` of the
FAT32 demo volume to `HOLIDAY JPG` does not change the lookup of
`Hello World.txt`.  Record 2 (offset 64 of the first sector) is the first match; on
the renamed volume it is returned although the checksum of its name is 249 and the
long-name records before it carry 237. -/
theorem fat_find_lfn_ignores_short_name_witness :
    (∃ res s1 s2,
      fat_find_lfn 9 (demo32 [0x0FFFFFF8, 0x0FFFFFFF, 0x0FFFFFFF, 0x0FFFFFFF] 600) 2
        demo_name = some (res, s1) ∧
      fat_find_lfn 9 (demo32_renamed [0x0FFFFFF8, 0x0FFFFFFF, 0x0FFFFFFF, 0x0FFFFFFF] 600
        demo_other_sfn) 2 demo_name = some (res, s2) ∧
      (∀ r, dir_first_match (demo32 [0x0FFFFFF8, 0x0FFFFFFF, 0x0FFFFFFF, 0x0FFFFFFF] 600).uninit
          (demo32 [0x0FFFFFF8, 0x0FFFFFFF, 0x0FFFFFFF, 0x0FFFFFFF] 600).card
          (dir_sector_lba (demo32 [0x0FFFFFF8, 0x0FFFFFFF, 0x0FFFFFFF, 0x0FFFFFFF] 600) 2 [])
          demo_name
          (16 * dir_sector_count (demo32 [0x0FFFFFF8, 0x0FFFFFFF, 0x0FFFFFFF, 0x0FFFFFFF] 600)
            2 []) r →
        res = some (r % 16 * 32) ∧
          s1.loaded_sector
            = dir_sector_lba (demo32 [0x0FFFFFF8, 0x0FFFFFFF, 0x0FFFFFFF, 0x0FFFFFFF] 600) 2 []
              (r / 16) ∧
          s2.loaded_sector
            = dir_sector_lba (demo32 [0x0FFFFFF8, 0x0FFFFFFF, 0x0FFFFFFF, 0x0FFFFFFF] 600) 2 []
              (r / 16)) ∧
      (∀ dir, res = some dir → ∃ r, dir = r % 16 * 32 ∧
        dir_first_match (demo32 [0x0FFFFFF8, 0x0FFFFFFF, 0x0FFFFFFF, 0x0FFFFFFF] 600).uninit
          (demo32 [0x0FFFFFF8, 0x0FFFFFFF, 0x0FFFFFFF, 0x0FFFFFFF] 600).card
          (dir_sector_lba (demo32 [0x0FFFFFF8, 0x0FFFFFFF, 0x0FFFFFFF, 0x0FFFFFFF] 600) 2 [])
          demo_name
          (16 * dir_sector_count (demo32 [0x0FFFFFF8, 0x0FFFFFFF, 0x0FFFFFFF, 0x0FFFFFFF] 600)
            2 []) r) ∧
      (∀ r, dir_first_match
          (demo32_renamed [0x0FFFFFF8, 0x0FFFFFFF, 0x0FFFFFFF, 0x0FFFFFFF] 600
            demo_other_sfn).uninit
          (demo32_renamed [0x0FFFFFF8, 0x0FFFFFFF, 0x0FFFFFFF, 0x0FFFFFFF] 600
            demo_other_sfn).card
          (dir_sector_lba (demo32_renamed [0x0FFFFFF8, 0x0FFFFFFF, 0x0FFFFFFF, 0x0FFFFFFF] 600
            demo_other_sfn) 2 [])
          demo_name
          (16 * dir_sector_count (demo32_renamed [0x0FFFFFF8, 0x0FFFFFFF, 0x0FFFFFFF, 0x0FFFFFFF]
            600 demo_other_sfn) 2 []) r ↔
        dir_first_match (demo32 [0x0FFFFFF8, 0x0FFFFFFF, 0x0FFFFFFF, 0x0FFFFFFF] 600).uninit
          (demo32 [0x0FFFFFF8, 0x0FFFFFFF, 0x0FFFFFFF, 0x0FFFFFFF] 600).card
          (dir_sector_lba (demo32 [0x0FFFFFF8, 0x0FFFFFFF, 0x0FFFFFFF, 0x0FFFFFFF] 600) 2 [])
          demo_name
          (16 * dir_sector_count (demo32 [0x0FFFFFF8, 0x0FFFFFFF, 0x0FFFFFFF, 0x0FFFFFFF] 600)
            2 []) r)) ∧
    dir_first_match (demo32 [0x0FFFFFF8, 0x0FFFFFFF, 0x0FFFFFFF, 0x0FFFFFFF] 600).uninit
      (demo32 [0x0FFFFFF8, 0x0FFFFFFF, 0x0FFFFFFF, 0x0FFFFFFF] 600).card
      (dir_sector_lba (demo32 [0x0FFFFFF8, 0x0FFFFFFF, 0x0FFFFFFF, 0x0FFFFFFF] 600) 2 [])
      demo_name
      (16 * dir_sector_count (demo32 [0x0FFFFFF8, 0x0FFFFFFF, 0x0FFFFFFF, 0x0FFFFFFF] 600) 2 [])
      2 ∧
    (fat_find_lfn 9 (demo32_renamed [0x0FFFFFF8, 0x0FFFFFFF, 0x0FFFFFFF, 0x0FFFFFFF] 600
        demo_other_sfn) 2 demo_name).map (fun r => (r.1, r.2.loaded_sector))
      = some (some 64, 4128) ∧
    sfn_checksum (fun i =>
      (demo32_renamed [0x0FFFFFF8, 0x0FFFFFFF, 0x0FFFFFFF, 0x0FFFFFFF] 600
        demo_other_sfn).card 4128 (64 + i)) = 249 ∧
    (dir_cache
      (demo32_renamed [0x0FFFFFF8, 0x0FFFFFFF, 0x0FFFFFFF, 0x0FFFFFFF] 600 demo_other_sfn).card
      (dir_sector_lba (demo32_renamed [0x0FFFFFF8, 0x0FFFFFFF, 0x0FFFFFFF, 0x0FFFFFFF] 600
        demo_other_sfn) 2 []) 2).checksum = 237 :=
  ⟨@fat_find_lfn_ignores_short_name
    (demo32 [0x0FFFFFF8, 0x0FFFFFFF, 0x0FFFFFFF, 0x0FFFFFFF] 600)
    (demo32_renamed [0x0FFFFFF8, 0x0FFFFFFF, 0x0FFFFFFF, 0x0FFFFFFF] 600 demo_other_sfn)
    (demo32_volume_ok _ _) (demo32_coherent _ _) (demo32_reads_ok _ _) 2 []
    (by simp only [is_dir, is_chain, chain_links]; decide)
    ⟨0xFFFFFFFF, fun _ => 0, _, rfl⟩ (fun h => absurd rfl h) 0 64
    (by decide) (by decide) (by decide)
    (fun l i h => by
      show (if l = 4128 ∧ 64 < i ∧ i < 75 then _ else _) = _
      rw [if_neg (fun hh => h ⟨by rw [hh.1]; decide, hh.2.1, hh.2.2⟩)])
    demo_name 9 (by decide),
    by decide, by decide, by decide, by decide⟩



/-! ## C20: appending -/

theorem io_step_file_sector_lba {sd sd1 : sdcard_t} (h : io_step sd sd1) (c : Nat)
    (rest : List Nat) (j : Nat) :
    file_sector_lba sd1 c rest j = file_sector_lba sd c rest j := by
  obtain ⟨l, b, k, rfl⟩ := h; rfl

/-- A well-formed chain has at most `data_clusters` clusters. -/
theorem is_chain_length_le {sd : sdcard_t} (hv : volume_ok sd) {cs : List Nat}
    (h : is_chain sd cs) : cs.length ≤ sd.data_clusters := by
  have hnd := is_chain_nodup hv h
  have hsub : cs.toFinset ⊆ Finset.Icc 2 (sd.data_clusters + 1) := by
    intro x hx
    rw [List.mem_toFinset] at hx
    have := chain_links_mem h x hx
    rw [Finset.mem_Icc]
    exact this
  have hcard := Finset.card_le_card hsub
  rw [List.toFinset_card_of_nodup hnd, Nat.card_Icc] at hcard
  omega

theorem is_chain_sectors_lt {sd : sdcard_t} (hv : volume_ok sd) {cs : List Nat}
    (h : is_chain sd cs) : cs.length * sd.sectors_per_cluster < 4294967295 := by
  have h1 := is_chain_length_le hv h
  have h2 := hv.data_lba
  have h3 : cs.length * sd.sectors_per_cluster ≤ sd.data_clusters * sd.sectors_per_cluster :=
    Nat.mul_le_mul_right _ h1
  omega

/-- A well-formed chain is a well-formed directory chain. -/
theorem is_chain_is_dir {sd : sdcard_t} (hv : volume_ok sd) {c : Nat} {rest : List Nat}
    (h : is_chain sd (c :: rest)) : is_dir sd c rest := by
  have hc := chain_links_head h
  unfold is_dir
  rw [if_neg (fun hh => by omega)]
  refine ⟨h, ?_⟩
  have := is_chain_sectors_lt hv h
  simp only [List.length_cons] at this
  omega

theorem file_sector_lba_eq_dir (sd : sdcard_t) {c : Nat} (hc : 2 ≤ c) (rest : List Nat)
    {j : Nat} (hj : j / sd.sectors_per_cluster < (c :: rest).length) :
    file_sector_lba sd c rest j = dir_sector_lba sd c rest j := by
  unfold file_sector_lba dir_sector_lba
  rw [if_neg (fun hh => by omega), List.getD_eq_getElem _ _ hj, List.getD_eq_getElem _ _ hj]

theorem sector_in_chain {spc len j : Nat} (hspc : 0 < spc) :
    j / spc < len ↔ j < len * spc := by
  rw [Nat.div_lt_iff_lt_mul hspc]

/-- Distinct sectors of a file are distinct blocks. -/
theorem file_sector_lba_inj {sd : sdcard_t} (hv : volume_ok sd) {c : Nat} {rest : List Nat}
    (hch : is_chain sd (c :: rest)) {j k : Nat}
    (hj : j / sd.sectors_per_cluster < (c :: rest).length)
    (hk : k / sd.sectors_per_cluster < (c :: rest).length)
    (h : file_sector_lba sd c rest j = file_sector_lba sd c rest k) : j = k := by
  have hc := chain_links_head hch
  have hd := is_chain_is_dir hv hch
  rw [file_sector_lba_eq_dir sd hc.1 rest hj, file_sector_lba_eq_dir sd hc.1 rest hk] at h
  have hcount : dir_sector_count sd c rest = (c :: rest).length * sd.sectors_per_cluster := by
    unfold dir_sector_count
    rw [if_neg (fun hh => by omega)]
    simp
  refine dir_sector_lba_inj hv hd ?_ ?_ h
  · rw [hcount]; exact (sector_in_chain hv.spc_pos).1 hj
  · rw [hcount]; exact (sector_in_chain hv.spc_pos).1 hk

/-- Sectors of a file lie behind the FAT and below `0xFFFFFFFF`. -/
theorem file_sector_lba_bounds {sd : sdcard_t} (hv : volume_ok sd) {c : Nat}
    {rest : List Nat} (hch : is_chain sd (c :: rest)) {j : Nat}
    (hj : j / sd.sectors_per_cluster < (c :: rest).length) :
    sd.fat_begin_sector + sd.fat_sectors < file_sector_lba sd c rest j ∧
      file_sector_lba sd c rest j < 0xFFFFFFFF := by
  have hm := getD_chain_mem hch hj
  have hb := cluster_lba_bounds sd hm.1 hm.2 (Nat.mod_lt j hv.spc_pos)
  have h1 := hv.fat_lba
  have h2 := hv.data_lba
  unfold file_sector_lba
  omega

/-- One iteration of the loop of `fat_write_file` on a sector of the chain: the bytes
of the sector from `off` on are replaced by the next bytes of `data`. -/
theorem fat_write_file_loop_chain_step {s : sdcard_t} (hv : volume_ok s) (hco : coherent s)
    (hr : reads_ok s) (hw : writes_ok s) (hm : s.malloc_ok = true) {c : Nat}
    {rest : List Nat} (hch : is_chain s (c :: rest)) (N : Nat) (data : Nat → Nat)
    (hN : N < 4294967296) (f j off bw : Nat)
    (hj : j / s.sectors_per_cluster < (c :: rest).length) (hoff : off < 512)
    (hbw : bw < N) :
    ∃ s2, fat_write_file_loop c N data (f + 1) s j off bw
          = fat_write_file_loop c N data f s2 (j + 1) 0 (bw + min (N - bw) (512 - off)) ∧
      io_step s s2 ∧ coherent s2 ∧
      (∀ i, i < 512 → s2.card (file_sector_lba s c rest j) i =
        if off ≤ i ∧ i < off + min (N - bw) (512 - off) then data (bw + (i - off))
        else s.card (file_sector_lba s c rest j) i) ∧
      (∀ l, l ≠ file_sector_lba s c rest j → s2.card l = s.card l) := by
  obtain ⟨r1, r2, r3⟩ := (fat_read_sector_chain hv hco hr hch j).1 hj
  have hfr := fat_read_sector_frame s c j
  have hbs := hv.blocksize
  have hb1 : sub32 N bw = N - bw := sub32_eq hN (by omega)
  have hb2 : sub32 s.blocksize off = 512 - off := by
    rw [hbs]; exact sub32_eq (by omega) (by omega)
  have hbnd := file_sector_lba_bounds hv hch hj
  have hjlt := (sector_in_chain hv.spc_pos).1 hj
  have hsec := is_chain_sectors_lt hv hch
  have hio1 : io_step s
      { (fat_read_sector s c j).2 with
        buffer := memcpy (fat_read_sector s c j).2.buffer off data bw
          (min (N - bw) (512 - off)) } :=
    io_step_trans hfr.1 ⟨_, _, _, rfl⟩
  have hcard1 : ({ (fat_read_sector s c j).2 with
        buffer := memcpy (fat_read_sector s c j).2.buffer off data bw
          (min (N - bw) (512 - off)) } : sdcard_t).card = s.card := hfr.2.1
  obtain ⟨s2, e2, hio2, hl2, hc2a, hc2b⟩ := fat_write_sector_chain
    (io_step_volume_ok hio1 hv) (io_step_reads_ok hio1 hr) (io_step_writes_ok hio1 hw)
    (by rw [io_step_malloc_ok hio1]; exact hm)
    (loaded_fat_cache_ok (io_step_volume_ok hio1 hv)
      (by
        rw [io_step_fat_begin_sector hio1, io_step_fat_sectors hio1]
        show _ < (fat_read_sector s c j).2.loaded_sector
        rw [r2]; exact hbnd.1))
    f ((io_step_is_chain hio1 hcard1 _).2 hch) 1
    (j := j) (by rw [io_step_sectors_per_cluster hio1]; exact hj)
  rw [io_step_cluster_lba hio1, io_step_sectors_per_cluster hio1] at hc2a hc2b
  have hbtw : (if N - bw > 512 - off then 512 - off else N - bw) = min (N - bw) (512 - off) := by
    split <;> omega
  refine ⟨s2, ?_, io_step_trans hio1 hio2, fun h => absurd hl2 h, ?_, ?_⟩
  · conv_lhs => unfold fat_write_file_loop
    simp only
    have c1 : ¬ (fat_read_sector s c j).1 = 0 := by rw [r1]; omega
    have c2 : min (N - bw) (512 - off) > 0 := by omega
    have c3 : ¬ min (N - bw) (512 - off) = 0 := by omega
    rw [if_pos hbw, if_neg c1, hb1, hb2, hbtw]
    rw [if_pos c2, e2]
    simp only
    have c4 : ¬ (1 : Nat) = 0 := by omega
    rw [if_neg c4, if_neg c3]
    have e1 : u32 (j + 1) = j + 1 := by
      unfold u32; simp only [List.length_cons] at hjlt hsec; omega
    have e3 : u32 (bw + min (N - bw) (512 - off)) = bw + min (N - bw) (512 - off) := by
      unfold u32; omega
    rw [e1, e3]
  · intro i hi
    show s2.card (cluster_lba s _ _) i = _
    rw [hc2a i hi]
    show memcpy (fat_read_sector s c j).2.buffer off data bw (min (N - bw) (512 - off)) i = _
    simp only [memcpy]
    split
    · rfl
    · rw [r3 i hi]; rfl
  · intro l hl
    rw [hc2b l hl]
    exact congrFun hfr.2.1 l


/-- The loop of `fat_write_file` along the chain of the file: a write of `N` bytes
that starts at byte `S` of the file and stays inside its chain stores all `N` bytes
and touches no other byte of the card. -/
theorem fat_write_file_loop_chain {sd0 : sdcard_t} (hv0 : volume_ok sd0)
    (hr0 : reads_ok sd0) (hw0 : writes_ok sd0) (hm0 : sd0.malloc_ok = true) {c : Nat}
    {rest : List Nat} (N : Nat) (data : Nat → Nat) (S : Nat)
    (hSN : S + N < 4294967296) :
    ∀ (n j off bw fuel : Nat) (s : sdcard_t), io_step sd0 s → coherent s →
      is_chain s (c :: rest) → bw < N → off < 512 → 512 * j + off = S + bw →
      S + N ≤ 512 * (j + n) → j + n ≤ (c :: rest).length * sd0.sectors_per_cluster →
      n < fuel →
      ∃ s1, fat_write_file_loop c N data fuel s j off bw = some (write_loop.done N, s1) ∧
        io_step s s1 ∧ coherent s1 ∧
        (∀ p, bw ≤ p → p < N → file_byte sd0 s1.card c rest (S + p) = data p) ∧
        (∀ l i, i < 512 →
          (∀ p, bw ≤ p → p < N →
            ¬ (l = file_sector_lba sd0 c rest ((S + p) / 512) ∧ i = (S + p) % 512)) →
          s1.card l i = s.card l i) ∧
        (∀ l, (∀ k, j ≤ k → k < j + n → l ≠ file_sector_lba sd0 c rest k) →
          s1.card l = s.card l) := by
  intro n
  induction n with
  | zero =>
    intro j off bw fuel s _ _ _ hbw _ hjo hcap _ _
    omega
  | succ n ih =>
    intro j off bw fuel s hio hco hch hbw hoff hjo hcap hlen hfuel
    obtain ⟨f, rfl⟩ : ∃ f, fuel = f + 1 := ⟨fuel - 1, by omega⟩
    have hv := io_step_volume_ok hio hv0
    have hspc : s.sectors_per_cluster = sd0.sectors_per_cluster :=
      io_step_sectors_per_cluster hio
    have hF : ∀ k, file_sector_lba s c rest k = file_sector_lba sd0 c rest k :=
      fun k => io_step_file_sector_lba hio c rest k
    have hin : ∀ k, k < j + (n + 1) → k / s.sectors_per_cluster < (c :: rest).length := by
      intro k hk
      rw [sector_in_chain hv.spc_pos, hspc]
      omega
    obtain ⟨s2, e2, hio2, hco2, hA0, hC0⟩ := fat_write_file_loop_chain_step hv hco
      (io_step_reads_ok hio hr0) (io_step_writes_ok hio hw0)
      (by rw [io_step_malloc_ok hio]; exact hm0) hch N data (by omega) f j off bw
      (hin j (by omega)) hoff hbw
    rw [hF] at hA0 hC0
    have hch2 : is_chain s2 (c :: rest) :=
      is_chain_congr hio2 (fun x _ hx => fat_entry_in_congr s _ _ x
        (hC0 _ (by rw [← hF]; exact fat_lba_ne_cluster_lba hv hx _ _))) hch
    have hA : ∀ p, bw ≤ p → p < bw + min (N - bw) (512 - off) →
        s2.card (file_sector_lba sd0 c rest ((S + p) / 512)) ((S + p) % 512) = data p := by
      intro p hp1 hp2
      have d1 : (S + p) / 512 = j := by omega
      have d2 : (S + p) % 512 = off + (p - bw) := by omega
      rw [d1, d2, hA0 _ (by omega), if_pos (by omega)]
      congr 1
      omega
    have hB : ∀ l i, i < 512 →
        (∀ p, bw ≤ p → p < bw + min (N - bw) (512 - off) →
          ¬ (l = file_sector_lba sd0 c rest ((S + p) / 512) ∧ i = (S + p) % 512)) →
        s2.card l i = s.card l i := by
      intro l i hi hout
      by_cases hl : l = file_sector_lba sd0 c rest j
      · rw [hl, hA0 i hi]
        by_cases hc : off ≤ i ∧ i < off + min (N - bw) (512 - off)
        · exfalso
          refine hout (bw + (i - off)) (by omega) (by omega) ⟨?_, ?_⟩
          · have d1 : (S + (bw + (i - off))) / 512 = j := by omega
            rw [d1]; exact hl
          · omega
        · rw [if_neg hc]
      · rw [hC0 l hl]
    by_cases hdone : bw + min (N - bw) (512 - off) = N
    · refine ⟨s2, ?_, hio2, hco2, ?_, ?_, ?_⟩
      · rw [e2, hdone]
        obtain ⟨g, rfl⟩ : ∃ g, f = g + 1 := ⟨f - 1, by omega⟩
        unfold fat_write_file_loop
        rw [if_neg (by omega)]
      · intro p hp1 hp2
        exact hA p hp1 (by omega)
      · intro l i hi hout
        exact hB l i hi (fun p hp1 hp2 => hout p hp1 (by omega))
      · intro l hl
        exact hC0 l (hl j (by omega) (by omega))
    · have hmin : min (N - bw) (512 - off) = 512 - off := by omega
      rw [hmin] at e2 hA hB
      obtain ⟨s1, e1, hio1, hco1, hA1, hB1, hC1⟩ := ih (j + 1) 0 (bw + (512 - off)) f s2
        (io_step_trans hio hio2) hco2 hch2 (by omega) (by omega) (by omega) (by omega)
        (by omega) (by omega)
      have hne : ∀ k, j + 1 ≤ k → k < j + 1 + n →
          file_sector_lba sd0 c rest j ≠ file_sector_lba sd0 c rest k := by
        intro k hk1 hk2 heq
        rw [← hF, ← hF] at heq
        have := file_sector_lba_inj hv hch (hin j (by omega)) (hin k (by omega)) heq
        omega
      refine ⟨s1, by rw [e2, e1], io_step_trans hio2 hio1, hco1, ?_, ?_, ?_⟩
      · intro p hp1 hp2
        by_cases hp : p < bw + (512 - off)
        · have d1 : (S + p) / 512 = j := by omega
          unfold file_byte
          rw [d1, hC1 _ hne, ← d1]
          exact hA p hp1 hp
        · exact hA1 p (by omega) hp2
      · intro l i hi hout
        rw [hB1 l i hi (fun p hp1 hp2 => hout p (by omega) hp2)]
        exact hB l i hi (fun p hp1 hp2 => hout p hp1 (by omega))
      · intro l hl
        rw [hC1 l (fun k hk1 hk2 => hl k (by omega) (by omega))]
        exact hC0 l (hl j (by omega) (by omega))


/-- The function `fat_write_file` on a file whose chain has room for the write: a
start position at or behind the end of the file is moved to the end, the `N` bytes
are stored there, the bytes before them stay, and the size field grows by `N`. -/
theorem fat_write_file_chain {sd : sdcard_t} (hv : volume_ok sd) (hco : coherent sd)
    (hr : reads_ok sd) (hw : writes_ok sd) (hm : sd.malloc_ok = true) {start : Nat}
    {cs : List Nat} (hd : is_dir sd start cs) {filename : List Nat} (hname : filename ≠ [])
    {fuel : Nat} (hfuel : dir_sector_count sd start cs < fuel)
    {dir : Nat} {s1 : sdcard_t}
    (hfind : fat_find_lfn fuel sd start filename = some (some dir, s1))
    {S : Nat} (hsize : dir_file_size (sd.card s1.loaded_sector) dir = S) {c0 : Nat}
    {rest : List Nat}
    (hc0 : dir_first_cluster (sd.card s1.loaded_sector) dir = c0)
    (hch : is_chain sd (c0 :: rest)) (hnd : ∀ x, x ∈ c0 :: rest → x ∉ start :: cs)
    (N : Nat) (data : Nat → Nat) (hN1 : 1 ≤ N) (st : Nat) (hst : S ≤ st)
    (hcap : S + N ≤ (c0 :: rest).length * sd.sectors_per_cluster * 512)
    (h32 : S + N < 4294967296) (hfuel2 : (S + N) / 512 + 1 < fuel) :
    ∃ sd1, fat_write_file fuel sd start filename data st N = some (N, sd1) ∧
      io_step sd sd1 ∧ coherent sd1 ∧
      dir_file_size (sd1.card s1.loaded_sector) dir = S + N ∧
      same_but_size dir (sd.card s1.loaded_sector) (sd1.card s1.loaded_sector) ∧
      (∀ p, p < N → file_byte sd sd1.card c0 rest (S + p) = data p) ∧
      (∀ p, p < S → file_byte sd sd1.card c0 rest p = file_byte sd sd.card c0 rest p) ∧
      (∀ l, l ≠ s1.loaded_sector →
        (∀ k, k < (c0 :: rest).length * sd.sectors_per_cluster →
          l ≠ file_sector_lba sd c0 rest k) →
        sd1.card l = sd.card l) := by
  obtain ⟨hio1, hc1, hco1, j1, hdf, hj1, hL, hLne, hd32, hd512, hnotlfn, hbuf⟩ :=
    fat_find_lfn_found hv hco hr hd hfuel hfind
  have hbs1 : s1.blocksize = 512 := by rw [io_step_blocksize hio1]; exact hv.blocksize
  have hclu : dir_first_cluster s1.buffer dir = c0 := by
    rw [← hc0]
    exact dir_first_cluster_congr _ _ dir hd512 (fun i hi _ => hbuf i hi)
  have hsz : dir_file_size s1.buffer dir = S := by
    rw [dir_file_size_congr _ _ dir hd512 hbuf]; exact hsize
  have hspos := hv.spc_pos
  generalize hLen : (c0 :: rest).length * sd.sectors_per_cluster = L at hcap
  have hin : ∀ k, k < L → k / sd.sectors_per_cluster < (c0 :: rest).length := by
    intro k hk
    rw [sector_in_chain hspos, hLen]; exact hk
  -- the data sectors
  obtain ⟨s2, e2, hio2, hco2, ha2, hp2, hb2⟩ := @fat_write_file_loop_chain sd hv hr hw hm
    c0 rest N data S h32
    ((S + N + 511) / 512 - S / 512) (S / 512) (S % 512) 0 fuel s1 hio1 hco1
    ((io_step_is_chain hio1 hc1 _).2 hch) (by omega) (by omega) (by omega) (by omega)
    (by rw [hLen]; omega) (by omega)
  rw [hc1] at hb2 hp2
  have hio02 := io_step_trans hio1 hio2
  have hmem : ∀ k, k < L →
      2 ≤ (c0 :: rest).getD (k / sd.sectors_per_cluster) 0xFFFFFFFF ∧
      (c0 :: rest).getD (k / sd.sectors_per_cluster) 0xFFFFFFFF ∉ start :: cs := by
    intro k hk
    refine ⟨(getD_chain_mem hch (hin k hk)).1, hnd _ ?_⟩
    rw [List.getD_eq_getElem _ _ (hin k hk)]
    exact List.getElem_mem _
  have hdirfile : ∀ j, j < dir_sector_count sd start cs → ∀ k, k < L →
      dir_sector_lba sd start cs j ≠ file_sector_lba sd c0 rest k := by
    intro j hj k hk
    exact dir_lba_ne_cluster_lba hv hd hj (hmem k hk).2 (hmem k hk).1 (Nat.mod_lt _ hspos)
  have hLdata : ∀ k, k < L → s1.loaded_sector ≠ file_sector_lba sd c0 rest k := by
    intro k hk; rw [hL]
    exact hdirfile j1 hj1 k hk
  have hkL : ∀ k, k < S / 512 + ((S + N + 511) / 512 - S / 512) → k < L := by
    intro k hk; omega
  -- the second lookup
  obtain ⟨s3, e3, hio3, hcard3, hco3, hL3, hbuf3⟩ := fat_find_lfn_again hv hr hd hfuel hdf
    hio02 hco2
    (fun x _ hx => fat_entry_in_congr sd _ _ x
      (hb2 _ (fun k _ _ => fat_lba_ne_cluster_lba hv hx _ _)))
    (fun j hj => Or.inr (fun i _ => by
      rw [hb2 _ (fun k _ hk => hdirfile j hj k (hkL k hk))]))
  rw [← hL] at hL3 hbuf3
  have hio03 := io_step_trans hio02 hio3
  -- the size update
  obtain ⟨s5, ew, hio5, hco5, hL5, hfr5, hsbs5, hsz5⟩ :=
    dir_size_update (io_step_volume_ok hio03 hv) hco3 (io_step_writes_ok hio03 hw)
      (by rw [hL3]; exact hLne) hd512 (u32 (S + N))
  rw [hL3] at hfr5 hsbs5 hsz5
  rw [hcard3] at hfr5 hsbs5
  rw [hL3] at ew
  have hs2L : s2.card s1.loaded_sector = sd.card s1.loaded_sector :=
    hb2 _ (fun k _ hk => hLdata k (hkL k hk))
  have huN : u32 (S + N) = S + N := by unfold u32; omega
  have hfile5 : ∀ p, p / 512 < L →
      file_byte sd s5.card c0 rest p = file_byte sd s2.card c0 rest p := by
    intro p hp
    unfold file_byte
    rw [hfr5 _ (hLdata _ hp).symm]
  refine ⟨s5, ?_, io_step_trans hio03 hio5, hco5, ?_, ?_, ?_, ?_, ?_⟩
  · unfold fat_write_file
    rw [if_neg (by simpa using hname), if_neg (by omega), hfind]
    simp only [hsz, hclu, hbs1]
    have estart : (if st > S then S else st) = S := by split <;> omega
    have e0 : sub32 S (u32 (S / 512 * 512)) = S % 512 := by unfold sub32 u32; omega
    rw [estart, e0, e2]
    simp only
    rw [if_pos (by omega), e3]
    simp only
    have hgt : S + N > S := by omega
    rw [huN]
    simp only [if_pos hgt, hL3]
    rw [huN] at ew
    rw [ew]
    simp
  · rw [hsz5, huN]; exact Nat.mod_eq_of_lt h32
  · rw [← hs2L]; exact hsbs5
  · intro p hp
    rw [hfile5 _ (by omega)]
    exact ha2 p (Nat.zero_le _) hp
  · intro p hp
    rw [hfile5 _ (by omega)]
    unfold file_byte
    refine hp2 _ _ (Nat.mod_lt _ (by omega)) (fun q _ hq hh => ?_)
    have := file_sector_lba_inj hv hch (hin _ (by omega)) (hin _ (by omega)) hh.1
    omega
  · intro l hl1 hl2
    rw [hfr5 l hl1]
    exact hb2 l (fun k _ hk => hl2 k (hkL k hk))


theorem io_step_file_byte {sd sd1 : sdcard_t} (h : io_step sd sd1) (card : Nat → Nat → Nat)
    (c : Nat) (rest : List Nat) (p : Nat) :
    file_byte sd1 card c rest p = file_byte sd card c rest p := by
  obtain ⟨l, b, k, rfl⟩ := h; rfl

theorem fat_fopen_flags_append : fat_fopen_flags [97, 43] = 30 := by decide

/-- Claim C20 (append ignores seek).  On a well-formed volume with a coherent cache and
working block I/O, let `filename` (not empty) be found in the root directory
`rootdir_begin_cluster :: cs` at record `dir` of sector `j1`, with `DIR_FileSize = S`
and a first cluster `c0` heading the well-formed chain `c0 :: rest`, which shares no
cluster with the directory.  For every `K ≥ 1` with `S + K` within the chain
(`S + K ≤ length * sectors_per_cluster * 512`, and below `2^32`, the range of the size
field): `fat_fopen` with mode `a+` returns a handle positioned at `S`;
`fat_fseek(handle, 0, SEEK_SET)` returns 0 and leaves the handle as it is; and
`fat_fwrite` of `size * count = K` bytes then returns `K`, leaves the file bytes
`[0, S)` unchanged, stores the `K` bytes at the file offsets `[S, S + K)`, and sets
the record's `DIR_FileSize` on the card to `S + K`. -/
theorem fat_append_ignores_seek {sd : sdcard_t} (hv : volume_ok sd) (hco : coherent sd)
    (hr : reads_ok sd) (hw : writes_ok sd) (hm : sd.malloc_ok = true) {cs : List Nat}
    (hd : is_dir sd sd.rootdir_begin_cluster cs) {filename : List Nat}
    (hname : filename ≠ []) {fuel : Nat}
    (hfuel : dir_sector_count sd sd.rootdir_begin_cluster cs < fuel) {j1 dir : Nat}
    (hfound : dir_find sd sd.card sd.rootdir_begin_cluster cs filename = some (j1, dir))
    {S : Nat}
    (hsize : dir_file_size (sd.card (dir_sector_lba sd sd.rootdir_begin_cluster cs j1)) dir
      = S)
    {c0 : Nat} {rest : List Nat}
    (hc0 : dir_first_cluster (sd.card (dir_sector_lba sd sd.rootdir_begin_cluster cs j1)) dir
      = c0)
    (hch : is_chain sd (c0 :: rest))
    (hnd : ∀ x, x ∈ c0 :: rest → x ∉ sd.rootdir_begin_cluster :: cs)
    (data : Nat → Nat) (size count K : Nat) (hK : size * count = K) (hK1 : 1 ≤ K)
    (hcap : S + K ≤ (c0 :: rest).length * sd.sectors_per_cluster * 512)
    (h32 : S + K < 4294967296) (hfuel2 : (S + K) / 512 + 1 < fuel) :
    ∃ (h : fat_handle) (s1 : sdcard_t) (h2 : fat_handle) (sd2 : sdcard_t),
      fat_fopen fuel sd filename [97, 43] = some (some h, s1) ∧
      h.ptr = S ∧
      fat_fseek h 0 SEEK_SET = (0, h) ∧
      fat_fwrite fuel s1 data size count (fat_fseek h 0 SEEK_SET).2 = some (K, h2, sd2) ∧
      (∀ p, p < S → file_byte sd sd2.card c0 rest p = file_byte sd sd.card c0 rest p) ∧
      (∀ p, p < K → file_byte sd sd2.card c0 rest (S + p) = data p) ∧
      dir_file_size (sd2.card (dir_sector_lba sd sd.rootdir_begin_cluster cs j1)) dir
        = S + K := by
  -- the lookup of `fat_fopen`
  obtain ⟨res, s1, e1, _, _, _, k4⟩ := fat_find_lfn_spec hv hco hr hd filename hfuel
  rw [hfound] at k4
  have hres : res = some dir := by
    rcases k4 with ⟨_, h⟩ | ⟨j2, dir2, h5, h6, _⟩
    · exact Option.noConfusion h
    · injection h6 with h6; injection h6 with _ h62
      rw [h5, h62]
  subst hres
  obtain ⟨hio1, hc1, hco1, j2, hdf, hj1, hL, hLne, hd32, hd512, hnotlfn, hbuf⟩ :=
    fat_find_lfn_found hv hco hr hd hfuel e1
  have hj : j2 = j1 := by
    rw [hfound] at hdf
    injection hdf with hdf; injection hdf with h _
    exact h.symm
  subst hj
  have hclu : dir_first_cluster s1.buffer dir = c0 := by
    rw [← hc0, ← hL]
    exact dir_first_cluster_congr _ _ dir hd512 (fun i hi _ => hbuf i hi)
  have hsz : dir_file_size s1.buffer dir = S := by
    rw [dir_file_size_congr _ _ dir hd512 hbuf, hL]; exact hsize
  -- the lookup of `fat_write_file`
  obtain ⟨s2, e2, _, _, _, hL2, _⟩ := fat_find_lfn_again hv hr hd hfuel hfound hio1 hco1
    (fun x _ _ => by rw [hc1]) (fun j _ => Or.inr (fun i _ => by rw [hc1]))
  have hroot : s1.rootdir_begin_cluster = sd.rootdir_begin_cluster :=
    io_step_rootdir_begin_cluster hio1
  have hspc : s1.sectors_per_cluster = sd.sectors_per_cluster :=
    io_step_sectors_per_cluster hio1
  obtain ⟨sd2, ew, _, _, w1, _, w3, w4, _⟩ := @fat_write_file_chain s1
    (io_step_volume_ok hio1 hv) hco1 (io_step_reads_ok hio1 hr) (io_step_writes_ok hio1 hw)
    (by rw [io_step_malloc_ok hio1]; exact hm) sd.rootdir_begin_cluster cs
    ((io_step_is_dir hio1 hc1 _ _).2 hd) filename hname fuel
    (by rw [io_step_dir_sector_count hio1]; exact hfuel) dir s2 e2 S
    (by rw [hc1, hL2]; exact hsize) c0 rest (by rw [hc1, hL2]; exact hc0)
    ((io_step_is_chain hio1 hc1 _).2 hch) hnd K data hK1 S (Nat.le_refl _)
    (by rw [hspc]; exact hcap) h32 hfuel2
  have hu : u32 (size * count) = K := by rw [hK]; unfold u32; omega
  have hfl : (30 : Nat) &&& FILE_TRUNCATE = 0 := by decide
  have hfa : (30 : Nat) &&& FILE_APPEND ≠ 0 := by decide
  have hfw : ¬ ((30 : Nat) &&& FILE_WRITE = 0) := by decide
  have hopen : fat_fopen fuel sd filename [97, 43] = some (some
      { is_file := 1, is_dir := 0, flags := 30, filename := filename,
        cluster := sd.rootdir_begin_cluster, datacluster := c0, filesize := S, ptr := S },
      s1) := by
    unfold fat_fopen
    rw [if_neg (by rw [hm]; simp)]
    simp only [fat_fopen_flags_append, e1]
    unfold fat_fopen_finish
    simp only [hfl, hfa, hclu, hsz, ne_eq, not_true_eq_false, not_false_eq_true, if_true,
      if_false]
  have hseek : ∀ h : fat_handle, h.flags = 30 → fat_fseek h 0 SEEK_SET = (0, h) := by
    intro h hflags
    unfold fat_fseek
    rw [hflags, if_pos hfa]
  have hwrite : ∀ h : fat_handle, h.flags = 30 → h.cluster = sd.rootdir_begin_cluster →
      h.filename = filename → h.ptr = S →
      fat_fwrite fuel s1 data size count h
        = some (K, { h with ptr := u32 (h.ptr + K) }, sd2) := by
    intro h g1 g2 g3 g4
    unfold fat_fwrite
    simp only
    rw [g1, g2, g3, g4, if_neg hfw, hu, if_neg (by omega), ew]
  refine ⟨_, s1, _, sd2, hopen, rfl, hseek _ rfl,
    by rw [hseek _ rfl]; exact hwrite _ rfl rfl rfl rfl, ?_, ?_, ?_⟩
  · intro p hp
    rw [← io_step_file_byte hio1, w4 p hp, hc1]
    exact io_step_file_byte hio1 _ _ _ _
  · intro p hp
    rw [← io_step_file_byte hio1]
    exact w3 p hp
  · rw [← hL2]; exact w1


set_option maxRecDepth 100000 in
theorem demo32_is_dir_600 :
    is_dir (demo32 [0x0FFFFFF8, 0x0FFFFFFF, 0x0FFFFFFF, 0x0FFFFFFF] 600) 2 [] := by
  simp only [is_dir, is_chain, chain_links]
  decide

set_option maxRecDepth 100000 in
theorem demo32_dir_find_600 :
    dir_find (demo32 [0x0FFFFFF8, 0x0FFFFFFF, 0x0FFFFFFF, 0x0FFFFFFF] 600)
      (demo32 [0x0FFFFFF8, 0x0FFFFFFF, 0x0FFFFFFF, 0x0FFFFFFF] 600).card 2 [] demo_name
      = some (0, 64) := by
  decide

set_option maxRecDepth 100000 in
theorem demo32_chain_600 :
    is_chain (demo32 [0x0FFFFFF8, 0x0FFFFFFF, 0x0FFFFFFF, 0x0FFFFFFF] 600) [3] := by
  simp only [is_chain, chain_links]
  decide

set_option maxRecDepth 100000 in
/-- Instance of C20: `Hello World.txt` of 600 bytes (first cluster 3, 8 sectors per
cluster) in the root directory of the FAT32 demo volume; opened with `a+`, sought to
0, the 13 bytes `Hello, world!` land at offsets 600..612 and the size becomes 613. -/
theorem fat_append_ignores_seek_witness :
    ∃ (h : fat_handle) (s1 : sdcard_t) (h2 : fat_handle) (sd2 : sdcard_t),
      fat_fopen 9 (demo32 [0x0FFFFFF8, 0x0FFFFFFF, 0x0FFFFFFF, 0x0FFFFFFF] 600) demo_name
        [97, 43] = some (some h, s1) ∧
      h.ptr = 600 ∧
      fat_fseek h 0 SEEK_SET = (0, h) ∧
      fat_fwrite 9 s1 (bytes_of demo_hello) 1 13 (fat_fseek h 0 SEEK_SET).2
        = some (13, h2, sd2) ∧
      (∀ p, p < 600 →
        file_byte (demo32 [0x0FFFFFF8, 0x0FFFFFFF, 0x0FFFFFFF, 0x0FFFFFFF] 600) sd2.card 3 [] p
          = file_byte (demo32 [0x0FFFFFF8, 0x0FFFFFFF, 0x0FFFFFFF, 0x0FFFFFFF] 600)
              (demo32 [0x0FFFFFF8, 0x0FFFFFFF, 0x0FFFFFFF, 0x0FFFFFFF] 600).card 3 [] p) ∧
      (∀ p, p < 13 →
        file_byte (demo32 [0x0FFFFFF8, 0x0FFFFFFF, 0x0FFFFFFF, 0x0FFFFFFF] 600) sd2.card 3 []
          (600 + p) = bytes_of demo_hello p) ∧
      dir_file_size (sd2.card 4128) 64 = 613 :=
  @fat_append_ignores_seek (demo32 [0x0FFFFFF8, 0x0FFFFFFF, 0x0FFFFFFF, 0x0FFFFFFF] 600)
    (demo32_volume_ok _ _) (demo32_coherent _ _) (demo32_reads_ok _ _)
    (demo32_writes_ok _ _) rfl [] demo32_is_dir_600 demo_name (by decide) 9 (by decide)
    0 64 demo32_dir_find_600 600 (by decide) 3 [] (by decide) demo32_chain_600
    (by decide) (bytes_of demo_hello) 1 13 13 (by decide) (by decide) (by decide)
    (by decide) (by decide)



/-! ## C28: the cache after a failed FAT update -/

set_option maxRecDepth 100000 in
/-- Claim C28, evaluated at an input on which the code departs from it.  On the
write-protected FAT32 demo volume (cache empty, so coherent; cluster 3 is an end of
chain on the card), `fat_set_next_cluster(3, 5)` returns 0 because the block write
fails, and leaves `loaded_sector = 32` (the FAT sector) with a buffer whose entry of
cluster 3 is 5 while the card still holds `0x0FFFFFFF` there, and has not changed;
the following `fat_get_next_cluster(3)` answers 5 from that buffer, whereas it
answered end of chain before. -/
theorem fat_set_next_cluster_failed_write_cached :
    (fat_set_next_cluster (demo32_locked [0x0FFFFFF8, 0x0FFFFFFF, 0x0FFFFFFF, 0x0FFFFFFF] 0)
      3 5).1 = 0 ∧
    (fat_set_next_cluster (demo32_locked [0x0FFFFFF8, 0x0FFFFFFF, 0x0FFFFFFF, 0x0FFFFFFF] 0)
      3 5).2.loaded_sector = 32 ∧
    read32 (fat_set_next_cluster
      (demo32_locked [0x0FFFFFF8, 0x0FFFFFFF, 0x0FFFFFFF, 0x0FFFFFFF] 0) 3 5).2.buffer 12 = 5 ∧
    read32 ((fat_set_next_cluster
      (demo32_locked [0x0FFFFFF8, 0x0FFFFFFF, 0x0FFFFFFF, 0x0FFFFFFF] 0) 3 5).2.card 32) 12
        = 0x0FFFFFFF ∧
    (fat_get_next_cluster (fat_set_next_cluster
      (demo32_locked [0x0FFFFFF8, 0x0FFFFFFF, 0x0FFFFFFF, 0x0FFFFFFF] 0) 3 5).2 3).1 = 5 ∧
    (fat_get_next_cluster
      (demo32_locked [0x0FFFFFF8, 0x0FFFFFFF, 0x0FFFFFFF, 0x0FFFFFFF] 0) 3).1 = EOC := by
  decide


/-! ## C29: the tail of the short name -/

/-- Claim C29, evaluated at its boundary witness.  For any memory contents,
`lfn_to_sfn("Hello World.txt", sfn, 9999)` succeeds and produces `HELLOWORTXT`: no
tail is written, bytes 3..7 are `LOWOR` and not `~9999`, the source testing
`tailnum < 9999`.  With 9998 the tail is there: `HEL~9998TXT`. -/
theorem lfn_to_sfn_tail_9999 (junk sfn : Nat → Nat) :
    (lfn_to_sfn junk demo_name sfn 9999).1 = 1 ∧
      (List.range 11).map (lfn_to_sfn junk demo_name sfn 9999).2
        = [72, 69, 76, 76, 79, 87, 79, 82, 84, 88, 84] ∧
      (List.range 5).map (fun i => (lfn_to_sfn junk demo_name sfn 9999).2 (3 + i))
        = [76, 79, 87, 79, 82] ∧
      (List.range 11).map (lfn_to_sfn junk demo_name sfn 9998).2
        = [72, 69, 76, 126, 57, 57, 57, 56, 84, 88, 84] := by
  exact ⟨rfl, rfl, rfl, rfl⟩

/-! ## C30: the short-name record of a new file -/

set_option maxRecDepth 1000000 in
/-- Counterexample to C30 as stated: after `Hello World.txt` is created in the empty
root directory of the FAT32 demo volume, the short-name record (third record of
sector 4128) has the write-date field `0x2011`, not zero. -/
theorem fat_create_file_write_date_counterexample :
    (fat_create_file 9 (demo32_root [0x0FFFFFF8, 0x0FFFFFFF, 0x0FFFFFFF] []) 2 demo_name).map
      (fun r => (r.1, r.2.card 4128 (64 + 11), read16 (r.2.card 4128) (64 + 24)))
      = some (1, ATTR_ARCHIVE, 0x2011) ∧ 0x2011 ≠ 0 := by
  decide

/-- Claim C30, amended.  On a well-formed volume with a coherent cache, working block
I/O and a successful `malloc`, after a successful `fat_create_file` in the directory
`start :: cs` there is a record `q` of that directory that holds: the 11-byte name
`sfn` generated by the short-name search (`fat_create_file_sfn`), attribute archive
(`0x20`), first-cluster-high and -low equal to the high and low 16 bits of the
cluster `cluster` answered by `fat_get_next_free_cluster`, `DIR_FileSize = 0`,
creation tenths, creation time, creation date, last-access date and write time
equal to zero, and the write date `0x2011`. -/
theorem fat_create_file_short_record {sd : sdcard_t} (hv : volume_ok sd) (hco : coherent sd)
    (hr : reads_ok sd) (hw : writes_ok sd) (hm : sd.malloc_ok = true) {start : Nat}
    {cs : List Nat} (hd : is_dir sd start cs) {fuel : Nat}
    (hfuel : sd.data_clusters + 3 ≤ fuel) {filename : List Nat} {sd1 : sdcard_t}
    (h : fat_create_file fuel sd start filename = some (1, sd1)) :
    ∃ (cluster q i : Nat) (sfn : Nat → Nat) (s1 s2 s3 : sdcard_t),
      fat_find_lfn fuel sd start filename = some (none, s1) ∧
      fat_get_next_free_cluster fuel s1 start = some (cluster, s2) ∧
      fat_create_file_sfn fuel sd.uninit filename start 65534 s2 1 sd.uninit
        = some (i, sfn, s3) ∧
      q / 16 < dir_sector_count sd start cs ∧
      (∀ k, k < 11 → dir_record sd sd1.card start cs q k = sfn k) ∧
      dir_record sd sd1.card start cs q 11 = ATTR_ARCHIVE ∧
      read16 (dir_record sd sd1.card start cs q) 20 = cluster / 65536 ∧
      read16 (dir_record sd sd1.card start cs q) 26 = cluster % 65536 ∧
      dir_file_size (dir_record sd sd1.card start cs q) 0 = 0 ∧
      dir_record sd sd1.card start cs q 13 = 0 ∧
      read16 (dir_record sd sd1.card start cs q) 14 = 0 ∧
      read16 (dir_record sd sd1.card start cs q) 16 = 0 ∧
      read16 (dir_record sd sd1.card start cs q) 18 = 0 ∧
      read16 (dir_record sd sd1.card start cs q) 22 = 0 ∧
      read16 (dir_record sd sd1.card start cs q) 24 = 0x2011 := by
  obtain ⟨cluster, sfn, s3, s4, e, _, _, _, _, _, _, _, _, _, _, _, a12, _, a14, _, _, _,
    s1, s2, i, b1, b2, b3⟩ := fat_create_file_spec hv hco hr hw hm hd hfuel h
  obtain ⟨n1, n2, _, n4, n5, n6, n7, n8, n9, n10, n11⟩ := a14
  have hfc : read16 (dir_record sd sd1.card start cs
      (fat_entry_slot e + (lfn_cache_from_string filename (sfn_checksum sfn)).strings)) 20
        * 65536
      + read16 (dir_record sd sd1.card start cs
      (fat_entry_slot e + (lfn_cache_from_string filename (sfn_checksum sfn)).strings)) 26
      = cluster := by
    simpa [dir_first_cluster] using n10
  have l26 := read16_lt (dir_record sd sd1.card start cs
      (fat_entry_slot e + (lfn_cache_from_string filename (sfn_checksum sfn)).strings)) 26
  refine ⟨cluster, _, i, sfn, s1, s2, s3, b1, b2, b3, a12, n1, n2, by omega, by omega, n11,
    n4, n5, n6, n7, n8, n9⟩

/-- Instance of C30 (amended): `Hello World.txt` created in the empty root directory
of the FAT32 demo volume. -/
theorem fat_create_file_short_record_witness :
    ∃ (sd1 : sdcard_t) (cluster q : Nat),
      fat_create_file 262003 (demo32_root [0x0FFFFFF8, 0x0FFFFFFF, 0x0FFFFFFF] []) 2
        demo_name = some (1, sd1) ∧
      q / 16 < dir_sector_count (demo32_root [0x0FFFFFF8, 0x0FFFFFFF, 0x0FFFFFFF] []) 2 [] ∧
      dir_record (demo32_root [0x0FFFFFF8, 0x0FFFFFFF, 0x0FFFFFFF] []) sd1.card 2 [] q 11
        = ATTR_ARCHIVE ∧
      read16 (dir_record (demo32_root [0x0FFFFFF8, 0x0FFFFFFF, 0x0FFFFFFF] []) sd1.card 2 [] q)
        20 = cluster / 65536 ∧
      read16 (dir_record (demo32_root [0x0FFFFFF8, 0x0FFFFFFF, 0x0FFFFFFF] []) sd1.card 2 [] q)
        26 = cluster % 65536 ∧
      dir_file_size
        (dir_record (demo32_root [0x0FFFFFF8, 0x0FFFFFFF, 0x0FFFFFFF] []) sd1.card 2 [] q) 0
        = 0 ∧
      read16 (dir_record (demo32_root [0x0FFFFFF8, 0x0FFFFFFF, 0x0FFFFFFF] []) sd1.card 2 [] q)
        22 = 0 ∧
      read16 (dir_record (demo32_root [0x0FFFFFF8, 0x0FFFFFFF, 0x0FFFFFFF] []) sd1.card 2 [] q)
        24 = 0x2011 := by
  have e := demo32_root_create_hello
  cases h : fat_create_file 262003 (demo32_root [0x0FFFFFF8, 0x0FFFFFFF, 0x0FFFFFFF] []) 2
      demo_name with
  | none => rw [h] at e; exact Option.noConfusion e
  | some r =>
    obtain ⟨a, sd1⟩ := r
    rw [h] at e
    simp only [Option.map_some', Option.some.injEq, Prod.mk.injEq] at e
    obtain ⟨e1, _⟩ := e
    subst e1
    obtain ⟨cluster, q, _, _, _, _, _, _, _, _, g4, _, g6, g7, g8, g9, _, _, _, _, g14, g15⟩ :=
      fat_create_file_short_record (demo32_root_volume_ok _ _)
        (demo32_root_coherent _ _) (demo32_root_reads_ok _ _) (demo32_root_writes_ok _ _) rfl
        demo32_root_is_dir_empty (by decide) h
    exact ⟨sd1, cluster, q, rfl, g4, g6, g7, g8, g9, g14, g15⟩


/-! ## C21: the flags and the position of a new handle -/

/-- The last steps of `fat_fopen`: the handle keeps its flags, name and directory, and
takes size and first cluster from the record that the last lookup left in the
buffer. -/
theorem fat_fopen_finish_spec {fuel : Nat} {h0 : fat_handle} {s : sdcard_t} {dir : Nat}
    {s0 : sdcard_t} (hfind : fat_find_lfn fuel s0 h0.cluster h0.filename = some (some dir, s))
    {h : fat_handle} {s1 : sdcard_t}
    (hfin : fat_fopen_finish fuel h0 s dir = some (some h, s1)) :
    h.flags = h0.flags ∧
      h.ptr = (if h.flags &&& FILE_APPEND ≠ 0 then h.filesize else 0) ∧
      ∃ (dir1 : Nat) (s2 : sdcard_t),
        fat_find_lfn fuel s2 h0.cluster h0.filename = some (some dir1, s1) ∧
        h.filesize = dir_file_size s1.buffer dir1 ∧
        h.datacluster = dir_first_cluster s1.buffer dir1 := by
  unfold fat_fopen_finish at hfin
  have key : ∀ (dir1 : Nat) (sa : sdcard_t) (hx : fat_handle),
      hx = (if h0.flags &&& FILE_APPEND ≠ 0 then
              { h0 with datacluster := dir_first_cluster sa.buffer dir1
                        filesize := dir_file_size sa.buffer dir1
                        ptr := dir_file_size sa.buffer dir1 }
            else
              { h0 with datacluster := dir_first_cluster sa.buffer dir1
                        filesize := dir_file_size sa.buffer dir1
                        ptr := 0 }) →
      hx.flags = h0.flags ∧
      hx.ptr = (if hx.flags &&& FILE_APPEND ≠ 0 then hx.filesize else 0) ∧
      hx.filesize = dir_file_size sa.buffer dir1 ∧
      hx.datacluster = dir_first_cluster sa.buffer dir1 := by
    intro dir1 sa hx hh
    by_cases ha : h0.flags &&& FILE_APPEND ≠ 0
    · rw [if_pos ha] at hh
      subst hh
      refine ⟨rfl, ?_, rfl, rfl⟩
      show _ = if h0.flags &&& FILE_APPEND ≠ 0 then _ else _
      rw [if_pos ha]
    · rw [if_neg ha] at hh
      subst hh
      refine ⟨rfl, ?_, rfl, rfl⟩
      show _ = if h0.flags &&& FILE_APPEND ≠ 0 then _ else _
      rw [if_neg ha]
  dsimp only at hfin
  by_cases ht : h0.flags &&& FILE_TRUNCATE ≠ 0
  · rw [if_pos ht] at hfin
    cases h1 : fat_truncate_file fuel s h0.cluster h0.filename with
    | none => rw [h1] at hfin; simp at hfin
    | some r =>
      obtain ⟨t, sb⟩ := r
      rw [h1] at hfin
      simp only at hfin
      by_cases ht0 : t = 0
      · rw [if_pos ht0] at hfin; simp at hfin
      · rw [if_neg ht0] at hfin
        cases h2 : fat_find_lfn fuel sb h0.cluster h0.filename with
        | none => rw [h2] at hfin; simp at hfin
        | some r2 =>
          obtain ⟨res, sc⟩ := r2
          rw [h2] at hfin
          cases res with
          | none => simp at hfin
          | some dir1 =>
            simp only [Option.some.injEq, Prod.mk.injEq] at hfin
            obtain ⟨hh1, hh2⟩ := hfin
            subst hh2
            obtain ⟨a, b, d, e⟩ := key dir1 sc h hh1.symm
            exact ⟨a, b, dir1, sb, h2, d, e⟩
  · rw [if_neg ht] at hfin
    simp only [Option.some.injEq, Prod.mk.injEq] at hfin
    obtain ⟨hh1, hh2⟩ := hfin
    subst hh2
    obtain ⟨a, b, d, e⟩ := key dir s h hh1.symm
    exact ⟨a, b, dir, s0, hfind, d, e⟩

/-- Claim C21 (open-mode flags).  Whenever `fat_fopen` returns a handle, its flags are
those of the mode string: `r` gives read; `w` gives write, create, truncate; `a`
gives write, append, create; `r+` gives read, write; `w+` gives read, write,
create, truncate; `a+` gives read, write, append, create.  Its position is the file
size when the append flag is set and 0 otherwise, and its file size and first data
cluster are read from the short-name record `dir1` that the last lookup of the
name in the root directory returned (the state `s1` is the one that lookup left). -/
theorem fat_fopen_flags_position {fuel : Nat} {sd : sdcard_t} {filename mode : List Nat}
    {h : fat_handle} {s1 : sdcard_t}
    (hopen : fat_fopen fuel sd filename mode = some (some h, s1)) :
    (mode = [114] → h.flags = FILE_READ) ∧
    (mode = [119] → h.flags = FILE_WRITE ||| FILE_CREATE ||| FILE_TRUNCATE) ∧
    (mode = [97] → h.flags = FILE_WRITE ||| FILE_APPEND ||| FILE_CREATE) ∧
    (mode = [114, 43] → h.flags = FILE_READ ||| FILE_WRITE) ∧
    (mode = [119, 43] → h.flags = FILE_READ ||| FILE_WRITE ||| FILE_CREATE ||| FILE_TRUNCATE) ∧
    (mode = [97, 43] → h.flags = FILE_READ ||| FILE_WRITE ||| FILE_APPEND ||| FILE_CREATE) ∧
    h.ptr = (if h.flags &&& FILE_APPEND ≠ 0 then h.filesize else 0) ∧
    ∃ (dir1 : Nat) (s2 : sdcard_t),
      fat_find_lfn fuel s2 sd.rootdir_begin_cluster filename = some (some dir1, s1) ∧
      h.filesize = dir_file_size s1.buffer dir1 ∧
      h.datacluster = dir_first_cluster s1.buffer dir1 := by
  have main : h.flags = fat_fopen_flags mode ∧
      h.ptr = (if h.flags &&& FILE_APPEND ≠ 0 then h.filesize else 0) ∧
      ∃ (dir1 : Nat) (s2 : sdcard_t),
        fat_find_lfn fuel s2 sd.rootdir_begin_cluster filename = some (some dir1, s1) ∧
        h.filesize = dir_file_size s1.buffer dir1 ∧
        h.datacluster = dir_first_cluster s1.buffer dir1 := by
    unfold fat_fopen at hopen
    by_cases hm : sd.malloc_ok = false
    · rw [if_pos hm] at hopen; simp at hopen
    rw [if_neg hm] at hopen
    dsimp only at hopen
    cases h1 : fat_find_lfn fuel sd sd.rootdir_begin_cluster filename with
    | none => rw [h1] at hopen; simp at hopen
    | some r =>
      obtain ⟨res, sa⟩ := r
      rw [h1] at hopen
      cases res with
      | some dir =>
        simp only at hopen
        refine @fat_fopen_finish_spec fuel _ sa dir sd ?_ h s1 hopen
        exact h1
      | none =>
        simp only at hopen
        by_cases hc : fat_fopen_flags mode &&& FILE_CREATE ≠ 0
        · rw [if_pos hc] at hopen
          cases h2 : fat_create_file fuel sa sd.rootdir_begin_cluster filename with
          | none => rw [h2] at hopen; simp at hopen
          | some r2 =>
            obtain ⟨c, sb⟩ := r2
            rw [h2] at hopen
            simp only at hopen
            by_cases hc0 : c = 0
            · rw [if_pos hc0] at hopen; simp at hopen
            rw [if_neg hc0] at hopen
            cases h3 : fat_find_lfn fuel sb sd.rootdir_begin_cluster filename with
            | none => rw [h3] at hopen; simp at hopen
            | some r3 =>
              obtain ⟨res3, sc⟩ := r3
              rw [h3] at hopen
              cases res3 with
              | none => simp at hopen
              | some dir =>
                simp only at hopen
                refine @fat_fopen_finish_spec fuel _ sc dir sb ?_ h s1 hopen
                exact h3
        · rw [if_neg hc] at hopen
          simp at hopen
  obtain ⟨m1, m2, m3⟩ := main
  refine ⟨?_, ?_, ?_, ?_, ?_, ?_, m2, m3⟩
  all_goals intro hmode
  all_goals rw [m1, hmode]
  all_goals decide

set_option maxRecDepth 100000 in
theorem demo32_fopen_600 :
    (fat_fopen 9 (demo32 [0x0FFFFFF8, 0x0FFFFFFF, 0x0FFFFFFF, 0x0FFFFFFF] 600) demo_name
        [97, 43]).map
      (fun r => r.1.map (fun h => (h.ptr, h.filesize, h.datacluster)))
      = some (some (600, 600, 3)) ∧
    (fat_fopen 9 (demo32 [0x0FFFFFF8, 0x0FFFFFFF, 0x0FFFFFFF, 0x0FFFFFFF] 600) demo_name
        [114]).map
      (fun r => r.1.map (fun h => (h.ptr, h.filesize, h.datacluster)))
      = some (some (0, 600, 3)) := by
  decide

/-- Instance of C21: `Hello World.txt` (600 bytes, first cluster 3) on the FAT32 demo
volume, opened with `a+` (position 600) and with `r` (position 0). -/
theorem fat_fopen_flags_position_witness :
    (∃ (h : fat_handle) (s1 : sdcard_t),
      fat_fopen 9 (demo32 [0x0FFFFFF8, 0x0FFFFFFF, 0x0FFFFFFF, 0x0FFFFFFF] 600) demo_name
        [97, 43] = some (some h, s1) ∧
      h.flags = FILE_READ ||| FILE_WRITE ||| FILE_APPEND ||| FILE_CREATE ∧
      h.ptr = 600 ∧ h.filesize = 600 ∧ h.datacluster = 3) ∧
    (∃ (h : fat_handle) (s1 : sdcard_t),
      fat_fopen 9 (demo32 [0x0FFFFFF8, 0x0FFFFFFF, 0x0FFFFFFF, 0x0FFFFFFF] 600) demo_name
        [114] = some (some h, s1) ∧
      h.flags = FILE_READ ∧ h.ptr = 0 ∧ h.filesize = 600 ∧ h.datacluster = 3) := by
  obtain ⟨e1, e2⟩ := demo32_fopen_600
  constructor
  · cases h1 : fat_fopen 9 (demo32 [0x0FFFFFF8, 0x0FFFFFFF, 0x0FFFFFFF, 0x0FFFFFFF] 600)
        demo_name [97, 43] with
    | none => rw [h1] at e1; exact Option.noConfusion e1
    | some r =>
      obtain ⟨res, s1⟩ := r
      rw [h1] at e1
      cases res with
      | none => simp at e1
      | some h =>
        simp only [Option.map_some', Option.some.injEq, Prod.mk.injEq] at e1
        exact ⟨h, s1, rfl, (fat_fopen_flags_position h1).2.2.2.2.2.1 rfl, e1.1, e1.2.1, e1.2.2⟩
  · cases h1 : fat_fopen 9 (demo32 [0x0FFFFFF8, 0x0FFFFFFF, 0x0FFFFFFF, 0x0FFFFFFF] 600)
        demo_name [114] with
    | none => rw [h1] at e2; exact Option.noConfusion e2
    | some r =>
      obtain ⟨res, s1⟩ := r
      rw [h1] at e2
      cases res with
      | none => simp at e2
      | some h =>
        simp only [Option.map_some', Option.some.injEq, Prod.mk.injEq] at e2
        exact ⟨h, s1, rfl, (fat_fopen_flags_position h1).1 rfl, e2.1, e2.2.1, e2.2.2⟩


/-! ## C26: the master boot record -/

/-- What a first read of a block does to a coherent cache of 512 bytes. -/
theorem sd_read_block_coherent_512 {sd : sdcard_t} (hco : coherent sd)
    (hbs : sd.blocksize = 512) {lba : Nat} (hlba : lba ≠ EOC)
    (hr : sd.card_read_ok lba = true) :
    (sd_read_block sd lba).1 = 1 ∧ io_step sd (sd_read_block sd lba).2 ∧
      (sd_read_block sd lba).2.card = sd.card ∧
      (sd_read_block sd lba).2.partition_start = sd.partition_start ∧
      (sd_read_block sd lba).2.partition_sectors = sd.partition_sectors ∧
      ∀ i, i < 512 → (sd_read_block sd lba).2.buffer i = sd.card lba i := by
  unfold sd_read_block
  by_cases hl : sd.loaded_sector = lba
  · rw [if_pos hl]
    refine ⟨rfl, io_step_refl sd, rfl, rfl, rfl, fun i hi => ?_⟩
    have := hco (by rw [hl]; exact hlba) i (by rw [hbs]; exact hi)
    rw [this, hl]
  · rw [if_neg hl, if_pos hr]
    refine ⟨rfl, ⟨_, _, _, rfl⟩, rfl, rfl, rfl, fun i hi => ?_⟩
    show (if i < sd.blocksize then sd.card lba i else sd.buffer i) = _
    rw [if_pos (by rw [hbs]; exact hi)]

/-- Claim C26 (MBR acceptance).  On an initialised card with 512-byte blocks, a coherent
cache and a readable block 0, `read_mbr` returns 1 exactly when the signature of
block 0 is `0xAA55` and either its byte 0 is `0xEB` or `0xE9`, or the type of the
first partition entry is one of `0x06`, `0x0B`, `0x0C`, `0x0E`, and returns 0
otherwise.  In the first case `partition_start` becomes 0; in the second (byte 0
being neither) `partition_start` and `partition_sectors` become the first LBA and
the sector count of that entry; when it returns 0 both fields are unchanged. -/
theorem read_mbr_acceptance {sd : sdcard_t} (hin : sd.inited ≠ 0) (hbs : sd.blocksize = 512)
    (hco : coherent sd) (hr : sd.card_read_ok 0 = true) :
    ((read_mbr sd).1 = 1 ↔
      read16 (sd.card 0) 510 = 0xAA55 ∧
        ((sd.card 0 0 = 0xEB ∨ sd.card 0 0 = 0xE9) ∨
          (sd.card 0 450 = 0x06 ∨ sd.card 0 450 = 0x0B ∨ sd.card 0 450 = 0x0C ∨
            sd.card 0 450 = 0x0E))) ∧
    ((read_mbr sd).1 = 1 ∨ (read_mbr sd).1 = 0) ∧
    ((read_mbr sd).1 = 1 → (sd.card 0 0 = 0xEB ∨ sd.card 0 0 = 0xE9) →
      (read_mbr sd).2.partition_start = 0) ∧
    ((read_mbr sd).1 = 1 → ¬ (sd.card 0 0 = 0xEB ∨ sd.card 0 0 = 0xE9) →
      (read_mbr sd).2.partition_start = read32 (sd.card 0) 454 ∧
      (read_mbr sd).2.partition_sectors = read32 (sd.card 0) 458) ∧
    ((read_mbr sd).1 = 0 →
      (read_mbr sd).2.partition_start = sd.partition_start ∧
      (read_mbr sd).2.partition_sectors = sd.partition_sectors) := by
  obtain ⟨r1, _, _, r4, r5, r6⟩ := @sd_read_block_coherent_512 sd hco hbs 0
    (by decide) hr
  have e510 : read16 (sd_read_block sd 0).2.buffer 510 = read16 (sd.card 0) 510 :=
    read16_congr _ _ 510 (r6 _ (by omega)) (r6 _ (by omega))
  have e454 : read32 (sd_read_block sd 0).2.buffer 454 = read32 (sd.card 0) 454 :=
    read32_congr _ _ 454 (r6 _ (by omega)) (r6 _ (by omega)) (r6 _ (by omega))
      (r6 _ (by omega))
  have e458 : read32 (sd_read_block sd 0).2.buffer 458 = read32 (sd.card 0) 458 :=
    read32_congr _ _ 458 (r6 _ (by omega)) (r6 _ (by omega)) (r6 _ (by omega))
      (r6 _ (by omega))
  have e0 : (sd_read_block sd 0).2.buffer 0 = sd.card 0 0 := r6 0 (by omega)
  have e450 : (sd_read_block sd 0).2.buffer 450 = sd.card 0 450 := r6 450 (by omega)
  have hr0 : ¬ (sd_read_block sd 0).1 = 0 := by rw [r1]; omega
  unfold read_mbr
  simp only
  rw [if_neg hin, if_neg hr0, e510, e0, e450, e454, e458]
  by_cases hs : read16 (sd.card 0) 510 = 0xAA55
  · rw [if_neg (fun hh => hh hs)]
    by_cases hb : sd.card 0 0 = 0xEB ∨ sd.card 0 0 = 0xE9
    · rw [if_pos hb]
      refine ⟨⟨fun _ => ⟨hs, Or.inl hb⟩, fun _ => rfl⟩, Or.inl rfl, fun _ _ => rfl,
        fun _ hn => absurd hb hn, fun hh => absurd hh Nat.one_ne_zero⟩
    · rw [if_neg hb]
      by_cases ht : sd.card 0 450 ≠ 0x06 ∧ sd.card 0 450 ≠ 0x0B ∧ sd.card 0 450 ≠ 0x0C ∧
          sd.card 0 450 ≠ 0x0E
      · rw [if_pos ht]
        refine ⟨⟨fun hh => absurd hh Nat.zero_ne_one, fun hh => ?_⟩, Or.inr rfl,
          fun hh => absurd hh Nat.zero_ne_one, fun hh => absurd hh Nat.zero_ne_one,
          fun _ => ⟨r4, r5⟩⟩
        rcases hh.2 with hh2 | hh2
        · exact absurd hh2 hb
        · exfalso
          rcases hh2 with h6 | h6 | h6 | h6
          · exact ht.1 h6
          · exact ht.2.1 h6
          · exact ht.2.2.1 h6
          · exact ht.2.2.2 h6
      · rw [if_neg ht]
        refine ⟨⟨fun _ => ⟨hs, Or.inr ?_⟩, fun _ => rfl⟩, Or.inl rfl,
          fun _ hh => absurd hh hb, fun _ _ => ⟨rfl, rfl⟩,
          fun hh => absurd hh Nat.one_ne_zero⟩
        by_contra hcon
        apply ht
        refine ⟨fun h => hcon (Or.inl h), fun h => hcon (Or.inr (Or.inl h)),
          fun h => hcon (Or.inr (Or.inr (Or.inl h))),
          fun h => hcon (Or.inr (Or.inr (Or.inr h)))⟩
  · rw [if_pos hs]
    refine ⟨⟨fun hh => absurd hh Nat.zero_ne_one, fun hh => absurd hh.1 hs⟩, Or.inr rfl,
      fun hh => absurd hh Nat.zero_ne_one, fun hh => absurd hh Nat.zero_ne_one,
      fun _ => ⟨r4, r5⟩⟩

theorem demo_card_coherent (boot : Nat → Nat) (ps : Nat) : coherent (demo_card boot ps) :=
  fun h => absurd rfl h

set_option maxRecDepth 100000 in
/-- Instance of C26: a master boot record whose first partition has type `0x0B`, starts at
block 2048 and has 1000000 sectors. -/
theorem read_mbr_acceptance_witness :
    (read_mbr (demo_card (demo_mbr 0x0B 2048 1000000) 0)).1 = 1 ∧
      (read_mbr (demo_card (demo_mbr 0x0B 2048 1000000) 0)).2.partition_start = 2048 ∧
      (read_mbr (demo_card (demo_mbr 0x0B 2048 1000000) 0)).2.partition_sectors
        = 1000000 := by
  have h := @read_mbr_acceptance (demo_card (demo_mbr 0x0B 2048 1000000) 0) (by decide) rfl
    (demo_card_coherent _ _) rfl
  have h1 : (read_mbr (demo_card (demo_mbr 0x0B 2048 1000000) 0)).1 = 1 :=
    h.1.2 ⟨by decide, Or.inr (Or.inr (Or.inl (by decide)))⟩
  have h2 := h.2.2.2.1 h1 (by decide)
  refine ⟨h1, ?_, ?_⟩
  · rw [h2.1]; decide
  · rw [h2.2]; decide


/-! ## C24 and C25: the boot sector -/

set_option maxRecDepth 100000 in
/-- Claim C24, evaluated at an input on which the code departs from it.  The boot
sector of a FAT32 volume with `FATSz16 = 0`, `FATSz32 = 66544`, 32 reserved sectors,
2 FATs, 8 sectors per cluster and 64133120 sectors has `T = 8000000` clusters by the
rule of the specification (FAT size 66544, the full 32-bit field).
`fat_read_bootsector` keeps the FAT size in a `uint16_t` (1008), succeeds, and
records `data_clusters = 8016384`. -/
theorem fat_read_bootsector_fat_size_truncated :
    spec_fat_size (demo_boot 8 32 2 0 0 0 64133120 66544 2) = 66544 ∧
    spec_total_clusters (demo_boot 8 32 2 0 0 0 64133120 66544 2) = 8000000 ∧
    bs_fatsize (demo_boot 8 32 2 0 0 0 64133120 66544 2) = 1008 ∧
    (fat_read_bootsector (demo_card (demo_boot 8 32 2 0 0 0 64133120 66544 2) 0)).1 = 1 ∧
    (fat_read_bootsector
      (demo_card (demo_boot 8 32 2 0 0 0 64133120 66544 2) 0)).2.fattype = FAT32 ∧
    (fat_read_bootsector
      (demo_card (demo_boot 8 32 2 0 0 0 64133120 66544 2) 0)).2.data_clusters = 8016384 := by
  decide

/-- A successful block read leaves the first 512 bytes of the block in the buffer (on
a coherent cache of 512 bytes) and only touches the cache. -/
theorem sd_read_block_buffer {sd : sdcard_t} (hco : coherent sd) (hbs : sd.blocksize = 512)
    {lba : Nat} (hlba : lba ≠ EOC) (h : (sd_read_block sd lba).1 ≠ 0) :
    ∀ i, i < 512 → (sd_read_block sd lba).2.buffer i = sd.card lba i := by
  unfold sd_read_block at h ⊢
  by_cases hl : sd.loaded_sector = lba
  · rw [if_pos hl]
    intro i hi
    have := hco (by rw [hl]; exact hlba) i (by rw [hbs]; exact hi)
    rw [this, hl]
  · rw [if_neg hl] at h ⊢
    by_cases hr : sd.card_read_ok lba = true
    · rw [if_pos hr]
      intro i hi
      show (if i < sd.blocksize then sd.card lba i else sd.buffer i) = _
      rw [if_pos (by rw [hbs]; exact hi)]
    · rw [if_neg hr] at h
      exact absurd rfl h

theorem read16_agree {a b : Nat → Nat} (h : ∀ i, i < 512 → a i = b i) (off : Nat)
    (ho : off + 1 < 512) : read16 a off = read16 b off :=
  read16_congr _ _ off (h _ (by omega)) (h _ (by omega))

theorem read32_agree {a b : Nat → Nat} (h : ∀ i, i < 512 → a i = b i) (off : Nat)
    (ho : off + 3 < 512) : read32 a off = read32 b off :=
  read32_congr _ _ off (h _ (by omega)) (h _ (by omega)) (h _ (by omega)) (h _ (by omega))

theorem bs_rootdirsectors_agree {a b : Nat → Nat} (h : ∀ i, i < 512 → a i = b i) :
    bs_rootdirsectors a = bs_rootdirsectors b := by
  unfold bs_rootdirsectors
  rw [read16_agree h 17 (by omega), read16_agree h 11 (by omega)]

theorem bs_totalclusters_agree {a b : Nat → Nat} (h : ∀ i, i < 512 → a i = b i) :
    bs_totalclusters a = bs_totalclusters b := by
  unfold bs_totalclusters bs_datasectors bs_totalsectors bs_fatsize
  rw [bs_rootdirsectors_agree h, read16_agree h 19 (by omega), read32_agree h 32 (by omega),
    read16_agree h 14 (by omega), read16_agree h 22 (by omega), read32_agree h 36 (by omega),
    h 16 (by omega), h 13 (by omega)]

/-- Claim C25, amended.  After every successful `fat_read_bootsector` (cache of 512
bytes, coherent; `bs` the boot sector at `partition_start` on the card) the
variant is FAT16 or FAT32, and:
on FAT32, `data_begin_sector` is `partition_start + ResvdSecCnt + NumFATs * FATSz32`
reduced modulo `2^32`, the root cluster is `RootClus` and `fat_sectors` is `FATSz32`;
on FAT16, the root directory begins at
`partition_start + ResvdSecCnt + (NumFATs * FATSz16 mod 2^16)` reduced modulo `2^32`,
its starting cluster is 0, it spans `rootdirsectors` sectors, `data_begin_sector` is
that sector plus `rootdirsectors` (modulo `2^32`), and `fat_sectors` is `FATSz16`.
So the FAT size that enters is the field of the detected variant, and the sums are
the plain ones whenever they fit the fields they are formed in. -/
theorem fat_read_bootsector_data_begin {sd sd1 : sdcard_t} (hbs : sd.blocksize = 512)
    (hco : coherent sd) (hps : sd.partition_start ≠ EOC)
    (h : fat_read_bootsector sd = (1, sd1)) :
    (sd1.fattype = FAT16 ∨ sd1.fattype = FAT32) ∧
    (sd1.fattype = FAT32 →
      sd1.data_begin_sector = (sd.partition_start + read16 (sd.card sd.partition_start) 14
        + sd.card sd.partition_start 16 * read32 (sd.card sd.partition_start) 36)
          % 4294967296 ∧
      sd1.rootdir_begin_cluster = read32 (sd.card sd.partition_start) 44 ∧
      sd1.fat_sectors = read32 (sd.card sd.partition_start) 36) ∧
    (sd1.fattype = FAT16 →
      sd1.rootdir_begin_sector = (sd.partition_start + read16 (sd.card sd.partition_start) 14
        + sd.card sd.partition_start 16 * read16 (sd.card sd.partition_start) 22 % 65536)
          % 4294967296 ∧
      sd1.rootdir_begin_cluster = 0 ∧
      sd1.rootdir_sectors = bs_rootdirsectors (sd.card sd.partition_start) ∧
      sd1.data_begin_sector = (sd.partition_start + read16 (sd.card sd.partition_start) 14
        + sd.card sd.partition_start 16 * read16 (sd.card sd.partition_start) 22 % 65536
        + bs_rootdirsectors (sd.card sd.partition_start)) % 4294967296 ∧
      sd1.fat_sectors = read16 (sd.card sd.partition_start) 22) := by
  unfold fat_read_bootsector at h
  by_cases hin : sd.inited = 0
  · rw [if_pos hin] at h
    exact absurd (congrArg Prod.fst h) Nat.zero_ne_one
  rw [if_neg hin] at h
  dsimp only at h
  by_cases hr0 : (sd_read_block sd sd.partition_start).1 = 0
  · rw [if_pos hr0] at h
    exact absurd (congrArg Prod.fst h) Nat.zero_ne_one
  rw [if_neg hr0] at h
  have hb := sd_read_block_buffer hco hbs hps hr0
  have hpart : (sd_read_block sd sd.partition_start).2.partition_start = sd.partition_start :=
    io_step_partition_start (sd_read_block_frame sd _).1
  have e14 := read16_agree hb 14 (by omega)
  have e22 := read16_agree hb 22 (by omega)
  have e36 := read32_agree hb 36 (by omega)
  have e44 := read32_agree hb 44 (by omega)
  have e16 := hb 16 (by omega)
  have erd := bs_rootdirsectors_agree hb
  by_cases hsig : read16 (sd_read_block sd sd.partition_start).2.buffer 510 ≠ 0xAA55
  · rw [if_pos hsig] at h
    exact absurd (congrArg Prod.fst h) Nat.zero_ne_one
  rw [if_neg hsig] at h
  by_cases hbps : read16 (sd_read_block sd sd.partition_start).2.buffer 11 ≠ 512
  · rw [if_pos hbps] at h
    exact absurd (congrArg Prod.fst h) Nat.zero_ne_one
  rw [if_neg hbps] at h
  by_cases h12 : bs_totalclusters (sd_read_block sd sd.partition_start).2.buffer < 4085
  · rw [if_pos h12] at h
    exact absurd (congrArg Prod.fst h) Nat.zero_ne_one
  rw [if_neg h12] at h
  by_cases h16 : bs_totalclusters (sd_read_block sd sd.partition_start).2.buffer < 65525
  · rw [if_pos h16] at h
    have h2 := (congrArg Prod.snd h).symm
    dsimp only at h2
    subst h2
    refine ⟨Or.inl rfl, fun hh => absurd hh (show (16 : Nat) ≠ 32 by decide), fun _ => ?_⟩
    refine ⟨?_, rfl, erd, ?_, e22⟩
    · show u32 (u32 (_ + _) + u16 (_ * _)) = _
      rw [hpart, e14, e16, e22]
      unfold u32 u16
      omega
    · show u32 (u32 (u32 (_ + _) + u16 (_ * _)) + _) = _
      rw [hpart, e14, e16, e22, erd]
      unfold u32 u16
      omega
  · rw [if_neg h16] at h
    have h2 := (congrArg Prod.snd h).symm
    dsimp only at h2
    subst h2
    refine ⟨Or.inr rfl, fun _ => ?_, fun hh => absurd hh (show (32 : Nat) ≠ 16 by decide)⟩
    refine ⟨?_, e44, e36⟩
    show u32 (u32 (_ + _) + u32 (_ * _)) = _
    rw [hpart, e14, e16, e36]
    unfold u32
    omega

set_option maxRecDepth 100000 in
/-- Counterexample to C25 as stated: a boot sector with `FATSz16 = 0`, `FATSz32 = 1008`,
32 reserved sectors, 2 FATs, 512 root entries, 4 sectors per cluster and 22080
sectors has 5000 clusters, so `fat_read_bootsector` succeeds with the variant FAT16
and takes the FAT size from the 16-bit field, which is 0: the root directory
begins at sector 32 and the data area at sector 64, whereas
`partition_start + reserved + num_fats * fat_size + rootdir_sectors` with the FAT
size of the specification (1008) is 2080. -/
theorem fat_read_bootsector_data_begin_counterexample :
    (fat_read_bootsector (demo_card (demo_boot 4 32 2 512 0 0 22080 1008 0) 0)).1 = 1 ∧
    (fat_read_bootsector
      (demo_card (demo_boot 4 32 2 512 0 0 22080 1008 0) 0)).2.fattype = FAT16 ∧
    (fat_read_bootsector
      (demo_card (demo_boot 4 32 2 512 0 0 22080 1008 0) 0)).2.rootdir_begin_sector = 32 ∧
    (fat_read_bootsector
      (demo_card (demo_boot 4 32 2 512 0 0 22080 1008 0) 0)).2.data_begin_sector = 64 ∧
    spec_fat_size (demo_boot 4 32 2 512 0 0 22080 1008 0) = 1008 ∧
    0 + read16 (demo_boot 4 32 2 512 0 0 22080 1008 0) 14
      + demo_boot 4 32 2 512 0 0 22080 1008 0 16
        * spec_fat_size (demo_boot 4 32 2 512 0 0 22080 1008 0)
      + spec_rootdir_sectors (demo_boot 4 32 2 512 0 0 22080 1008 0) = 2080 := by
  decide

set_option maxRecDepth 100000 in
theorem demo_card_boot32 :
    fat_read_bootsector (demo_card (demo_boot 8 32 2 0 0 0 802048 1008 2) 2048)
      = (1, (fat_read_bootsector (demo_card (demo_boot 8 32 2 0 0 0 802048 1008 2) 2048)).2) ∧
    (fat_read_bootsector
      (demo_card (demo_boot 8 32 2 0 0 0 802048 1008 2) 2048)).2.fattype = FAT32 := by
  constructor
  · apply Prod.ext
    · decide
    · rfl
  · decide

set_option maxRecDepth 100000 in
/-- Instance of C25 (amended): 32 reserved sectors, FAT size 1008 and 2 FATs on a FAT32
volume whose partition starts at block 2048 give `data_begin = 2048 + 2048` and the
root cluster 2. -/
theorem fat_read_bootsector_data_begin_witness :
    (fat_read_bootsector (demo_card (demo_boot 8 32 2 0 0 0 802048 1008 2) 2048)).1 = 1 ∧
    (fat_read_bootsector
      (demo_card (demo_boot 8 32 2 0 0 0 802048 1008 2) 2048)).2.fattype = FAT32 ∧
    (fat_read_bootsector
      (demo_card (demo_boot 8 32 2 0 0 0 802048 1008 2) 2048)).2.data_begin_sector
        = 2048 + 2048 ∧
    (fat_read_bootsector
      (demo_card (demo_boot 8 32 2 0 0 0 802048 1008 2) 2048)).2.rootdir_begin_cluster
        = 2 := by
  have h := @fat_read_bootsector_data_begin
    (demo_card (demo_boot 8 32 2 0 0 0 802048 1008 2) 2048) _ rfl (demo_card_coherent _ _)
    (by decide) demo_card_boot32.1
  have h2 := h.2.1 demo_card_boot32.2
  refine ⟨by rw [demo_card_boot32.1], demo_card_boot32.2, ?_, ?_⟩
  · rw [h2.1]; decide
  · rw [h2.2.1]; decide

/-- Where the code agrees with the rule of C24: if the FAT size of the specification
fits 16 bits, and the bracket `reserved + num_fats * fat_size + rootdir_sectors` is
formed without wrapping in 16 bits and does not exceed the total, the cluster count
of `fat_read_bootsector` is the `T` of the specification. -/
theorem bs_totalclusters_eq_spec (bs : Nat → Nat) (hbps : read16 bs 11 = 512)
    (hfat : spec_fat_size bs < 65536) (hroot : read16 bs 17 * 32 + 511 < 65536)
    (hsum : read16 bs 14 + bs 16 * spec_fat_size bs + spec_rootdir_sectors bs < 65536)
    (hle : read16 bs 14 + bs 16 * spec_fat_size bs + spec_rootdir_sectors bs
      ≤ spec_total_sectors bs) :
    bs_totalclusters bs = spec_total_clusters bs := by
  have hrd : bs_rootdirsectors bs = spec_rootdir_sectors bs := by
    unfold bs_rootdirsectors spec_rootdir_sectors u16
    rw [hbps]
    omega
  have hfs : bs_fatsize bs = spec_fat_size bs := by
    unfold bs_fatsize u16
    exact Nat.mod_eq_of_lt hfat
  have hts : bs_totalsectors bs = spec_total_sectors bs := rfl
  have hlt : spec_total_sectors bs < 4294967296 := by
    unfold spec_total_sectors
    have := read16_lt bs 19
    have := read32_lt bs 32
    split <;> omega
  unfold bs_totalclusters spec_total_clusters bs_datasectors
  rw [hrd, hfs, hts]
  congr 1
  unfold sub32 u32 u16
  omega



/-! ## C27: the chain-level sector write -/

theorem sd_write_block_success (s : sdcard_t) (lba : Nat)
    (h : (sd_write_block s lba).1 ≠ 0) :
    (sd_write_block s lba).2.loaded_sector = s.loaded_sector ∧
      (sd_write_block s lba).2.buffer = s.buffer ∧
      (∀ i, i < s.blocksize → (sd_write_block s lba).2.card lba i = s.buffer i) ∧
      (∀ l, l ≠ lba → (sd_write_block s lba).2.card l = s.card l) := by
  unfold sd_write_block at h ⊢
  by_cases hp : s.write_protected ≠ 0
  · rw [if_pos hp] at h; exact absurd rfl h
  · rw [if_neg hp] at h ⊢
    by_cases hw : s.card_write_ok lba = true
    · rw [if_pos hw]
      refine ⟨rfl, rfl, fun i hi => ?_, fun l hl => ?_⟩
      · show (if lba = lba ∧ i < s.blocksize then s.buffer i else s.card lba i) = _
        rw [if_pos ⟨rfl, hi⟩]
      · funext i
        show (if l = lba ∧ i < s.blocksize then s.buffer i else s.card l i) = _
        rw [if_neg (fun hh => hl hh.1)]
    · rw [if_neg hw] at h; exact absurd rfl h

theorem sd_write_block_failure (s : sdcard_t) (lba : Nat)
    (h : (sd_write_block s lba).1 = 0) : (sd_write_block s lba).2.card = s.card := by
  unfold sd_write_block at h ⊢
  by_cases hp : s.write_protected ≠ 0
  · rw [if_pos hp]
  · rw [if_neg hp] at h ⊢
    by_cases hw : s.card_write_ok lba = true
    · rw [if_pos hw] at h; exact absurd h Nat.one_ne_zero
    · rw [if_neg hw]

theorem fat_get_next_free_cluster_loop_io :
    ∀ (fuel : Nat) (sd : sdcard_t) (c r : Nat) (s : sdcard_t),
      fat_get_next_free_cluster_loop fuel sd c = some (r, s) → io_step sd s
  | 0, _, _, _, _, h => by
    unfold fat_get_next_free_cluster_loop at h
    exact Option.noConfusion h
  | fuel + 1, sd, c, r, s, h => by
    have hfr := sd_read_block_frame sd (u32 (sd.fat_begin_sector + fat_entry_sector sd c))
    unfold fat_get_next_free_cluster_loop at h
    simp only at h
    repeat' split at h
    all_goals first
      | (injection h with h; injection h with _ h2; rw [← h2]
         first | exact io_step_refl sd | exact hfr.1)
      | exact io_step_trans hfr.1 (fat_get_next_free_cluster_loop_io fuel _ _ _ _ h)

theorem fat_get_next_free_cluster_io {fuel : Nat} {sd : sdcard_t} {c r : Nat}
    {s : sdcard_t} (h : fat_get_next_free_cluster fuel sd c = some (r, s)) : io_step sd s := by
  unfold fat_get_next_free_cluster at h
  simp only at h
  repeat' split at h
  all_goals first
    | (injection h with h; injection h with _ h2; rw [← h2]; exact io_step_refl sd)
    | exact fat_get_next_free_cluster_loop_io fuel _ _ _ _ h

theorem fat_allocate_cluster_io {fuel : Nat} {sd : sdcard_t} {c r : Nat} {s : sdcard_t}
    (h : fat_allocate_cluster fuel sd c = some (r, s)) : io_step sd s := by
  unfold fat_allocate_cluster at h
  cases h1 : fat_get_next_free_cluster fuel sd c with
  | none => rw [h1] at h; exact Option.noConfusion h
  | some p =>
    obtain ⟨n, s1⟩ := p
    rw [h1] at h
    have io1 := fat_get_next_free_cluster_io h1
    have io2 := fat_set_next_cluster_frame s1 c n
    have io3 := fat_set_next_cluster_frame (fat_set_next_cluster s1 c n).2 n 0xFFFFFFFF
    simp only at h
    split at h
    · injection h with h; injection h with _ h2; rw [← h2]; exact io1
    · split at h
      · injection h with h; injection h with _ h2; rw [← h2]; exact io_step_trans io1 io2
      · split at h
        · injection h with h; injection h with _ h2; rw [← h2]
          exact io_step_trans io1 (io_step_trans io2 io3)
        · injection h with h; injection h with _ h2; rw [← h2]
          exact io_step_trans io1 (io_step_trans io2 io3)

/-- The hop loop of `fat_write_sector` only touches the cache and the card. -/
theorem fat_write_sector_hops_io (fuel allocate : Nat) :
    ∀ (n : Nat) (sd : sdcard_t) (c : Nat) (x : Option Nat) (s : sdcard_t),
      fat_write_sector_hops fuel allocate n sd c = some (x, s) → io_step sd s
  | 0, sd, c, x, s, h => by
    unfold fat_write_sector_hops at h
    injection h with h; injection h with _ h2; rw [← h2]; exact io_step_refl sd
  | n + 1, sd, c, x, s, h => by
    have hfr := (fat_get_next_cluster_frame sd c).1
    unfold fat_write_sector_hops at h
    simp only at h
    split at h
    · split at h
      · cases ha : fat_allocate_cluster fuel (fat_get_next_cluster sd c).2 c with
        | none => rw [ha] at h; exact Option.noConfusion h
        | some p =>
          obtain ⟨nc, s1⟩ := p
          rw [ha] at h
          have ioa := fat_allocate_cluster_io ha
          simp only at h
          split at h
          · injection h with h; injection h with _ h2; rw [← h2]
            exact io_step_trans hfr ioa
          · exact io_step_trans hfr
              (io_step_trans ioa (fat_write_sector_hops_io fuel allocate n _ _ _ _ h))
      · injection h with h; injection h with _ h2; rw [← h2]; exact hfr
    · exact io_step_trans hfr (fat_write_sector_hops_io fuel allocate n _ _ _ _ h)

/-- Without allocation the hop loop writes nothing. -/
theorem fat_write_sector_hops_noalloc (fuel : Nat) :
    ∀ (n : Nat) (sd : sdcard_t) (c : Nat) (x : Option Nat) (s : sdcard_t),
      fat_write_sector_hops fuel 0 n sd c = some (x, s) → s.card = sd.card
  | 0, sd, c, x, s, h => by
    unfold fat_write_sector_hops at h
    injection h with h; injection h with _ h2; rw [← h2]
  | n + 1, sd, c, x, s, h => by
    have hfr := (fat_get_next_cluster_frame sd c).2.1
    unfold fat_write_sector_hops at h
    simp only at h
    split at h
    · rw [if_neg (fun hh => hh rfl)] at h
      injection h with h; injection h with _ h2; rw [← h2]; exact hfr
    · rw [fat_write_sector_hops_noalloc fuel n _ _ _ _ h, hfr]

/-- Without allocation the hop loop stops with the `return 0` when the sector lies
beyond a well-formed chain. -/
theorem fat_write_sector_hops_beyond (fuel : Nat) :
    ∀ (n : Nat) (sd : sdcard_t) (c : Nat) (rest : List Nat),
      volume_ok sd → reads_ok sd → fat_cache_ok sd → is_chain sd (c :: rest) →
      ¬ n < (c :: rest).length →
      ∃ s, fat_write_sector_hops fuel 0 n sd c = some (none, s)
  | 0, sd, c, rest, _, _, _, _, hn => by
    simp at hn
  | n + 1, sd, c, rest, hv, hr, hca, hch, hn => by
    have hc := chain_links_head hch
    obtain ⟨g1, g2, g3, g4⟩ := fat_get_next_cluster_cached hv hr hca hc.2
    cases rest with
    | nil =>
      have e : fat_next_in sd sd.card c = 0xFFFFFFFF := hch.2.2
      refine ⟨(fat_get_next_cluster sd c).2, ?_⟩
      unfold fat_write_sector_hops
      simp only
      rw [g1, e, if_pos rfl, if_neg (fun hh => hh rfl)]
    | cons d r =>
      have e : fat_next_in sd sd.card c = d := hch.2.2.1
      have hd := chain_links_head hch.2.2.2
      have hdc := volume_ok_dc_lt hv
      have hv1 := io_step_volume_ok g2 hv
      obtain ⟨s, h1⟩ := fat_write_sector_hops_beyond fuel n
        (fat_get_next_cluster sd c).2 d r hv1 (io_step_reads_ok g2 hr)
        (coherent_fat_cache_ok hv1 g4) ((io_step_is_chain g2 g3 _).2 hch.2.2.2)
        (by simpa using hn)
      refine ⟨s, ?_⟩
      unfold fat_write_sector_hops
      simp only
      rw [g1, e, if_neg (by omega), h1]

/-- The last steps of `fat_write_sector`: invalidate the cache, restore the saved
buffer, write the block. -/
theorem fat_write_sector_finish (s : sdcard_t) (tmp : Nat → Nat) (bsz target : Nat)
    (hb : s.blocksize = bsz) {sd1 : sdcard_t}
    (h : (if (sd_write_block
              { s with loaded_sector := 0xFFFFFFFF
                       buffer := memcpy s.buffer 0 tmp 0 bsz } target).1 = 0 then
            ((0 : Nat), (sd_write_block
              { s with loaded_sector := 0xFFFFFFFF
                       buffer := memcpy s.buffer 0 tmp 0 bsz } target).2)
          else
            (1, (sd_write_block
              { s with loaded_sector := 0xFFFFFFFF
                       buffer := memcpy s.buffer 0 tmp 0 bsz } target).2))
        = (1, sd1)) :
    sd1.loaded_sector = EOC ∧ (∀ i, i < bsz → sd1.buffer i = tmp i) ∧
      (∀ i, i < bsz → sd1.card target i = tmp i) ∧
      (∀ l, l ≠ target → sd1.card l = s.card l) := by
  by_cases h0 : (sd_write_block
      { s with loaded_sector := 0xFFFFFFFF
               buffer := memcpy s.buffer 0 tmp 0 bsz } target).1 = 0
  · rw [if_pos h0] at h
    exact absurd (congrArg Prod.fst h) Nat.zero_ne_one
  · rw [if_neg h0] at h
    have h2 := congrArg Prod.snd h
    dsimp only at h2
    obtain ⟨w1, w2, w3, w4⟩ := sd_write_block_success _ target h0
    rw [h2] at w1 w2 w3 w4
    have hm : ∀ i, i < bsz → memcpy s.buffer 0 tmp 0 bsz i = tmp i := by
      intro i hi
      unfold memcpy
      rw [if_pos ⟨Nat.zero_le _, by omega⟩]
      simp
    refine ⟨w1, fun i hi => ?_, fun i hi => ?_, fun l hl => w4 l hl⟩
    · rw [w2]; exact hm i hi
    · rw [w3 i (by show s.blocksize > i; omega)]; exact hm i hi

/-- Claim C27 (the chain-level sector write commits the staged buffer).  For every
state, first cluster, sector offset `s` and flag `allocate`:
if `fat_write_sector` returns 1 then `loaded_sector` is `-1`, the sector buffer
holds again what it held at the call, and some block of the card holds it too;
on a well-formed chain `first :: rest` that reaches sector `s` (well-formed volume,
readable blocks, a cache that is right about the FAT), that block is the one the
sector translates to, and no other block has changed;
and when the chain does not reach sector `s` and `allocate` is 0, the call returns 0
and the card is as before. -/
theorem fat_write_sector_commits (fuel : Nat) (sd : sdcard_t) (first s allocate : Nat) :
    (∀ sd1, fat_write_sector fuel sd first s allocate = some (1, sd1) →
      sd1.loaded_sector = EOC ∧ (∀ i, i < sd.blocksize → sd1.buffer i = sd.buffer i) ∧
      ∃ lba, ∀ i, i < sd.blocksize → sd1.card lba i = sd.buffer i) ∧
    (∀ rest sd1, volume_ok sd → reads_ok sd → fat_cache_ok sd → is_chain sd (first :: rest) →
      s / sd.sectors_per_cluster < (first :: rest).length →
      fat_write_sector fuel sd first s allocate = some (1, sd1) →
      (∀ i, i < 512 → sd1.card (file_sector_lba sd first rest s) i = sd.buffer i) ∧
      (∀ l, l ≠ file_sector_lba sd first rest s → sd1.card l = sd.card l)) ∧
    (∀ rest, volume_ok sd → reads_ok sd → fat_cache_ok sd → is_chain sd (first :: rest) →
      ¬ s / sd.sectors_per_cluster < (first :: rest).length → allocate = 0 →
      ∃ sd1, fat_write_sector fuel sd first s allocate = some (0, sd1) ∧
        sd1.card = sd.card) := by
  refine ⟨fun sd1 h => ?_, fun rest sd1 hv hr hca hch hj h => ?_,
    fun rest hv hr hca hch hj ha => ?_⟩
  · -- any success
    unfold fat_write_sector at h
    by_cases g1 : sd.fattype = FAT16 ∧ first ≥ 0xFFF8
    · rw [if_pos g1] at h
      injection h with h
      exact absurd (congrArg Prod.fst h) Nat.zero_ne_one
    rw [if_neg g1] at h
    simp only at h
    by_cases g2 : sd.fattype ≠ FAT16 ∧
        (if sd.fattype = FAT16 then first else first &&& 0x0FFFFFFF) ≥ 0x0FFFFFF8
    · rw [if_pos g2] at h
      injection h with h
      exact absurd (congrArg Prod.fst h) Nat.zero_ne_one
    rw [if_neg g2] at h
    by_cases g3 : sd.malloc_ok = false
    · rw [if_pos g3] at h
      injection h with h
      exact absurd (congrArg Prod.fst h) Nat.zero_ne_one
    rw [if_neg g3] at h
    by_cases g4 : sd.fattype = FAT16 ∧
        (if sd.fattype = FAT16 then first else first &&& 0x0FFFFFFF) = 0
    · rw [if_pos g4] at h
      by_cases g5 : s ≥ sd.rootdir_sectors
      · rw [if_pos g5] at h
        injection h with h
        exact absurd (congrArg Prod.fst h) Nat.zero_ne_one
      · rw [if_neg g5] at h
        injection h with h
        obtain ⟨k1, k2, k3, _⟩ := fat_write_sector_finish sd sd.buffer sd.blocksize _ rfl h
        exact ⟨k1, k2, _, k3⟩
    · rw [if_neg g4] at h
      cases hh : fat_write_sector_hops fuel allocate (s / sd.sectors_per_cluster) sd
          (if sd.fattype = FAT16 then first else first &&& 0x0FFFFFFF) with
      | none => rw [hh] at h; exact Option.noConfusion h
      | some p =>
        obtain ⟨x, st⟩ := p
        rw [hh] at h
        have io := fat_write_sector_hops_io fuel allocate _ _ _ _ _ hh
        cases x with
        | none =>
          injection h with h
          exact absurd (congrArg Prod.fst h) Nat.zero_ne_one
        | some c =>
          injection h with h
          obtain ⟨k1, k2, k3, _⟩ := fat_write_sector_finish st sd.buffer sd.blocksize _
            (io_step_blocksize io) h
          exact ⟨k1, k2, _, k3⟩
  · -- inside a well-formed chain
    have hc := chain_links_head hch
    have hbe := volume_ok_below hv hc.2
    have hbs := hv.blocksize
    obtain ⟨st, h1, h2, h3⟩ := fat_write_sector_hops_chain fuel allocate
      (s / sd.sectors_per_cluster) sd first rest hv hr hca hch hj
    have hm1 := getD_chain_mem hch hj
    have hml := Nat.mod_lt s hv.spc_pos
    have hb := cluster_lba_bounds sd hm1.1 hm1.2 hml
    have hdl := hv.data_lba
    have hmod : s - s / sd.sectors_per_cluster * sd.sectors_per_cluster
        = s % sd.sectors_per_cluster := by
      rw [Nat.mod_def, Nat.mul_comm]
    have htarget : u32 (fat_get_cluster_sector st
        ((first :: rest).getD (s / sd.sectors_per_cluster) 0xFFFFFFFF)
        + (s - s / sd.sectors_per_cluster * sd.sectors_per_cluster))
        = file_sector_lba sd first rest s := by
      rw [io_step_fat_get_cluster_sector h2, fat_get_cluster_sector_valid hv hm1.1 hm1.2, hmod]
      unfold file_sector_lba
      unfold cluster_lba at hb ⊢
      unfold u32
      omega
    unfold below_eoc at hbe
    have hcl : (if sd.fattype = FAT16 then first else first &&& 0x0FFFFFFF) = first := by
      by_cases hf : sd.fattype = FAT16
      · rw [if_pos hf]
      · rw [if_neg hf] at hbe; rw [if_neg hf, land_below first hbe]
    have hg1 : ¬ (sd.fattype = FAT16 ∧ first ≥ 0xFFF8) := by
      rintro ⟨hf, h⟩; rw [if_pos hf] at hbe; omega
    have hg2 : ¬ (sd.fattype ≠ FAT16 ∧ first ≥ 0x0FFFFFF8) := by
      rintro ⟨hf, h⟩; rw [if_neg hf] at hbe; omega
    have hg3 : ¬ (sd.fattype = FAT16 ∧ first = 0) := by
      rintro ⟨_, h⟩; omega
    unfold fat_write_sector at h
    simp only [hcl] at h
    rw [if_neg hg1, if_neg hg2] at h
    by_cases g3 : sd.malloc_ok = false
    · rw [if_pos g3] at h
      injection h with h
      exact absurd (congrArg Prod.fst h) Nat.zero_ne_one
    rw [if_neg g3, if_neg hg3, h1] at h
    simp only [htarget] at h
    injection h with h
    obtain ⟨_, _, k3, k4⟩ := fat_write_sector_finish st sd.buffer sd.blocksize _
      (io_step_blocksize h2) h
    rw [hbs] at k3
    exact ⟨k3, fun l hl => by rw [k4 l hl, h3]⟩
  · -- beyond the chain, no allocation
    subst ha
    have hc := chain_links_head hch
    have hbe := volume_ok_below hv hc.2
    unfold below_eoc at hbe
    have hcl : (if sd.fattype = FAT16 then first else first &&& 0x0FFFFFFF) = first := by
      by_cases hf : sd.fattype = FAT16
      · rw [if_pos hf]
      · rw [if_neg hf] at hbe; rw [if_neg hf, land_below first hbe]
    have hg1 : ¬ (sd.fattype = FAT16 ∧ first ≥ 0xFFF8) := by
      rintro ⟨hf, h⟩; rw [if_pos hf] at hbe; omega
    have hg2 : ¬ (sd.fattype ≠ FAT16 ∧ first ≥ 0x0FFFFFF8) := by
      rintro ⟨hf, h⟩; rw [if_neg hf] at hbe; omega
    have hg3 : ¬ (sd.fattype = FAT16 ∧ first = 0) := by
      rintro ⟨_, h⟩; omega
    obtain ⟨st, h1⟩ := fat_write_sector_hops_beyond fuel (s / sd.sectors_per_cluster) sd
      first rest hv hr hca hch hj
    have hcard := fat_write_sector_hops_noalloc fuel _ _ _ _ _ h1
    unfold fat_write_sector
    simp only [hcl]
    rw [if_neg hg1, if_neg hg2]
    by_cases g3 : sd.malloc_ok = false
    · rw [if_pos g3]
      exact ⟨sd, rfl, rfl⟩
    · rw [if_neg g3, if_neg hg3, h1]
      exact ⟨st, rfl, hcard⟩

set_option maxRecDepth 100000 in
theorem demo32_staged_chain_3_4 (B : Nat → Nat) :
    is_chain (demo32_staged [0x0FFFFFF8, 0x0FFFFFFF, 0x0FFFFFFF, 4, 0x0FFFFFFF] 0 B) [3, 4] :=
  demo32_chain_3_4

set_option maxRecDepth 100000 in
/-- Instance of C27: on the FAT32 demo volume with the chain `3 -> 4` (8 sectors per
cluster) and the pattern `demo_data` staged in the buffer, writing sector 9 returns
1, leaves `loaded_sector = -1`, the pattern in the buffer and in block
`4128 + 2 * 8 + 1`; writing sector 16 without allocation returns 0 and leaves the
card as it was. -/
theorem fat_write_sector_commits_witness :
    (∃ sd1,
      fat_write_sector 9
        (demo32_staged [0x0FFFFFF8, 0x0FFFFFFF, 0x0FFFFFFF, 4, 0x0FFFFFFF] 0 demo_data) 3 9 0
        = some (1, sd1) ∧
      sd1.loaded_sector = EOC ∧ (∀ i, i < 512 → sd1.buffer i = demo_data i) ∧
      (∀ i, i < 512 → sd1.card 4145 i = demo_data i)) ∧
    (∃ sd1,
      fat_write_sector 9
        (demo32_staged [0x0FFFFFF8, 0x0FFFFFFF, 0x0FFFFFFF, 4, 0x0FFFFFFF] 0 demo_data) 3 16 0
        = some (0, sd1) ∧
      sd1.card
        = (demo32_staged [0x0FFFFFF8, 0x0FFFFFFF, 0x0FFFFFFF, 4, 0x0FFFFFFF] 0
            demo_data).card) := by
  have hv : volume_ok
      (demo32_staged [0x0FFFFFF8, 0x0FFFFFFF, 0x0FFFFFFF, 4, 0x0FFFFFFF] 0 demo_data) :=
    io_step_volume_ok ⟨_, _, _, rfl⟩ (demo32_volume_ok _ 0)
  have hr : reads_ok
      (demo32_staged [0x0FFFFFF8, 0x0FFFFFFF, 0x0FFFFFFF, 4, 0x0FFFFFFF] 0 demo_data) :=
    fun _ => rfl
  have hw : writes_ok
      (demo32_staged [0x0FFFFFF8, 0x0FFFFFFF, 0x0FFFFFFF, 4, 0x0FFFFFFF] 0 demo_data) :=
    ⟨rfl, fun _ => rfl⟩
  have hca : fat_cache_ok
      (demo32_staged [0x0FFFFFF8, 0x0FFFFFFF, 0x0FFFFFFF, 4, 0x0FFFFFFF] 0 demo_data) :=
    coherent_fat_cache_ok hv (fun h => absurd rfl h)
  constructor
  · obtain ⟨sd1, e, _⟩ := @fat_write_sector_chain _ hv hr hw rfl hca 9 3 [4]
      (demo32_staged_chain_3_4 demo_data) 0 9 (by decide)
    have a := (fat_write_sector_commits 9 _ 3 9 0).1 sd1 e
    have b := (fat_write_sector_commits 9 _ 3 9 0).2.1 [4] sd1 hv hr hca
      (demo32_staged_chain_3_4 demo_data) (by decide) e
    exact ⟨sd1, e, a.1, a.2.1, b.1⟩
  · exact (fat_write_sector_commits 9 _ 3 16 0).2.2 [4] hv hr hca
      (demo32_staged_chain_3_4 demo_data) (by decide) rfl



theorem find_range_pos (S : Nat → Bool) (p m : Nat) (hm : 0 < m) (h : S p = true) :
    (List.range' p m).find? S = some p := by
  obtain ⟨k, rfl⟩ : ∃ k, m = k + 1 := ⟨m - 1, by omega⟩
  rw [List.range'_succ, List.find?_cons, h]

theorem find_range_neg (S : Nat → Bool) (p m : Nat) (hm : 0 < m) (h : S p = false) :
    (List.range' p m).find? S = (List.range' (p + 1) (m - 1)).find? S := by
  obtain ⟨k, rfl⟩ : ∃ k, m = k + 1 := ⟨m - 1, by omega⟩
  rw [List.range'_succ, List.find?_cons, h]
  rfl

theorem lfn_entry_not_sfn (buf : Nat → Nat) (off : Nat)
    (h : fat_is_lfn_entry buf off = true) : fat_is_sfn_entry buf off = false := by
  unfold fat_is_lfn_entry at h
  unfold fat_is_sfn_entry
  simp only [decide_eq_true_eq] at h
  have h1 : buf (off + 11) &&& 0x10 = 0 := by
    have e : buf (off + 11) &&& 0x10 = (buf (off + 11) &&& 0x3F) &&& 0x10 := by
      rw [Nat.land_assoc]; rfl
    rw [e, h]; decide
  have h2 : buf (off + 11) &&& 0x20 = 0 := by
    have e : buf (off + 11) &&& 0x20 = (buf (off + 11) &&& 0x3F) &&& 0x20 := by
      rw [Nat.land_assoc]; rfl
    rw [e, h]; decide
  simp only [decide_eq_false_iff_not, not_and, not_or, not_not]
  intro _ _ _
  exact ⟨h1, h2⟩

theorem free_entry_not_sfn (buf : Nat → Nat) (off : Nat)
    (h : fat_is_free_entry buf off = true) : fat_is_sfn_entry buf off = false := by
  unfold fat_is_free_entry at h
  unfold fat_is_sfn_entry
  simp only [decide_eq_true_eq] at h
  simp only [decide_eq_false_iff_not, not_and]
  intro a b
  rcases h with h | h
  · exact absurd h a
  · exact absurd h b

theorem fat_find_next_file_entries_spec (buf : Nat → Nat) (S L : Nat → Bool) (b t : Nat)
    (hS : ∀ e, e < 16 → fat_is_sfn_entry buf (e * 32) = S (b + e))
    (hL : ∀ e, e < 16 → fat_is_last_entry buf (e * 32) = L (b + e))
    (hlast : L t = true) (hfirst : ∀ q, q < t → L q = false) (h32 : 32 * t < 4294967296) :
    ∀ (n e : Nat) (h : fat_handle) (lfn : Option lfn_cache), e ≤ 16 → 16 - e < n →
      b + e ≤ t → h.ptr = 32 * (b + e) →
      ∃ lfn1, fat_find_next_file_entries buf 512 n (e * 32) h lfn =
        match (List.range' (b + e) (min t (b + 16) - (b + e))).find? S with
        | some q => next_scan.ret (some ((q - b) * 32)) { h with ptr := 32 * (q + 1) } lfn1
        | none =>
          if t < b + 16 then next_scan.ret none { h with ptr := 32 * t } lfn1
          else next_scan.next { h with ptr := 32 * (b + 16) } lfn1 := by
  intro n
  induction n with
  | zero => intro e h lfn _ hn; omega
  | succ n ih =>
    intro e h lfn he hn hle hp
    unfold fat_find_next_file_entries
    by_cases c16 : e = 16
    · subst c16
      have c : ¬ (16 * 32 < 512) := by decide
      rw [if_neg c]
      have hm : min t (b + 16) - (b + 16) = 0 := by omega
      have c2 : ¬ (t < b + 16) := by omega
      rw [hm]
      simp only [List.range'_zero, List.find?_nil, if_neg c2]
      refine ⟨lfn, ?_⟩
      rw [← hp]
    · have hlt : e < 16 := by omega
      have c : e * 32 < 512 := by omega
      rw [if_pos c]
      by_cases ct : t = b + e
      · have hl : fat_is_last_entry buf (e * 32) = true := by rw [hL e hlt, ← ct]; exact hlast
        rw [if_pos hl]
        have hm : min t (b + 16) - (b + e) = 0 := by omega
        have c2 : t < b + 16 := by omega
        rw [hm]
        simp only [List.range'_zero, List.find?_nil, if_pos c2]
        refine ⟨lfn.map (fun _ => lfn_cache_reset), ?_⟩
        rw [ct, ← hp]
      · have hl : fat_is_last_entry buf (e * 32) = false := by
          rw [hL e hlt]; exact hfirst _ (by omega)
        have hl2 : ¬ (fat_is_last_entry buf (e * 32) = true) := by rw [hl]; decide
        rw [if_neg hl2]
        have hu : u32 (h.ptr + 32) = 32 * (b + (e + 1)) := by
          rw [hp]; unfold u32; omega
        have ho : u32 (e * 32 + 32) = (e + 1) * 32 := by unfold u32; omega
        have hpos : 0 < min t (b + 16) - (b + e) := by omega
        have hm : min t (b + 16) - (b + e) - 1 = min t (b + 16) - (b + (e + 1)) := by omega
        have hb1 : b + e + 1 = b + (e + 1) := by omega
        by_cases cs : S (b + e) = true
        · have hs : fat_is_sfn_entry buf (e * 32) = true := by rw [hS e hlt]; exact cs
          have hf : ¬ (fat_is_free_entry buf (e * 32) = true) := by
            intro hf; rw [free_entry_not_sfn _ _ hf] at hs; exact absurd hs (by decide)
          have hlf : ¬ (fat_is_lfn_entry buf (e * 32) = true) := by
            intro hf; rw [lfn_entry_not_sfn _ _ hf] at hs; exact absurd hs (by decide)
          simp only [if_neg hf, if_neg hlf, if_pos hs]
          rw [find_range_pos S _ _ hpos cs]
          refine ⟨lfn, ?_⟩
          simp only [hu]
          have e1 : (b + e - b) * 32 = e * 32 := by rw [Nat.add_sub_cancel_left]
          rw [e1, hb1]
        · have cs2 : S (b + e) = false := by
            cases hx : S (b + e)
            · rfl
            · exact absurd hx cs
          have hs : ¬ (fat_is_sfn_entry buf (e * 32) = true) := by
            rw [hS e hlt, cs2]; decide
          rw [find_range_neg S _ _ hpos cs2, hm, hb1]
          simp only [hu, ho, if_neg hs]
          have key : ∀ lfn2, ∃ lfn1, fat_find_next_file_entries buf 512 n ((e + 1) * 32)
              { h with ptr := 32 * (b + (e + 1)) } lfn2 =
              match (List.range' (b + (e + 1)) (min t (b + 16) - (b + (e + 1)))).find? S with
              | some q => next_scan.ret (some ((q - b) * 32)) { h with ptr := 32 * (q + 1) } lfn1
              | none =>
                if t < b + 16 then next_scan.ret none { h with ptr := 32 * t } lfn1
                else next_scan.next { h with ptr := 32 * (b + 16) } lfn1 := by
            intro lfn2
            exact ih (e + 1) { h with ptr := 32 * (b + (e + 1)) } lfn2 (by omega) (by omega)
              (by omega) rfl
          split
          · exact key _
          · split
            · exact key _
            · exact key _

theorem find_range_split (S : Nat → Bool) : ∀ (a p m : Nat), a ≤ m →
    (List.range' p m).find? S =
      ((List.range' p a).find? S).or ((List.range' (p + a) (m - a)).find? S) := by
  intro a
  induction a with
  | zero => intro p m _; rfl
  | succ a ih =>
    intro p m ha
    cases hs : S p with
    | true =>
      rw [find_range_pos S p m (by omega) hs, find_range_pos S p (a + 1) (by omega) hs]
      rfl
    | false =>
      rw [find_range_neg S p m (by omega) hs, find_range_neg S p (a + 1) (by omega) hs,
        ih (p + 1) (m - 1) (by omega)]
      have e1 : a + 1 - 1 = a := rfl
      have e2 : p + 1 + a = p + (a + 1) := by omega
      have e3 : m - 1 - a = m - (a + 1) := by omega
      rw [e1, e2, e3]

theorem find_range_mem (S : Nat → Bool) (p m q : Nat)
    (h : (List.range' p m).find? S = some q) : p ≤ q ∧ q < p + m ∧ S q = true := by
  have h1 := List.mem_of_find?_eq_some h
  have h2 := List.find?_some h
  rw [List.mem_range'_1] at h1
  exact ⟨h1.1, h1.2, h2⟩

theorem dir_record_classify (sd : sdcard_t) (card : Nat → Nat → Nat) (D : Nat) (cs : List Nat)
    (buf : Nat → Nat) (j : Nat)
    (hb : ∀ i, i < 512 → buf i = card (dir_sector_lba sd D cs j) i) (e : Nat) (he : e < 16) :
    fat_is_sfn_entry buf (e * 32) = fat_is_sfn_entry (dir_record sd card D cs (16 * j + e)) 0 ∧
    fat_is_last_entry buf (e * 32) = fat_is_last_entry (dir_record sd card D cs (16 * j + e)) 0 := by
  have e1 : (16 * j + e) / 16 = j := by omega
  have e2 : (16 * j + e) % 16 = e := by omega
  unfold fat_is_sfn_entry fat_is_last_entry dir_record
  rw [e1, e2, hb (e * 32) (by omega), hb (e * 32 + 11) (by omega)]
  exact ⟨rfl, rfl⟩

theorem fat_find_next_file_loop_spec (D : Nat) (cs : List Nat) (S L : Nat → Bool) (t : Nat)
    (hlast : L t = true) (hfirst : ∀ q, q < t → L q = false) (h32 : 32 * t < 4294967296) :
    ∀ (n j fuel : Nat) (sd : sdcard_t) (h : fat_handle) (lfn : Option lfn_cache) (e : Nat),
      volume_ok sd → coherent sd → reads_ok sd → is_dir sd D cs →
      (∀ q, S q = fat_is_sfn_entry (dir_record sd sd.card D cs q) 0) →
      (∀ q, L q = fat_is_last_entry (dir_record sd sd.card D cs q) 0) →
      t / 16 < dir_sector_count sd D cs → j + n = t / 16 → n < fuel → e ≤ 16 →
      16 * j + e ≤ t → h.ptr = 32 * (16 * j + e) →
      ∃ dir h1 lfn1 s1, fat_find_next_file_loop D fuel sd h lfn j (e * 32) =
          some (dir, h1, lfn1, s1) ∧
        io_step sd s1 ∧ s1.card = sd.card ∧ coherent s1 ∧ h1.datacluster = h.datacluster ∧
        (∀ q, (List.range' (16 * j + e) (t - (16 * j + e))).find? S = some q →
          dir = some (q % 16 * 32) ∧ h1.ptr = 32 * (q + 1) ∧
          s1.loaded_sector = dir_sector_lba sd D cs (q / 16) ∧
          ∀ i, i < 512 → s1.buffer i = sd.card (dir_sector_lba sd D cs (q / 16)) i) ∧
        ((List.range' (16 * j + e) (t - (16 * j + e))).find? S = none →
          dir = none ∧ h1.ptr = 32 * t) := by
  intro n
  induction n with
  | zero =>
    intro j fuel sd h lfn e hv hco hr hd hS hL ht hj hfuel he hle hp
    obtain ⟨f, rfl⟩ : ∃ f, fuel = f + 1 := ⟨fuel - 1, by omega⟩
    have hfr := fat_read_sector_frame sd D j
    obtain ⟨r1, r2, r3⟩ := (fat_read_sector_dir hv hco hr hd j).1 (by omega)
    have hbs : (fat_read_sector sd D j).2.blocksize = 512 := by
      rw [io_step_blocksize hfr.1]; exact hv.blocksize
    obtain ⟨lfn1, hent⟩ := fat_find_next_file_entries_spec (fat_read_sector sd D j).2.buffer
      S L (16 * j) t
      (fun e he => by rw [hS]; exact (dir_record_classify sd sd.card D cs _ j r3 e he).1)
      (fun e he => by rw [hL]; exact (dir_record_classify sd sd.card D cs _ j r3 e he).2)
      hlast hfirst h32 (512 / 32 + 1) e h lfn he (by omega) hle hp
    have hmin : min t (16 * j + 16) - (16 * j + e) = t - (16 * j + e) := by omega
    rw [hmin] at hent
    have c2 : t < 16 * j + 16 := by omega
    unfold fat_find_next_file_loop
    simp only
    rw [if_neg (by rw [r1]; omega), hbs, hent]
    cases hfind : (List.range' (16 * j + e) (t - (16 * j + e))).find? S with
    | none =>
      simp only [if_pos c2]
      exact ⟨_, _, _, _, rfl, hfr.1, hfr.2.1, hfr.2.2 hco, rfl,
        fun q hq => Option.noConfusion hq, fun _ => ⟨rfl, rfl⟩⟩
    | some q =>
      simp only
      have hm := find_range_mem S _ _ _ hfind
      have hq16 : q / 16 = j := by omega
      have hqm : q % 16 * 32 = (q - 16 * j) * 32 := by omega
      refine ⟨_, _, _, _, rfl, hfr.1, hfr.2.1, hfr.2.2 hco, rfl, fun q1 hq1 => ?_,
        fun hx => Option.noConfusion hx⟩
      injection hq1 with hq1
      subst hq1
      rw [hq16, hqm]
      exact ⟨rfl, rfl, r2, r3⟩
  | succ n ih =>
    intro j fuel sd h lfn e hv hco hr hd hS hL ht hj hfuel he hle hp
    obtain ⟨f, rfl⟩ : ∃ f, fuel = f + 1 := ⟨fuel - 1, by omega⟩
    have hfr := fat_read_sector_frame sd D j
    obtain ⟨r1, r2, r3⟩ := (fat_read_sector_dir hv hco hr hd j).1 (by omega)
    have hcnt := dir_sector_count_lt hv hd
    have hbs : (fat_read_sector sd D j).2.blocksize = 512 := by
      rw [io_step_blocksize hfr.1]; exact hv.blocksize
    have hle2 : 16 * j + 16 ≤ t := by omega
    obtain ⟨lfn1, hent⟩ := fat_find_next_file_entries_spec (fat_read_sector sd D j).2.buffer
      S L (16 * j) t
      (fun e he => by rw [hS]; exact (dir_record_classify sd sd.card D cs _ j r3 e he).1)
      (fun e he => by rw [hL]; exact (dir_record_classify sd sd.card D cs _ j r3 e he).2)
      hlast hfirst h32 (512 / 32 + 1) e h lfn he (by omega) hle hp
    have hmin : min t (16 * j + 16) - (16 * j + e) = 16 - e := by omega
    rw [hmin] at hent
    have c2 : ¬ (t < 16 * j + 16) := by omega
    have hsplit := find_range_split S (16 - e) (16 * j + e) (t - (16 * j + e)) (by omega)
    have e1 : 16 * j + e + (16 - e) = 16 * (j + 1) + 0 := by omega
    have e2 : t - (16 * j + e) - (16 - e) = t - (16 * (j + 1) + 0) := by omega
    rw [e1, e2] at hsplit
    unfold fat_find_next_file_loop
    simp only
    rw [if_neg (by rw [r1]; omega), hbs, hent]
    cases hfind : (List.range' (16 * j + e) (16 - e)).find? S with
    | some q =>
      simp only
      rw [hfind] at hsplit
      have hm := find_range_mem S _ _ _ hfind
      have hq16 : q / 16 = j := by omega
      have hqm : q % 16 * 32 = (q - 16 * j) * 32 := by omega
      refine ⟨_, _, _, _, rfl, hfr.1, hfr.2.1, hfr.2.2 hco, rfl, fun q1 hq1 => ?_,
        fun hx => ?_⟩
      · rw [hsplit] at hq1
        injection hq1 with hq1
        subst hq1
        rw [hq16, hqm]
        exact ⟨rfl, rfl, r2, r3⟩
      · rw [hsplit] at hx
        exact Option.noConfusion hx
    | none =>
      simp only [if_neg c2]
      rw [hfind] at hsplit
      have hu : u32 (j + 1) = j + 1 := by unfold u32; omega
      rw [hu]
      obtain ⟨dir, h1, lfn2, s1, k0, k1, k2, k3, k4, k5, k6⟩ := ih (j + 1) f
        (fat_read_sector sd D j).2 { h with ptr := 32 * (16 * j + 16) } lfn1 0
        (io_step_volume_ok hfr.1 hv) (hfr.2.2 hco) (io_step_reads_ok hfr.1 hr)
        ((io_step_is_dir hfr.1 hfr.2.1 _ _).2 hd)
        (fun q => by rw [hS, hfr.2.1, io_step_dir_record hfr.1])
        (fun q => by rw [hL, hfr.2.1, io_step_dir_record hfr.1])
        (by rw [io_step_dir_sector_count hfr.1]; exact ht) (by omega) (by omega) (by omega)
        (by omega) (by show 32 * (16 * j + 16) = 32 * (16 * (j + 1) + 0); omega)
      rw [hsplit]
      rw [hfr.2.1, io_step_dir_sector_lba hfr.1] at k5
      exact ⟨dir, h1, lfn2, s1, k0, io_step_trans hfr.1 k1, by rw [k2, hfr.2.1], k3, k4,
        k5, k6⟩

theorem filter_range_none (S : Nat → Bool) : ∀ (m p : Nat),
    (List.range' p m).find? S = none → (List.range' p m).filter S = [] := by
  intro m
  induction m with
  | zero => intro p _; rfl
  | succ m ih =>
    intro p h
    cases hs : S p with
    | true => rw [find_range_pos S p (m + 1) (by omega) hs] at h; exact Option.noConfusion h
    | false =>
      rw [find_range_neg S p (m + 1) (by omega) hs] at h
      rw [List.range'_succ, List.filter_cons_of_neg (by rw [hs]; decide)]
      exact ih (p + 1) h

theorem filter_range_some (S : Nat → Bool) (q : Nat) : ∀ (m p : Nat),
    (List.range' p m).find? S = some q →
    (List.range' p m).filter S = q :: (List.range' (q + 1) (p + m - (q + 1))).filter S := by
  intro m
  induction m with
  | zero => intro p h; exact Option.noConfusion h
  | succ m ih =>
    intro p h
    cases hs : S p with
    | true =>
      rw [find_range_pos S p (m + 1) (by omega) hs] at h
      injection h with h
      subst h
      rw [List.range'_succ, List.filter_cons_of_pos hs]
      have e : p + (m + 1) - (p + 1) = m := by omega
      rw [e]
    | false =>
      rw [find_range_neg S p (m + 1) (by omega) hs] at h
      rw [List.range'_succ, List.filter_cons_of_neg (by rw [hs]; decide)]
      have e : p + (m + 1) - (q + 1) = p + 1 + m - (q + 1) := by omega
      rw [e]
      exact ih (p + 1) h

/-- One call of `fat_find_next_file` on a well-formed directory whose first
end-of-directory record is record `t`, from position `32 * p` with `p ≤ t`: it returns,
and answers the first short-name record at or after `p` and before `t`. -/
theorem fat_find_next_file_spec (D : Nat) (cs : List Nat) (S L : Nat → Bool) (t : Nat)
    (hlast : L t = true) (hfirst : ∀ q, q < t → L q = false) (h32 : 32 * t < 4294967296)
    (fuel p : Nat) (sd : sdcard_t) (h : fat_handle) (lfn : Option lfn_cache)
    (hv : volume_ok sd) (hco : coherent sd) (hr : reads_ok sd) (hd : is_dir sd D cs)
    (hS : ∀ q, S q = fat_is_sfn_entry (dir_record sd sd.card D cs q) 0)
    (hL : ∀ q, L q = fat_is_last_entry (dir_record sd sd.card D cs q) 0)
    (ht : t / 16 < dir_sector_count sd D cs) (hfuel : t / 16 < fuel) (hp : p ≤ t)
    (hptr : h.ptr = 32 * p) (hD : h.datacluster = D) :
    ∃ dir h1 lfn1 s1, fat_find_next_file fuel sd h lfn = some (dir, h1, lfn1, s1) ∧
      io_step sd s1 ∧ s1.card = sd.card ∧ coherent s1 ∧ h1.datacluster = D ∧
      (∀ q, (List.range' p (t - p)).find? S = some q →
        dir = some (q % 16 * 32) ∧ h1.ptr = 32 * (q + 1) ∧
        s1.loaded_sector = dir_sector_lba sd D cs (q / 16) ∧
        ∀ i, i < 512 → s1.buffer i = sd.card (dir_sector_lba sd D cs (q / 16)) i) ∧
      ((List.range' p (t - p)).find? S = none → dir = none ∧ h1.ptr = 32 * t) := by
  have e1 : 32 * p / 512 = p / 16 := by omega
  have e2 : 32 * p % 512 = p % 16 * 32 := by omega
  have e3 : 16 * (p / 16) + p % 16 = p := by omega
  obtain ⟨dir, h1, lfn1, s1, k0, k1, k2, k3, k4, k5, k6⟩ :=
    fat_find_next_file_loop_spec D cs S L t hlast hfirst h32 (t / 16 - p / 16) (p / 16) fuel sd h
      (lfn.map (fun _ => lfn_cache_reset)) (p % 16) hv hco hr hd hS hL ht (by omega) (by omega)
      (by omega) (by omega) (by rw [e3]; exact hptr)
  rw [e3] at k5 k6
  unfold fat_find_next_file
  rw [hD, hv.blocksize, hptr, e1, e2]
  exact ⟨dir, h1, lfn1, s1, k0, k1, k2, k3, by rw [k4, hD], k5, k6⟩

/-- The calls of `fat_find_next_file` one after another, from position `32 * p`: call
number `k + 1` answers element `k` of the short-name records between `p` and `t`. -/
theorem fat_find_next_file_calls_spec (D : Nat) (cs : List Nat) (S L : Nat → Bool) (t : Nat)
    (hlast : L t = true) (hfirst : ∀ q, q < t → L q = false) (h32 : 32 * t < 4294967296)
    (fuel : Nat) (hfuel : t / 16 < fuel) :
    ∀ (k p : Nat) (sd : sdcard_t) (h : fat_handle),
      volume_ok sd → coherent sd → reads_ok sd → is_dir sd D cs →
      (∀ q, S q = fat_is_sfn_entry (dir_record sd sd.card D cs q) 0) →
      (∀ q, L q = fat_is_last_entry (dir_record sd sd.card D cs q) 0) →
      t / 16 < dir_sector_count sd D cs → p ≤ t → h.ptr = 32 * p → h.datacluster = D →
      ∃ dir h1 s1, fat_find_next_file_calls fuel k sd h = some (dir, h1, s1) ∧
        io_step sd s1 ∧ s1.card = sd.card ∧ coherent s1 ∧
        (∀ q, ((List.range' p (t - p)).filter S)[k]? = some q →
          dir = some (q % 16 * 32) ∧ h1.ptr = 32 * (q + 1) ∧
          s1.loaded_sector = dir_sector_lba sd D cs (q / 16) ∧
          ∀ i, i < 512 → s1.buffer i = sd.card (dir_sector_lba sd D cs (q / 16)) i) ∧
        (((List.range' p (t - p)).filter S)[k]? = none → dir = none ∧ h1.ptr = 32 * t) := by
  intro k
  induction k with
  | zero =>
    intro p sd h hv hco hr hd hS hL ht hp hptr hD
    obtain ⟨dir, h1, lfn1, s1, k0, k1, k2, k3, k4, k5, k6⟩ :=
      fat_find_next_file_spec D cs S L t hlast hfirst h32 fuel p sd h (some lfn_cache_reset)
        hv hco hr hd hS hL ht hfuel hp hptr hD
    unfold fat_find_next_file_calls
    rw [k0]
    refine ⟨dir, h1, s1, rfl, k1, k2, k3, fun q hq => ?_, fun hq => ?_⟩
    · cases hfind : (List.range' p (t - p)).find? S with
      | none =>
        rw [filter_range_none S _ _ hfind] at hq
        exact Option.noConfusion hq
      | some q1 =>
        rw [filter_range_some S q1 _ _ hfind, List.getElem?_cons_zero] at hq
        injection hq with hq
        subst hq
        exact k5 _ hfind
    · cases hfind : (List.range' p (t - p)).find? S with
      | none => exact k6 hfind
      | some q1 =>
        rw [filter_range_some S q1 _ _ hfind, List.getElem?_cons_zero] at hq
        exact Option.noConfusion hq
  | succ k ih =>
    intro p sd h hv hco hr hd hS hL ht hp hptr hD
    obtain ⟨dir, h1, lfn1, s1, k0, k1, k2, k3, k4, k5, k6⟩ :=
      fat_find_next_file_spec D cs S L t hlast hfirst h32 fuel p sd h (some lfn_cache_reset)
        hv hco hr hd hS hL ht hfuel hp hptr hD
    have hv1 := io_step_volume_ok k1 hv
    have hr1 := io_step_reads_ok k1 hr
    have hd1 := (io_step_is_dir k1 k2 D cs).2 hd
    have hS1 : ∀ q, S q = fat_is_sfn_entry (dir_record s1 s1.card D cs q) 0 := fun q => by
      rw [hS, k2, io_step_dir_record k1]
    have hL1 : ∀ q, L q = fat_is_last_entry (dir_record s1 s1.card D cs q) 0 := fun q => by
      rw [hL, k2, io_step_dir_record k1]
    have ht1 : t / 16 < dir_sector_count s1 D cs := by
      rw [io_step_dir_sector_count k1]; exact ht
    unfold fat_find_next_file_calls
    rw [k0]
    simp only
    cases hfind : (List.range' p (t - p)).find? S with
    | none =>
      obtain ⟨dir2, h2, s2, j0, j1, j2, j3, j5, j6⟩ := ih t s1 h1 hv1 k3 hr1 hd1 hS1 hL1 ht1
        (Nat.le_refl t) (k6 hfind).2 k4
      rw [filter_range_none S _ _ hfind]
      have en : (List.range' t (t - t)).filter S = [] := by rw [Nat.sub_self]; rfl
      rw [en] at j6
      exact ⟨dir2, h2, s2, j0, io_step_trans k1 j1, by rw [j2, k2], j3,
        fun q hq => Option.noConfusion hq, fun _ => j6 rfl⟩
    | some q1 =>
      have hm := find_range_mem S _ _ _ hfind
      obtain ⟨dir2, h2, s2, j0, j1, j2, j3, j5, j6⟩ := ih (q1 + 1) s1 h1 hv1 k3 hr1 hd1 hS1 hL1
        ht1 (by omega) (k5 q1 hfind).2.1 k4
      rw [filter_range_some S q1 _ _ hfind]
      have e : p + (t - p) - (q1 + 1) = t - (q1 + 1) := by omega
      rw [e, List.getElem?_cons_succ]
      rw [k2, io_step_dir_sector_lba k1] at j5
      exact ⟨dir2, h2, s2, j0, io_step_trans k1 j1, by rw [j2, k2], j3, j5, j6⟩

/-! ### C22: enumerating a directory -/

set_option maxRecDepth 1000000 in
/-- Claim C22 as stated fails in its last clause.  In a root directory whose records are
two long-name records, the short-name record `HELLO~1.TXT` (index 2), a deleted record
(index 3) and the end-of-directory record (index 4), the only short-name record is
record 2.  The first call returns it (offset 64 of the sector) and leaves the position
at 96; the second call, with nothing left to return, returns `NULL` and moves the
position over the deleted record to 128; only from the third call on does the
position stay where it is. -/
theorem fat_find_next_file_exhausted_moves :
    fat_is_last_entry (dir_record (demo32_root [0x0FFFFFF8, 0x0FFFFFFF, 0x0FFFFFFF]
      demo_dir_deleted) (demo32_root [0x0FFFFFF8, 0x0FFFFFFF, 0x0FFFFFFF]
      demo_dir_deleted).card 2 [] 4) 0 = true ∧
    sfn_indices (dir_record (demo32_root [0x0FFFFFF8, 0x0FFFFFFF, 0x0FFFFFFF]
      demo_dir_deleted) (demo32_root [0x0FFFFFF8, 0x0FFFFFFF, 0x0FFFFFFF]
      demo_dir_deleted).card 2 []) 4 = [2] ∧
    (fat_find_next_file_calls 9 0 (demo32_root [0x0FFFFFF8, 0x0FFFFFFF, 0x0FFFFFFF]
      demo_dir_deleted) (demo_dir_handle 2 0)).map (fun r => (r.1, r.2.1.ptr))
      = some (some 64, 96) ∧
    (fat_find_next_file_calls 9 1 (demo32_root [0x0FFFFFF8, 0x0FFFFFFF, 0x0FFFFFFF]
      demo_dir_deleted) (demo_dir_handle 2 0)).map (fun r => (r.1, r.2.1.ptr))
      = some (none, 128) ∧
    (fat_find_next_file_calls 9 2 (demo32_root [0x0FFFFFF8, 0x0FFFFFFF, 0x0FFFFFFF]
      demo_dir_deleted) (demo_dir_handle 2 0)).map (fun r => (r.1, r.2.1.ptr))
      = some (none, 128) := by
  decide

/-- Claim C22 (amended): on a well-formed directory `D :: cs` whose first
end-of-directory record is record `t` (within the directory, `32 * t` below `2^32`),
with a working card and fuel above the sector of record `t`, starting from a handle
at position 0, every call of `fat_find_next_file` returns; the short-name records
among `r0 .. r(t-1)` are listed in strictly increasing on-disk order, and call number
`k + 1` returns element `k` of that list: a pointer into the sector buffer to the 32
bytes of that record `rq`, leaving the position at `32 * (q + 1)`; once the list is
exhausted every call returns `NULL` and leaves the position at `32 * t`. -/
theorem fat_find_next_file_enumerates (fuel : Nat) (sd : sdcard_t) (D : Nat) (cs : List Nat)
    (t : Nat) (h : fat_handle)
    (hv : volume_ok sd) (hco : coherent sd) (hr : reads_ok sd) (hd : is_dir sd D cs)
    (ht : t / 16 < dir_sector_count sd D cs)
    (hlast : fat_is_last_entry (dir_record sd sd.card D cs t) 0 = true)
    (hfirst : ∀ q, q < t → fat_is_last_entry (dir_record sd sd.card D cs q) 0 = false)
    (h32 : 32 * t < 4294967296) (hfuel : t / 16 < fuel)
    (hD : h.datacluster = D) (hp : h.ptr = 0) :
    (sfn_indices (dir_record sd sd.card D cs) t).Pairwise (fun a b => a < b) ∧
    ∀ k, ∃ dir h1 s1, fat_find_next_file_calls fuel k sd h = some (dir, h1, s1) ∧
      s1.card = sd.card ∧
      (∀ q, (sfn_indices (dir_record sd sd.card D cs) t)[k]? = some q →
        dir = some (q % 16 * 32) ∧ h1.ptr = 32 * (q + 1) ∧
        ∀ i, i < 32 → s1.buffer (q % 16 * 32 + i) = dir_record sd sd.card D cs q i) ∧
      ((sfn_indices (dir_record sd sd.card D cs) t).length ≤ k →
        dir = none ∧ h1.ptr = 32 * t) := by
  refine ⟨List.Pairwise.filter _ (List.pairwise_lt_range t), fun k => ?_⟩
  obtain ⟨dir, h1, s1, j0, j1, j2, j3, j5, j6⟩ :=
    fat_find_next_file_calls_spec D cs
      (fun q => fat_is_sfn_entry (dir_record sd sd.card D cs q) 0)
      (fun q => fat_is_last_entry (dir_record sd sd.card D cs q) 0) t hlast hfirst h32 fuel
      hfuel k 0 sd h hv hco hr hd (fun _ => rfl) (fun _ => rfl) ht (Nat.zero_le t) hp hD
  have er : List.range' 0 (t - 0) = List.range t := by
    rw [Nat.sub_zero, List.range_eq_range']
  rw [er] at j5 j6
  refine ⟨dir, h1, s1, j0, j2, fun q hq => ?_, fun hk => ?_⟩
  · obtain ⟨a1, a2, _, a4⟩ := j5 q hq
    refine ⟨a1, a2, fun i hi => ?_⟩
    rw [a4 _ (by omega)]
    rfl
  · exact j6 (List.getElem?_eq_none hk)

set_option maxRecDepth 1000000 in
theorem demo32_root_is_dir_deleted :
    is_dir (demo32_root [0x0FFFFFF8, 0x0FFFFFFF, 0x0FFFFFFF] demo_dir_deleted) 2 [] := by
  simp only [is_dir, is_chain, chain_links]
  decide

set_option maxRecDepth 1000000 in
/-- Instance of C22: the root directory with the records long, long, `HELLO~1.TXT`,
deleted, end; the first call returns record 2 and leaves the position at 96, every
later call returns `NULL` with the position at 128. -/
theorem fat_find_next_file_enumerates_witness :
    sfn_indices (dir_record (demo32_root [0x0FFFFFF8, 0x0FFFFFFF, 0x0FFFFFFF]
      demo_dir_deleted) (demo32_root [0x0FFFFFF8, 0x0FFFFFFF, 0x0FFFFFFF]
      demo_dir_deleted).card 2 []) 4 = [2] ∧
    ((sfn_indices (dir_record (demo32_root [0x0FFFFFF8, 0x0FFFFFFF, 0x0FFFFFFF]
      demo_dir_deleted) (demo32_root [0x0FFFFFF8, 0x0FFFFFFF, 0x0FFFFFFF]
      demo_dir_deleted).card 2 []) 4).Pairwise (fun a b => a < b) ∧
    ∀ k, ∃ dir h1 s1, fat_find_next_file_calls 9 k (demo32_root
        [0x0FFFFFF8, 0x0FFFFFFF, 0x0FFFFFFF] demo_dir_deleted) (demo_dir_handle 2 0)
        = some (dir, h1, s1) ∧
      s1.card = (demo32_root [0x0FFFFFF8, 0x0FFFFFFF, 0x0FFFFFFF] demo_dir_deleted).card ∧
      (∀ q, (sfn_indices (dir_record (demo32_root [0x0FFFFFF8, 0x0FFFFFFF, 0x0FFFFFFF]
          demo_dir_deleted) (demo32_root [0x0FFFFFF8, 0x0FFFFFFF, 0x0FFFFFFF]
          demo_dir_deleted).card 2 []) 4)[k]? = some q →
        dir = some (q % 16 * 32) ∧ h1.ptr = 32 * (q + 1) ∧
        ∀ i, i < 32 → s1.buffer (q % 16 * 32 + i) =
          dir_record (demo32_root [0x0FFFFFF8, 0x0FFFFFFF, 0x0FFFFFFF] demo_dir_deleted)
            (demo32_root [0x0FFFFFF8, 0x0FFFFFFF, 0x0FFFFFFF] demo_dir_deleted).card 2 []
            q i) ∧
      ((sfn_indices (dir_record (demo32_root [0x0FFFFFF8, 0x0FFFFFFF, 0x0FFFFFFF]
          demo_dir_deleted) (demo32_root [0x0FFFFFF8, 0x0FFFFFFF, 0x0FFFFFFF]
          demo_dir_deleted).card 2 []) 4).length ≤ k →
        dir = none ∧ h1.ptr = 32 * 4)) :=
  ⟨by decide,
    fat_find_next_file_enumerates 9 (demo32_root [0x0FFFFFF8, 0x0FFFFFFF, 0x0FFFFFFF]
      demo_dir_deleted) 2 [] 4 (demo_dir_handle 2 0) (demo32_root_volume_ok _ _)
      (demo32_root_coherent _ _) (demo32_root_reads_ok _ _) demo32_root_is_dir_deleted
      (by decide) (by decide) (by decide) (by decide) (by decide) rfl rfl⟩



theorem get_path_part_loop_nil (part level : Nat) (out : List Nat) :
    get_path_part_loop part [] level out = out := by
  unfold get_path_part_loop; rfl

theorem get_path_part_loop_char (part c : Nat) (p : List Nat) (level : Nat) (out : List Nat)
    (h0 : c ≠ 0) (h47 : c ≠ 47) (hl : level ≤ part) :
    get_path_part_loop part (c :: p) level out =
      get_path_part_loop part p level (if level = part then out ++ [c] else out) := by
  cases p with
  | nil =>
    conv_lhs => rw [get_path_part_loop]
    rw [if_neg h0, if_neg h47, if_neg (by omega)]
  | cons d rest =>
    conv_lhs => rw [get_path_part_loop]
    rw [if_neg h0, if_neg h47, if_neg (by omega)]

theorem get_path_part_loop_skip (part : Nat) : ∀ (xs tail : List Nat) (level : Nat)
    (out : List Nat), (∀ c, c ∈ xs → c ≠ 0 ∧ c ≠ 47) → level < part →
    get_path_part_loop part (xs ++ tail) level out = get_path_part_loop part tail level out := by
  intro xs
  induction xs with
  | nil => intro tail level out _ _; rfl
  | cons c xs ih =>
    intro tail level out hx hl
    have hc := hx c (List.mem_cons_self c xs)
    rw [List.cons_append, get_path_part_loop_char part c _ level out hc.1 hc.2 (by omega),
      if_neg (by omega)]
    exact ih tail level out (fun d hd => hx d (List.mem_cons_of_mem c hd)) hl

theorem get_path_part_loop_take (part : Nat) : ∀ (xs tail : List Nat) (out : List Nat),
    (∀ c, c ∈ xs → c ≠ 0 ∧ c ≠ 47) →
    get_path_part_loop part (xs ++ tail) part out =
      get_path_part_loop part tail part (out ++ xs) := by
  intro xs
  induction xs with
  | nil => intro tail out _; rw [List.append_nil]; rfl
  | cons c xs ih =>
    intro tail out hx
    have hc := hx c (List.mem_cons_self c xs)
    rw [List.cons_append, get_path_part_loop_char part c _ part out hc.1 hc.2 (Nat.le_refl _),
      if_pos rfl, ih tail (out ++ [c]) (fun d hd => hx d (List.mem_cons_of_mem c hd)),
      List.append_assoc]
    rfl

theorem get_path_part_loop_stop (part : Nat) (hp : part < 255) (ys out : List Nat) :
    get_path_part_loop part (47 :: ys) part out = out := by
  have hu : u8 (part + 1) > part := by unfold u8; omega
  cases ys with
  | nil => rw [get_path_part_loop]; rfl
  | cons d rest =>
    rw [get_path_part_loop]
    rw [if_neg (by decide), if_pos rfl]
    by_cases hd : d = 0
    · simp only [if_pos hd]
    · simp only [if_neg hd, if_pos hu]

theorem get_path_part_loop_slash (part d : Nat) (ys : List Nat) (level : Nat) (out : List Nat)
    (h0 : d ≠ 0) (h47 : d ≠ 47) (hl : level < part) (hp : part ≤ 255) :
    get_path_part_loop part (47 :: d :: ys) level out =
      get_path_part_loop part (d :: ys) (level + 1) out := by
  have hu : u8 (level + 1) = level + 1 := by unfold u8; omega
  rw [get_path_part_loop_char part d ys (level + 1) out h0 h47 (by omega)]
  rw [get_path_part_loop]
  rw [if_neg (by decide), if_pos rfl]
  simp only [if_neg h0, hu]
  rw [if_neg (by omega)]

theorem path_join_cons_cons (p q : List Nat) (ps : List (List Nat)) :
    path_join (p :: q :: ps) = p ++ 47 :: path_join (q :: ps) := rfl

theorem path_join_head (d : Nat) (ds : List Nat) (qs : List (List Nat)) :
    ∃ ys, path_join ((d :: ds) :: qs) = d :: ys := by
  cases qs with
  | nil => exact ⟨ds, rfl⟩
  | cons q qs => exact ⟨ds ++ 47 :: path_join (q :: qs), rfl⟩

theorem get_path_part_loop_join (part : Nat) (hp : part ≤ 255) :
    ∀ (ps : List (List Nat)) (p : List Nat) (i : Nat) (out : List Nat),
      path_part_ok p → (∀ q, q ∈ ps → path_part_ok q) → i ≤ part →
      (part ≤ 254 ∨ i + ps.length ≤ part) →
      get_path_part_loop part (path_join (p :: ps)) i out =
        out ++ (p :: ps).getD (part - i) [] := by
  intro ps
  induction ps with
  | nil =>
    intro p i out hok _ hi _
    have e : path_join [p] = p ++ [] := by rw [List.append_nil]; rfl
    rw [e]
    by_cases c : i = part
    · subst c
      rw [get_path_part_loop_take i p [] out hok.2, get_path_part_loop_nil, Nat.sub_self]
      rfl
    · rw [get_path_part_loop_skip part p [] i out hok.2 (by omega), get_path_part_loop_nil]
      obtain ⟨m, hm⟩ : ∃ m, part - i = m + 1 := ⟨part - i - 1, by omega⟩
      rw [hm]
      simp
  | cons q qs ih =>
    intro p i out hok hps hi hb
    rw [path_join_cons_cons]
    by_cases c : i = part
    · subst c
      have h254 : i < 255 := by
        rcases hb with hb | hb
        · omega
        · simp only [List.length_cons] at hb; omega
      rw [get_path_part_loop_take i p _ out hok.2, get_path_part_loop_stop i h254, Nat.sub_self]
      rfl
    · have hq := hps q (List.mem_cons_self q qs)
      obtain ⟨d, ds, rfl⟩ : ∃ d ds, q = d :: ds := by
        cases q with
        | nil => exact absurd rfl hq.1
        | cons d ds => exact ⟨d, ds, rfl⟩
      obtain ⟨ys, hys⟩ := path_join_head d ds qs
      have hd := hq.2 d (List.mem_cons_self d ds)
      rw [get_path_part_loop_skip part p _ i out hok.2 (by omega)]
      have e2 : get_path_part_loop part (47 :: path_join ((d :: ds) :: qs)) i out =
          get_path_part_loop part (path_join ((d :: ds) :: qs)) (i + 1) out := by
        rw [hys]
        exact get_path_part_loop_slash part d ys i out hd.1 hd.2 (by omega) hp
      rw [e2, ih (d :: ds) (i + 1) out hq (fun r hr => hps r (List.mem_cons_of_mem _ hr))
        (by omega) (by simp only [List.length_cons] at hb; omega)]
      obtain ⟨m, hm⟩ : ∃ m, part - i = m + 1 := ⟨part - i - 1, by omega⟩
      have hm2 : part - (i + 1) = m := by omega
      rw [hm, hm2]
      rfl

/-- The function `get_path_part` on a path of `n ≤ 254` well-formed parts: part `k`
(from 1) is returned for `k ≤ n`, and there is no part `n + 1`. -/
theorem get_path_part_spec (lead : Bool) (parts : List (List Nat))
    (hparts : ∀ p, p ∈ parts → path_part_ok p) (hne : parts ≠ []) (k : Nat) (hk : 1 ≤ k)
    (hk2 : k ≤ 255) (hb : k ≤ 254 ∨ parts.length ≤ k) :
    get_path_part (path_of lead parts) k =
      (if k ≤ parts.length then 1 else 0, parts.getD (k - 1) []) := by
  obtain ⟨p, ps, rfl⟩ : ∃ p ps, parts = p :: ps := by
    cases parts with
    | nil => exact absurd rfl hne
    | cons p ps => exact ⟨p, ps, rfl⟩
  have hp := hparts p (List.mem_cons_self p ps)
  obtain ⟨d, ds, rfl⟩ : ∃ d ds, p = d :: ds := by
    cases p with
    | nil => exact absurd rfl hp.1
    | cons d ds => exact ⟨d, ds, rfl⟩
  have hd := hp.2 d (List.mem_cons_self d ds)
  obtain ⟨ys, hys⟩ := path_join_head d ds ps
  have key : get_path_part_loop k (path_join ((d :: ds) :: ps)) 1 [] =
      ((d :: ds) :: ps).getD (k - 1) [] := by
    rw [get_path_part_loop_join k hk2 ps (d :: ds) 1 [] hp
      (fun q hq => hparts q (List.mem_cons_of_mem _ hq)) hk
      (by simp only [List.length_cons] at hb; omega)]
    rfl
  have hout : get_path_part_loop k (path_of lead ((d :: ds) :: ps))
      (if (path_of lead ((d :: ds) :: ps)).headD 0 ≠ 47 then 1 else 0) [] =
      ((d :: ds) :: ps).getD (k - 1) [] := by
    cases lead with
    | false =>
      have e : path_of false ((d :: ds) :: ps) = path_join ((d :: ds) :: ps) := rfl
      rw [e]
      have e2 : (path_join ((d :: ds) :: ps)).headD 0 = d := by rw [hys]; rfl
      rw [e2, if_pos hd.2]
      exact key
    | true =>
      have e : path_of true ((d :: ds) :: ps) = 47 :: path_join ((d :: ds) :: ps) := rfl
      rw [e]
      have e2 : (47 :: path_join ((d :: ds) :: ps)).headD 0 = 47 := rfl
      rw [e2, if_neg (by simp)]
      rw [hys, get_path_part_loop_slash k d ys 0 [] hd.1 hd.2 (by omega) hk2, ← hys]
      exact key
  unfold get_path_part
  rw [if_neg (by omega)]
  simp only [hout]
  by_cases c : k ≤ ((d :: ds) :: ps).length
  · rw [if_pos c]
    have hlt : k - 1 < ((d :: ds) :: ps).length := by omega
    have hmem : ((d :: ds) :: ps).getD (k - 1) [] ∈ ((d :: ds) :: ps) := by
      rw [List.getD_eq_getElem _ _ hlt]
      exact List.getElem_mem _
    rw [if_neg (hparts _ hmem).1]
  · rw [if_neg c]
    have e : ((d :: ds) :: ps).getD (k - 1) [] = [] := by
      rw [List.getD_eq_default]
      omega
    rw [e, if_pos rfl]

theorem fat_opendir_loop_resolves (fuel : Nat) (path : List Nat) (parts : List (List Nat))
    (hN : parts.length ≤ 254)
    (hg : ∀ k, 1 ≤ k → k ≤ 255 → get_path_part path k =
      (if k ≤ parts.length then 1 else 0, parts.getD (k - 1) [])) :
    ∀ (rs done : List (List Nat)) (n : Nat) (sd : sdcard_t) (cluster : Nat),
      parts = done ++ rs → rs ≠ [] → rs.length ≤ n →
      fat_opendir_loop fuel path n sd (done.length + 1) cluster =
        (resolve_parts fuel rs sd cluster).map
          (fun r => (r.1.map (fun cd => opendir_handle [] cd.1 cd.2), r.2)) := by
  intro rs
  induction rs with
  | nil => intro done n sd cluster _ h; exact absurd rfl h
  | cons r rs ih =>
    intro done n sd cluster hparts _ hn
    obtain ⟨m, rfl⟩ : ∃ m, n = m + 1 := ⟨n - 1, by simp only [List.length_cons] at hn; omega⟩
    have hlen : parts.length = done.length + (rs.length + 1) := by
      rw [hparts, List.length_append, List.length_cons]
    have h1 := hg (done.length + 1) (by omega) (by omega)
    have e1 : parts.getD (done.length + 1 - 1) [] = r := by
      rw [hparts, Nat.add_sub_cancel, List.getD_append_right _ _ _ _ (Nat.le_refl _),
        Nat.sub_self]
      rfl
    rw [if_pos (by omega), e1] at h1
    have hu : u8 (done.length + 1 + 1) = done.length + 1 + 1 := by unfold u8; omega
    have h2 := hg (done.length + 1 + 1) (by omega) (by omega)
    unfold fat_opendir_loop
    conv_rhs => unfold resolve_parts
    rw [h1, hu, h2]
    simp only [ne_eq, one_ne_zero, not_false_eq_true, if_true]
    cases hf : fat_find_lfn fuel sd cluster r with
    | none => rfl
    | some x =>
      obtain ⟨res, s1⟩ := x
      cases res with
      | none => rfl
      | some dir =>
        simp only
        by_cases ha : s1.buffer (dir + 11) &&& ATTR_DIRECTORY = 0
        · rw [if_pos ha, if_pos ha]; rfl
        · rw [if_neg ha, if_neg ha]
          cases rs with
          | nil =>
            have hx : ¬ (done.length + 1 + 1 ≤ parts.length) := by
              rw [hlen]; simp only [List.length_nil]; omega
            have e2 : parts.getD (done.length + 1 + 1 - 1) [] = [] := by
              rw [List.getD_eq_default]
              rw [hlen]; simp only [List.length_nil]; omega
            rw [if_neg hx, e2]
            rfl
          | cons r2 rs2 =>
            have hx : done.length + 1 + 1 ≤ parts.length := by
              rw [hlen]; simp only [List.length_cons]; omega
            rw [if_pos hx]
            simp only [one_ne_zero, if_false, List.isEmpty_cons, Bool.false_eq_true]
            have hd2 : (done ++ [r]).length + 1 = done.length + 1 + 1 := by
              rw [List.length_append]; rfl
            rw [← hd2]
            exact ih (done ++ [r]) m s1 _ (by rw [hparts, List.append_assoc]; rfl)
              (List.cons_ne_nil _ _) (by simp only [List.length_cons] at hn ⊢; omega)

/-! ### C23: path resolution in `fat_opendir` -/

theorem fat_read_bootsector_fat16_root (sd0 sd1 : sdcard_t)
    (h : fat_read_bootsector sd0 = (1, sd1)) (hf : sd1.fattype = FAT16) :
    sd1.rootdir_begin_cluster = 0 := by
  unfold fat_read_bootsector at h
  simp only at h
  repeat' split at h
  all_goals first
    | exact absurd (congrArg Prod.fst h) Nat.zero_ne_one
    | (injection h with _ h2; subst h2; rfl)
    | (injection h with _ h2; subst h2; exact absurd hf (show FAT32 ≠ FAT16 by decide))

set_option maxRecDepth 1000000 in
/-- Claim C23 as stated fails for a path of 255 parts.  In the root directory (cluster 2)
of this volume the name `a` is a directory whose first cluster is 2 again, so in the
path `a/a/.../a` every part is found by `fat_find_lfn` in the directory reached so far
and has the directory attribute set.  With 254 parts `fat_opendir` returns the handle
with data cluster 2; with 255 parts it returns `NULL`: `level` is a `uint8_t`, the
question for part `level + 1 = 256` is asked for part 0 and answered with `/`. -/
theorem fat_opendir_depth_255 :
    (resolve_parts 300 (List.replicate 255 [97])
      (demo32_root [0x0FFFFFF8, 0x0FFFFFFF, 0x0FFFFFFF] (demo_subdir 97 128 2)) 2).map
        (fun r => r.1) = some (some (2, 2)) ∧
    (fat_opendir 300 (demo32_root [0x0FFFFFF8, 0x0FFFFFFF, 0x0FFFFFFF] (demo_subdir 97 128 2))
      (path_of false (List.replicate 255 [97]))).map
        (fun r => r.1.map (fun h => h.datacluster)) = some none ∧
    (fat_opendir 300 (demo32_root [0x0FFFFFF8, 0x0FFFFFFF, 0x0FFFFFFF] (demo_subdir 97 128 2))
      (path_of false (List.replicate 254 [97]))).map
        (fun r => r.1.map (fun h => h.datacluster)) = some (some 2) := by
  decide!

/-- Claim C23 (amended): for a path of `n` parts, `1 ≤ n ≤ 254`, each part not empty,
free of `/` and of at most 63 characters (it is copied to `char dirname[64]`), with
or without a leading `/`, and with memory for the handle, `fat_opendir` does what the
walk of the specification does (fuel `n` suffices for its loop): it returns a handle
iff, from the root cluster on, each part is found by `fat_find_lfn` in the directory
reached so far and has the directory attribute set, and then the handle is a directory
handle at position 0 whose data cluster is the first cluster of the record found for
the last part (its `cluster` is the directory that holds that record).  For the path
`/` the handle has `rootdir_begin_cluster` as data cluster and position 0, and
`fat_read_bootsector` sets `rootdir_begin_cluster` to 0 on FAT16. -/
theorem fat_opendir_resolves (fuel : Nat) (sd : sdcard_t) (lead : Bool)
    (parts : List (List Nat)) (hm : sd.malloc_ok = true) (hne : parts ≠ [])
    (hn : parts.length ≤ 254)
    (hparts : ∀ p, p ∈ parts → path_part_ok p ∧ p.length ≤ 63)
    (hfuel : parts.length ≤ fuel) :
    fat_opendir fuel sd (path_of lead parts) =
      (resolve_parts fuel parts sd sd.rootdir_begin_cluster).map
        (fun r => (r.1.map (fun cd => opendir_handle [] cd.1 cd.2), r.2)) ∧
    fat_opendir fuel sd [47] =
      some (some (opendir_handle [47] sd.rootdir_begin_cluster sd.rootdir_begin_cluster),
        sd) ∧
    (opendir_handle [47] sd.rootdir_begin_cluster sd.rootdir_begin_cluster).ptr = 0 ∧
    ∀ sd0 sd1, fat_read_bootsector sd0 = (1, sd1) → sd1.fattype = FAT16 →
      sd1.rootdir_begin_cluster = 0 := by
  have hg : ∀ k, 1 ≤ k → k ≤ 255 → get_path_part (path_of lead parts) k =
      (if k ≤ parts.length then 1 else 0, parts.getD (k - 1) []) := fun k h1 h2 =>
    get_path_part_spec lead parts (fun p hp => (hparts p hp).1) hne k h1 h2 (by omega)
  have hpos : 1 ≤ parts.length := by
    cases parts with
    | nil => exact absurd rfl hne
    | cons p ps => simp only [List.length_cons]; omega
  refine ⟨?_, ?_, rfl, fat_read_bootsector_fat16_root⟩
  · have h1 := hg 1 (Nat.le_refl 1) (by omega)
    rw [if_pos hpos] at h1
    unfold fat_opendir
    rw [if_neg (by rw [hm]; decide), h1]
    dsimp only
    rw [if_neg Nat.one_ne_zero]
    exact fat_opendir_loop_resolves fuel (path_of lead parts) parts hn hg parts [] fuel sd
      sd.rootdir_begin_cluster rfl hne hfuel
  · unfold fat_opendir
    rw [if_neg (by rw [hm]; decide)]
    have e : (get_path_part [47] 1).1 = 0 := by decide
    rw [if_pos e]

set_option maxRecDepth 1000000 in
/-- Instance of C23: the root directory holds the directory `a` (cluster 3), which
holds the directory `b` (cluster 4); `/a/b` opens as a directory handle with the data
cluster 4, found in cluster 3. -/
theorem fat_opendir_resolves_witness :
    (resolve_parts 9 [[97], [98]]
      (demo32_tree [0x0FFFFFF8, 0x0FFFFFFF, 0x0FFFFFFF, 0x0FFFFFFF, 0x0FFFFFFF]
        (demo_subdir 97 128 3) (demo_subdir 98 192 4)) 2).map (fun r => r.1)
      = some (some (3, 4)) ∧
    (fat_opendir 9
      (demo32_tree [0x0FFFFFF8, 0x0FFFFFFF, 0x0FFFFFFF, 0x0FFFFFFF, 0x0FFFFFFF]
        (demo_subdir 97 128 3) (demo_subdir 98 192 4)) (path_of true [[97], [98]]) =
      (resolve_parts 9 [[97], [98]]
        (demo32_tree [0x0FFFFFF8, 0x0FFFFFFF, 0x0FFFFFFF, 0x0FFFFFFF, 0x0FFFFFFF]
          (demo_subdir 97 128 3) (demo_subdir 98 192 4))
        (demo32_tree [0x0FFFFFF8, 0x0FFFFFFF, 0x0FFFFFFF, 0x0FFFFFFF, 0x0FFFFFFF]
          (demo_subdir 97 128 3) (demo_subdir 98 192 4)).rootdir_begin_cluster).map
        (fun r => (r.1.map (fun cd => opendir_handle [] cd.1 cd.2), r.2)) ∧
    fat_opendir 9
      (demo32_tree [0x0FFFFFF8, 0x0FFFFFFF, 0x0FFFFFFF, 0x0FFFFFFF, 0x0FFFFFFF]
        (demo_subdir 97 128 3) (demo_subdir 98 192 4)) [47] =
      some (some (opendir_handle [47]
        (demo32_tree [0x0FFFFFF8, 0x0FFFFFFF, 0x0FFFFFFF, 0x0FFFFFFF, 0x0FFFFFFF]
          (demo_subdir 97 128 3) (demo_subdir 98 192 4)).rootdir_begin_cluster
        (demo32_tree [0x0FFFFFF8, 0x0FFFFFFF, 0x0FFFFFFF, 0x0FFFFFFF, 0x0FFFFFFF]
          (demo_subdir 97 128 3) (demo_subdir 98 192 4)).rootdir_begin_cluster),
        demo32_tree [0x0FFFFFF8, 0x0FFFFFFF, 0x0FFFFFFF, 0x0FFFFFFF, 0x0FFFFFFF]
          (demo_subdir 97 128 3) (demo_subdir 98 192 4)) ∧
    (opendir_handle [47]
      (demo32_tree [0x0FFFFFF8, 0x0FFFFFFF, 0x0FFFFFFF, 0x0FFFFFFF, 0x0FFFFFFF]
        (demo_subdir 97 128 3) (demo_subdir 98 192 4)).rootdir_begin_cluster
      (demo32_tree [0x0FFFFFF8, 0x0FFFFFFF, 0x0FFFFFFF, 0x0FFFFFFF, 0x0FFFFFFF]
        (demo_subdir 97 128 3) (demo_subdir 98 192 4)).rootdir_begin_cluster).ptr = 0 ∧
    ∀ sd0 sd1, fat_read_bootsector sd0 = (1, sd1) → sd1.fattype = FAT16 →
      sd1.rootdir_begin_cluster = 0) :=
  ⟨by decide,
    fat_opendir_resolves 9
      (demo32_tree [0x0FFFFFF8, 0x0FFFFFFF, 0x0FFFFFFF, 0x0FFFFFFF, 0x0FFFFFFF]
        (demo_subdir 97 128 3) (demo_subdir 98 192 4)) true [[97], [98]] rfl (by decide)
      (by decide) (by unfold path_part_ok; decide) (by decide)⟩



/-! ## C32: the fragment index of `lfn_cache_add` -/

/-- Claim C32 at ordinals above 15.  A long-name record with ordinal 17 and the
characters `A` to `M`, added to an empty cache, is stored at fragment 0 and fragment
16 stays empty: the index is `(LDIR_Ord & 0x0F) - 1`, four bits of the ordinal and
not five.  Ordinal 20 lands at fragment 3 and leaves fragment 19 empty.  With ordinal
15 the characters are at fragment 14. -/
theorem lfn_cache_add_ordinal_17 :
    (List.range 13).map (lfn_cache_add lfn_cache_reset (demo_ldir 17) 0).filename
      = [65, 66, 67, 68, 69, 70, 71, 72, 73, 74, 75, 76, 77] ∧
    (List.range 13).map
      (fun j => (lfn_cache_add lfn_cache_reset (demo_ldir 17) 0).filename (16 * 13 + j))
      = [0, 0, 0, 0, 0, 0, 0, 0, 0, 0, 0, 0, 0] ∧
    (List.range 13).map
      (fun j => (lfn_cache_add lfn_cache_reset (demo_ldir 20) 0).filename (3 * 13 + j))
      = [65, 66, 67, 68, 69, 70, 71, 72, 73, 74, 75, 76, 77] ∧
    (List.range 13).map
      (fun j => (lfn_cache_add lfn_cache_reset (demo_ldir 20) 0).filename (19 * 13 + j))
      = [0, 0, 0, 0, 0, 0, 0, 0, 0, 0, 0, 0, 0] ∧
    (List.range 13).map
      (fun j => (lfn_cache_add lfn_cache_reset (demo_ldir 15) 0).filename (14 * 13 + j))
      = [65, 66, 67, 68, 69, 70, 71, 72, 73, 74, 75, 76, 77] := by
  decide

/-! ## C33: the extension bytes of the short name -/

/-- Claim C33 at its own witness.  For any memory contents, `lfn_to_sfn("ab.cd", sfn, 0)`
succeeds and produces `AB      CD` followed by a NUL byte, not by a space: the three
bytes behind the dot are copied whatever they are, here `c`, `d` and the terminator of
the string. -/
theorem lfn_to_sfn_short_extension (junk sfn : Nat → Nat) :
    (lfn_to_sfn junk [97, 98, 46, 99, 100] sfn 0).1 = 1 ∧
      (List.range 11).map (lfn_to_sfn junk [97, 98, 46, 99, 100] sfn 0).2
        = [65, 66, 32, 32, 32, 32, 32, 32, 67, 68, 0] ∧
      (lfn_to_sfn junk [97, 98, 46, 99, 100] sfn 0).2 10 = 0 := by
  exact ⟨rfl, rfl, rfl⟩

/-! ## C38: writing to a file whose first cluster is 0 -/

set_option maxRecDepth 1000000 in
/-- Claim C38 at a record whose first-cluster field is 0.  The root directory (cluster 2,
first sector block 4128) holds `Hello World.txt` with size 0 and first cluster 0, and
`fat_find_lfn` finds the record at offset 64.  Writing the 13 bytes `Hello, world!` at
offset 0 puts them at the start of block 4128: `fat_get_cluster_sector` maps the
cluster 0 to cluster 2, the directory itself.  The call returns 0, the look-up of the
record that follows the write fails. -/
theorem fat_write_file_cluster_0 :
    dir_sector_lba (demo32_root [0x0FFFFFF8, 0x0FFFFFFF, 0x0FFFFFFF, 0x0FFFFFFF]
      demo_dir_cluster0) 2 [] 0 = 4128 ∧
    dir_first_cluster ((demo32_root [0x0FFFFFF8, 0x0FFFFFFF, 0x0FFFFFFF, 0x0FFFFFFF]
      demo_dir_cluster0).card 4128) 64 = 0 ∧
    (fat_find_lfn 9 (demo32_root [0x0FFFFFF8, 0x0FFFFFFF, 0x0FFFFFFF, 0x0FFFFFFF]
      demo_dir_cluster0) 2 demo_name).map (fun r => r.1) = some (some 64) ∧
    (fat_write_file 9 (demo32_root [0x0FFFFFF8, 0x0FFFFFFF, 0x0FFFFFFF, 0x0FFFFFFF]
      demo_dir_cluster0) 2 demo_name (bytes_of demo_hello) 0 13).map
      (fun r => (r.1, (List.range 13).map (r.2.card 4128)))
      = some (0, demo_hello) ∧
    (List.range 13).map ((demo32_root [0x0FFFFFF8, 0x0FFFFFFF, 0x0FFFFFFF, 0x0FFFFFFF]
      demo_dir_cluster0).card 4128) = (demo_dir 0).take 13 := by
  decide

/-! ## C39: the division by `SecPerClus` -/

/-- Whenever the division is defined, the explicit version is `fat_read_bootsector`. -/
theorem fat_read_bootsector_checked_eq (sd : sdcard_t) (r : Nat × sdcard_t)
    (h : fat_read_bootsector_checked sd = some r) : r = fat_read_bootsector sd := by
  unfold fat_read_bootsector_checked at h
  simp only at h
  by_cases c1 : sd.inited = 0
  · rw [if_pos c1] at h
    injection h with h
    subst h
    unfold fat_read_bootsector
    rw [if_pos c1]
  · rw [if_neg c1] at h
    by_cases c2 : (sd_read_block sd sd.partition_start).1 = 0
    · rw [if_pos c2] at h
      injection h with h
      subst h
      unfold fat_read_bootsector
      simp only
      rw [if_neg c1, if_pos c2]
    · rw [if_neg c2] at h
      by_cases c3 : read16 (sd_read_block sd sd.partition_start).2.buffer 510 ≠ 0xAA55
      · rw [if_pos c3] at h
        injection h with h
        subst h
        unfold fat_read_bootsector
        simp only
        rw [if_neg c1, if_neg c2, if_pos c3]
      · rw [if_neg c3] at h
        by_cases c4 : read16 (sd_read_block sd sd.partition_start).2.buffer 11 ≠ 512
        · rw [if_pos c4] at h
          injection h with h
          subst h
          unfold fat_read_bootsector
          simp only
          rw [if_neg c1, if_neg c2, if_neg c3, if_pos c4]
        · rw [if_neg c4] at h
          by_cases c5 : (sd_read_block sd sd.partition_start).2.buffer 13 = 0
          · rw [if_pos c5] at h
            exact Option.noConfusion h
          · rw [if_neg c5] at h
            injection h with h
            exact h.symm

set_option maxRecDepth 1000000 in
/-- Claim C39 at a boot sector with `SecPerClus = 0`.  The sector has the signature
`0xAA55` and 512 bytes per sector; `fat_read_bootsector` reaches
`datasectors / bs->SecPerClus` with the divisor 0: no test of the field stands before
the division.  With 8 sectors per cluster the same sector mounts. -/
theorem fat_read_bootsector_zero_divisor :
    read16 (demo_boot 0 32 2 0 0 0 802048 1008 2) 510 = 0xAA55 ∧
    read16 (demo_boot 0 32 2 0 0 0 802048 1008 2) 11 = 512 ∧
    demo_boot 0 32 2 0 0 0 802048 1008 2 13 = 0 ∧
    (fat_read_bootsector_checked (demo_card (demo_boot 0 32 2 0 0 0 802048 1008 2) 0)).isNone
      = true ∧
    (fat_read_bootsector_checked (demo_card (demo_boot 8 32 2 0 0 0 802048 1008 2) 0)).map
      (fun r => (r.1, r.2.sectors_per_cluster)) = some (1, 8) := by
  decide

/-! ## C40: position and recorded size of a handle -/

set_option maxRecDepth 1000000 in
/-- Claim C40 after a write that extends the file.  `Hello World.txt` has size 0;
`fat_fopen` with mode `r+` gives a handle with position 0 and size 0.  `fat_fwrite` of
13 bytes returns 13 and moves the position to 13; the `FileSize` on the card is 13,
the size recorded in the handle is still 0, so the position exceeds it, and
`fat_fseek(handle, 13, SEEK_SET)` is refused.  The list holds position and size after
`fat_fopen`, the result of `fat_fwrite`, position and size of the handle after it, the
`FileSize` on the card, and the result of `fat_fseek`. -/
theorem fat_fwrite_stale_filesize :
    ((fat_fopen 9 (demo32 [0x0FFFFFF8, 0x0FFFFFFF, 0x0FFFFFFF, 0x0FFFFFFF] 0) demo_name
      [114, 43]).bind (fun r => r.1.bind (fun h =>
        (fat_fwrite 9 r.2 (bytes_of demo_hello) 1 13 h).map (fun w =>
          [h.ptr, h.filesize, w.1, w.2.1.ptr, w.2.1.filesize,
            dir_file_size (w.2.2.card 4128) 64, (fat_fseek w.2.1 13 SEEK_SET).1]))) :
        Option (List Nat))
      = some [0, 0, 13, 13, 0, 13, 0] := by
  decide


/-- A successful `sd_read_block` leaves the block loaded and changes nothing but the
cache. -/
theorem sd_read_block_success (sd : sdcard_t) (lba : Nat)
    (h : (sd_read_block sd lba).1 ≠ 0) :
    (sd_read_block sd lba).2.loaded_sector = lba ∧ io_step sd (sd_read_block sd lba).2 ∧
      (sd_read_block sd lba).2.card = sd.card := by
  unfold sd_read_block at h ⊢
  by_cases c1 : sd.loaded_sector = lba
  · rw [if_pos c1]
    exact ⟨c1, io_step_refl sd, rfl⟩
  · rw [if_neg c1] at h ⊢
    by_cases c2 : sd.card_read_ok lba = true
    · rw [if_pos c2]
      exact ⟨rfl, ⟨_, _, _, rfl⟩, rfl⟩
    · rw [if_neg c2] at h
      exact absurd rfl h

/-- What a successful `fat_set_next_cluster` has done: all range tests passed for the
(masked) cluster `cm`, its FAT sector was read, the entry was stored in the buffer,
and the buffer was written to that sector and to no other block. -/
theorem fat_set_next_cluster_success {sd sd1 : sdcard_t} {c v : Nat}
    (h : fat_set_next_cluster sd c v = (1, sd1)) :
    ∃ cm, cm = (if sd.fattype = FAT16 then c else c &&& 0x0FFFFFFF) ∧
      ¬ (sd.fattype = FAT16 ∧ c > 0xFFF8) ∧ ¬ (sd.fattype ≠ FAT16 ∧ cm ≥ 0x0FFFFFF8) ∧
      cm ≤ u32 (sd.data_clusters + 1) ∧ fat_entry_sector sd cm ≤ sd.fat_sectors ∧
      (sd_read_block sd (fat_entry_lba sd cm)).1 ≠ 0 ∧
      io_step sd sd1 ∧ sd1.loaded_sector = fat_entry_lba sd cm ∧
      sd1.buffer =
        (if sd.fattype = FAT16 then
          write16 (sd_read_block sd (fat_entry_lba sd cm)).2.buffer (fat_entry_offset sd cm)
            (u16 v)
         else
          write32 (sd_read_block sd (fat_entry_lba sd cm)).2.buffer (fat_entry_offset sd cm)
            (u32 v)) ∧
      (∀ i, i < sd.blocksize → sd1.card (fat_entry_lba sd cm) i = sd1.buffer i) ∧
      (∀ l, l ≠ fat_entry_lba sd cm → sd1.card l = sd.card l) := by
  refine ⟨_, rfl, ?_⟩
  unfold fat_set_next_cluster at h
  simp only at h
  by_cases g1 : sd.fattype = FAT16 ∧ c > 0xFFF8
  · rw [if_pos g1] at h
    exact absurd (congrArg Prod.fst h) Nat.zero_ne_one
  rw [if_neg g1] at h
  by_cases g2 : sd.fattype ≠ FAT16 ∧
      (if sd.fattype = FAT16 then c else c &&& 0x0FFFFFFF) ≥ 0x0FFFFFF8
  · rw [if_pos g2] at h
    exact absurd (congrArg Prod.fst h) Nat.zero_ne_one
  rw [if_neg g2] at h
  by_cases g3 : (if sd.fattype = FAT16 then c else c &&& 0x0FFFFFFF) >
      u32 (sd.data_clusters + 1)
  · rw [if_pos g3] at h
    exact absurd (congrArg Prod.fst h) Nat.zero_ne_one
  rw [if_neg g3] at h
  by_cases g4 : fat_entry_sector sd (if sd.fattype = FAT16 then c else c &&& 0x0FFFFFFF) >
      sd.fat_sectors
  · rw [if_pos g4] at h
    exact absurd (congrArg Prod.fst h) Nat.zero_ne_one
  rw [if_neg g4] at h
  have hl : fat_entry_lba sd (if sd.fattype = FAT16 then c else c &&& 0x0FFFFFFF) =
      u32 (sd.fat_begin_sector +
        fat_entry_sector sd (if sd.fattype = FAT16 then c else c &&& 0x0FFFFFFF)) := rfl
  rw [← hl] at h
  by_cases g5 : (sd_read_block sd
      (fat_entry_lba sd (if sd.fattype = FAT16 then c else c &&& 0x0FFFFFFF))).1 = 0
  · rw [if_pos g5] at h
    exact absurd (congrArg Prod.fst h) Nat.zero_ne_one
  rw [if_neg g5] at h
  obtain ⟨r1, r2, r3⟩ := sd_read_block_success sd _ g5
  refine ⟨g1, g2, by omega, by omega, g5, ?_⟩
  by_cases g6 : (sd_write_block
      (if sd.fattype = FAT16 then
        { (sd_read_block sd
            (fat_entry_lba sd (if sd.fattype = FAT16 then c else c &&& 0x0FFFFFFF))).2 with
          buffer := write16 (sd_read_block sd
            (fat_entry_lba sd (if sd.fattype = FAT16 then c else c &&& 0x0FFFFFFF))).2.buffer
            (fat_entry_offset sd (if sd.fattype = FAT16 then c else c &&& 0x0FFFFFFF))
            (u16 v) }
      else
        { (sd_read_block sd
            (fat_entry_lba sd (if sd.fattype = FAT16 then c else c &&& 0x0FFFFFFF))).2 with
          buffer := write32 (sd_read_block sd
            (fat_entry_lba sd (if sd.fattype = FAT16 then c else c &&& 0x0FFFFFFF))).2.buffer
            (fat_entry_offset sd (if sd.fattype = FAT16 then c else c &&& 0x0FFFFFFF))
            (u32 v) })
      (fat_entry_lba sd (if sd.fattype = FAT16 then c else c &&& 0x0FFFFFFF))).1 = 0
  · rw [if_pos g6] at h
    exact absurd (congrArg Prod.fst h) Nat.zero_ne_one
  rw [if_neg g6] at h
  obtain ⟨w1, w2, w3, w4⟩ := sd_write_block_success _ _ g6
  have hfr := sd_write_block_frame
    (if sd.fattype = FAT16 then
        { (sd_read_block sd
            (fat_entry_lba sd (if sd.fattype = FAT16 then c else c &&& 0x0FFFFFFF))).2 with
          buffer := write16 (sd_read_block sd
            (fat_entry_lba sd (if sd.fattype = FAT16 then c else c &&& 0x0FFFFFFF))).2.buffer
            (fat_entry_offset sd (if sd.fattype = FAT16 then c else c &&& 0x0FFFFFFF))
            (u16 v) }
      else
        { (sd_read_block sd
            (fat_entry_lba sd (if sd.fattype = FAT16 then c else c &&& 0x0FFFFFFF))).2 with
          buffer := write32 (sd_read_block sd
            (fat_entry_lba sd (if sd.fattype = FAT16 then c else c &&& 0x0FFFFFFF))).2.buffer
            (fat_entry_offset sd (if sd.fattype = FAT16 then c else c &&& 0x0FFFFFFF))
            (u32 v) })
    (fat_entry_lba sd (if sd.fattype = FAT16 then c else c &&& 0x0FFFFFFF))
  have h2 := congrArg Prod.snd h
  simp only at h2
  subst h2
  by_cases hf : sd.fattype = FAT16
  · simp only [hf, if_true] at w1 w2 w3 w4 hfr r1 r2 r3 ⊢
    refine ⟨io_step_trans (io_step_trans r2 ⟨_, _, _, rfl⟩) hfr, by rw [w1]; exact r1, w2,
      fun i hi => ?_, fun l hl => ?_⟩
    · rw [w2]
      exact w3 i (by rw [io_step_blocksize r2]; exact hi)
    · rw [w4 l hl]
      exact congrFun r3 l
  · simp only [hf, if_false] at w1 w2 w3 w4 hfr r1 r2 r3 ⊢
    refine ⟨io_step_trans (io_step_trans r2 ⟨_, _, _, rfl⟩) hfr, by rw [w1]; exact r1, w2,
      fun i hi => ?_, fun l hl => ?_⟩
    · rw [w2]
      exact w3 i (by rw [io_step_blocksize r2]; exact hi)
    · rw [w4 l hl]
      exact congrFun r3 l

/-- After a successful `fat_set_next_cluster sd c v` the look-up of `c` is answered
from the cache, with the stored value normalised. -/
theorem fat_get_after_set {sd sd1 : sdcard_t} {c v : Nat}
    (h : fat_set_next_cluster sd c v = (1, sd1)) :
    fat_get_next_cluster sd1 c = (norm_entry sd (fat_trunc sd v), sd1) := by
  obtain ⟨cm, hcm, g1, g2, g3, g4, g5, hio, hl, hb, hc1, hc2⟩ := fat_set_next_cluster_success h
  have e1 := io_step_fattype hio
  have e2 := io_step_data_clusters hio
  have e3 := io_step_fat_sectors hio
  have e4 := io_step_fat_begin_sector hio
  have hlba : fat_entry_lba sd cm = u32 (sd.fat_begin_sector + fat_entry_sector sd cm) := rfl
  unfold fat_get_next_cluster
  simp only
  rw [e1, e2, e3, e4, ← hcm, io_step_fat_entry_sector hio, io_step_fat_entry_offset hio,
    if_neg g1, if_neg g2, if_neg (by omega), if_neg (by omega), ← hlba]
  have hr : sd_read_block sd1 (fat_entry_lba sd cm) = (1, sd1) := by
    unfold sd_read_block
    rw [if_pos hl]
  rw [hr]
  simp only [Nat.one_ne_zero, if_false]
  unfold norm_entry fat_trunc
  by_cases hf : sd.fattype = FAT16
  · simp only [hf, if_true] at hb ⊢
    rw [hb, read16_write16_same, land_ffff]
    unfold u16
    simp only [Nat.mod_mod]
  · simp only [hf, if_false] at hb ⊢
    rw [hb, read32_write32_same, land_0fffffff]
    unfold u32
    simp only [Nat.mod_mod]

/-! ## C35: a FAT entry read back after it was written -/

/-- Claim C35: after a successful `fat_set_next_cluster(c, v)` the call `fat_get_next_cluster(c)` returns `v` truncated
to 16 bits (FAT16) or masked to 28 bits (FAT32), with values from `0xFFF8` resp.
`0x0FFFFFF8` on mapped to `0xFFFFFFFF`; writing 0 reads back 0 and writing
`0xFFFFFFFF` reads back `0xFFFFFFFF`. -/
theorem fat_set_get_round_trip (sd sd1 : sdcard_t) (c v : Nat)
    (h : fat_set_next_cluster sd c v = (1, sd1)) :
    (sd.fattype = FAT16 →
      (fat_get_next_cluster sd1 c).1 =
        (if v % 65536 ≥ 0xFFF8 then 0xFFFFFFFF else v % 65536)) ∧
    (sd.fattype ≠ FAT16 →
      (fat_get_next_cluster sd1 c).1 =
        (if v % 268435456 ≥ 0x0FFFFFF8 then 0xFFFFFFFF else v % 268435456)) ∧
    (v = 0 → (fat_get_next_cluster sd1 c).1 = 0) ∧
    (v = 0xFFFFFFFF → (fat_get_next_cluster sd1 c).1 = 0xFFFFFFFF) := by
  have hg := fat_get_after_set h
  rw [hg]
  refine ⟨fun hf => ?_, fun hf => ?_, fun h0 => ?_, fun h1 => ?_⟩
  · unfold norm_entry fat_trunc u16
    simp only [hf, if_true]
  · unfold norm_entry fat_trunc u32
    simp only [hf, if_false]
    have e : v % 4294967296 % 268435456 = v % 268435456 := by omega
    rw [e]
  · subst h0
    unfold norm_entry fat_trunc u16 u32
    by_cases hf : sd.fattype = FAT16
    · simp [hf]
    · simp [hf]
  · subst h1
    exact norm_entry_trunc_eoc sd

set_option maxRecDepth 1000000 in
/-- Instance of C35: on the FAT32 demo volume, storing `0x1FFFFFF8` in the entry of
cluster 3 succeeds, and the look-up of cluster 3 then answers `0xFFFFFFFF`. -/
theorem fat_set_get_round_trip_witness :
    (fat_get_next_cluster (fat_set_next_cluster
      (demo32 [0x0FFFFFF8, 0x0FFFFFFF, 0x0FFFFFFF, 0x0FFFFFFF] 0) 3 0x1FFFFFF8).2 3).1
      = 0xFFFFFFFF ∧
    (((demo32 [0x0FFFFFF8, 0x0FFFFFFF, 0x0FFFFFFF, 0x0FFFFFFF] 0).fattype = FAT16 →
      (fat_get_next_cluster (fat_set_next_cluster
        (demo32 [0x0FFFFFF8, 0x0FFFFFFF, 0x0FFFFFFF, 0x0FFFFFFF] 0) 3 0x1FFFFFF8).2 3).1 =
        (if 0x1FFFFFF8 % 65536 ≥ 0xFFF8 then 0xFFFFFFFF else 0x1FFFFFF8 % 65536)) ∧
    ((demo32 [0x0FFFFFF8, 0x0FFFFFFF, 0x0FFFFFFF, 0x0FFFFFFF] 0).fattype ≠ FAT16 →
      (fat_get_next_cluster (fat_set_next_cluster
        (demo32 [0x0FFFFFF8, 0x0FFFFFFF, 0x0FFFFFFF, 0x0FFFFFFF] 0) 3 0x1FFFFFF8).2 3).1 =
        (if 0x1FFFFFF8 % 268435456 ≥ 0x0FFFFFF8 then 0xFFFFFFFF
         else 0x1FFFFFF8 % 268435456)) ∧
    (0x1FFFFFF8 = 0 →
      (fat_get_next_cluster (fat_set_next_cluster
        (demo32 [0x0FFFFFF8, 0x0FFFFFFF, 0x0FFFFFFF, 0x0FFFFFFF] 0) 3 0x1FFFFFF8).2 3).1
        = 0) ∧
    (0x1FFFFFF8 = 0xFFFFFFFF →
      (fat_get_next_cluster (fat_set_next_cluster
        (demo32 [0x0FFFFFF8, 0x0FFFFFFF, 0x0FFFFFFF, 0x0FFFFFFF] 0) 3 0x1FFFFFF8).2 3).1
        = 0xFFFFFFFF)) :=
  ⟨by decide,
    fat_set_get_round_trip (demo32 [0x0FFFFFF8, 0x0FFFFFFF, 0x0FFFFFFF, 0x0FFFFFFF] 0)
      (fat_set_next_cluster (demo32 [0x0FFFFFF8, 0x0FFFFFFF, 0x0FFFFFFF, 0x0FFFFFFF] 0) 3
        0x1FFFFFF8).2 3 0x1FFFFFF8 (Prod.ext (by decide) rfl)⟩

/-! ## C36: what a FAT entry write leaves alone -/

/-- Below byte 512 of every block, the card after a successful `fat_set_next_cluster`
on a coherent cache is the card with the entry of `c` stored anew. -/
theorem fat_set_next_cluster_card {sd sd1 : sdcard_t} (hv : volume_ok sd) (hco : coherent sd)
    {c v : Nat} (hc : c ≤ sd.data_clusters + 1)
    (h : fat_set_next_cluster sd c v = (1, sd1)) :
    io_step sd sd1 ∧ sd1.loaded_sector = fat_entry_lba sd c ∧ coherent sd1 ∧
      (∀ l, l ≠ fat_entry_lba sd c → sd1.card l = sd.card l) ∧
      ∀ l i, i < 512 → sd1.card l i = fat_store_in sd sd.card c v l i := by
  obtain ⟨cm, hcm, g1, g2, g3, g4, g5, hio, hl, hb, hc1, hc2⟩ := fat_set_next_cluster_success h
  have hbs := hv.blocksize
  have hbe := volume_ok_below hv hc
  have e : cm = c := by
    rw [hcm]
    by_cases hf : sd.fattype = FAT16
    · rw [if_pos hf]
    · rw [if_neg hf]
      exact land_below c (by simpa [below_eoc, hf] using hbe)
  subst e
  obtain ⟨_, _, hne⟩ := volume_ok_fat_lba hv hc
  have hR := sd_read_block_buffer hco hbs hne g5
  rw [hbs] at hc1
  refine ⟨hio, hl, ?_, hc2, fun l i hi => ?_⟩
  · intro _ i hi
    rw [io_step_blocksize hio, hbs] at hi
    rw [hl, hc1 i hi]
  · unfold fat_store_in
    by_cases hll : l = fat_entry_lba sd cm
    · subst hll
      rw [if_pos rfl, hc1 i hi, hb]
      by_cases hf : sd.fattype = FAT16
      · simp only [hf, if_true]
        unfold write16
        split
        · rfl
        · split
          · rfl
          · exact hR i hi
      · simp only [hf, if_false]
        unfold write32
        split
        · rfl
        · split
          · rfl
          · split
            · rfl
            · split
              · rfl
              · exact hR i hi
    · rw [if_neg hll, hc2 l hll]

/-- Claim C36: on a well-formed volume with a coherent cache and a readable card, a
successful `fat_set_next_cluster(c, v)` for a cluster `c` in range changes only the
FAT entry of `c`: the look-up of every other cluster in range answers as before, the
bytes of the FAT sector outside the 2 (FAT16) or 4 (FAT32) bytes of the entry are
unchanged, the entry lies inside the 512 bytes of its sector, and every other block
of the card is unchanged. -/
theorem fat_set_next_cluster_entry_frame (sd sd1 : sdcard_t) (c v : Nat)
    (hv : volume_ok sd) (hco : coherent sd) (hr : reads_ok sd)
    (hc : c ≤ sd.data_clusters + 1) (h : fat_set_next_cluster sd c v = (1, sd1)) :
    (∀ d, d ≤ sd.data_clusters + 1 → d ≠ c →
      (fat_get_next_cluster sd1 d).1 = (fat_get_next_cluster sd d).1) ∧
    (∀ i, i < 512 →
      (i < fat_entry_offset sd c ∨
        fat_entry_offset sd c + (if sd.fattype = FAT16 then 2 else 4) ≤ i) →
      sd1.card (fat_entry_lba sd c) i = sd.card (fat_entry_lba sd c) i) ∧
    fat_entry_offset sd c + (if sd.fattype = FAT16 then 2 else 4) ≤ 512 ∧
    (∀ l, l ≠ fat_entry_lba sd c → sd1.card l = sd.card l) := by
  obtain ⟨hio, hl, hco1, hother, hcard⟩ := fat_set_next_cluster_card hv hco hc h
  have hbs := hv.blocksize
  refine ⟨fun d hd hne => ?_, fun i hi ho => ?_, ?_, hother⟩
  · have hd1 : d ≤ sd1.data_clusters + 1 := by rw [io_step_data_clusters hio]; exact hd
    rw [fat_get_next_cluster_valid (io_step_volume_ok hio hv) hco1 (io_step_reads_ok hio hr) hd1,
      fat_get_next_cluster_valid hv hco hr hd, io_step_norm_entry hio,
      io_step_fat_entry_on_card hio, fat_entry_on_card_eq_in,
      ← fat_entry_in_store_other hv sd.card v hc hd hne]
    congr 1
    unfold fat_entry_in
    by_cases hf : sd.fattype = FAT16
    · have ho := fat_entry_offset_fat16 sd d hbs hf
      simp only [hf, if_true]
      exact read16_congr _ _ _ (hcard _ _ (by omega)) (hcard _ _ (by omega))
    · have ho := fat_entry_offset_fat32 sd d hbs hf
      simp only [hf, if_false]
      exact read32_congr _ _ _ (hcard _ _ (by omega)) (hcard _ _ (by omega))
        (hcard _ _ (by omega)) (hcard _ _ (by omega))
  · rw [hcard _ _ hi]
    unfold fat_store_in
    rw [if_pos rfl]
    by_cases hf : sd.fattype = FAT16
    · simp only [hf, if_true] at ho ⊢
      unfold write16
      rw [if_neg (by omega), if_neg (by omega)]
    · simp only [hf, if_false] at ho ⊢
      unfold write32
      rw [if_neg (by omega), if_neg (by omega), if_neg (by omega), if_neg (by omega)]
  · by_cases hf : sd.fattype = FAT16
    · have ho := fat_entry_offset_fat16 sd c hbs hf
      rw [if_pos hf]; omega
    · have ho := fat_entry_offset_fat32 sd c hbs hf
      rw [if_neg hf]; omega

set_option maxRecDepth 1000000 in
/-- Instance of C36: on the FAT32 demo volume, storing 5 in the entry of cluster 3
succeeds; bytes 12 to 15 of block 32 hold the entry, everything else is as before. -/
theorem fat_set_next_cluster_entry_frame_witness :
    (fat_set_next_cluster (demo32 [0x0FFFFFF8, 0x0FFFFFFF, 0x0FFFFFFF, 0x0FFFFFFF] 0) 3 5).1
      = 1 ∧
    fat_entry_lba (demo32 [0x0FFFFFF8, 0x0FFFFFFF, 0x0FFFFFFF, 0x0FFFFFFF] 0) 3 = 32 ∧
    fat_entry_offset (demo32 [0x0FFFFFF8, 0x0FFFFFFF, 0x0FFFFFFF, 0x0FFFFFFF] 0) 3 = 12 ∧
    ((∀ d, d ≤ (demo32 [0x0FFFFFF8, 0x0FFFFFFF, 0x0FFFFFFF, 0x0FFFFFFF] 0).data_clusters + 1 →
      d ≠ 3 →
      (fat_get_next_cluster (fat_set_next_cluster
        (demo32 [0x0FFFFFF8, 0x0FFFFFFF, 0x0FFFFFFF, 0x0FFFFFFF] 0) 3 5).2 d).1 =
      (fat_get_next_cluster (demo32 [0x0FFFFFF8, 0x0FFFFFFF, 0x0FFFFFFF, 0x0FFFFFFF] 0) d).1) ∧
    (∀ i, i < 512 →
      (i < fat_entry_offset (demo32 [0x0FFFFFF8, 0x0FFFFFFF, 0x0FFFFFFF, 0x0FFFFFFF] 0) 3 ∨
        fat_entry_offset (demo32 [0x0FFFFFF8, 0x0FFFFFFF, 0x0FFFFFFF, 0x0FFFFFFF] 0) 3 +
          (if (demo32 [0x0FFFFFF8, 0x0FFFFFFF, 0x0FFFFFFF, 0x0FFFFFFF] 0).fattype = FAT16
            then 2 else 4) ≤ i) →
      (fat_set_next_cluster (demo32 [0x0FFFFFF8, 0x0FFFFFFF, 0x0FFFFFFF, 0x0FFFFFFF] 0) 3
          5).2.card
        (fat_entry_lba (demo32 [0x0FFFFFF8, 0x0FFFFFFF, 0x0FFFFFFF, 0x0FFFFFFF] 0) 3) i =
      (demo32 [0x0FFFFFF8, 0x0FFFFFFF, 0x0FFFFFFF, 0x0FFFFFFF] 0).card
        (fat_entry_lba (demo32 [0x0FFFFFF8, 0x0FFFFFFF, 0x0FFFFFFF, 0x0FFFFFFF] 0) 3) i) ∧
    fat_entry_offset (demo32 [0x0FFFFFF8, 0x0FFFFFFF, 0x0FFFFFFF, 0x0FFFFFFF] 0) 3 +
      (if (demo32 [0x0FFFFFF8, 0x0FFFFFFF, 0x0FFFFFFF, 0x0FFFFFFF] 0).fattype = FAT16
        then 2 else 4) ≤ 512 ∧
    (∀ l, l ≠ fat_entry_lba (demo32 [0x0FFFFFF8, 0x0FFFFFFF, 0x0FFFFFFF, 0x0FFFFFFF] 0) 3 →
      (fat_set_next_cluster (demo32 [0x0FFFFFF8, 0x0FFFFFFF, 0x0FFFFFFF, 0x0FFFFFFF] 0) 3
          5).2.card l =
      (demo32 [0x0FFFFFF8, 0x0FFFFFFF, 0x0FFFFFFF, 0x0FFFFFFF] 0).card l)) :=
  ⟨by decide, by decide, by decide,
    fat_set_next_cluster_entry_frame
      (demo32 [0x0FFFFFF8, 0x0FFFFFFF, 0x0FFFFFFF, 0x0FFFFFFF] 0)
      (fat_set_next_cluster (demo32 [0x0FFFFFF8, 0x0FFFFFFF, 0x0FFFFFFF, 0x0FFFFFFF] 0) 3 5).2
      3 5 (demo32_volume_ok _ _) (demo32_coherent _ _) (demo32_reads_ok _ _) (by decide)
      (Prod.ext (by decide) rfl)⟩



theorem filter_length_le (P Q : Nat → Bool) : ∀ (l : List Nat),
    (∀ d, d ∈ l → Q d = true → P d = true) → (l.filter Q).length ≤ (l.filter P).length := by
  intro l
  induction l with
  | nil => intro _; exact Nat.le_refl _
  | cons a l ih =>
    intro h
    have ih1 := ih (fun d hd => h d (List.mem_cons_of_mem a hd))
    cases hq : Q a with
    | false =>
      rw [List.filter_cons_of_neg (by rw [hq]; decide)]
      cases hp : P a with
      | false => rw [List.filter_cons_of_neg (by rw [hp]; decide)]; exact ih1
      | true => rw [List.filter_cons_of_pos hp, List.length_cons]; omega
    | true =>
      have hp := h a (List.mem_cons_self a l) hq
      rw [List.filter_cons_of_pos hq, List.filter_cons_of_pos hp, List.length_cons,
        List.length_cons]
      omega

theorem filter_length_lt (P Q : Nat → Bool) (c : Nat) (hP : P c = true) (hQ : Q c = false) :
    ∀ (l : List Nat), (∀ d, d ∈ l → Q d = true → P d = true) → c ∈ l →
      (l.filter Q).length < (l.filter P).length := by
  intro l
  induction l with
  | nil => intro _ hc; exact absurd hc (List.not_mem_nil c)
  | cons a l ih =>
    intro h hc
    have hle := filter_length_le P Q l (fun d hd => h d (List.mem_cons_of_mem a hd))
    by_cases e : a = c
    · subst e
      rw [List.filter_cons_of_neg (by rw [hQ]; decide), List.filter_cons_of_pos hP,
        List.length_cons]
      omega
    · have hcl : c ∈ l := by
        rcases List.mem_cons.1 hc with h1 | h1
        · exact absurd h1.symm e
        · exact h1
      have ih1 := ih (fun d hd => h d (List.mem_cons_of_mem a hd)) hcl
      cases hq : Q a with
      | false =>
        rw [List.filter_cons_of_neg (by rw [hq]; decide)]
        cases hp : P a with
        | false => rw [List.filter_cons_of_neg (by rw [hp]; decide)]; exact ih1
        | true => rw [List.filter_cons_of_pos hp, List.length_cons]; omega
      | true =>
        have hp := h a (List.mem_cons_self a l) hq
        rw [List.filter_cons_of_pos hq, List.filter_cons_of_pos hp, List.length_cons,
          List.length_cons]
        omega

theorem land_mask_idem (c : Nat) : (c &&& 0x0FFFFFFF) &&& 0x0FFFFFFF = c &&& 0x0FFFFFFF := by
  rw [Nat.land_assoc]
  rfl

/-- The look-up masks the cluster number first: on FAT32 only its low 28 bits count. -/
theorem fat_get_next_cluster_masked (sd : sdcard_t) (c : Nat) :
    fat_get_next_cluster sd c =
      fat_get_next_cluster sd (if sd.fattype = FAT16 then c else c &&& 0x0FFFFFFF) := by
  by_cases hf : sd.fattype = FAT16
  · rw [if_pos hf]
  · rw [if_neg hf]
    unfold fat_get_next_cluster
    simp only [hf, false_and, if_false, land_mask_idem]

theorem fat_set_next_cluster_masked (sd : sdcard_t) (c v : Nat) :
    fat_set_next_cluster sd c v =
      fat_set_next_cluster sd (if sd.fattype = FAT16 then c else c &&& 0x0FFFFFFF) v := by
  by_cases hf : sd.fattype = FAT16
  · rw [if_pos hf]
  · rw [if_neg hf]
    unfold fat_set_next_cluster
    simp only [hf, false_and, if_false, land_mask_idem]

/-- A cluster number outside `0 .. data_clusters + 1` is answered with 0 or with the
end-of-chain mark. -/
theorem fat_get_next_cluster_outside {sd : sdcard_t} (hv : volume_ok sd) {c : Nat}
    (hc : ¬ (if sd.fattype = FAT16 then c else c &&& 0x0FFFFFFF) ≤ sd.data_clusters + 1) :
    (fat_get_next_cluster sd c).1 = 0 ∨ (fat_get_next_cluster sd c).1 = EOC := by
  have hu := volume_ok_u32_dc hv
  unfold fat_get_next_cluster
  simp only
  by_cases g1 : sd.fattype = FAT16 ∧ c > 0xFFF8
  · rw [if_pos g1]; exact Or.inr rfl
  · rw [if_neg g1]
    by_cases g2 : sd.fattype ≠ FAT16 ∧
        (if sd.fattype = FAT16 then c else c &&& 0x0FFFFFFF) ≥ 0x0FFFFFF8
    · rw [if_pos g2]; exact Or.inr rfl
    · rw [if_neg g2, hu, if_pos (by omega)]
      exact Or.inl rfl

/-- One round of the loop of `fat_free_cluster_chain` without clearing: either the
next cluster ends the loop, or the round has zeroed an entry that was not zero and has
left the other entries as they were. -/
theorem fat_free_cluster_chain_round (f : Nat) {sd : sdcard_t}
    (hv : volume_ok sd) (hco : coherent sd) (hr : reads_ok sd) (hw : writes_ok sd)
    {c : Nat} (hc0 : c ≠ 0) (hc1 : c ≠ 0xFFFFFFFF) :
    ∃ t next, fat_free_cluster_chain_loop 0 (f + 1) sd c
          = fat_free_cluster_chain_loop 0 f t next ∧
      (next = 0 ∨ next = 0xFFFFFFFF ∨
        (volume_ok t ∧ coherent t ∧ reads_ok t ∧ writes_ok t ∧
          fat_used_entries t < fat_used_entries sd)) := by
  have hstep : fat_free_cluster_chain_loop 0 (f + 1) sd c =
      fat_free_cluster_chain_loop 0 f
        (fat_set_next_cluster (fat_get_next_cluster sd c).2 c 0).2
        (fat_get_next_cluster sd c).1 := by
    conv_lhs => unfold fat_free_cluster_chain_loop
    simp only
    rw [if_pos ⟨hc1, hc0⟩, if_neg (by decide)]
  refine ⟨_, _, hstep, ?_⟩
  by_cases hin : (if sd.fattype = FAT16 then c else c &&& 0x0FFFFFFF) ≤ sd.data_clusters + 1
  · by_cases hz : (fat_get_next_cluster sd c).1 = 0
    · exact Or.inl hz
    · right; right
      have hgf := fat_get_next_cluster_frame sd c
      have hv1 := io_step_volume_ok hgf.1 hv
      have hft : (fat_get_next_cluster sd c).2.fattype = sd.fattype := io_step_fattype hgf.1
      rw [fat_set_next_cluster_masked, hft]
      rw [fat_get_next_cluster_masked] at hz
      generalize (if sd.fattype = FAT16 then c else c &&& 0x0FFFFFFF) = cm at hin hz
      obtain ⟨a1, a2, a3, a4⟩ := fat_set_next_cluster_valid hv1 (hgf.2.2 hco)
        (io_step_reads_ok hgf.1 hr) (io_step_writes_ok hgf.1 hw)
        (c := cm) (by rw [io_step_data_clusters hgf.1]; exact hin) 0
      have hsf := fat_set_next_cluster_frame (fat_get_next_cluster sd c).2 cm 0
      have hio := io_step_trans hgf.1 hsf
      rw [io_step_fat_store hgf.1, hgf.2.1] at a2
      have hg := fat_get_next_cluster_valid hv hco hr hin
      rw [hg] at hz
      have hnz : fat_entry_on_card sd cm ≠ 0 := by
        intro h0
        rw [h0] at hz
        apply hz
        unfold norm_entry
        by_cases hf : sd.fattype = FAT16
        · simp [hf]
        · simp [hf]
      refine ⟨io_step_volume_ok hio hv, a4, io_step_reads_ok hio hr, io_step_writes_ok hio hw,
        ?_⟩
      unfold fat_used_entries
      rw [io_step_data_clusters hio]
      refine filter_length_lt _ _ cm ?_ ?_ _ (fun d hd hq => ?_)
        (List.mem_range.2 (by omega))
      · simp only [decide_eq_true_eq]
        exact hnz
      · simp only [decide_eq_false_iff_not, not_not]
        rw [io_step_fat_entry_on_card hio, a2, fat_entry_in_store_same, fat_trunc_zero]
      · have hd1 : d ≤ sd.data_clusters + 1 := by
          have := List.mem_range.1 hd
          omega
        simp only [decide_eq_true_eq] at hq ⊢
        by_cases e : d = cm
        · subst e; exact hnz
        · rw [io_step_fat_entry_on_card hio, a2,
            fat_entry_in_store_other hv _ _ hin hd1 e] at hq
          exact hq
  · rcases fat_get_next_cluster_outside hv hin with h0 | h1
    · exact Or.inl h0
    · exact Or.inr (Or.inl h1)

/-- The loop of `fat_free_cluster_chain` without clearing ends: fuel above the number
of non-zero entries by two suffices, whatever the FAT holds. -/
theorem fat_free_cluster_chain_loop_ends : ∀ (n : Nat) (sd : sdcard_t) (c f : Nat),
    volume_ok sd → coherent sd → reads_ok sd → writes_ok sd → fat_used_entries sd ≤ n →
    n + 2 ≤ f → ∃ s, fat_free_cluster_chain_loop 0 f sd c = some (1, s) := by
  intro n
  induction n with
  | zero =>
    intro sd c f hv hco hr hw hm hf
    obtain ⟨f1, rfl⟩ : ∃ f1, f = f1 + 1 + 1 := ⟨f - 2, by omega⟩
    by_cases hc : c ≠ 0xFFFFFFFF ∧ c ≠ 0
    · obtain ⟨t, next, e, hn⟩ := fat_free_cluster_chain_round (f1 + 1) hv hco hr hw hc.2 hc.1
      rw [e]
      rcases hn with h0 | h1 | h2
      · refine ⟨t, ?_⟩
        unfold fat_free_cluster_chain_loop
        rw [if_neg (by rw [h0]; simp)]
      · refine ⟨t, ?_⟩
        unfold fat_free_cluster_chain_loop
        rw [if_neg (by rw [h1]; simp)]
      · omega
    · refine ⟨sd, ?_⟩
      unfold fat_free_cluster_chain_loop
      rw [if_neg hc]
  | succ n ih =>
    intro sd c f hv hco hr hw hm hf
    obtain ⟨f1, rfl⟩ : ∃ f1, f = f1 + 1 + 1 := ⟨f - 2, by omega⟩
    by_cases hc : c ≠ 0xFFFFFFFF ∧ c ≠ 0
    · obtain ⟨t, next, e, hn⟩ := fat_free_cluster_chain_round (f1 + 1) hv hco hr hw hc.2 hc.1
      rw [e]
      rcases hn with h0 | h1 | h2
      · refine ⟨t, ?_⟩
        unfold fat_free_cluster_chain_loop
        rw [if_neg (by rw [h0]; simp)]
      · refine ⟨t, ?_⟩
        unfold fat_free_cluster_chain_loop
        rw [if_neg (by rw [h1]; simp)]
      · exact ih t next (f1 + 1) h2.1 h2.2.1 h2.2.2.1 h2.2.2.2.1 (by omega) (by omega)
    · refine ⟨sd, ?_⟩
      unfold fat_free_cluster_chain_loop
      rw [if_neg hc]

theorem fat_used_entries_le (sd : sdcard_t) : fat_used_entries sd ≤ sd.data_clusters + 2 := by
  unfold fat_used_entries
  have h := List.length_filter_le (fun d => decide (fat_entry_on_card sd d ≠ 0))
    (List.range (sd.data_clusters + 2))
  rw [List.length_range] at h
  exact h

/-! ## C37: `fat_free_cluster_chain` ends on every FAT -/

/-- Claim C37: on a well-formed volume with a coherent cache and working reads and
writes, `fat_free_cluster_chain(start, 0)` ends and returns 1 for every start cluster
and every content of the FAT, cyclic or merging chains and entries that lead out of
range included: the fuel `data_clusters + 4`, which allows `data_clusters + 3` rounds
of the loop and the test that ends it, suffices. -/
theorem fat_free_cluster_chain_terminates (sd : sdcard_t) (start : Nat)
    (hv : volume_ok sd) (hco : coherent sd) (hr : reads_ok sd) (hw : writes_ok sd) :
    ∃ s, fat_free_cluster_chain (sd.data_clusters + 4) sd start 0 = some (1, s) := by
  unfold fat_free_cluster_chain
  exact fat_free_cluster_chain_loop_ends (sd.data_clusters + 2) sd start _ hv hco hr hw
    (fat_used_entries_le sd) (by omega)

set_option maxRecDepth 1000000 in
/-- Instance of C37: a FAT32 volume whose clusters 3 and 4 point at each other.  Freeing
from cluster 3 ends, and three rounds suffice: both entries are zero afterwards. -/
theorem fat_free_cluster_chain_terminates_witness :
    (fat_free_cluster_chain 4 (demo32 [0x0FFFFFF8, 0x0FFFFFFF, 0x0FFFFFFF, 4, 3] 0) 3 0).map
      (fun r => (r.1, fat_entry_on_card r.2 3, fat_entry_on_card r.2 4)) = some (1, 0, 0) ∧
    ∃ s, fat_free_cluster_chain
      ((demo32 [0x0FFFFFF8, 0x0FFFFFFF, 0x0FFFFFFF, 4, 3] 0).data_clusters + 4)
      (demo32 [0x0FFFFFF8, 0x0FFFFFFF, 0x0FFFFFFF, 4, 3] 0) 3 0 = some (1, s) :=
  ⟨by decide,
    fat_free_cluster_chain_terminates (demo32 [0x0FFFFFF8, 0x0FFFFFFF, 0x0FFFFFFF, 4, 3] 0) 3
      (demo32_volume_ok _ _) (demo32_coherent _ _) (demo32_reads_ok _ _)
      (demo32_writes_ok _ _)⟩



theorem free_scan_inv_reset {F : Nat → Bool} {D N p k : Nat} {fe : fat_entry}
    (h : free_scan_inv F D N p k fe) (hp : F p = false) : free_scan_inv F D N (p + 1) 0 fe := by
  obtain ⟨h1, h2, h3, h4, h5, h6⟩ := h
  refine ⟨by omega, by omega, fun m hm => absurd hm (by omega), fun h0 => absurd h0 (by omega),
    h5, fun i hi hrun => ?_⟩
  by_cases c : i + k < p
  · exact h6 i c hrun
  · have := hrun (p - i) (by omega)
    rw [show i + (p - i) = p by omega, hp] at this
    exact absurd this (by decide)

theorem free_scan_inv_count {F : Nat → Bool} {D N p k : Nat} {fe : fat_entry}
    (h : free_scan_inv F D N p k fe) (hp : F p = true) (j e : Nat) (hpe : p = 16 * j + e)
    (he : e < 16) (hk : k + 1 < N) :
    free_scan_inv F D N (p + 1) (k + 1)
      (if k = 0 then { fe with sector := j, entry := e } else fe) := by
  obtain ⟨h1, h2, h3, h4, h5, h6⟩ := h
  refine ⟨hk, by omega, fun m hm => ?_, fun _ => ?_, ?_, fun i hi => h6 i (by omega)⟩
  · by_cases c : m < k
    · have := h3 m c
      rw [show p + 1 - (k + 1) + m = p - k + m by omega]
      exact this
    · rw [show p + 1 - (k + 1) + m = p by omega]
      exact hp
  · rw [show p + 1 - (k + 1) = p - k by omega]
    by_cases c : k = 0
    · subst c
      rw [if_pos rfl]
      exact ⟨by show j = (p - 0) / 16; omega, by show e = (p - 0) % 16; omega⟩
    · rw [if_neg c]
      exact h4 (by omega)
  · by_cases c : k = 0
    · rw [if_pos c]; exact h5
    · rw [if_neg c]; exact h5

theorem free_scan_inv_found {F : Nat → Bool} {D N p k : Nat} {fe : fat_entry}
    (h : free_scan_inv F D N p k fe) (hp : F p = true) (j e : Nat) (hpe : p = 16 * j + e)
    (he : e < 16) (hk : k + 1 = N) (total : Nat) (ht : p + 1 ≤ total) :
    free_scan_out F D N total
      (some (if k = 0 then { fe with sector := j, entry := e } else fe)) := by
  obtain ⟨h1, h2, h3, h4, h5, h6⟩ := h
  refine Or.inr ⟨_, p - k, rfl, ?_, ?_, ?_, fun m hm => ?_, fun i hi => h6 i (by omega),
    by omega⟩
  · by_cases c : k = 0
    · rw [if_pos c]; exact h5
    · rw [if_neg c]; exact h5
  · by_cases c : k = 0
    · subst c
      rw [if_pos rfl]
      show j = (p - 0) / 16
      omega
    · rw [if_neg c]
      exact (h4 (by omega)).1
  · by_cases c : k = 0
    · subst c
      rw [if_pos rfl]
      show e = (p - 0) % 16
      omega
    · rw [if_neg c]
      exact (h4 (by omega)).2
  · by_cases c : m < k
    · exact h3 m c
    · rw [show p - k + m = p by omega]
      exact hp

theorem free_scan_inv_end {F : Nat → Bool} {D N p k : Nat} {fe : fat_entry}
    (h : free_scan_inv F D N p k fe) : free_scan_out F D N p none := by
  obtain ⟨h1, h2, h3, h4, h5, h6⟩ := h
  exact Or.inl ⟨rfl, fun i hi => h6 i (by omega)⟩

/-- The record loop of `fat_find_free_entry` on the sector `j` keeps the state of the
scan, and an answer is the first run. -/
theorem fat_find_free_entry_entries_scan (buf : Nat → Nat) (F : Nat → Bool) (j D N : Nat)
    (hN : N ≤ 255)
    (hF : ∀ e, e < 16 →
      ((fat_is_last_entry buf (e * 32) = true ∨ fat_is_free_entry buf (e * 32) = true) ↔
        F (16 * j + e) = true)) :
    ∀ (n e k : Nat) (fe : fat_entry), e + n = 16 → free_scan_inv F D N (16 * j + e) k fe →
      (∀ e1, fat_find_free_entry_entries buf N j n e k fe = free_scan.ret e1 →
        free_scan_out F D N (16 * j + 16) (some e1)) ∧
      (∀ k1 fe1, fat_find_free_entry_entries buf N j n e k fe = free_scan.next k1 fe1 →
        free_scan_inv F D N (16 * j + 16) k1 fe1) := by
  intro n
  induction n with
  | zero =>
    intro e k fe he hinv
    have e16 : e = 16 := by omega
    subst e16
    unfold fat_find_free_entry_entries
    refine ⟨fun e1 h => free_scan.noConfusion h, fun k1 fe1 h => ?_⟩
    injection h with h1 h2
    subst h1
    subst h2
    exact hinv
  | succ n ih =>
    intro e k fe he hinv
    have he16 : e < 16 := by omega
    have hk := hinv.1
    unfold fat_find_free_entry_entries
    simp only
    by_cases c : fat_is_last_entry buf (e * 32) = true ∨ fat_is_free_entry buf (e * 32) = true
    · have hp := (hF e he16).1 c
      rw [if_pos c]
      have hu : u8 (k + 1) = k + 1 := by unfold u8; omega
      rw [hu]
      by_cases ck : k + 1 = N
      · rw [if_pos ck]
        refine ⟨fun e1 h => ?_, fun k1 fe1 h => free_scan.noConfusion h⟩
        injection h with h1
        subst h1
        exact free_scan_inv_found hinv hp j e rfl he16 ck _ (by omega)
      · rw [if_neg ck]
        have hinv1 := free_scan_inv_count hinv hp j e rfl he16 (by omega)
        exact ih (e + 1) (k + 1) _ (by omega) hinv1
    · have hp : F (16 * j + e) = false := by
        cases hx : F (16 * j + e)
        · rfl
        · exact absurd ((hF e he16).2 hx) c
      rw [if_neg c]
      exact ih (e + 1) 0 fe (by omega) (free_scan_inv_reset hinv hp)

theorem slot_free_classify (sd : sdcard_t) (card : Nat → Nat → Nat) (D : Nat) (cs : List Nat)
    (buf : Nat → Nat) (j : Nat)
    (hb : ∀ i, i < 512 → buf i = card (dir_sector_lba sd D cs j) i) (e : Nat) (he : e < 16) :
    (fat_is_last_entry buf (e * 32) = true ∨ fat_is_free_entry buf (e * 32) = true) ↔
      slot_free (dir_record sd card D cs (16 * j + e)) = true := by
  have e1 : (16 * j + e) / 16 = j := by omega
  have e2 : (16 * j + e) % 16 = e := by omega
  unfold fat_is_last_entry fat_is_free_entry slot_free dir_record
  rw [e1, e2, hb (e * 32) (by omega)]
  simp only [decide_eq_true_eq, Nat.add_zero]
  constructor
  · rintro (h | h)
    · exact Or.inl h
    · exact h
  · intro h
    exact Or.inr h

/-- The sector loop of `fat_find_free_entry` on a well-formed directory: it ends, and
answers the first run of `N` free records. -/
theorem fat_find_free_entry_loop_scan (D : Nat) (cs : List Nat) (N : Nat) (hN : N ≤ 255)
    (F : Nat → Bool) :
    ∀ (n j fuel : Nat) (sd : sdcard_t) (k : Nat) (fe : fat_entry),
      volume_ok sd → coherent sd → reads_ok sd → is_dir sd D cs →
      (∀ q, F q = slot_free (dir_record sd sd.card D cs q)) →
      j + n = dir_sector_count sd D cs → n < fuel → free_scan_inv F D N (16 * j) k fe →
      ∃ res s1, fat_find_free_entry_loop D N fuel sd j k fe = some (res, s1) ∧
        s1.card = sd.card ∧ free_scan_out F D N (16 * dir_sector_count sd D cs) res := by
  intro n
  induction n with
  | zero =>
    intro j fuel sd k fe hv hco hr hd hF hj hfuel hinv
    obtain ⟨f, rfl⟩ : ∃ f, fuel = f + 1 := ⟨fuel - 1, by omega⟩
    have hfr := fat_read_sector_frame sd D j
    have hrd := (fat_read_sector_dir hv hco hr hd j).2 (by omega)
    unfold fat_find_free_entry_loop
    simp only
    rw [if_pos hrd]
    refine ⟨none, _, rfl, hfr.2.1, ?_⟩
    rw [← hj, Nat.add_zero]
    exact free_scan_inv_end hinv
  | succ n ih =>
    intro j fuel sd k fe hv hco hr hd hF hj hfuel hinv
    obtain ⟨f, rfl⟩ : ∃ f, fuel = f + 1 := ⟨fuel - 1, by omega⟩
    have hfr := fat_read_sector_frame sd D j
    obtain ⟨r1, r2, r3⟩ := (fat_read_sector_dir hv hco hr hd j).1 (by omega)
    have hcnt := dir_sector_count_lt hv hd
    have hent := fat_find_free_entry_entries_scan (fat_read_sector sd D j).2.buffer F j D N hN
      (fun e he => by rw [hF]; exact slot_free_classify sd sd.card D cs _ j r3 e he)
      16 0 k fe (by omega) hinv
    unfold fat_find_free_entry_loop
    simp only
    rw [if_neg (by rw [r1]; omega)]
    cases hs : fat_find_free_entry_entries (fat_read_sector sd D j).2.buffer N j 16 0 k fe with
    | ret e1 =>
      simp only
      refine ⟨some e1, _, rfl, hfr.2.1, ?_⟩
      rcases hent.1 e1 hs with h0 | ⟨e, i0, a1, a2, a3, a4, a5, a6, a7⟩
      · exact absurd h0.1 (by simp)
      · exact Or.inr ⟨e, i0, a1, a2, a3, a4, a5, a6, by omega⟩
    | next k1 fe1 =>
      simp only
      have hinv1 := hent.2 k1 fe1 hs
      have hu : u32 (j + 1) = j + 1 := by unfold u32; omega
      rw [hu]
      obtain ⟨res, s1, e, k2, k3⟩ := ih (j + 1) f (fat_read_sector sd D j).2 k1 fe1
        (io_step_volume_ok hfr.1 hv) (hfr.2.2 hco) (io_step_reads_ok hfr.1 hr)
        ((io_step_is_dir hfr.1 hfr.2.1 _ _).2 hd)
        (fun q => by rw [hF, hfr.2.1, io_step_dir_record hfr.1])
        (by rw [io_step_dir_sector_count hfr.1]; omega) (by omega)
        (by rw [show 16 * (j + 1) = 16 * j + 16 by omega]; exact hinv1)
      rw [io_step_dir_sector_count hfr.1] at k3
      exact ⟨res, s1, e, by rw [k2, hfr.2.1], k3⟩

/-! ## C31: the first run of free directory records -/

/-- Claim C31: on a well-formed directory `D :: cs` of a volume with a readable card,
with memory for the answer, `fat_find_free_entry` returns for every `N` from 1 to 255
(the parameter is a `uint8_t`; fuel above the number of directory sectors suffices).
If records `i .. i + N - 1` are all free or last (first byte `0x00` or `0xE5`) inside
the sectors of the directory and no smaller `i` has that property, the answer is the
location of record `i`: sector `i / 16`, entry `i mod 16`, cluster `D`.  If no such
run lies inside the directory the answer is `NULL`, and so it is for `N = 0`. -/
theorem fat_find_free_entry_first_run (fuel : Nat) (sd : sdcard_t) (D : Nat) (cs : List Nat)
    (N : Nat) (hv : volume_ok sd) (hco : coherent sd) (hr : reads_ok sd)
    (hd : is_dir sd D cs) (hm : sd.malloc_ok = true) (hN : N ≤ 255)
    (hfuel : dir_sector_count sd D cs < fuel) :
    (1 ≤ N → ∃ res s1, fat_find_free_entry fuel sd D N = some (res, s1) ∧
      s1.card = sd.card ∧
      (∀ i, i + N ≤ 16 * dir_sector_count sd D cs →
        free_run (fun q => slot_free (dir_record sd sd.card D cs q)) N i →
        (∀ i1, i1 < i → ¬ free_run (fun q => slot_free (dir_record sd sd.card D cs q)) N i1) →
        ∃ e, res = some e ∧ e.cluster = D ∧ e.sector = i / 16 ∧ e.entry = i % 16) ∧
      ((∀ i, i + N ≤ 16 * dir_sector_count sd D cs →
        ¬ free_run (fun q => slot_free (dir_record sd sd.card D cs q)) N i) → res = none)) ∧
    fat_find_free_entry fuel sd D 0 = some (none, sd) := by
  refine ⟨fun hN1 => ?_, ?_⟩
  · obtain ⟨res, s1, e, k2, k3⟩ := fat_find_free_entry_loop_scan D cs N hN
      (fun q => slot_free (dir_record sd sd.card D cs q))
      (dir_sector_count sd D cs) 0 fuel sd 0 { cluster := D, sector := 0, entry := 0 }
      hv hco hr hd (fun _ => rfl) (by omega) hfuel
      ⟨by omega, by omega, fun m hm => absurd hm (by omega), fun h0 => absurd h0 (by omega),
        rfl, fun i hi => absurd hi (by omega)⟩
    refine ⟨res, s1, ?_, k2, fun i hi hrun hmin => ?_, fun hno => ?_⟩
    · unfold fat_find_free_entry
      rw [if_neg (by omega), if_neg (by rw [hm]; decide)]
      exact e
    · rcases k3 with ⟨_, h0⟩ | ⟨e1, i0, a1, a2, a3, a4, a5, a6, a7⟩
      · exact absurd hrun (h0 i hi)
      · have hi0 : i0 = i := by
          by_contra hne
          rcases Nat.lt_or_gt_of_ne hne with hlt | hgt
          · exact hmin i0 hlt a5
          · exact a6 i hgt hrun
        subst hi0
        exact ⟨e1, a1, a2, a3, a4⟩
    · rcases k3 with ⟨h0, _⟩ | ⟨e1, i0, a1, a2, a3, a4, a5, a6, a7⟩
      · exact h0
      · exact absurd a5 (hno i0 a7)
  · unfold fat_find_free_entry
    rw [if_pos (by decide)]

set_option maxRecDepth 1000000 in
/-- Instance of C31: the root directory with the records long, long, `HELLO~1.TXT`,
deleted, end; the first run of two free records starts at record 3. -/
theorem fat_find_free_entry_first_run_witness :
    (fat_find_free_entry 9 (demo32_root [0x0FFFFFF8, 0x0FFFFFFF, 0x0FFFFFFF]
      demo_dir_deleted) 2 2).map (fun r => r.1.map (fun e => (e.cluster, e.sector, e.entry)))
      = some (some (2, 0, 3)) ∧
    ((1 ≤ 2 → ∃ res s1, fat_find_free_entry 9 (demo32_root [0x0FFFFFF8, 0x0FFFFFFF, 0x0FFFFFFF]
        demo_dir_deleted) 2 2 = some (res, s1) ∧
      s1.card = (demo32_root [0x0FFFFFF8, 0x0FFFFFFF, 0x0FFFFFFF] demo_dir_deleted).card ∧
      (∀ i, i + 2 ≤ 16 * dir_sector_count (demo32_root [0x0FFFFFF8, 0x0FFFFFFF, 0x0FFFFFFF]
          demo_dir_deleted) 2 [] →
        free_run (fun q => slot_free (dir_record (demo32_root
          [0x0FFFFFF8, 0x0FFFFFFF, 0x0FFFFFFF] demo_dir_deleted) (demo32_root
          [0x0FFFFFF8, 0x0FFFFFFF, 0x0FFFFFFF] demo_dir_deleted).card 2 [] q)) 2 i →
        (∀ i1, i1 < i → ¬ free_run (fun q => slot_free (dir_record (demo32_root
          [0x0FFFFFF8, 0x0FFFFFFF, 0x0FFFFFFF] demo_dir_deleted) (demo32_root
          [0x0FFFFFF8, 0x0FFFFFFF, 0x0FFFFFFF] demo_dir_deleted).card 2 [] q)) 2 i1) →
        ∃ e, res = some e ∧ e.cluster = 2 ∧ e.sector = i / 16 ∧ e.entry = i % 16) ∧
      ((∀ i, i + 2 ≤ 16 * dir_sector_count (demo32_root [0x0FFFFFF8, 0x0FFFFFFF, 0x0FFFFFFF]
          demo_dir_deleted) 2 [] →
        ¬ free_run (fun q => slot_free (dir_record (demo32_root
          [0x0FFFFFF8, 0x0FFFFFFF, 0x0FFFFFFF] demo_dir_deleted) (demo32_root
          [0x0FFFFFF8, 0x0FFFFFFF, 0x0FFFFFFF] demo_dir_deleted).card 2 [] q)) 2 i) →
        res = none)) ∧
    fat_find_free_entry 9 (demo32_root [0x0FFFFFF8, 0x0FFFFFFF, 0x0FFFFFFF]
      demo_dir_deleted) 2 0 = some (none, demo32_root [0x0FFFFFF8, 0x0FFFFFFF, 0x0FFFFFFF]
      demo_dir_deleted)) :=
  ⟨by decide,
    fat_find_free_entry_first_run 9 (demo32_root [0x0FFFFFF8, 0x0FFFFFFF, 0x0FFFFFFF]
      demo_dir_deleted) 2 [] 2 (demo32_root_volume_ok _ _) (demo32_root_coherent _ _)
      (demo32_root_reads_ok _ _) demo32_root_is_dir_deleted rfl (by decide) (by decide)⟩



end AvrSdlib
